import Mathlib

/-!
RENEWLab Sounder receiver: radio partitioning, slot reservation, timing and resync

A shallow embedding of the scheduling core of `CC/Sounder/receiver.cc`
(`Receiver::loopRecv`, `Receiver::clientTxRx`, `Receiver::clientSyncTxRx`).

Conventions of the embedding:
* `size_t` values are natural numbers reduced modulo `2 ^ 64` where a product or sum
  could wrap; `long long` values are integers, reduced into the signed 64-bit range by
  `wrapS64` where the source converts to `long long`;
* a counted `for` loop whose bounds are not changed by its body is a fold over the list
  of the values its index takes;
* a raw pointer to a word array (`std::atomic_int* pkg_buf_inuse`) is a function from
  the word offset to the bit pattern stored there;
* the answers of the radio driver, of the beacon correlator and of the notification queue
  are inputs of the step functions.
-/

namespace Sounder

/-! ## Machine integers -/

/-- Number of values of a `size_t` (LP64 target). -/
def SIZE_MOD : Nat := 2 ^ 64

/-- Conversion of an integer value to `size_t`: reduction modulo `2 ^ 64`. -/
def toSizeT (x : Int) : Nat := (x % (2 ^ 64 : Int)).toNat

/-- Conversion of a 64-bit pattern to `long long` (two's complement). -/
def toS64 (v : Nat) : Int :=
  if v % 2 ^ 64 < 2 ^ 63 then ((v % 2 ^ 64 : Nat) : Int) else ((v % 2 ^ 64 : Nat) : Int) - 2 ^ 64

/-- Reduction of an integer into the `long long` range, the result of computing in
`unsigned long` and storing into a `long long`. -/
def wrapS64 (x : Int) : Int := toS64 (toSizeT x)

/-! ## Radio partitioning (`Receiver::loopRecv`, lines 199-214) -/

/-- The configuration values read while `radio_ids_in_thread` is built, together with the
member `thread_num_` set by `startRecvThreads`. -/
structure PartitionConfig where
  internal_measurement : Bool
  ref_node_enable : Bool
  cal_ref_sdr_id : Nat
  num_bs_sdrs_all : Nat
  thread_num : Nat

/-- The value of `radio_start = (tid * num_radios) / thread_num_`, in `size_t` arithmetic. -/
def radio_start (cfg : PartitionConfig) (tid : Nat) : Nat :=
  ((tid * cfg.num_bs_sdrs_all) % SIZE_MOD) / cfg.thread_num

/-- The value of `radio_end = ((tid + 1) * num_radios) / thread_num_`, in `size_t`
arithmetic. -/
def radio_end (cfg : PartitionConfig) (tid : Nat) : Nat :=
  (((tid + 1) * cfg.num_bs_sdrs_all) % SIZE_MOD) / cfg.thread_num

/-- The vector `radio_ids_in_thread` of thread `tid` after lines 200-214: each loop
iteration appends (`push_back`) one id. -/
def radio_ids_in_thread (cfg : PartitionConfig) (tid : Nat) : List Nat :=
  if cfg.internal_measurement && cfg.ref_node_enable then
    if tid = 0 then
      [] ++ [cfg.cal_ref_sdr_id]
    else
      (List.range' 0 cfg.num_bs_sdrs_all).foldl
        (fun ids it => if it ≠ cfg.cal_ref_sdr_id then ids ++ [it] else ids) []
  else
    (List.range' (radio_start cfg tid) (radio_end cfg tid - radio_start cfg tid)).foldl
      (fun ids it => ids ++ [it]) []

/-! ## Hardware-framer timestamp decoding (`Receiver::loopRecv`, lines 370-380) -/

/-- Bitwise `&` of two `long long` values: the `and` of their two's-complement patterns. -/
def land64 (a b : Int) : Int := toS64 (toSizeT a &&& toSizeT b)

/-- The 64-bit hardware timestamp that carries frame `F` and slot `S`, as a bit pattern:
`(F << 32) | (S << 16)`. This is the value the framer delivers, the input of the decoding. -/
def hwTimestamp (F S : Nat) : Nat := ((F <<< 32) ||| (S <<< 16)) % 2 ^ 64

/-- `frame_id = (size_t)(frameTime >> 32)` (line 379); `frameTime` is a `long long`, so
`>>` is the arithmetic shift. -/
def decode_frame_id (frameTime : Int) : Nat := toSizeT (frameTime >>> (32 : Nat))

/-- `slot_id = (size_t)((frameTime >> 16) & 0xFFFF)` (line 380). -/
def decode_slot_id (frameTime : Int) : Nat :=
  toSizeT (land64 (frameTime >>> (16 : Nat)) 0xFFFF)

/-! ## Slot reservation (`loopRecv` lines 342-354, `clientSyncTxRx` lines 920-933) -/

/-- The value of `sizeof(std::atomic_int)`. -/
def SIZEOF_ATOMIC_INT : Nat := 4

/-- `int bit = 1 << (cursor + ch) % sizeof(std::atomic_int)`; `%` binds tighter than
`<<`. -/
def slot_bit (i : Nat) : Nat := 1 <<< (i % SIZEOF_ATOMIC_INT)

/-- `int offs = (cursor + ch) / sizeof(std::atomic_int)`. -/
def slot_offs (i : Nat) : Nat := i / SIZEOF_ATOMIC_INT

/-- `std::atomic_fetch_or(&mem[offs], bit)`: in one indivisible step the word becomes
`old | bit` and `old` is returned. -/
def atomic_fetch_or (mem : Nat → Nat) (offs bit : Nat) : (Nat → Nat) × Nat :=
  (fun k => if k = offs then mem k ||| bit else mem k, mem offs)

/-- The text of the `std::runtime_error` of an overrun. -/
def BUFFER_FULL : String := "Thread %d buffer full\n"

/-- Outcome of one claim: the occupancy words afterwards and the exception thrown, if
any. -/
structure ClaimResult where
  inuse : Nat → Nat
  thrown : Option String

/-- One claim of slot `i` (body of the loop at lines 343-354): fetch-or of the slot's bit,
then `throw` when `(old & bit) != 0`. -/
def claim (inuse : Nat → Nat) (i : Nat) : ClaimResult :=
  let bit := slot_bit i
  let offs := slot_offs i
  let res := atomic_fetch_or inuse offs bit
  let old := res.2
  if (old &&& bit) != 0 then
    { inuse := res.1, thrown := some BUFFER_FULL }
  else
    { inuse := res.1, thrown := none }

/-- The test `(word & bit) != 0` on the stored word of slot `i`: the slot is occupied. -/
def slot_in_use (inuse : Nat → Nat) (i : Nat) : Bool :=
  (inuse (slot_offs i) &&& slot_bit i) != 0

/-- Modelled from the spec: the consumer's `release(slot_index)`, which lives outside
`receiver.cc`; it "atomically clears the bit" of the slot, leaving every other bit of the
32-bit word as it is. -/
def release (inuse : Nat → Nat) (i : Nat) : Nat → Nat :=
  fun k => if k = slot_offs i then inuse k &&& (2 ^ 32 - 1 - slot_bit i) else inuse k

/-- Two or more producers each attempting one claim of slot `i`: `sched` lists the
producers in the order in which their atomic fetch-or steps take effect (the modification
order of the word); each producer then tests the `old` it was handed. The result pairs
every producer with the exception it throws, if any. -/
def concurrent_claims (i : Nat) :
    List Nat → (Nat → Nat) → (Nat → Nat) × List (Nat × Option String)
  | [], inuse => (inuse, [])
  | p :: rest, inuse =>
    let r := claim inuse i
    let tail := concurrent_claims i rest r.inuse
    (tail.1, (p, r.thrown) :: tail.2)

/-! ## Write cursor (`loopRecv` lines 305, 343-345, 490-507; `clientSyncTxRx` lines 921-924,
950-968) -/

/-- `cursor++; cursor %= buffer_chunk_size;` (lines 505-506, and 966-967 for
`buffer_offset`). -/
def advance_cursor (buffer_chunk_size cursor : Nat) : Nat :=
  (cursor + 1) % buffer_chunk_size

/-- The slot indices claimed by one capture: `cursor + ch` for `ch = 0 .. num_packets - 1`
(lines 343-345). -/
def capture_claims (cursor num_packets : Nat) : List Nat :=
  (List.range num_packets).map (fun ch => cursor + ch)

/-- The cursor after the stamping loop of one capture (lines 490-507): one advance per
packet. -/
def capture_advance (buffer_chunk_size num_packets cursor : Nat) : Nat :=
  (List.range num_packets).foldl (fun c _ => advance_cursor buffer_chunk_size c) cursor

/-- The cursor after `n` successive captures of `num_packets` packets each. -/
def cursor_after (buffer_chunk_size num_packets : Nat) : Nat → Nat → Nat
  | 0, cursor => cursor
  | n + 1, cursor =>
    cursor_after buffer_chunk_size num_packets n
      (capture_advance buffer_chunk_size num_packets cursor)

/-- The slot indices claimed, in order, by `n` successive captures of `num_packets` packets
each. -/
def claim_targets (buffer_chunk_size num_packets : Nat) : Nat → Nat → List Nat
  | 0, _ => []
  | n + 1, cursor =>
    capture_claims cursor num_packets
      ++ claim_targets buffer_chunk_size num_packets n
          (capture_advance buffer_chunk_size num_packets cursor)

/-! ## Configuration and transmit timestamps (`loopRecv` lines 278-282, 426-447;
`clientSyncTxRx` lines 642-646, 866-892) -/

/-- The getters of `Config` read by the transmit scheduling and by `clientSyncTxRx`,
together with the compile-time constants `kUseUHD`, `TIME_DELTA` and `BEACON_INTERVAL`,
whose header is not among the sources at hand. `cl_frames_0_size` is
`cl_frames().at(0).size()`; `frame_mode_continuous_resync` is
`frame_mode() == "continuous_resync"`; the slot lists are those of the thread's own
radio. -/
structure Config where
  kUseUHD : Bool
  TIME_DELTA : Nat
  BEACON_INTERVAL : Nat
  samps_per_slot : Nat
  slot_per_frame : Nat
  cl_frames_0_size : Nat
  rate : ℚ
  tx_advance : Nat
  max_frame : Nat
  cl_sdr_ch : Nat
  beacon_size : Nat
  prefix_len : Nat
  frame_mode_continuous_resync : Bool
  ul_data_slot_present : Bool
  cl_pilot_slots : List Nat
  cl_ul_slots : List Nat
  isDlData : Nat → Nat → Bool
  buffer_chunk_size : Nat

/-- `frameTimeLen = samps_per_slot * cl_frames().at(0).size()`. -/
def frameTimeLen (cfg : Config) : Nat := cfg.samps_per_slot * cfg.cl_frames_0_size

/-- `txFrameDelta = std::ceil(TIME_DELTA / (1e3 * frameTimeLen / rate))`, the `double`
arithmetic of the source taken over the exact rationals. -/
def txFrameDelta (cfg : Config) : Nat :=
  ⌈(cfg.TIME_DELTA : ℚ) / (1000 * (frameTimeLen cfg : ℚ) / cfg.rate)⌉₊

/-- `txTimeDelta = txFrameDelta * frameTimeLen`. -/
def txTimeDelta (cfg : Config) : Nat := txFrameDelta cfg * frameTimeLen cfg

/-- The minimum lead time `TIME_DELTA` milliseconds expressed in samples. -/
def min_lead (cfg : Config) : ℚ := (cfg.TIME_DELTA : ℚ) * cfg.rate / 1000

/-- Client pilot and uplink timestamp (lines 868-870, 878-880, 890-892):
`txTime = rxTime + txTimeDelta + slot * NUM_SAMPS - tx_advance`, computed in 64-bit
arithmetic and stored in a `long long`. -/
def client_txTime (cfg : Config) (rxTime : Int) (slot : Nat) : Int :=
  wrapS64 (rxTime + txTimeDelta cfg + slot * cfg.samps_per_slot - cfg.tx_advance)

/-- Base-station downlink timestamp (lines 444-447):
`txTimeBs = rxTimeBs + txTimeDelta + dl_slot * samps_per_slot - tx_advance`. -/
def bs_dl_txTime (cfg : Config) (rxTimeBs : Int) (dl_slot : Nat) : Int :=
  wrapS64 (rxTimeBs + txTimeDelta cfg + dl_slot * cfg.samps_per_slot - cfg.tx_advance)

/-- Beacon timestamp (lines 429-431):
`txTimeBs = rxTimeBs + samps_per_slot * slot_per_frame * BEACON_INTERVAL`. -/
def bs_beacon_txTime (cfg : Config) (rxTimeBs : Int) : Int :=
  wrapS64 (rxTimeBs + cfg.samps_per_slot * cfg.slot_per_frame * cfg.BEACON_INTERVAL)

/-- A configuration on which the transmit timestamps are evaluated: 1 MS/s, frames of
10 slots of 100 samples (1 ms), `TIME_DELTA = 4` ms, beacon every 2 frames, and a
transmit advance of 5000 samples. -/
def advancedConfig : Config :=
  { kUseUHD := false, TIME_DELTA := 4, BEACON_INTERVAL := 2, samps_per_slot := 100,
    slot_per_frame := 10, cl_frames_0_size := 10, rate := 1000000, tx_advance := 5000,
    max_frame := 0, cl_sdr_ch := 1, beacon_size := 60, prefix_len := 20,
    frame_mode_continuous_resync := true, ul_data_slot_present := false,
    cl_pilot_slots := [0], cl_ul_slots := [], isDlData := fun _ _ => false,
    buffer_chunk_size := 8 }

/-- The same configuration with no transmit advance. -/
def plainConfig : Config := { advancedConfig with tx_advance := 0 }

/-! ## Client loop (`Receiver::clientSyncTxRx`, lines 722-984)

The thread's local variables and the words of its occupancy bitmask form the state; the
calls it issues are appended to a trace in the order of the source. What the radio, the
correlator, the notification queue and the consumer answer during a frame is an input of
the step. File reads of uplink data (`fread`, `fseek`) leave no mark in the model, and the
scratch variables `r` and `txTime` live only in the events that carry their values. The
`int` arithmetic on sample counts is exact (no overflow). -/

/-- The transmit flags `kStreamContinuous` and `kStreamEndBurst`. -/
inductive StreamFlag where
  | kStreamContinuous
  | kStreamEndBurst
  deriving DecidableEq, Repr

/-- The three transmit buffers of the client: `pilotbuffA`, `pilotbuffB`, `txbuff`. -/
inductive TxBuffer where
  | pilotbuffA
  | pilotbuffB
  | txbuff
  deriving DecidableEq, Repr

/-- The calls and buffer effects of a thread: `radioRx` with its sample count, the beacon
correlation, `radioTx` with buffer, flags and timestamp, the fetch-or of a slot's bit, the
placement of a `Package` header (`frame_id, slot_id, cell, ant_id`) in a slot, and the
`enqueue` of a notification `(ant_id, data)`. -/
inductive Event where
  | rx (nsamps : Int)
  | find_beacon
  | tx (buff : TxBuffer) (flags : StreamFlag) (txTime : Int)
  | claim (slot : Nat)
  | stamp (slot frame_id slot_id cell ant_id : Nat)
  | enqueue (ant_id data : Nat)
  deriving DecidableEq, Repr

/-- The text of the `std::runtime_error` of a failed `enqueue`. -/
def ENQUEUE_FAILED : String := "socket message enqueue failed"

/-- The local `size_t resync_retry_max(100)` (line 793). -/
def resync_retry_max : Nat := 100

/-- The answers of the environment during one pass of the main loop: return value and
timestamp of the frame-start `radioRx`, the result of `find_beacon` (consulted only while
`resync` is set), return value and timestamp of the `radioRx` of each later slot, the
outcome of each `enqueue` (by slot and channel), and the slots the consumer has released
before the capture of each slot. -/
structure FrameInput where
  rx_ret : Int
  rx_time : Int
  beacon : Int
  slot_rx_ret : Nat → Int
  slot_rx_time : Nat → Int
  enqueue_ok : Nat → Nat → Bool
  released : Nat → List Nat

/-- The state of a client thread: the liveness flag as this thread sees and writes it,
whether the main loop has been left, the exception that ended the thread (if any), the
locals of lines 722-797 and the occupancy words `pkg_buf_inuse`. -/
structure ClientState where
  running : Bool
  exited : Bool
  thrown : Option String
  frame_id : Nat
  slot_id : Nat
  buffer_offset : Nat
  resync : Bool
  resync_retry_cnt : Nat
  resync_success : Nat
  sync_index : Int
  rx_offset : Int
  rxTime : Int
  inuse : Nat → Nat
  trace : List Event

/-- The state at line 797, before the first pass of the main loop. -/
def clientInit (rxTime sync_index : Int) (inuse : Nat → Nat) : ClientState :=
  { running := true, exited := false, thrown := none, frame_id := 0, slot_id := 0,
    buffer_offset := 0, resync := false, resync_retry_cnt := 0, resync_success := 0,
    sync_index := sync_index, rx_offset := 0, rxTime := rxTime, inuse := inuse, trace := [] }

/-- The value of `SYNC_NUM_SAMPS = samps_per_slot * slot_per_frame` (line 652). -/
def SYNC_NUM_SAMPS (cfg : Config) : Nat := cfg.samps_per_slot * cfg.slot_per_frame

/-- One pass of the initial search loop (lines 740-768): `BEACON_INTERVAL` reads of one
frame, the correlation, and on a non-negative index the offset
`rx_offset = sync_index - beacon_size - prefix`. -/
def beacon_search_iter (cfg : Config) (rx_time found : Int) (s : ClientState) : ClientState :=
  let s1 := { s with
    trace := s.trace ++ List.replicate cfg.BEACON_INTERVAL (Event.rx (SYNC_NUM_SAMPS cfg))
      ++ [Event.find_beacon]
    rxTime := rx_time
    sync_index := found }
  if s1.sync_index ≥ 0 then
    { s1 with rx_offset := s1.sync_index - cfg.beacon_size - cfg.prefix_len }
  else s1

/-- The correlation of the resync branch (lines 829-853), entered with `resync` set. -/
def resync_correlate (cfg : Config) (found : Int) (s : ClientState) : ClientState :=
  let s1 := { s with trace := s.trace ++ [Event.find_beacon], sync_index := found }
  if s1.sync_index ≥ 0 then
    let off : Int := s1.sync_index - cfg.beacon_size - cfg.prefix_len
    { s1 with
      rx_offset := off
      rxTime := s1.rxTime + off
      resync := false
      resync_retry_cnt := 0
      resync_success := s1.resync_success + 1 }
  else
    { s1 with resync_retry_cnt := s1.resync_retry_cnt + 1 }

/-- The pilot flags of line 800: continuous only for a two-channel UHD client. -/
def pilot_flags (cfg : Config) : StreamFlag :=
  if cfg.kUseUHD && cfg.cl_sdr_ch == 2 then StreamFlag.kStreamContinuous
  else StreamFlag.kStreamEndBurst

/-- The value of `flagsTxUlData` for uplink slot `s` of `tx_slots` (lines 901-905);
`tx_slots - 1` is a `size_t` difference. -/
def ul_flags (cfg : Config) (tx_slots s : Nat) : StreamFlag :=
  if cfg.kUseUHD && decide (s < (tx_slots + SIZE_MOD - 1) % SIZE_MOD) then
    StreamFlag.kStreamContinuous
  else StreamFlag.kStreamEndBurst

/-- The transmissions scheduled at the start of a frame (lines 866-914): pilot A, pilot B
for a two-channel client, and one transmission per uplink slot when uplink data is
present. An entry read with `.at(k)` is taken from the list (the lists are sized by the
configuration loader). -/
def client_tx_events (cfg : Config) (rxTime : Int) : List Event :=
  [Event.tx TxBuffer.pilotbuffA (pilot_flags cfg)
      (client_txTime cfg rxTime (cfg.cl_pilot_slots.getD 0 0))]
  ++ (if cfg.cl_sdr_ch = 2 then
        [Event.tx TxBuffer.pilotbuffB StreamFlag.kStreamEndBurst
          (client_txTime cfg rxTime (cfg.cl_pilot_slots.getD 1 0))]
      else [])
  ++ (if cfg.ul_data_slot_present then
        (List.range cfg.cl_ul_slots.length).map (fun s =>
          Event.tx TxBuffer.txbuff (ul_flags cfg cfg.cl_ul_slots.length s)
            (client_txTime cfg rxTime (cfg.cl_ul_slots.getD s 0)))
      else [])

/-- The claim loop of one downlink capture (lines 921-933): the slots `base + ch` in turn;
the first occupied one throws and ends the thread. -/
def client_claims (base : Nat) : List Nat → ClientState → ClientState
  | [], s => s
  | ch :: rest, s =>
    let r := claim s.inuse (base + ch)
    let s1 := { s with inuse := r.inuse, trace := s.trace ++ [Event.claim (base + ch)] }
    match r.thrown with
    | some e => { s1 with thrown := some e }
    | none => client_claims base rest s1

/-- The stamping loop of one downlink capture (lines 950-968): `pkg[ch]` is the slot
`base + ch` fixed before the loop, the notification carries
`buffer_offset + tid * buffer_chunk_size`, a failed `enqueue` throws, and `buffer_offset`
advances once per channel. -/
def client_stamps (cfg : Config) (tid : Nat) (inp : FrameInput) (base : Nat) :
    List Nat → ClientState → ClientState
  | [], s => s
  | ch :: rest, s =>
    let ant_id := tid * cfg.cl_sdr_ch
    let s1 := { s with trace := s.trace ++
      [Event.stamp (base + ch) s.frame_id s.slot_id 0 (ant_id + ch),
       Event.enqueue (ant_id + ch) (s.buffer_offset + tid * cfg.buffer_chunk_size)] }
    if inp.enqueue_ok s.slot_id ch then
      client_stamps cfg tid inp base rest
        { s1 with buffer_offset := advance_cursor cfg.buffer_chunk_size s1.buffer_offset }
    else
      { s1 with thrown := some ENQUEUE_FAILED }

/-- The body of the slot loop for the current `slot_id` (lines 919-980); the second
component tells whether the `for` loop is left (`break`, or an exception). -/
def client_slot (cfg : Config) (tid : Nat) (inp : FrameInput) (s : ClientState) :
    ClientState × Bool :=
  if cfg.isDlData s.frame_id s.slot_id then
    let s0 := { s with inuse := (inp.released s.slot_id).foldl release s.inuse }
    let s1 := client_claims s0.buffer_offset (List.range cfg.cl_sdr_ch) s0
    if s1.thrown.isSome then (s1, true)
    else
      let s2 := { s1 with
        trace := s1.trace ++ [Event.rx cfg.samps_per_slot]
        rxTime := inp.slot_rx_time s.slot_id }
      if inp.slot_rx_ret s.slot_id < 0 then ({ s2 with running := false }, true)
      else
        let s3 := client_stamps cfg tid inp s.buffer_offset (List.range cfg.cl_sdr_ch) s2
        (s3, s3.thrown.isSome)
  else
    let s2 := { s with
      trace := s.trace ++ [Event.rx cfg.samps_per_slot]
      rxTime := inp.slot_rx_time s.slot_id }
    if inp.slot_rx_ret s.slot_id < 0 then ({ s2 with running := false }, true)
    else (s2, false)

/-- The loop `for (; slot_id < slot_per_frame; slot_id++)` of line 918, run for the `n`
slots that remain. -/
def client_slots (cfg : Config) (tid : Nat) (inp : FrameInput) :
    Nat → ClientState → ClientState
  | 0, s => s
  | n + 1, s =>
    let res := client_slot cfg tid inp s
    if res.2 then res.1
    else client_slots cfg tid inp n { res.1 with slot_id := res.1.slot_id + 1 }

/-- The resync section of a pass (lines 818-854): every 1000 frames `resync` takes the
value of `resync_enable`, `rx_offset` is reset, and while `resync` is set the correlation
is run on the input `found`. -/
def resync_block (cfg : Config) (found : Int) (s : ClientState) : ClientState :=
  let s2 := if decide (s.frame_id / 1000 > 0) && decide (s.frame_id % 1000 = 0) then
    { s with resync := cfg.frame_mode_continuous_resync } else s
  let s3 := { s2 with rx_offset := 0 }
  if s3.resync then resync_correlate cfg found s3 else s3

/-- The rest of a pass (lines 866-983): the transmissions are scheduled, `slot_id` is
incremented, the slot loop runs, and `frame_id++; slot_id = 0` follows unless an
exception has ended the thread. -/
def client_frame_tail (cfg : Config) (tid : Nat) (inp : FrameInput) (s : ClientState) :
    ClientState :=
  let s5 := { s with
    trace := s.trace ++ client_tx_events cfg s.rxTime
    slot_id := s.slot_id + 1 }
  let s6 := client_slots cfg tid inp (cfg.slot_per_frame - s5.slot_id) s5
  if s6.thrown.isSome then s6
  else { s6 with frame_id := s6.frame_id + 1, slot_id := 0 }

/-- One pass of the body of the main loop (lines 806-983), entered with `running` set. -/
def client_iter (cfg : Config) (tid : Nat) (inp : FrameInput) (s : ClientState) :
    ClientState :=
  if decide (cfg.max_frame > 0) && decide (s.frame_id ≥ cfg.max_frame) then
    { s with running := false, exited := true }
  else
    let s1 := { s with
      trace := s.trace ++ [Event.rx (cfg.samps_per_slot + s.rx_offset)]
      rxTime := inp.rx_time }
    if inp.rx_ret < 0 then { s1 with running := false, exited := true }
    else
      let s4 := resync_block cfg inp.beacon s1
      if s4.resync && decide (s4.resync_retry_cnt > resync_retry_max) then
        { s4 with resync := false, resync_retry_cnt := 0, running := false, exited := true }
      else client_frame_tail cfg tid inp s4

/-- One test of the condition of the main loop `while (config_->running() == true)` of
line 805 followed, when it holds, by one pass of the body; the input of a pass is the one
of its frame. A thread that has thrown or has left the loop stays as it is. -/
def client_step (cfg : Config) (tid : Nat) (inp : Nat → FrameInput) (s : ClientState) :
    ClientState :=
  if s.thrown.isSome || s.exited then s
  else if s.running then client_iter cfg tid (inp s.frame_id) s
  else { s with exited := true }

/-- The main loop after `n` tests of its condition. -/
def client_loop (cfg : Config) (tid : Nat) (inp : Nat → FrameInput) :
    Nat → ClientState → ClientState
  | 0, s => s
  | n + 1, s => client_step cfg tid inp (client_loop cfg tid inp n s)

/-- An environment in which every receive returns a full slot, the correlation never finds
the beacon, every `enqueue` succeeds and the consumer releases nothing. -/
def noBeaconInput : FrameInput :=
  { rx_ret := 100, rx_time := 0, beacon := -1, slot_rx_ret := fun _ => 100,
    slot_rx_time := fun _ => 0, enqueue_ok := fun _ _ => true, released := fun _ => [] }

/-- A client state in the steady-state loop with resync just armed. -/
def resyncArmed : ClientState :=
  { clientInit 0 200 (fun _ => 0) with frame_id := 1000, resync := true }

/-- The variables that steer the main loop and its resynchronisation: `running`, whether
the loop has been left, `resync`, `resync_retry_cnt`, `rx_offset` and `frame_id`. -/
def ClientState.control (s : ClientState) : Bool × Bool × Bool × Nat × Int × Nat :=
  (s.running, s.exited, s.resync, s.resync_retry_cnt, s.rx_offset, s.frame_id)

/-! ## Base-station loop (`Receiver::loopRecv`, lines 275-514)

The thread's local variables and the words of its occupancy bitmask form the state; the
calls it issues are appended to a trace in the order of the source. What the radio, the
notification queue and the consumer answer during one pass of the main loop is an input of
the step. File reads of downlink data (`fread`, `fseek`) leave no mark in the model. An
entry read with `.at(k)` is taken from the list (the tables are sized by the configuration
loader). -/

/-- The getters of `Config` read by the main loop of `loopRecv`, on top of those of
`Config`: `num_channels` is `bs_channel().length()`, `dl_slots r` is
`dl_slots().at(r)`. -/
structure BsConfig extends Config where
  bs_hw_framer : Bool
  internal_measurement : Bool
  ref_node_enable : Bool
  cal_ref_sdr_id : Nat
  num_channels : Nat
  bs_sdr_ch : Nat
  num_cells : Nat
  n_bs_sdrs_agg : List Nat
  guard_mult : Nat
  isPilot : Nat → Nat → Bool
  isUlData : Nat → Nat → Bool
  dl_data_slot_present : Bool
  dl_slot_per_frame : Nat
  dl_slots : Nat → List Nat

/-- The cell lookup of lines 326-332 (and 289-295), for the indices `i` still to visit:
`if (it < n_bs_sdrs_agg().at(i)) { cell = i - 1; break; }`; `cell` is an `int` and keeps
its value when no index matches. -/
def find_cell (agg : List Nat) (it : Nat) : List Nat → Int → Int
  | [], cell => cell
  | i :: rest, cell =>
    if it < agg.getD i 0 then (i : Int) - 1 else find_cell agg it rest cell

/-- The value of `cell` after the loop `for (size_t i = 0; i <= num_cells; i++)`. -/
def lookup_cell (agg : List Nat) (num_cells it : Nat) (cell : Int) : Int :=
  find_cell agg it (List.range (num_cells + 1)) cell

/-- `radio_id = it - n_bs_sdrs_agg().at(cell)` (lines 296, 334), a `size_t` difference. -/
def local_radio_id (agg : List Nat) (it : Nat) (cell : Int) : Nat :=
  toSizeT ((it : Int) - ((agg.getD (toSizeT cell) 0 : Nat) : Int))

/-- The remapping of the decoded slot and of the antenna id in hardware-framer mode (lines
382-400), from the decoded `slot_id` and `ant_id = radio_id * num_channels`; the result is
the pair `(slot_id, ant_id)`. The differences are `size_t` differences, and `adv` is
`int(slot_id / (guard_mult * num_channels))`. -/
def bs_remap (cfg : BsConfig) (radio_id slot_id ant_id : Nat) : Nat × Nat :=
  if cfg.internal_measurement && cfg.ref_node_enable then
    if radio_id = cfg.cal_ref_sdr_id then
      (0, if slot_id < (radio_id * cfg.num_channels) % SIZE_MOD then slot_id
          else toSizeT ((slot_id : Int) - (cfg.num_channels : Int)))
    else
      (1, if radio_id ≥ cfg.cal_ref_sdr_id then
            toSizeT ((ant_id : Int) - (cfg.num_channels : Int))
          else ant_id)
  else if cfg.internal_measurement && !cfg.ref_node_enable then
    let adv : Nat := slot_id / ((cfg.guard_mult * cfg.num_channels) % SIZE_MOD)
    (toSizeT ((slot_id : Int) - ((cfg.guard_mult : Int) - 1) * 2 * (adv : Int)), ant_id)
  else (slot_id, ant_id)

/-- The number of packets of one capture (lines 336-340): one for the reference radio of
an internal measurement, `num_channels` otherwise. -/
def capture_num_packets (cfg : BsConfig) (radio_id : Nat) : Nat :=
  if cfg.internal_measurement && decide (radio_id = cfg.cal_ref_sdr_id)
      && cfg.ref_node_enable then 1
  else cfg.num_channels

/-- The antenna id `ant_id + ch` stamped in hardware-framer mode (lines 368, 382-400,
492) by radio `radio_id` for channel `ch`, when the decoded slot is `slot_id`. -/
def hw_stamp_ant (cfg : BsConfig) (radio_id slot_id ch : Nat) : Nat :=
  (bs_remap cfg radio_id slot_id ((radio_id * cfg.num_channels) % SIZE_MOD)).2 + ch

/-- The slot id stamped in hardware-framer mode by radio `radio_id` when the decoded slot
is `slot_id`. -/
def hw_stamp_slot (cfg : BsConfig) (radio_id slot_id : Nat) : Nat :=
  (bs_remap cfg radio_id slot_id ((radio_id * cfg.num_channels) % SIZE_MOD)).1

/-- A base station of one cell with 3 two-channel radios in hardware-framer mode, running
an internal measurement with radio 1 as reference node. -/
def refNodeConfig : BsConfig :=
  { toConfig := advancedConfig, bs_hw_framer := true, internal_measurement := true,
    ref_node_enable := true, cal_ref_sdr_id := 1, num_channels := 2, bs_sdr_ch := 2,
    num_cells := 1, n_bs_sdrs_agg := [0, 3], guard_mult := 1,
    isPilot := fun _ _ => true, isUlData := fun _ _ => false,
    dl_data_slot_present := false, dl_slot_per_frame := 0, dl_slots := fun _ => [] }

/-- The same base station without reference node, with one channel per radio and guard
multiple 2. -/
def guardConfig : BsConfig :=
  { refNodeConfig with ref_node_enable := false, num_channels := 1, bs_sdr_ch := 1,
                       guard_mult := 2 }

/-- The two entries of `beaconbuff` (lines 223-235): the beacon waveform
`beacon_ci16().data()` and the block `zeroes_memory` obtained from `calloc`. -/
inductive BeaconBuf where
  | beacon_ci16
  | zeroes_memory
  deriving DecidableEq, Repr

/-- The vector `beaconbuff`: the beacon waveform in channel buffer 0, the all-zero block
in channel buffer 1. -/
def beaconbuff : List BeaconBuf := [BeaconBuf.beacon_ci16, BeaconBuf.zeroes_memory]

/-- The calls and buffer effects of a base-station thread: `radioRx` on a radio of a cell,
the beacon `radioTx` with its buffers, flags and timestamp, the downlink `radioTx` (issued
with the thread id) with flags and timestamp, the fetch-or of a slot's bit, the placement
of a `Package` header in a slot, and the `enqueue` of a notification `(ant_id, data)`. -/
inductive BsEvent where
  | rx (radio_id : Nat) (cell : Int)
  | tx_beacon (radio_id : Nat) (cell : Int) (buffs : List BeaconBuf) (flags : StreamFlag)
      (txTime : Int)
  | tx_dl (tid : Nat) (flags : StreamFlag) (txTime : Int)
  | claim (slot : Nat)
  | stamp (slot frame_id slot_id : Nat) (cell : Int) (ant_id : Nat)
  | enqueue (ant_id data : Nat)
  deriving DecidableEq, Repr

/-- The answers of the environment during one pass of the main loop of `loopRecv`, by
global radio id: return value and timestamp of `radioRx`, the outcome of each `enqueue`
(by radio and channel), and the slots the consumer has released before the capture. -/
structure BsInput where
  rx_ret : Nat → Int
  rx_time : Nat → Int
  enqueue_ok : Nat → Nat → Bool
  released : Nat → List Nat

/-- The state of a base-station thread: the liveness flag as this thread sees and writes
it, whether the main loop has been left, the exception that ended the thread (if any), the
locals of lines 237 and 275-309 and the occupancy words `pkg_buf_inuse`. -/
structure BsState where
  running : Bool
  exited : Bool
  thrown : Option String
  frame_id : Nat
  slot_id : Nat
  ant_id : Nat
  cell : Int
  cursor : Nat
  rxTimeBs : Int
  inuse : Nat → Nat
  trace : List BsEvent

/-- The state at line 310, before the first pass of the main loop. -/
def bsInit (rxTimeBs : Int) (inuse : Nat → Nat) : BsState :=
  { running := true, exited := false, thrown := none, frame_id := 0, slot_id := 0,
    ant_id := 0, cell := 0, cursor := 0, rxTimeBs := rxTimeBs, inuse := inuse, trace := [] }

/-- The transmissions scheduled by a host-timed capture in slot 0 (lines 426-475): the
beacon, and one downlink transmission per downlink slot when downlink data is present. -/
def bs_tx_events (cfg : BsConfig) (tid radio_id : Nat) (cell : Int) (rxTimeBs : Int) :
    List BsEvent :=
  [BsEvent.tx_beacon radio_id cell beaconbuff StreamFlag.kStreamEndBurst
      (bs_beacon_txTime cfg.toConfig rxTimeBs)]
  ++ (if cfg.dl_data_slot_present then
        (List.range cfg.dl_slot_per_frame).map (fun s =>
          BsEvent.tx_dl tid (ul_flags cfg.toConfig cfg.dl_slot_per_frame s)
            (bs_dl_txTime cfg.toConfig rxTimeBs ((cfg.dl_slots radio_id).getD s 0)))
      else [])

/-- The claim loop of one capture (lines 343-354): the slots `base + ch` in turn; the
first occupied one throws and ends the thread. -/
def bs_claims (base : Nat) : List Nat → BsState → BsState
  | [], s => s
  | ch :: rest, s =>
    let r := claim s.inuse (base + ch)
    let s1 := { s with inuse := r.inuse, trace := s.trace ++ [BsEvent.claim (base + ch)] }
    match r.thrown with
    | some e => { s1 with thrown := some e }
    | none => bs_claims base rest s1

/-- The stamping loop of one capture (lines 490-507): `pkg[ch]` is the slot `base + ch`
fixed before the loop, the header is `(frame_id, slot_id, cell, ant_id + ch)`, the
notification carries `cursor + tid * buffer_chunk_size`, a failed `enqueue` throws, and
`cursor` advances once per packet. -/
def bs_stamps (cfg : BsConfig) (tid : Nat) (inp : BsInput) (it base : Nat) :
    List Nat → BsState → BsState
  | [], s => s
  | ch :: rest, s =>
    let s1 := { s with trace := s.trace ++
      [BsEvent.stamp (base + ch) s.frame_id s.slot_id s.cell (s.ant_id + ch),
       BsEvent.enqueue (s.ant_id + ch) (s.cursor + tid * cfg.buffer_chunk_size)] }
    if inp.enqueue_ok it ch then
      bs_stamps cfg tid inp it base rest
        { s1 with cursor := advance_cursor cfg.buffer_chunk_size s1.cursor }
    else
      { s1 with thrown := some ENQUEUE_FAILED }

/-- The capture of one radio `it` (body of the loop of line 322, lines 323-507): cell
lookup, claims, `ant_id = radio_id * num_channels`, the receive with its timing branch
(hardware framer: decode and remap; otherwise the transmissions of slot 0), and the
stamping loop. The second component tells whether the loop over the radios is left
(`break`, or an exception). -/
def bs_capture (cfg : BsConfig) (tid : Nat) (inp : BsInput) (it : Nat) (s : BsState) :
    BsState × Bool :=
  let cell := lookup_cell cfg.n_bs_sdrs_agg cfg.num_cells it s.cell
  let radio_id := local_radio_id cfg.n_bs_sdrs_agg it cell
  let num_packets := capture_num_packets cfg radio_id
  let s0 := { s with cell := cell, inuse := (inp.released it).foldl release s.inuse }
  let s1 := bs_claims s.cursor (List.range num_packets) s0
  if s1.thrown.isSome then (s1, true)
  else
    let s2 := { s1 with
      ant_id := (radio_id * cfg.num_channels) % SIZE_MOD
      trace := s1.trace ++ [BsEvent.rx radio_id cell] }
    if !cfg.kUseUHD && cfg.bs_hw_framer then
      if inp.rx_ret it < 0 then ({ s2 with running := false }, true)
      else
        let co := bs_remap cfg radio_id (decode_slot_id (inp.rx_time it)) s2.ant_id
        let s4 := { s2 with
          frame_id := decode_frame_id (inp.rx_time it)
          slot_id := co.1
          ant_id := co.2 }
        let s5 := bs_stamps cfg tid inp it s.cursor (List.range num_packets) s4
        (s5, s5.thrown.isSome)
    else
      let s3 := { s2 with rxTimeBs := inp.rx_time it }
      if inp.rx_ret it < 0 then ({ s3 with running := false }, true)
      else
        let s4 := if s3.slot_id = 0 then
          { s3 with trace := s3.trace ++ bs_tx_events cfg tid radio_id cell s3.rxTimeBs }
          else s3
        let s5 := bs_stamps cfg tid inp it s.cursor (List.range num_packets) s4
        (s5, s5.thrown.isSome)

/-- The loop `for (auto& it : radio_ids_in_thread)` of line 322 over the radios still to
visit. -/
def bs_radios (cfg : BsConfig) (tid : Nat) (inp : BsInput) : List Nat → BsState → BsState
  | [], s => s
  | it :: rest, s =>
    let res := bs_capture cfg tid inp it s
    if res.2 then res.1 else bs_radios cfg tid inp rest res.1

/-- One pass of the body of the main loop (lines 313-513), entered with `running` set:
the roll of the host counters, the captures of the thread's radios, and the increment of
`slot_id` under `kUseUHD`. -/
def bs_iter (cfg : BsConfig) (tid : Nat) (radios : List Nat) (inp : BsInput) (s : BsState) :
    BsState :=
  let s1 := if (cfg.kUseUHD || !cfg.bs_hw_framer) && decide (s.slot_id = cfg.slot_per_frame)
    then { s with slot_id := 0, frame_id := s.frame_id + 1 } else s
  let s2 := bs_radios cfg tid inp radios s1
  if s2.thrown.isSome then s2
  else if cfg.kUseUHD then { s2 with slot_id := s2.slot_id + 1 }
  else s2

/-- One test of the condition of the main loop `while (config_->running() == true)` of
line 311 followed, when it holds, by one pass of the body. A thread that has thrown or has
left the loop stays as it is. -/
def bs_step (cfg : BsConfig) (tid : Nat) (radios : List Nat) (inp : BsInput) (s : BsState) :
    BsState :=
  if s.thrown.isSome || s.exited then s
  else if s.running then bs_iter cfg tid radios inp s
  else { s with exited := true }

/-- The main loop after `n` tests of its condition; `inp k` is the input of the pass that
follows test `k`. -/
def bs_loop (cfg : BsConfig) (tid : Nat) (radios : List Nat) (inp : Nat → BsInput) :
    Nat → BsState → BsState
  | 0, s => s
  | n + 1, s => bs_step cfg tid radios (inp n) (bs_loop cfg tid radios inp n s)

/-- An environment in which every receive returns a full slot, every `enqueue` succeeds
and the consumer has released every slot claimed before (the pool is empty at each
capture). -/
def fullSlotInput : BsInput :=
  { rx_ret := fun _ => 100, rx_time := fun _ => 0, enqueue_ok := fun _ _ => true,
    released := fun _ => [0, 1, 2, 3, 4, 5, 6, 7] }

/-- A host-timed base station (`kUseUHD`) of one cell with 2 two-channel radios, frames of
2 slots, a beacon interval of 2 frames and a pool of 8 packets per thread. -/
def uhdConfig : BsConfig :=
  { toConfig := { advancedConfig with kUseUHD := true, slot_per_frame := 2 },
    bs_hw_framer := false, internal_measurement := false, ref_node_enable := false,
    cal_ref_sdr_id := 0, num_channels := 2, bs_sdr_ch := 2, num_cells := 1,
    n_bs_sdrs_agg := [0, 2], guard_mult := 1,
    isPilot := fun _ _ => true, isUlData := fun _ _ => false,
    dl_data_slot_present := false, dl_slot_per_frame := 0, dl_slots := fun _ => [] }

/-- The same base station built without `kUseUHD` and configured without hardware
framer. -/
def hostConfig : BsConfig :=
  { uhdConfig with toConfig := { advancedConfig with kUseUHD := false, slot_per_frame := 2 } }

/-- The flags of the uplink data transmissions (buffer `txbuff`) among the events of a
client, in the order issued. -/
def ul_tx_flags (evs : List Event) : List StreamFlag :=
  evs.filterMap (fun e =>
    match e with
    | Event.tx TxBuffer.txbuff flags _ => some flags
    | _ => none)

/-- The flags of the downlink data transmissions among the events of a base-station
thread, in the order issued. -/
def dl_tx_flags (evs : List BsEvent) : List StreamFlag :=
  evs.filterMap (fun e =>
    match e with
    | BsEvent.tx_dl _ flags _ => some flags
    | _ => none)

/-- The host-timed base station with three downlink data slots per frame, and its clients
with three uplink data slots per frame. -/
def dataConfig : BsConfig :=
  { uhdConfig with
    toConfig := { advancedConfig with kUseUHD := true, slot_per_frame := 8,
                                      ul_data_slot_present := true, cl_ul_slots := [2, 3, 4] }
    dl_data_slot_present := true, dl_slot_per_frame := 3, dl_slots := fun _ => [5, 6, 7] }

/-- The locals of a base-station thread that neither the claim loop nor the stamping loop
writes: `running`, whether the loop has been left, `frame_id`, `slot_id`, `ant_id`, `cell`
and `rxTimeBs`. -/
def BsState.locals (s : BsState) : Bool × Bool × Nat × Nat × Nat × Int × Int :=
  (s.running, s.exited, s.frame_id, s.slot_id, s.ant_id, s.cell, s.rxTimeBs)

/-- The events of the claim loop of a capture for the channels `chs`. -/
def bs_claim_events (base : Nat) (chs : List Nat) : List BsEvent :=
  chs.map (fun ch => BsEvent.claim (base + ch))

/-- The events of the stamping loop of a capture for the channels `chs`, the cursor being
`cursor` at its start: header and notification of each channel in turn. -/
def bs_stamp_events (cfg : BsConfig) (tid base frame_id slot_id : Nat) (cell : Int)
    (ant_id : Nat) : List Nat → Nat → List BsEvent
  | [], _ => []
  | ch :: rest, cursor =>
    BsEvent.stamp (base + ch) frame_id slot_id cell (ant_id + ch)
      :: BsEvent.enqueue (ant_id + ch) (cursor + tid * cfg.buffer_chunk_size)
      :: bs_stamp_events cfg tid base frame_id slot_id cell ant_id rest
          (advance_cursor cfg.buffer_chunk_size cursor)

/-- The transmissions a capture schedules between its receive and its stamping loop: those
of `bs_tx_events` in host-timed mode when the slot counter is 0, none otherwise. -/
def bs_capture_tx (cfg : BsConfig) (tid radio_id : Nat) (cell : Int) (slot_id : Nat)
    (rxTimeBs : Int) : List BsEvent :=
  if !cfg.kUseUHD && cfg.bs_hw_framer then []
  else if slot_id = 0 then bs_tx_events cfg tid radio_id cell rxTimeBs
  else []

/-- The coordinates `(frame_id, slot_id, ant_id)` a capture stamps with: decoded and
remapped in hardware-framer mode, the host counters and `radio_id * num_channels`
otherwise. -/
def bs_capture_coords (cfg : BsConfig) (inp : BsInput) (it : Nat) (s : BsState)
    (radio_id : Nat) : Nat × Nat × Nat :=
  if !cfg.kUseUHD && cfg.bs_hw_framer then
    (decode_frame_id (inp.rx_time it),
     (bs_remap cfg radio_id (decode_slot_id (inp.rx_time it))
        ((radio_id * cfg.num_channels) % SIZE_MOD)).1,
     (bs_remap cfg radio_id (decode_slot_id (inp.rx_time it))
        ((radio_id * cfg.num_channels) % SIZE_MOD)).2)
  else (s.frame_id, s.slot_id, (radio_id * cfg.num_channels) % SIZE_MOD)

/-- The cell of the capture of radio `it` entered in state `s`. -/
def bs_capture_cell (cfg : BsConfig) (it : Nat) (s : BsState) : Int :=
  lookup_cell cfg.n_bs_sdrs_agg cfg.num_cells it s.cell

/-- The local radio id of the capture of radio `it` entered in state `s`. -/
def bs_capture_radio (cfg : BsConfig) (it : Nat) (s : BsState) : Nat :=
  local_radio_id cfg.n_bs_sdrs_agg it (bs_capture_cell cfg it s)

/-- The channels of the capture of radio `it` entered in state `s`:
`0 .. num_packets - 1`. -/
def bs_capture_chs (cfg : BsConfig) (it : Nat) (s : BsState) : List Nat :=
  List.range (capture_num_packets cfg (bs_capture_radio cfg it s))

/-- The kinds of effect of a thread that the ordering of a capture is about: the claim of
a slot, a hardware receive, a hardware transmit, a beacon correlation, the stamp of a
slot's header, and the enqueue of a notification. -/
inductive Effect where
  | claim (slot : Nat)
  | receive
  | transmit
  | correlate
  | stamp (slot : Nat)
  | enqueue
  deriving DecidableEq, Repr

/-- The kind of effect of an event of a client thread. -/
def Event.effect : Event → Effect
  | Event.rx _ => Effect.receive
  | Event.find_beacon => Effect.correlate
  | Event.tx _ _ _ => Effect.transmit
  | Event.claim slot => Effect.claim slot
  | Event.stamp slot _ _ _ _ => Effect.stamp slot
  | Event.enqueue _ _ => Effect.enqueue

/-- The kind of effect of an event of a base-station thread. -/
def BsEvent.effect : BsEvent → Effect
  | BsEvent.rx _ _ => Effect.receive
  | BsEvent.tx_beacon _ _ _ _ _ => Effect.transmit
  | BsEvent.tx_dl _ _ _ => Effect.transmit
  | BsEvent.claim slot => Effect.claim slot
  | BsEvent.stamp slot _ _ _ _ => Effect.stamp slot
  | BsEvent.enqueue _ _ => Effect.enqueue

/-- The effects of the claims of the first `k` channels of a capture whose first slot is
`base`. -/
def claim_effects (base k : Nat) : List Effect :=
  (List.range k).map (fun ch => Effect.claim (base + ch))

/-- The effects of the stamping of the first `m` channels of a capture whose first slot is
`base`: for each channel the header stamp followed by the notification enqueue. -/
def stamp_effects (base m : Nat) : List Effect :=
  (List.range m).flatMap (fun ch => [Effect.stamp (base + ch), Effect.enqueue])

/-- The events of the claim loop of a client capture for the channels `chs`. -/
def client_claim_events (base : Nat) (chs : List Nat) : List Event :=
  chs.map (fun ch => Event.claim (base + ch))

/-- The events of the stamping loop of a client capture for the channels `chs`, the
buffer offset being `cursor` at its start. -/
def client_stamp_events (cfg : Config) (tid base frame_id slot_id : Nat) :
    List Nat → Nat → List Event
  | [], _ => []
  | ch :: rest, cursor =>
    Event.stamp (base + ch) frame_id slot_id 0 (tid * cfg.cl_sdr_ch + ch)
      :: Event.enqueue (tid * cfg.cl_sdr_ch + ch) (cursor + tid * cfg.buffer_chunk_size)
      :: client_stamp_events cfg tid base frame_id slot_id rest
          (advance_cursor cfg.buffer_chunk_size cursor)

/-- The locals of a client thread that neither the claim loop nor the stamping loop
writes. -/
def ClientState.locals (s : ClientState) :
    Bool × Bool × Nat × Nat × Bool × Nat × Nat × Int × Int × Int :=
  (s.running, s.exited, s.frame_id, s.slot_id, s.resync, s.resync_retry_cnt,
   s.resync_success, s.sync_index, s.rx_offset, s.rxTime)

/-- A two-channel client for which every slot after the first is a downlink data slot. -/
def downlinkConfig : Config :=
  { advancedConfig with cl_sdr_ch := 2, slot_per_frame := 3, isDlData := fun _ _ => true }

/-- A base-station thread that has not thrown and whose last effect is a `radioRx`:
nothing was stamped, announced, received or transmitted after that receive. -/
def BsState.receive_last (s : BsState) : Prop :=
  s.thrown = none ∧ ∃ pre radio_id cell, s.trace = pre ++ [BsEvent.rx radio_id cell]

/-- A client thread that has not thrown and whose last effect is a `radioRx`. -/
def ClientState.receive_last (s : ClientState) : Prop :=
  s.thrown = none ∧ ∃ pre nsamps, s.trace = pre ++ [Event.rx nsamps]

/-- The roll of the host counters at the head of a pass of `loopRecv` (lines 313-319). -/
def bs_roll (cfg : BsConfig) (s : BsState) : BsState :=
  if (cfg.kUseUHD || !cfg.bs_hw_framer) && decide (s.slot_id = cfg.slot_per_frame)
    then { s with slot_id := 0, frame_id := s.frame_id + 1 } else s

/-- The state in which the slot loop of a pass of `clientSyncTxRx` is entered when the
frame-start receive has succeeded and the pass is not stopped before (lines 811-917): the
frame-start `radioRx`, the resync section, the transmissions of the frame and
`slot_id++`. -/
def client_frame_head (cfg : Config) (inp : FrameInput) (s : ClientState) : ClientState :=
  let s4 := resync_block cfg inp.beacon
    { s with
      trace := s.trace ++ [Event.rx (cfg.samps_per_slot + s.rx_offset)]
      rxTime := inp.rx_time }
  { s4 with
    trace := s4.trace ++ client_tx_events cfg s4.rxTime
    slot_id := s4.slot_id + 1 }

/-- The events of a client capture up to and including its receive: the claims of a
downlink-data slot, none for a dummy read, then the `radioRx` of one slot. -/
def client_capture_head (cfg : Config) (s : ClientState) : List Event :=
  (if cfg.isDlData s.frame_id s.slot_id then
      client_claim_events s.buffer_offset (List.range cfg.cl_sdr_ch)
    else [])
  ++ [Event.rx cfg.samps_per_slot]

/-- The environment of `fullSlotInput` in which the receive on radio 1 fails. -/
def rxFailInput : BsInput :=
  { fullSlotInput with rx_ret := fun it => if it = 1 then -1 else 100 }

/-- A hardware-framer base station of one cell with 2 two-channel radios. -/
def framerConfig : BsConfig :=
  { uhdConfig with
    toConfig := { advancedConfig with kUseUHD := false, slot_per_frame := 2 }
    bs_hw_framer := true }

/-- The environment of `noBeaconInput` in which the frame-start receive fails. -/
def frameRxFailInput : FrameInput := { noBeaconInput with rx_ret := -1 }

/-- The environment of `noBeaconInput` in which the receive of slot 2 fails. -/
def slotRxFailInput : FrameInput :=
  { noBeaconInput with slot_rx_ret := fun k => if k = 2 then -1 else 100 }

/-- The arming test of the resync section (lines 820-823): when
`(frame_id / 1000) > 0 && (frame_id % 1000) == 0` the flag `resync` takes the value of
`resync_enable`. -/
def resync_arm (cfg : Config) (s : ClientState) : ClientState :=
  if decide (s.frame_id / 1000 > 0) && decide (s.frame_id % 1000 = 0) then
    { s with resync := cfg.frame_mode_continuous_resync } else s

/-- Whether an event of a client thread is a beacon correlation. -/
def Event.is_correlation : Event → Bool
  | Event.find_beacon => true
  | _ => false

/-- The number of beacon correlations among the events of a client thread. -/
def beacon_calls (evs : List Event) : Nat := evs.countP Event.is_correlation

/-- The resync flag of a client thread together with the number of beacon correlations it
has run. -/
def ClientState.resync_view (s : ClientState) : Bool × Nat :=
  (s.resync, beacon_calls s.trace)

/-- A client for which continuous resynchronisation is not enabled, with frames of 3
slots. -/
def noResyncConfig : Config :=
  { advancedConfig with slot_per_frame := 3, frame_mode_continuous_resync := false }

/-- A client state at the head of the pass of frame 1000, with `resync` not set. -/
def atFrame1000 : ClientState :=
  { clientInit 0 200 (fun _ => 0) with frame_id := 1000 }

/-- The coordinates `(frame_id, slot_id)` of the packet headers stamped among the events of
a base-station thread, in the order stamped. -/
def stamp_coords (evs : List BsEvent) : List (Nat × Nat) :=
  evs.filterMap (fun e =>
    match e with
    | BsEvent.stamp _ frame_id slot_id _ _ => some (frame_id, slot_id)
    | _ => none)

/-- The beacon transmissions among the events of a base-station thread, in the order
issued: the buffers, the flags and the timestamp of each. -/
def beacon_txs (evs : List BsEvent) : List (List BeaconBuf × StreamFlag × Int) :=
  evs.filterMap (fun e =>
    match e with
    | BsEvent.tx_beacon _ _ buffs flags txTime => some (buffs, flags, txTime)
    | _ => none)

/-- The beacon transmissions of a capture of radio `it` entered with slot counter
`slot_id`, when its claims succeed and its receive returns a non-negative value: one in
host-timed mode when the slot counter is 0, none otherwise. -/
def capture_beacons (cfg : BsConfig) (inp : BsInput) (it slot_id : Nat) :
    List (List BeaconBuf × StreamFlag × Int) :=
  if (!cfg.kUseUHD && cfg.bs_hw_framer) = false ∧ slot_id = 0 then
    [(beaconbuff, StreamFlag.kStreamEndBurst, bs_beacon_txTime cfg.toConfig (inp.rx_time it))]
  else []

/-! ## Pools and notifications (`loopRecv` lines 190-197, 490-507; `clientSyncTxRx` lines
712-720, 950-968) -/

/-- The index in `rx_buffer` of the pool a base-station thread claims and stamps in:
`rx_buffer[tid]` (lines 195-196). -/
def bs_pool_index (tid : Nat) : Nat := tid

/-- The index in `rx_buffer` of the pool a client thread claims and stamps in:
`rx_buffer[tid + config_->bs_rx_thread_num()]` (lines 716-720). -/
def client_pool_index (bs_rx_thread_num tid : Nat) : Nat := tid + bs_rx_thread_num

/-- The slot indices claimed among the events of a base-station thread, in order. -/
def bs_claimed_slots (evs : List BsEvent) : List Nat :=
  evs.filterMap (fun e =>
    match e with
    | BsEvent.claim slot => some slot
    | _ => none)

/-- The slot indices stamped among the events of a base-station thread, in order. -/
def bs_stamped_slots (evs : List BsEvent) : List Nat :=
  evs.filterMap (fun e =>
    match e with
    | BsEvent.stamp slot _ _ _ _ => some slot
    | _ => none)

/-- The `data` fields of the notifications among the events of a base-station thread, in
order; the notification of a packet is the one enqueued right after its stamp. -/
def bs_enqueue_data (evs : List BsEvent) : List Nat :=
  evs.filterMap (fun e =>
    match e with
    | BsEvent.enqueue _ data => some data
    | _ => none)

/-- The slot indices claimed among the events of a client thread, in order. -/
def client_claimed_slots (evs : List Event) : List Nat :=
  evs.filterMap (fun e =>
    match e with
    | Event.claim slot => some slot
    | _ => none)

/-- The slot indices stamped among the events of a client thread, in order. -/
def client_stamped_slots (evs : List Event) : List Nat :=
  evs.filterMap (fun e =>
    match e with
    | Event.stamp slot _ _ _ _ => some slot
    | _ => none)

/-- The `data` fields of the notifications among the events of a client thread, in
order. -/
def client_enqueue_data (evs : List Event) : List Nat :=
  evs.filterMap (fun e =>
    match e with
    | Event.enqueue _ data => some data
    | _ => none)

/-- The pool bounds of a base-station thread whose captures take `num_channels` packets:
the cursor is below the pool capacity and, as long as nothing is thrown, a multiple of the
channel count, and every slot index claimed or stamped so far is below the capacity. -/
def BsState.in_pool (cfg : BsConfig) (s : BsState) : Prop :=
  s.cursor < cfg.buffer_chunk_size
  ∧ (s.thrown = none → cfg.num_channels ∣ s.cursor)
  ∧ (∀ i ∈ bs_claimed_slots s.trace, i < cfg.buffer_chunk_size)
  ∧ (∀ i ∈ bs_stamped_slots s.trace, i < cfg.buffer_chunk_size)

/-- The pool bounds of a client thread with `cl_sdr_ch` channels, on `buffer_offset`. -/
def ClientState.in_pool (cfg : Config) (s : ClientState) : Prop :=
  s.buffer_offset < cfg.buffer_chunk_size
  ∧ (s.thrown = none → cfg.cl_sdr_ch ∣ s.buffer_offset)
  ∧ (∀ i ∈ client_claimed_slots s.trace, i < cfg.buffer_chunk_size)
  ∧ (∀ i ∈ client_stamped_slots s.trace, i < cfg.buffer_chunk_size)

/-- The host-timed base station `uhdConfig` with a pool of 3 packets per thread, which is
not a multiple of its 2 channels. -/
def oddPoolConfig : BsConfig :=
  { uhdConfig with toConfig := { uhdConfig.toConfig with buffer_chunk_size := 3 } }

/-! ## Initial beacon search (`clientSyncTxRx`, lines 722-784) -/

/-- The answers of the environment at one test of the condition of the search loop and
during the pass that follows it: the value of `config_->running()` at the test (the flag
is shared, other threads clear it), the timestamp of the last `radioRx` and the result of
the correlation. -/
structure SearchInput where
  running : Bool
  rx_time : Int
  found : Int

/-- One test of `(config_->running() == true) && (sync_index < 0)` (line 739) followed,
when it holds, by one pass of the search loop (lines 740-768). The second component tells
whether the loop has been left. -/
def beacon_search_step (cfg : Config) (inp : SearchInput) (s : ClientState) :
    ClientState × Bool :=
  if inp.running && decide (s.sync_index < 0) then
    (beacon_search_iter cfg inp.rx_time inp.found { s with running := inp.running }, false)
  else ({ s with running := inp.running }, true)

/-- The search loop run for at most `fuel` tests of its condition, `k` tests having been
made before: the state in which the loop is left, or `none` when it has not been left
within `fuel` tests. -/
def beacon_search (cfg : Config) (inp : Nat → SearchInput) :
    Nat → Nat → ClientState → Option ClientState
  | 0, _, _ => none
  | fuel + 1, k, s =>
    if (beacon_search_step cfg (inp k) s).2 then some (beacon_search_step cfg (inp k) s).1
    else beacon_search cfg inp fuel (k + 1) (beacon_search_step cfg (inp k) s).1

/-- The condition of the assertion of line 771:
`(rx_offset >= 0) && (rx_offset <= SYNC_NUM_SAMPS)`. -/
def align_assert (cfg : Config) (s : ClientState) : Bool :=
  decide (s.rx_offset ≥ 0) && decide (s.rx_offset ≤ (SYNC_NUM_SAMPS cfg : Int))

/-- The alignment read of lines 772-784; `running` is the value of `config_->running()`
read at line 772 and `rx_time` the timestamp the receive returns. -/
def align_read (running : Bool) (rx_time : Int) (s : ClientState) : ClientState :=
  if running then
    if s.rx_offset > 0 then
      { s with trace := s.trace ++ [Event.rx s.rx_offset], rxTime := rx_time }
    else s
  else s

/-- An environment of the search in which the flag stays set and the second correlation
returns the index `found`. -/
def searchFound (found : Int) : Nat → SearchInput :=
  fun k => { running := true, rx_time := 0, found := if k = 1 then found else -1 }

/-- An environment of the search in which the flag is found cleared at the second test and
no correlation detects the beacon. -/
def searchStopped : Nat → SearchInput :=
  fun k => { running := decide (k = 0), rx_time := 0, found := -1 }

/-- The state in which the search loop is left within `fuel` tests of its condition (the
entry state when it is not left within them). -/
def beacon_search_end (cfg : Config) (inp : Nat → SearchInput) (fuel : Nat)
    (s : ClientState) : ClientState :=
  (beacon_search cfg inp fuel 0 s).getD s

/-! ## Hardware-framer client loop (`Receiver::clientTxRx`, lines 537-547, 594-625) -/

/-- The answers of the radio during one pass of the main loop of `clientTxRx`: return value
and timestamp of the `i`-th `radioRx`, return value of the `i`-th `radioTx`. -/
structure TxRxInput where
  rx_ret : Nat → Int
  rx_time : Nat → Int
  tx_ret : Nat → Int

/-- `txStartSym` (lines 539-541): the first uplink slot of the thread's radio, 0 when it
has none. -/
def txStartSym (cfg : Config) : Nat := cfg.cl_ul_slots.headD 0

/-- The `unsigned txFrameDelta` of line 546: the ceiling of `TIME_DELTA / frameTime`
converted to a 32-bit unsigned value. -/
def txFrameDelta32 (cfg : Config) : Nat := txFrameDelta cfg % 2 ^ 32

/-- The receive loop of lines 596-606 over the indices `i` still to visit: `firstRxTime`
takes the timestamp of receive 0 when it returns `NUM_SAMPS`; a receive that returns
anything else sets `receiveErrors` and leaves the loop. The result is
`(firstRxTime, receiveErrors)`. -/
def txrx_receive (cfg : Config) (inp : TxRxInput) : List Nat → Int → Int × Bool
  | [], firstRxTime => (firstRxTime, false)
  | i :: rest, firstRxTime =>
    if inp.rx_ret i = cfg.samps_per_slot then
      txrx_receive cfg inp rest (if i = 0 then inp.rx_time i else firstRxTime)
    else (firstRxTime, true)

/-- The value of `txTime` before the transmit loop (lines 609-611):
`firstRxTime & 0xFFFFFFFF00000000`, computed on the unsigned pattern and stored in a
`long long`, plus `(long long)txFrameDelta << 32`, plus `(long long)txStartSym << 16`. -/
def txrx_start_time (cfg : Config) (firstRxTime : Int) : Int :=
  wrapS64 (wrapS64 (toS64 (toSizeT firstRxTime &&& 0xFFFFFFFF00000000)
      + wrapS64 ((txFrameDelta32 cfg : Int) * 2 ^ 32))
    + wrapS64 ((txStartSym cfg : Int) * 2 ^ 16))

/-- The transmit loop of lines 613-619 over the indices `i` still to visit: the timestamps
passed to the `radioTx` calls, in order; `txTime += 0x10000` after a transmit that returns
`NUM_SAMPS`. -/
def txrx_transmit (cfg : Config) (inp : TxRxInput) : List Nat → Int → List Int
  | [], _ => []
  | i :: rest, txTime =>
    txTime :: txrx_transmit cfg inp rest
      (if inp.tx_ret i = cfg.samps_per_slot then wrapS64 (txTime + 0x10000) else txTime)

/-- The timestamps of the `radioTx` calls of one pass of the main loop of `clientTxRx`
(lines 590-621) with `rxSyms` downlink slots: none after a receive error. -/
def clientTxRx_iter (cfg : Config) (rxSyms : Nat) (inp : TxRxInput) : List Int :=
  if (txrx_receive cfg inp (List.range rxSyms) 0).2 then []
  else txrx_transmit cfg inp (List.range cfg.cl_ul_slots.length)
    (txrx_start_time cfg (txrx_receive cfg inp (List.range rxSyms) 0).1)

/-- The first receive timestamp of a pass whose receives all succeed: that of receive 0,
or the initial 0 when there is no downlink slot. -/
def first_rx_time (rxSyms : Nat) (inp : TxRxInput) : Int :=
  if rxSyms = 0 then 0 else inp.rx_time 0

/-- A hardware-framer client with uplink slots 2, 3, 4 and 100 samples per slot. -/
def framerClientConfig : Config :=
  { advancedConfig with ul_data_slot_present := true, cl_ul_slots := [2, 3, 4] }

/-- A pass of `clientTxRx` in which both receives return a full slot, the first at the
timestamp of frame 7, slot 1, and every transmit returns a full slot. -/
def txrxInput : TxRxInput :=
  { rx_ret := fun _ => 100, rx_time := fun i => 0x0000000700010000 + i * 0x10000,
    tx_ret := fun _ => 100 }

/-- The same pass with the second transmit returning fewer samples. -/
def txrxShortInput : TxRxInput :=
  { txrxInput with tx_ret := fun i => if i = 1 then 50 else 100 }

/-! ## Theorems -/

/-! ### Radio partitioning -/

theorem foldl_push_eq (l : List Nat) (acc : List Nat) :
    l.foldl (fun ids it => ids ++ [it]) acc = acc ++ l := by
  induction l generalizing acc with
  | nil => simp
  | cons a l ih => simp [ih]

theorem foldl_push_filter_eq (p : Nat → Prop) [DecidablePred p] (l : List Nat) (acc : List Nat) :
    l.foldl (fun ids it => if p it then ids ++ [it] else ids) acc
      = acc ++ l.filter (fun it => decide (p it)) := by
  induction l generalizing acc with
  | nil => simp
  | cons a l ih =>
    by_cases h : p a
    · simp [ih, h]
    · simp [ih, h]


theorem part_lt {R T : Nat} (hT : 0 < T) {t r : Nat} :
    r < (t * R) / T ↔ (r + 1) * T ≤ t * R := by
  rw [Nat.lt_iff_add_one_le, Nat.le_div_iff_mul_le hT]

theorem part_le {R T : Nat} (hT : 0 < T) {t r : Nat} :
    (t * R) / T ≤ r ↔ t * R < (r + 1) * T := by
  rw [← not_iff_not, not_le, not_lt]; exact part_lt hT

theorem mem_ids_iff (cfg : PartitionConfig)
    (hmode : (cfg.internal_measurement && cfg.ref_node_enable) = false)
    (hov : cfg.thread_num * cfg.num_bs_sdrs_all < 2 ^ 64)
    (t : Nat) (ht : t < cfg.thread_num) (r : Nat) :
    r ∈ radio_ids_in_thread cfg t ↔
      (t * cfg.num_bs_sdrs_all) / cfg.thread_num ≤ r
        ∧ r < ((t + 1) * cfg.num_bs_sdrs_all) / cfg.thread_num := by
  have h1 : t * cfg.num_bs_sdrs_all < 2 ^ 64 :=
    lt_of_le_of_lt (Nat.mul_le_mul_right _ (le_of_lt ht)) hov
  have h2 : (t + 1) * cfg.num_bs_sdrs_all < 2 ^ 64 :=
    lt_of_le_of_lt (Nat.mul_le_mul_right _ ht) hov
  simp only [radio_ids_in_thread, hmode, foldl_push_eq, radio_start, radio_end, SIZE_MOD,
    Nat.mod_eq_of_lt h1, Nat.mod_eq_of_lt h2, List.nil_append, List.mem_range'_1]
  simp
  omega

theorem part_mono {R T : Nat} {a b : Nat} (hab : a ≤ b) : (a * R) / T ≤ (b * R) / T :=
  Nat.div_le_div_right (Nat.mul_le_mul_right R hab)

theorem part_owner {R T : Nat} (hT : 0 < T) {r : Nat} (hr : r < R) :
    ∃ t, t < T ∧ (t * R) / T ≤ r ∧ r < ((t + 1) * R) / T := by
  have hR : 0 < R := by omega
  refine ⟨((r + 1) * T - 1) / R, ?_, ?_, ?_⟩
  · rw [Nat.div_lt_iff_lt_mul hR]
    have : (r + 1) * T ≤ R * T := Nat.mul_le_mul_right T hr
    have : 0 < (r + 1) * T := Nat.mul_pos (by omega) hT
    rw [Nat.mul_comm T R]
    omega
  · rw [part_le hT]
    have : ((r + 1) * T - 1) / R * R ≤ (r + 1) * T - 1 := Nat.div_mul_le_self _ _
    have : 0 < (r + 1) * T := Nat.mul_pos (by omega) hT
    omega
  · rw [part_lt hT]
    have h : ((r + 1) * T - 1) / R < ((r + 1) * T - 1) / R + 1 := Nat.lt_succ_self _
    rw [Nat.div_lt_iff_lt_mul hR] at h
    omega

/-- C1. Without the reference-node mode, for `R` radios and `T ≥ 1` threads whose products
`t * R` do not overflow, thread `t < T` gets exactly the ids from `(t*R)/T` up to but
excluding `((t+1)*R)/T`, in increasing order; every listed id is a radio id, the lists of
two different threads are disjoint, and every radio id `r < R` is in the list of exactly
one thread. -/
theorem radio_partition (cfg : PartitionConfig)
    (hmode : (cfg.internal_measurement && cfg.ref_node_enable) = false)
    (hT : 1 ≤ cfg.thread_num)
    (hov : cfg.thread_num * cfg.num_bs_sdrs_all < 2 ^ 64) :
    (∀ t, t < cfg.thread_num →
        radio_ids_in_thread cfg t
          = List.range' ((t * cfg.num_bs_sdrs_all) / cfg.thread_num)
              (((t + 1) * cfg.num_bs_sdrs_all) / cfg.thread_num
                - (t * cfg.num_bs_sdrs_all) / cfg.thread_num))
    ∧ (∀ t, t < cfg.thread_num → ∀ r ∈ radio_ids_in_thread cfg t, r < cfg.num_bs_sdrs_all)
    ∧ (∀ t₁ t₂, t₁ < cfg.thread_num → t₂ < cfg.thread_num → t₁ ≠ t₂ →
        ∀ r, r ∈ radio_ids_in_thread cfg t₁ → r ∉ radio_ids_in_thread cfg t₂)
    ∧ (∀ r, r < cfg.num_bs_sdrs_all →
        ∃! t, t < cfg.thread_num ∧ r ∈ radio_ids_in_thread cfg t) := by
  have hT0 : 0 < cfg.thread_num := hT
  have hsep : ∀ t₁ t₂, t₁ < cfg.thread_num → t₂ < cfg.thread_num → t₁ < t₂ →
      ∀ r, r ∈ radio_ids_in_thread cfg t₁ → r ∉ radio_ids_in_thread cfg t₂ := by
    intro t₁ t₂ h₁ h₂ hlt r hr₁ hr₂
    rw [mem_ids_iff cfg hmode hov t₁ h₁] at hr₁
    rw [mem_ids_iff cfg hmode hov t₂ h₂] at hr₂
    have hle : t₁ + 1 ≤ t₂ := hlt
    have := part_mono (R := cfg.num_bs_sdrs_all) (T := cfg.thread_num) hle
    omega
  have hdisj : ∀ t₁ t₂, t₁ < cfg.thread_num → t₂ < cfg.thread_num → t₁ ≠ t₂ →
      ∀ r, r ∈ radio_ids_in_thread cfg t₁ → r ∉ radio_ids_in_thread cfg t₂ := by
    intro t₁ t₂ h₁ h₂ hne r hr₁ hr₂
    rcases Nat.lt_or_gt_of_ne hne with h | h
    · exact hsep t₁ t₂ h₁ h₂ h r hr₁ hr₂
    · exact hsep t₂ t₁ h₂ h₁ h r hr₂ hr₁
  refine ⟨?_, ?_, hdisj, ?_⟩
  · intro t ht
    have h1 : t * cfg.num_bs_sdrs_all < 2 ^ 64 :=
      lt_of_le_of_lt (Nat.mul_le_mul_right _ (le_of_lt ht)) hov
    have h2 : (t + 1) * cfg.num_bs_sdrs_all < 2 ^ 64 :=
      lt_of_le_of_lt (Nat.mul_le_mul_right _ ht) hov
    simp only [radio_ids_in_thread, hmode, foldl_push_eq, radio_start, radio_end, SIZE_MOD,
      Nat.mod_eq_of_lt h1, Nat.mod_eq_of_lt h2, List.nil_append]
    simp
  · intro t ht r hr
    rw [mem_ids_iff cfg hmode hov t ht] at hr
    have hle : t + 1 ≤ cfg.thread_num := ht
    have h := part_mono (R := cfg.num_bs_sdrs_all) (T := cfg.thread_num) hle
    rw [Nat.mul_div_cancel_left _ hT0] at h
    omega
  · intro r hr
    obtain ⟨t, ht, hlo, hhi⟩ := part_owner hT0 hr
    refine ⟨t, ⟨ht, (mem_ids_iff cfg hmode hov t ht r).mpr ⟨hlo, hhi⟩⟩, ?_⟩
    rintro t' ⟨ht', hmem⟩
    by_contra hne
    exact hdisj t' t ht' ht hne r hmem ((mem_ids_iff cfg hmode hov t ht r).mpr ⟨hlo, hhi⟩)

/-- C1 at `R = 4`, `T = 2`: the two threads get `[0, 1]` and `[2, 3]`. -/
theorem radio_partition_witness :
    radio_ids_in_thread ⟨false, false, 0, 4, 2⟩ 0 = [0, 1]
    ∧ radio_ids_in_thread ⟨false, false, 0, 4, 2⟩ 1 = [2, 3]
    ∧ (∀ r, r < 4 → ∃! t, t < 2 ∧ r ∈ radio_ids_in_thread ⟨false, false, 0, 4, 2⟩ t) :=
  ⟨by decide, by decide,
    (radio_partition ⟨false, false, 0, 4, 2⟩ (by decide) (by decide) (by decide)).2.2.2⟩


theorem ref_ids_rest (cfg : PartitionConfig)
    (hmode : (cfg.internal_measurement && cfg.ref_node_enable) = true) (t : Nat) (ht : 1 ≤ t) :
    radio_ids_in_thread cfg t
      = (List.range cfg.num_bs_sdrs_all).filter (fun it => decide (it ≠ cfg.cal_ref_sdr_id)) := by
  have h0 : t ≠ 0 := by omega
  simp only [radio_ids_in_thread, hmode, if_true, if_neg h0, foldl_push_filter_eq,
    List.nil_append, List.range_eq_range']

theorem length_filter_ne_range (R ref : Nat) (href : ref < R) :
    ((List.range R).filter (fun it => decide (it ≠ ref))).length = R - 1 := by
  have h := List.Nodup.erase_eq_filter (List.nodup_range R) ref
  have h2 : (List.filter (fun it => decide (it ≠ ref)) (List.range R))
      = List.filter (fun x => x != ref) (List.range R) := by
    congr 1; funext x; by_cases hx : x = ref <;> simp [hx]
  rw [h2, ← h, List.length_erase_of_mem (List.mem_range.mpr href), List.length_range]

/-- C2. In the reference-node mode (`internal_measurement` and `ref_node_enable` both true),
for every radio count `R`, thread count `T ≥ 1` and reference id `ref < R`: thread 0 holds
exactly `[ref]`; every thread `t ≥ 1` holds all ids `0..R-1` except `ref` (`R - 1` ids) in
increasing order; so the reference radio is listed by thread 0 and by no other thread. -/
theorem ref_node_partition (cfg : PartitionConfig)
    (him : cfg.internal_measurement = true) (hre : cfg.ref_node_enable = true)
    (hT : 1 ≤ cfg.thread_num) (href : cfg.cal_ref_sdr_id < cfg.num_bs_sdrs_all) :
    radio_ids_in_thread cfg 0 = [cfg.cal_ref_sdr_id]
    ∧ (∀ t, 1 ≤ t →
        radio_ids_in_thread cfg t
            = (List.range cfg.num_bs_sdrs_all).filter
                (fun it => decide (it ≠ cfg.cal_ref_sdr_id))
          ∧ (radio_ids_in_thread cfg t).length = cfg.num_bs_sdrs_all - 1
          ∧ List.Pairwise (fun a b => a < b) (radio_ids_in_thread cfg t)
          ∧ ∀ r, r ∈ radio_ids_in_thread cfg t ↔
              r < cfg.num_bs_sdrs_all ∧ r ≠ cfg.cal_ref_sdr_id)
    ∧ (∀ t, cfg.cal_ref_sdr_id ∈ radio_ids_in_thread cfg t ↔ t = 0)
    ∧ (∃! t, t < cfg.thread_num ∧ cfg.cal_ref_sdr_id ∈ radio_ids_in_thread cfg t) := by
  have hmode : (cfg.internal_measurement && cfg.ref_node_enable) = true := by
    rw [him, hre]; rfl
  have h0 : radio_ids_in_thread cfg 0 = [cfg.cal_ref_sdr_id] := by
    simp [radio_ids_in_thread, hmode]
  have hmem : ∀ t, cfg.cal_ref_sdr_id ∈ radio_ids_in_thread cfg t ↔ t = 0 := by
    intro t
    constructor
    · intro h
      by_contra hne
      rw [ref_ids_rest cfg hmode t (by omega)] at h
      simp at h
    · rintro rfl
      rw [h0]; exact List.mem_singleton_self _
  refine ⟨h0, ?_, hmem, ?_⟩
  · intro t ht
    rw [ref_ids_rest cfg hmode t ht]
    refine ⟨rfl, length_filter_ne_range _ _ href, ?_, ?_⟩
    · exact List.Pairwise.filter _ (List.pairwise_lt_range _)
    · intro r
      simp [List.mem_filter, List.mem_range]
  · exact ⟨0, ⟨hT, (hmem 0).mpr rfl⟩, fun t ht => (hmem t).mp ht.2⟩

/-- C2 at `R = 4`, `T = 3`, `ref = 2`: thread 0 gets `[2]`, threads 1 and 2 get
`[0, 1, 3]`. -/
theorem ref_node_partition_witness :
    radio_ids_in_thread ⟨true, true, 2, 4, 3⟩ 0 = [2]
    ∧ radio_ids_in_thread ⟨true, true, 2, 4, 3⟩ 1 = [0, 1, 3]
    ∧ radio_ids_in_thread ⟨true, true, 2, 4, 3⟩ 2 = [0, 1, 3]
    ∧ (∃! t, t < 3 ∧ 2 ∈ radio_ids_in_thread ⟨true, true, 2, 4, 3⟩ t) :=
  ⟨by decide, by decide, by decide,
    (ref_node_partition ⟨true, true, 2, 4, 3⟩ rfl rfl (by decide) (by decide)).2.2.2⟩


/-! ### Timestamp decoding -/

theorem hwTimestamp_eq (F S : Nat) (hF : F < 2 ^ 32) (hS : S < 2 ^ 16) :
    hwTimestamp F S = F * 2 ^ 32 + S * 2 ^ 16 := by
  have hb : S <<< 16 < 2 ^ 32 := by
    rw [Nat.shiftLeft_eq]; omega
  rw [hwTimestamp, Nat.shiftLeft_eq F, Nat.mul_comm F, ← Nat.mul_add_lt_is_or hb,
    Nat.shiftLeft_eq]
  omega

theorem toS64_of_lt {v : Nat} (h : v < 2 ^ 63) : toS64 v = v := by
  have h1 : v % 2 ^ 64 = v := Nat.mod_eq_of_lt (by omega)
  rw [toS64, h1, if_pos h]

theorem toS64_of_ge {v : Nat} (h : 2 ^ 63 ≤ v) (h2 : v < 2 ^ 64) :
    toS64 v = (v : Int) - 2 ^ 64 := by
  have h1 : v % 2 ^ 64 = v := Nat.mod_eq_of_lt h2
  have h3 : ¬ v < 2 ^ 63 := by omega
  rw [toS64, h1, if_neg h3]

theorem toSizeT_and_mask (x : Int) : toSizeT (land64 x 0xFFFF) = (toSizeT x) % 2 ^ 16 := by
  have hm : toSizeT 0xFFFF = 2 ^ 16 - 1 := by decide
  have hlt : toSizeT x % 2 ^ 16 < 2 ^ 63 :=
    lt_of_lt_of_le (Nat.mod_lt _ (by norm_num)) (by norm_num)
  rw [land64, hm, Nat.and_pow_two_sub_one_eq_mod, toS64_of_lt hlt]
  simp only [toSizeT]
  omega

/-- C3 (as stated it fails): the frame counter `F = 2^31 < 2^32` with slot `0` is packed
into a pattern whose sign bit is set; the signed shift sign-extends and the decoded
`frame_id` is `0xFFFFFFFF80000000`, not `2^31`. -/
theorem timestamp_decode_counterexample :
    (2 : Nat) ^ 31 < 2 ^ 32 ∧ (0 : Nat) < 2 ^ 16
    ∧ decode_frame_id (toS64 (hwTimestamp (2 ^ 31) 0)) = 0xFFFFFFFF80000000
    ∧ decode_frame_id (toS64 (hwTimestamp (2 ^ 31) 0)) ≠ 2 ^ 31 := by
  decide

/-- C3 (amended). For every `F < 2^32` and `S < 2^16`, decoding the packed timestamp
`(F << 32) | (S << 16)` held in a `long long` yields `slot_id = S` and a `frame_id` whose
low 32 bits are `F`; `frame_id = F` exactly when `F < 2^31`, and for `2^31 ≤ F` the
sign extension gives `frame_id = F + 2^64 - 2^32`. -/
theorem timestamp_decode (F S : Nat) (hF : F < 2 ^ 32) (hS : S < 2 ^ 16) :
    decode_slot_id (toS64 (hwTimestamp F S)) = S
    ∧ decode_frame_id (toS64 (hwTimestamp F S)) % 2 ^ 32 = F
    ∧ (F < 2 ^ 31 → decode_frame_id (toS64 (hwTimestamp F S)) = F)
    ∧ (2 ^ 31 ≤ F → decode_frame_id (toS64 (hwTimestamp F S)) = F + (2 ^ 64 - 2 ^ 32)) := by
  rw [hwTimestamp_eq F S hF hS]
  by_cases h : F < 2 ^ 31
  · have hv : F * 2 ^ 32 + S * 2 ^ 16 < 2 ^ 63 := by omega
    rw [toS64_of_lt hv]
    simp only [decode_slot_id, decode_frame_id, toSizeT_and_mask]
    simp only [toSizeT, Int.shiftRight_eq_div_pow]
    push_cast
    omega
  · have hv : 2 ^ 63 ≤ F * 2 ^ 32 + S * 2 ^ 16 := by omega
    have hv2 : F * 2 ^ 32 + S * 2 ^ 16 < 2 ^ 64 := by omega
    rw [toS64_of_ge hv hv2]
    simp only [decode_slot_id, decode_frame_id, toSizeT_and_mask]
    simp only [toSizeT, Int.shiftRight_eq_div_pow]
    push_cast
    omega

/-- C3 at the timestamp `0x0000000300020000 = (3 << 32) | (2 << 16)`: frame 3, slot 2. -/
theorem timestamp_decode_witness :
    hwTimestamp 3 2 = 0x0000000300020000
    ∧ decode_slot_id (toS64 (hwTimestamp 3 2)) = 2
    ∧ decode_frame_id (toS64 (hwTimestamp 3 2)) = 3 :=
  ⟨by decide, (timestamp_decode 3 2 (by decide) (by decide)).1,
    (timestamp_decode 3 2 (by decide) (by decide)).2.2.1 (by decide)⟩

/-! ### Slot reservation -/

theorem and_two_pow_ne_zero_iff (w j : Nat) : (w &&& 2 ^ j ≠ 0) ↔ w.testBit j = true := by
  constructor
  · intro h
    obtain ⟨i, hi⟩ := Nat.ne_zero_implies_bit_true h
    rw [Nat.testBit_and, Nat.testBit_two_pow, Bool.and_eq_true, decide_eq_true_eq] at hi
    rw [hi.2]; exact hi.1
  · intro h h0
    have h1 : (w &&& 2 ^ j).testBit j = true := by
      rw [Nat.testBit_and, h, Nat.testBit_two_pow_self]; rfl
    rw [h0, Nat.zero_testBit] at h1
    exact Bool.noConfusion h1

theorem slot_in_use_eq (inuse : Nat → Nat) (i : Nat) :
    slot_in_use inuse i = (inuse (i / 4)).testBit (i % 4) := by
  have h := and_two_pow_ne_zero_iff (inuse (i / 4)) (i % 4)
  simp only [slot_in_use, slot_offs, slot_bit, SIZEOF_ATOMIC_INT, Nat.one_shiftLeft]
  by_cases hb : (inuse (i / 4)).testBit (i % 4) = true
  · rw [hb]; simpa using h.mpr hb
  · have hz : inuse (i / 4) &&& 2 ^ (i % 4) = 0 := by
      by_contra hne; exact hb (h.mp hne)
    simp [hz, hb]

theorem claim_thrown (inuse : Nat → Nat) (i : Nat) :
    (claim inuse i).thrown = if slot_in_use inuse i then some BUFFER_FULL else none := by
  simp only [claim, slot_in_use, atomic_fetch_or]
  split <;> rfl

theorem claim_inuse (inuse : Nat → Nat) (i : Nat) :
    (claim inuse i).inuse
      = fun k => if k = slot_offs i then inuse k ||| slot_bit i else inuse k := by
  simp only [claim, atomic_fetch_or]
  split <;> rfl

theorem slot_in_use_claim (inuse : Nat → Nat) (i : Nat) :
    slot_in_use (claim inuse i).inuse i = true := by
  rw [slot_in_use_eq, claim_inuse]
  simp [slot_offs, slot_bit, SIZEOF_ATOMIC_INT, Nat.one_shiftLeft, Nat.testBit_two_pow_self]

theorem slot_in_use_release (inuse : Nat → Nat) (i : Nat) :
    slot_in_use (release inuse i) i = false := by
  rw [slot_in_use_eq]
  have hj : i % 4 < 4 := Nat.mod_lt _ (by norm_num)
  have hx : 2 ^ (i % 4) < 2 ^ 32 := Nat.pow_lt_pow_right (by norm_num) (by omega)
  have h := Nat.testBit_two_pow_sub_succ hx (i % 4)
  have e : 2 ^ 32 - 1 - 2 ^ (i % 4) = 2 ^ 32 - (2 ^ (i % 4) + 1) := by omega
  simp only [release, slot_offs, slot_bit, SIZEOF_ATOMIC_INT, Nat.one_shiftLeft, if_true,
    Nat.testBit_and, e, h, Nat.testBit_two_pow_self]
  simp


/-- C4. For every slot index `i` and every occupancy state, the claim step succeeds (throws
nothing) if and only if the bit of slot `i` was clear beforehand, and otherwise throws the
overrun error; afterwards the bit is set; hence a second claim of the same index with no
release in between throws the overrun error, and a claim after the bit has been cleared
succeeds again. -/
theorem claim_mutual_exclusion (inuse : Nat → Nat) (i : Nat) :
    ((claim inuse i).thrown = none ↔ slot_in_use inuse i = false)
    ∧ ((claim inuse i).thrown = some BUFFER_FULL ↔ slot_in_use inuse i = true)
    ∧ slot_in_use (claim inuse i).inuse i = true
    ∧ (claim (claim inuse i).inuse i).thrown = some BUFFER_FULL
    ∧ (claim (release (claim inuse i).inuse i) i).thrown = none := by
  refine ⟨?_, ?_, slot_in_use_claim inuse i, ?_, ?_⟩
  · rw [claim_thrown]; cases slot_in_use inuse i <;> simp
  · rw [claim_thrown]; cases slot_in_use inuse i <;> simp
  · rw [claim_thrown, slot_in_use_claim]; rfl
  · rw [claim_thrown, slot_in_use_release]; rfl

/-- C4 on the empty pool: the first claim of slot 0 succeeds, the second one, with no
release in between, throws the overrun error. -/
theorem claim_mutual_exclusion_witness :
    (claim (fun _ => 0) 0).thrown = none
    ∧ (claim (claim (fun _ => 0) 0).inuse 0).thrown = some "Thread %d buffer full\n" :=
  ⟨(claim_mutual_exclusion (fun _ => 0) 0).1.mpr (by decide),
    (claim_mutual_exclusion (fun _ => 0) 0).2.2.2.1⟩

theorem concurrent_claims_in_use (i : Nat) (sched : List Nat) (inuse : Nat → Nat)
    (h : slot_in_use inuse i = true) :
    (concurrent_claims i sched inuse).2 = sched.map (fun p => (p, some BUFFER_FULL)) := by
  induction sched generalizing inuse with
  | nil => rfl
  | cons p rest ih =>
    simp only [concurrent_claims, List.map_cons]
    rw [ih _ (slot_in_use_claim inuse i), claim_thrown, h]
    rfl

/-- C5. Two producers `a ≠ b` each attempt one claim of the same slot `i`, whose bit is
clear at the start, with no release in between. In every interleaving of the two atomic
fetch-or steps (`sched` is `[a, b]` or `[b, a]`, i.e. a permutation of the two producers)
the producer whose step comes first succeeds and the other one throws the overrun error:
exactly one claim succeeds. -/
theorem concurrent_claim_one_winner (inuse : Nat → Nat) (i a b : Nat) (sched : List Nat)
    (hclear : slot_in_use inuse i = false) (hab : a ≠ b) (hs : sched.Perm [a, b]) :
    (∃ w l, (w = a ∧ l = b ∨ w = b ∧ l = a)
        ∧ (concurrent_claims i sched inuse).2 = [(w, none), (l, some BUFFER_FULL)])
    ∧ (((concurrent_claims i sched inuse).2).filter (fun r => r.2 = none)).length = 1
    ∧ (((concurrent_claims i sched inuse).2).filter
          (fun r => r.2 = some BUFFER_FULL)).length = 1 := by
  have hlen : sched.length = 2 := by simpa using hs.length_eq
  match sched, hlen with
  | [x, y], _ =>
    have hres : (concurrent_claims i [x, y] inuse).2
        = [(x, none), (y, some BUFFER_FULL)] := by
      simp only [concurrent_claims]
      rw [claim_thrown, claim_thrown, hclear, slot_in_use_claim]
      rfl
    have hxy : x = a ∧ y = b ∨ x = b ∧ y = a := by
      have hx : x ∈ [a, b] := hs.subset (List.mem_cons_self _ _)
      have hy : y ∈ [a, b] := hs.subset (by simp)
      have hnd : [x, y].Nodup := hs.nodup_iff.mpr (by simp [hab])
      simp only [List.mem_cons, List.mem_singleton, List.not_mem_nil, or_false] at hx hy
      simp only [List.nodup_cons, List.mem_singleton, List.not_mem_nil, not_false_eq_true,
        List.nodup_nil, and_true] at hnd
      rcases hx with rfl | rfl <;> rcases hy with rfl | rfl
      · exact absurd rfl hnd
      · exact Or.inl ⟨rfl, rfl⟩
      · exact Or.inr ⟨rfl, rfl⟩
      · exact absurd rfl hnd
    refine ⟨⟨x, y, hxy, hres⟩, ?_, ?_⟩
    · rw [hres]; simp [BUFFER_FULL]
    · rw [hres]; simp [BUFFER_FULL]

/-- C5 on the empty pool with producers 0 and 1, the step of producer 1 coming first:
producer 1 succeeds and producer 0 throws the overrun error. -/
theorem concurrent_claim_one_winner_witness :
    (concurrent_claims 0 [1, 0] (fun _ => 0)).2
      = [(1, none), (0, some "Thread %d buffer full\n")]
    ∧ (((concurrent_claims 0 [1, 0] (fun _ => 0)).2).filter
          (fun r => r.2 = none)).length = 1 :=
  ⟨by decide,
    (concurrent_claim_one_winner (fun _ => 0) 0 0 1 [1, 0] (by decide) (by decide)
      (List.Perm.swap 0 1 [])).2.1⟩


/-! ### Write cursor -/

theorem capture_advance_one (C cursor : Nat) :
    capture_advance C 1 cursor = (cursor + 1) % C := by
  have h : List.range 1 = [0] := rfl
  simp [capture_advance, advance_cursor, h]

theorem cursor_after_one_mod (C : Nat) (n cursor : Nat) :
    cursor_after C 1 n cursor % C = (cursor + n) % C := by
  induction n generalizing cursor with
  | zero => rfl
  | succ n ih =>
    rw [cursor_after, ih, capture_advance_one, Nat.mod_add_mod]
    congr 1; omega

theorem cursor_after_one_lt (C : Nat) (hC : 1 ≤ C) (n cursor : Nat) (hn : 1 ≤ n) :
    cursor_after C 1 n cursor < C := by
  induction n generalizing cursor with
  | zero => omega
  | succ n ih =>
    rw [cursor_after]
    rcases Nat.eq_zero_or_pos n with h0 | hpos
    · subst h0
      rw [cursor_after, capture_advance_one]
      exact Nat.mod_lt _ hC
    · exact ih _ hpos

theorem cursor_after_one_eq (C : Nat) (hC : 1 ≤ C) (n cursor : Nat) (hc : cursor < C) :
    cursor_after C 1 n cursor = (cursor + n) % C := by
  rcases Nat.eq_zero_or_pos n with h0 | hpos
  · subst h0
    rw [cursor_after, Nat.add_zero, Nat.mod_eq_of_lt hc]
  · rw [← cursor_after_one_mod, Nat.mod_eq_of_lt (cursor_after_one_lt C hC n cursor hpos)]

theorem claim_targets_one (C : Nat) (n cursor : Nat) :
    claim_targets C 1 n cursor = (List.range n).map (fun k => cursor_after C 1 k cursor) := by
  induction n generalizing cursor with
  | zero => rfl
  | succ n ih =>
    rw [claim_targets, ih, List.range_succ_eq_map, List.map_cons, List.map_map]
    have h : List.range 1 = [0] := rfl
    simp [capture_claims, cursor_after, Function.comp_def, h]

/-- C6. With pool capacity `C ≥ 1`, one packet claimed and stamped per capture and the
cursor starting at 0, the `n`-th claim (`n ≥ 1`) targets slot index `(n - 1) mod C`, the
cursor is `< C` after every advance, and the `(C+1)`-th claim targets the same index as
the first one. -/
theorem round_robin_claims (C : Nat) (hC : 1 ≤ C) :
    (∀ N n, 1 ≤ n → n ≤ N → (claim_targets C 1 N 0)[n - 1]? = some ((n - 1) % C))
    ∧ (∀ n, 1 ≤ n → cursor_after C 1 n 0 < C)
    ∧ (claim_targets C 1 (C + 1) 0)[C]? = (claim_targets C 1 (C + 1) 0)[0]? := by
  have hget : ∀ N k, k < N → (claim_targets C 1 N 0)[k]? = some (k % C) := by
    intro N k hk
    rw [claim_targets_one, List.getElem?_map, List.getElem?_range hk, Option.map_some',
      cursor_after_one_eq C hC k 0 (by omega), Nat.zero_add]
  refine ⟨?_, fun n hn => cursor_after_one_lt C hC n 0 hn, ?_⟩
  · intro N n h1 hN
    exact hget N (n - 1) (by omega)
  · rw [hget (C + 1) C (by omega), hget (C + 1) 0 (by omega), Nat.mod_self, Nat.zero_mod]

/-- C6 at capacity `C = 4`: the first five claims target slots `0, 1, 2, 3, 0`. -/
theorem round_robin_claims_witness :
    claim_targets 4 1 5 0 = [0, 1, 2, 3, 0]
    ∧ (claim_targets 4 1 (4 + 1) 0)[4]? = (claim_targets 4 1 (4 + 1) 0)[0]? :=
  ⟨by decide, (round_robin_claims 4 (by decide)).2.2⟩

/-- C7 (as stated it fails): with capacity `C = 2` and the cursor starting at 0, after
`C + 1 = 3` claims, each followed by the cursor advance, the cursor is 1, not 0. -/
theorem cursor_wrap_counterexample :
    (1 : Nat) ≤ 2 ∧ cursor_after 2 1 (2 + 1) 0 = 1 ∧ cursor_after 2 1 (2 + 1) 0 ≠ 0 := by
  decide

/-- C7 (amended). For every pool capacity `C ≥ 1` and every initial cursor value
`c₀ < C` (in the code `c₀ = 0`), after `C` sequential claims, each followed by the cursor
advance, the cursor has returned to `c₀`; after `C + 1` of them it is `(c₀ + 1) mod C`,
which for `c₀ = 0` is the initial value only when `C = 1`. -/
theorem cursor_wrap (C c₀ : Nat) (hC : 1 ≤ C) (hc : c₀ < C) :
    cursor_after C 1 C c₀ = c₀
    ∧ cursor_after C 1 (C + 1) c₀ = (c₀ + 1) % C
    ∧ (cursor_after C 1 (C + 1) 0 = 0 ↔ C = 1) := by
  refine ⟨?_, ?_, ?_⟩
  · rw [cursor_after_one_eq C hC C c₀ hc, Nat.add_mod_right, Nat.mod_eq_of_lt hc]
  · rw [cursor_after_one_eq C hC (C + 1) c₀ hc, ← Nat.add_assoc, Nat.add_right_comm,
      Nat.add_mod_right]
  · rw [cursor_after_one_eq C hC (C + 1) 0 (by omega), Nat.zero_add, Nat.add_mod_left]
    constructor
    · intro h
      by_contra hne
      rw [Nat.mod_eq_of_lt (by omega)] at h
      omega
    · rintro rfl; rfl

/-- C7 at capacity `C = 4`, cursor starting at 0: back at 0 after 4 claims, at 1 after
5. -/
theorem cursor_wrap_witness :
    cursor_after 4 1 4 0 = 0 ∧ cursor_after 4 1 (4 + 1) 0 = 1 :=
  ⟨(cursor_wrap 4 0 (by decide) (by decide)).1, (cursor_wrap 4 0 (by decide) (by decide)).2.1⟩


/-! ### Transmit timestamps -/

theorem wrapS64_of_range (x : Int) (h1 : -2 ^ 63 ≤ x) (h2 : x < 2 ^ 63) : wrapS64 x = x := by
  unfold wrapS64 toS64 toSizeT
  split <;> omega

theorem min_lead_le_txTimeDelta (cfg : Config) (hL : 0 < frameTimeLen cfg) :
    min_lead cfg ≤ (txTimeDelta cfg : ℚ) := by
  have hLq : (0 : ℚ) < (frameTimeLen cfg : ℚ) := by exact_mod_cast hL
  have hceil := Nat.le_ceil ((cfg.TIME_DELTA : ℚ) / (1000 * (frameTimeLen cfg : ℚ) / cfg.rate))
  have hmul := mul_le_mul_of_nonneg_right hceil (le_of_lt hLq)
  have he : (cfg.TIME_DELTA : ℚ) / (1000 * (frameTimeLen cfg : ℚ) / cfg.rate)
      * (frameTimeLen cfg : ℚ) = min_lead cfg := by
    unfold min_lead
    field_simp
    ring
  rw [he] at hmul
  unfold txTimeDelta txFrameDelta
  push_cast
  exact hmul

theorem min_lead_pos (cfg : Config) (hr : 0 < cfg.rate) (hTD : 0 < cfg.TIME_DELTA) :
    0 < min_lead cfg := by
  have hq : (0 : ℚ) < (cfg.TIME_DELTA : ℚ) := by exact_mod_cast hTD
  unfold min_lead
  positivity

theorem txTimeDelta_pos (cfg : Config) (hL : 0 < frameTimeLen cfg)
    (hr : 0 < cfg.rate) (hTD : 0 < cfg.TIME_DELTA) : 0 < txTimeDelta cfg := by
  have h := lt_of_lt_of_le (min_lead_pos cfg hr hTD) (min_lead_le_txTimeDelta cfg hL)
  exact_mod_cast h

theorem advanced_txTimeDelta : txTimeDelta advancedConfig = 4000 := by
  unfold txTimeDelta txFrameDelta frameTimeLen advancedConfig
  norm_num

theorem plain_txTimeDelta : txTimeDelta plainConfig = 4000 := by
  unfold txTimeDelta txFrameDelta frameTimeLen plainConfig advancedConfig
  norm_num

/-- C8 (as stated it fails): at 1 MS/s with 1 ms frames, `TIME_DELTA = 4` ms,
`tx_advance = 5000 ≥ 0` and the pilot scheduled in slot 0, the receive timestamp 0 gives
the pilot (and every slot-0 downlink) timestamp `-1000`, which lies before the receive
timestamp; and the beacon, two frames ahead, leads by 2000 samples, less than the
4000 samples of `TIME_DELTA`. -/
theorem schedule_ahead_counterexample :
    0 < frameTimeLen advancedConfig ∧ 0 < advancedConfig.rate
    ∧ min_lead advancedConfig = 4000
    ∧ client_txTime advancedConfig 0 0 = -1000
    ∧ ¬ (0 < client_txTime advancedConfig 0 0)
    ∧ bs_dl_txTime advancedConfig 0 0 = -1000
    ∧ bs_beacon_txTime advancedConfig 0 = 2000
    ∧ ¬ (min_lead advancedConfig ≤ ((bs_beacon_txTime advancedConfig 0 - 0 : Int) : ℚ)) := by
  have hc : client_txTime advancedConfig 0 0 = -1000 := by
    rw [client_txTime, advanced_txTimeDelta]; decide
  have hd : bs_dl_txTime advancedConfig 0 0 = -1000 := by
    rw [bs_dl_txTime, advanced_txTimeDelta]; decide
  have hb : bs_beacon_txTime advancedConfig 0 = 2000 := by
    rw [bs_beacon_txTime]; decide
  have hm : min_lead advancedConfig = 4000 := by
    unfold min_lead advancedConfig; norm_num
  refine ⟨by decide, by unfold advancedConfig; norm_num, hm, hc, ?_, hd, hb, ?_⟩
  · rw [hc]; decide
  · rw [hm, hb]; norm_num

theorem lead_of_advance_le (cfg : Config) (rxTime : Int) (slot : Nat)
    (hL : 0 < frameTimeLen cfg) (hr : 0 < cfg.rate) (hTD : 0 < cfg.TIME_DELTA)
    (hadv : cfg.tx_advance ≤ slot * cfg.samps_per_slot) :
    rxTime < rxTime + txTimeDelta cfg + slot * cfg.samps_per_slot - cfg.tx_advance
    ∧ min_lead cfg
        ≤ ((rxTime + txTimeDelta cfg + slot * cfg.samps_per_slot - cfg.tx_advance
              - rxTime : Int) : ℚ) := by
  have hpos := txTimeDelta_pos cfg hL hr hTD
  have hle := min_lead_le_txTimeDelta cfg hL
  have hadv' : (cfg.tx_advance : Int) ≤ (slot : Int) * (cfg.samps_per_slot : Int) := by
    exact_mod_cast hadv
  constructor
  · omega
  · have hq : (cfg.tx_advance : ℚ) ≤ (slot : ℚ) * (cfg.samps_per_slot : ℚ) := by
      exact_mod_cast hadv
    push_cast
    linarith

/-- C8 (amended). For every configuration with frame length `> 0`, sample rate `> 0` and
`TIME_DELTA > 0`, and every receive timestamp for which the 64-bit sums do not wrap:
the client pilot/uplink timestamp and the base-station downlink timestamp equal
`rxTime + txTimeDelta + slot * samps_per_slot - tx_advance`; whenever
`tx_advance ≤ slot * samps_per_slot` (in particular for `tx_advance = 0`) they are
strictly greater than the receive timestamp, by at least `TIME_DELTA * rate / 1000`
samples. The beacon timestamp equals
`rxTimeBs + samps_per_slot * slot_per_frame * BEACON_INTERVAL`; it is strictly greater
than the receive timestamp exactly when that period is positive, and leads by at least
`TIME_DELTA * rate / 1000` samples exactly when the period is at least that long. -/
theorem schedule_ahead (cfg : Config) (rxTime : Int) (slot : Nat)
    (hL : 0 < frameTimeLen cfg) (hr : 0 < cfg.rate) (hTD : 0 < cfg.TIME_DELTA)
    (hrx : -2 ^ 63 ≤ rxTime)
    (hlo : -2 ^ 63 ≤ rxTime + txTimeDelta cfg + slot * cfg.samps_per_slot - cfg.tx_advance)
    (hhi : rxTime + txTimeDelta cfg + slot * cfg.samps_per_slot - cfg.tx_advance < 2 ^ 63)
    (hbe : rxTime + cfg.samps_per_slot * cfg.slot_per_frame * cfg.BEACON_INTERVAL < 2 ^ 63) :
    (client_txTime cfg rxTime slot
        = rxTime + txTimeDelta cfg + slot * cfg.samps_per_slot - cfg.tx_advance
      ∧ (cfg.tx_advance ≤ slot * cfg.samps_per_slot →
          rxTime < client_txTime cfg rxTime slot
          ∧ min_lead cfg ≤ ((client_txTime cfg rxTime slot - rxTime : Int) : ℚ)))
    ∧ (bs_dl_txTime cfg rxTime slot
        = rxTime + txTimeDelta cfg + slot * cfg.samps_per_slot - cfg.tx_advance
      ∧ (cfg.tx_advance ≤ slot * cfg.samps_per_slot →
          rxTime < bs_dl_txTime cfg rxTime slot
          ∧ min_lead cfg ≤ ((bs_dl_txTime cfg rxTime slot - rxTime : Int) : ℚ)))
    ∧ (bs_beacon_txTime cfg rxTime
        = rxTime + cfg.samps_per_slot * cfg.slot_per_frame * cfg.BEACON_INTERVAL
      ∧ (rxTime < bs_beacon_txTime cfg rxTime
          ↔ 0 < cfg.samps_per_slot * cfg.slot_per_frame * cfg.BEACON_INTERVAL)
      ∧ (min_lead cfg ≤ ((bs_beacon_txTime cfg rxTime - rxTime : Int) : ℚ)
          ↔ min_lead cfg
              ≤ ((cfg.samps_per_slot * cfg.slot_per_frame * cfg.BEACON_INTERVAL : Nat) : ℚ))) := by
  have hc : client_txTime cfg rxTime slot
      = rxTime + txTimeDelta cfg + slot * cfg.samps_per_slot - cfg.tx_advance :=
    wrapS64_of_range _ hlo hhi
  have hd : bs_dl_txTime cfg rxTime slot
      = rxTime + txTimeDelta cfg + slot * cfg.samps_per_slot - cfg.tx_advance :=
    wrapS64_of_range _ hlo hhi
  have hnn : (0 : Int)
      ≤ (cfg.samps_per_slot : Int) * (cfg.slot_per_frame : Int) * (cfg.BEACON_INTERVAL : Int) := by
    positivity
  have hb : bs_beacon_txTime cfg rxTime
      = rxTime + cfg.samps_per_slot * cfg.slot_per_frame * cfg.BEACON_INTERVAL :=
    wrapS64_of_range _ (by omega) hbe
  refine ⟨⟨hc, ?_⟩, ⟨hd, ?_⟩, hb, ?_, ?_⟩
  · intro hadv
    rw [hc]
    exact lead_of_advance_le cfg rxTime slot hL hr hTD hadv
  · intro hadv
    rw [hd]
    exact lead_of_advance_le cfg rxTime slot hL hr hTD hadv
  · rw [hb]
    constructor
    · intro h
      have h2 : (0 : Int) < ((cfg.samps_per_slot * cfg.slot_per_frame * cfg.BEACON_INTERVAL
          : Nat) : Int) := by
        push_cast; omega
      exact_mod_cast h2
    · intro h
      have h2 : (0 : Int) < ((cfg.samps_per_slot * cfg.slot_per_frame * cfg.BEACON_INTERVAL
          : Nat) : Int) := by
        exact_mod_cast h
      push_cast at h2
      omega
  · rw [hb]
    have e : ((rxTime + cfg.samps_per_slot * cfg.slot_per_frame * cfg.BEACON_INTERVAL - rxTime
        : Int) : ℚ)
        = ((cfg.samps_per_slot * cfg.slot_per_frame * cfg.BEACON_INTERVAL : Nat) : ℚ) := by
      push_cast; ring
    rw [e]

/-- C8 at the configuration without transmit advance, receive timestamp 1000 and slot 2:
the timestamp is `1000 + 4000 + 200 = 5200`, later than 1000 by at least the lead. -/
theorem schedule_ahead_witness :
    client_txTime plainConfig 1000 2 = 5200
    ∧ (1000 : Int) < client_txTime plainConfig 1000 2
    ∧ min_lead plainConfig ≤ ((client_txTime plainConfig 1000 2 - 1000 : Int) : ℚ) :=
  ⟨by rw [client_txTime, plain_txTimeDelta]; decide,
    ((schedule_ahead plainConfig 1000 2 (by decide) (by unfold plainConfig advancedConfig; norm_num)
      (by decide) (by decide) (by rw [plain_txTimeDelta]; decide)
      (by rw [plain_txTimeDelta]; decide) (by decide)).1.2 (by decide)).1,
    ((schedule_ahead plainConfig 1000 2 (by decide) (by unfold plainConfig advancedConfig; norm_num)
      (by decide) (by decide) (by rw [plain_txTimeDelta]; decide)
      (by rw [plain_txTimeDelta]; decide) (by decide)).1.2 (by decide)).2⟩


/-! ### Client loop -/

theorem client_claims_control (base : Nat) (chs : List Nat) (s : ClientState) :
    (client_claims base chs s).control = s.control := by
  induction chs generalizing s with
  | nil => rfl
  | cons ch rest ih =>
    simp only [client_claims]
    split
    · rfl
    · rw [ih]; rfl

theorem client_stamps_control (cfg : Config) (tid : Nat) (inp : FrameInput) (base : Nat)
    (chs : List Nat) (s : ClientState) :
    (client_stamps cfg tid inp base chs s).control = s.control := by
  induction chs generalizing s with
  | nil => rfl
  | cons ch rest ih =>
    simp only [client_stamps]
    split
    · rw [ih]; rfl
    · rfl

theorem client_slot_control (cfg : Config) (tid : Nat) (inp : FrameInput) (s : ClientState)
    (hrx : ∀ sl, 0 ≤ inp.slot_rx_ret sl) :
    (client_slot cfg tid inp s).1.control = s.control := by
  have hnn : ¬ inp.slot_rx_ret s.slot_id < 0 := not_lt.mpr (hrx _)
  unfold client_slot
  dsimp only
  rw [if_neg hnn, if_neg hnn]
  split
  · split
    · rw [client_claims_control]; rfl
    · rw [client_stamps_control]
      show (client_claims _ _ _).control = _
      rw [client_claims_control]; rfl
  · rfl

theorem client_slots_control (cfg : Config) (tid : Nat) (inp : FrameInput)
    (hrx : ∀ sl, 0 ≤ inp.slot_rx_ret sl) (n : Nat) (s : ClientState) :
    (client_slots cfg tid inp n s).control = s.control := by
  induction n generalizing s with
  | zero => rfl
  | succ n ih =>
    simp only [client_slots]
    split
    · exact client_slot_control cfg tid inp s hrx
    · rw [ih]
      exact client_slot_control cfg tid inp s hrx


theorem client_frame_tail_control (cfg : Config) (tid : Nat) (inp : FrameInput)
    (s : ClientState) (hrx : ∀ sl, 0 ≤ inp.slot_rx_ret sl)
    (hthr : (client_frame_tail cfg tid inp s).thrown = none) :
    (client_frame_tail cfg tid inp s).control
      = (s.running, s.exited, s.resync, s.resync_retry_cnt, s.rx_offset, s.frame_id + 1) := by
  unfold client_frame_tail at hthr ⊢
  dsimp only at hthr ⊢
  split
  · rename_i hsome
    rw [if_pos hsome] at hthr
    rw [hthr] at hsome
    exact absurd hsome (by simp)
  · have h := client_slots_control cfg tid inp hrx (cfg.slot_per_frame - (s.slot_id + 1))
      { s with trace := s.trace ++ client_tx_events cfg s.rxTime, slot_id := s.slot_id + 1 }
    simp only [ClientState.control, Prod.mk.injEq] at h ⊢
    obtain ⟨a, b, c, d, e, f⟩ := h
    exact ⟨a, b, c, d, e, by rw [f]⟩

theorem resync_block_fail (cfg : Config) (found : Int) (s : ClientState)
    (hres : s.resync = true) (hen : cfg.frame_mode_continuous_resync = true)
    (hfail : found < 0) :
    (resync_block cfg found s).control
        = (s.running, s.exited, true, s.resync_retry_cnt + 1, 0, s.frame_id)
    ∧ (resync_block cfg found s).thrown = s.thrown := by
  have h3 : ¬ found ≥ 0 := not_le.mpr hfail
  unfold resync_block
  dsimp only
  split
  · simp only [hen, if_true, resync_correlate, if_neg h3]
    exact ⟨rfl, trivial⟩
  · simp only [hres, if_true, resync_correlate, if_neg h3]
    exact ⟨rfl, trivial⟩

theorem client_iter_resync_fail (cfg : Config) (tid : Nat) (inp : FrameInput) (s : ClientState)
    (hres : s.resync = true) (hen : cfg.frame_mode_continuous_resync = true)
    (hmax : cfg.max_frame = 0 ∨ s.frame_id < cfg.max_frame)
    (hrx0 : 0 ≤ inp.rx_ret) (hrx : ∀ sl, 0 ≤ inp.slot_rx_ret sl) (hfail : inp.beacon < 0) :
    (resync_retry_max < s.resync_retry_cnt + 1 →
        (client_iter cfg tid inp s).running = false
        ∧ (client_iter cfg tid inp s).exited = true
        ∧ (client_iter cfg tid inp s).resync = false
        ∧ (client_iter cfg tid inp s).resync_retry_cnt = 0
        ∧ (client_iter cfg tid inp s).thrown = s.thrown)
    ∧ (s.resync_retry_cnt + 1 ≤ resync_retry_max →
        (client_iter cfg tid inp s).thrown = none →
        (client_iter cfg tid inp s).control
          = (s.running, s.exited, true, s.resync_retry_cnt + 1, 0, s.frame_id + 1)) := by
  have h1 : (decide (cfg.max_frame > 0) && decide (s.frame_id ≥ cfg.max_frame)) = false := by
    rcases hmax with h | h
    · simp [h]
    · have : ¬ s.frame_id ≥ cfg.max_frame := by omega
      simp [this]
  have h2 : ¬ inp.rx_ret < 0 := not_lt.mpr hrx0
  obtain ⟨hb, hbt⟩ := resync_block_fail cfg inp.beacon
    { s with trace := s.trace ++ [Event.rx (cfg.samps_per_slot + s.rx_offset)],
             rxTime := inp.rx_time } hres hen hfail
  simp only [ClientState.control, Prod.mk.injEq] at hb
  obtain ⟨b1, b2, b3, b4, b5, b6⟩ := hb
  unfold client_iter
  rw [h1]
  simp only [Bool.false_eq_true, if_false, if_neg h2, b3, b4, Bool.true_and]
  constructor
  · intro hgt
    rw [if_pos (decide_eq_true hgt)]
    exact ⟨rfl, rfl, rfl, rfl, hbt⟩
  · intro hle
    have hd : ¬ (decide (s.resync_retry_cnt + 1 > resync_retry_max) = true) := by
      simp only [decide_eq_true_eq]; omega
    rw [if_neg hd]
    intro hthr
    rw [client_frame_tail_control cfg tid inp _ hrx hthr, b1, b2, b3, b4, b5, b6]


theorem client_step_of_thrown (cfg : Config) (tid : Nat) (inp : Nat → FrameInput)
    (s : ClientState) (h : s.thrown ≠ none) : client_step cfg tid inp s = s := by
  unfold client_step
  have hs : s.thrown.isSome = true := Option.isSome_iff_ne_none.mpr h
  simp [hs]

theorem client_loop_thrown_le (cfg : Config) (tid : Nat) (inp : Nat → FrameInput)
    (s : ClientState) (k m : Nat) (hkm : k ≤ m)
    (hm : (client_loop cfg tid inp m s).thrown = none) :
    (client_loop cfg tid inp k s).thrown = none := by
  induction m with
  | zero =>
    have : k = 0 := by omega
    subst this; exact hm
  | succ m ih =>
    rcases Nat.lt_or_ge k (m + 1) with hlt | hge
    · apply ih (by omega)
      by_contra hne
      have hstep := client_step_of_thrown cfg tid inp _ hne
      simp only [client_loop] at hm
      rw [hstep] at hm
      exact hne hm
    · have : k = m + 1 := by omega
      subst this; exact hm

theorem client_loop_succ (cfg : Config) (tid : Nat) (inp : Nat → FrameInput) (n : Nat)
    (s : ClientState) :
    client_loop cfg tid inp (n + 1) s = client_step cfg tid inp (client_loop cfg tid inp n s) :=
  rfl

theorem client_step_of_running (cfg : Config) (tid : Nat) (inp : Nat → FrameInput)
    (s : ClientState) (hthr : s.thrown = none) (hex : s.exited = false)
    (hrun : s.running = true) :
    client_step cfg tid inp s = client_iter cfg tid (inp s.frame_id) s := by
  unfold client_step
  simp [hthr, hex, hrun]

theorem client_loop_resync_fail (cfg : Config) (tid : Nat) (inp : Nat → FrameInput)
    (s₀ : ClientState)
    (hrun : s₀.running = true) (hex : s₀.exited = false)
    (hres : s₀.resync = true) (hcnt : s₀.resync_retry_cnt = 0)
    (hen : cfg.frame_mode_continuous_resync = true)
    (hmax : cfg.max_frame = 0 ∨ s₀.frame_id + 100 < cfg.max_frame)
    (hrx : ∀ f, 0 ≤ (inp f).rx_ret ∧ ∀ sl, 0 ≤ (inp f).slot_rx_ret sl)
    (hfail : ∀ f, (inp f).beacon < 0)
    (hok : (client_loop cfg tid inp 100 s₀).thrown = none) (k : Nat) (hk : k ≤ 100) :
    (client_loop cfg tid inp k s₀).control
      = (true, false, true, k, (client_loop cfg tid inp k s₀).rx_offset, s₀.frame_id + k) := by
  induction k with
  | zero =>
    simp only [client_loop, ClientState.control, hrun, hex, hres, hcnt, Nat.add_zero]
  | succ k ih =>
    have ihk := ih (by omega)
    have hthr_k := client_loop_thrown_le cfg tid inp s₀ k 100 (by omega) hok
    have hthr_k1 := client_loop_thrown_le cfg tid inp s₀ (k + 1) 100 hk hok
    simp only [ClientState.control, Prod.mk.injEq] at ihk
    obtain ⟨i1, i2, i3, i4, _, i6⟩ := ihk
    have hstep : client_loop cfg tid inp (k + 1) s₀
        = client_iter cfg tid (inp (client_loop cfg tid inp k s₀).frame_id)
            (client_loop cfg tid inp k s₀) := by
      rw [client_loop_succ, client_step_of_running cfg tid inp _ hthr_k i2 i1]
    rw [hstep] at hthr_k1 ⊢
    have hm : cfg.max_frame = 0 ∨ (client_loop cfg tid inp k s₀).frame_id < cfg.max_frame := by
      rcases hmax with h | h
      · exact Or.inl h
      · exact Or.inr (by omega)
    have h := (client_iter_resync_fail cfg tid (inp (client_loop cfg tid inp k s₀).frame_id)
      (client_loop cfg tid inp k s₀) i3 hen hm (hrx _).1 (hrx _).2 (hfail _)).2
      (by rw [i4]; unfold resync_retry_max; omega) hthr_k1
    simp only [ClientState.control, Prod.mk.injEq] at h ⊢
    obtain ⟨a, b, c, d, _, f⟩ := h
    exact ⟨a.trans i1, b.trans i2, c, by rw [d, i4], trivial, by rw [f, i6]; omega⟩


/-- C9. In the steady-state loop of `clientSyncTxRx` with resync active (retry counter 0,
continuous resynchronisation enabled), all receives succeeding, `max_frame` not reached
and no exception ending the thread, if the beacon correlation returns a negative index on
every attempt, then after each of the first 100 consecutive failures the loop is still
running with `resync` set and the retry counter equal to the number of failures, and on
the 101st failure the liveness flag is set to false, `resync` is cleared and the loop is
left without an exception. -/
theorem resync_bound (cfg : Config) (tid : Nat) (inp : Nat → FrameInput) (s₀ : ClientState)
    (hrun : s₀.running = true) (hex : s₀.exited = false)
    (hres : s₀.resync = true) (hcnt : s₀.resync_retry_cnt = 0)
    (hen : cfg.frame_mode_continuous_resync = true)
    (hmax : cfg.max_frame = 0 ∨ s₀.frame_id + 100 < cfg.max_frame)
    (hrx : ∀ f, 0 ≤ (inp f).rx_ret ∧ ∀ sl, 0 ≤ (inp f).slot_rx_ret sl)
    (hfail : ∀ f, (inp f).beacon < 0)
    (hok : (client_loop cfg tid inp 100 s₀).thrown = none) :
    (∀ k, k ≤ 100 →
        (client_loop cfg tid inp k s₀).running = true
        ∧ (client_loop cfg tid inp k s₀).exited = false
        ∧ (client_loop cfg tid inp k s₀).resync = true
        ∧ (client_loop cfg tid inp k s₀).resync_retry_cnt = k
        ∧ (client_loop cfg tid inp k s₀).thrown = none)
    ∧ (client_loop cfg tid inp 101 s₀).running = false
    ∧ (client_loop cfg tid inp 101 s₀).exited = true
    ∧ (client_loop cfg tid inp 101 s₀).resync = false
    ∧ (client_loop cfg tid inp 101 s₀).thrown = none := by
  have hinv := client_loop_resync_fail cfg tid inp s₀ hrun hex hres hcnt hen hmax hrx hfail hok
  constructor
  · intro k hk
    have h := hinv k hk
    simp only [ClientState.control, Prod.mk.injEq] at h
    exact ⟨h.1, h.2.1, h.2.2.1, h.2.2.2.1,
      client_loop_thrown_le cfg tid inp s₀ k 100 hk hok⟩
  · have h := hinv 100 (le_refl _)
    simp only [ClientState.control, Prod.mk.injEq] at h
    obtain ⟨i1, i2, i3, i4, _, i6⟩ := h
    have hstep : client_loop cfg tid inp 101 s₀
        = client_iter cfg tid (inp (client_loop cfg tid inp 100 s₀).frame_id)
            (client_loop cfg tid inp 100 s₀) := by
      rw [← client_step_of_running cfg tid inp _ hok i2 i1]
      exact client_loop_succ cfg tid inp 100 s₀
    have hm : cfg.max_frame = 0 ∨ (client_loop cfg tid inp 100 s₀).frame_id < cfg.max_frame := by
      rcases hmax with h | h
      · exact Or.inl h
      · exact Or.inr (by omega)
    have h := (client_iter_resync_fail cfg tid (inp (client_loop cfg tid inp 100 s₀).frame_id)
      (client_loop cfg tid inp 100 s₀) i3 hen hm (hrx _).1 (hrx _).2 (hfail _)).1
      (by rw [i4]; unfold resync_retry_max; omega)
    rw [hstep]
    exact ⟨h.1, h.2.1, h.2.2.1, h.2.2.2.2.trans hok⟩

set_option maxRecDepth 1000000 in
/-- C9 on a client with continuous resynchronisation whose correlator never finds the
beacon, resync armed at frame 1000: still running after the 100th failure, stopped by the
101st. -/
theorem resync_bound_witness :
    (client_loop advancedConfig 0 (fun _ => noBeaconInput) 100 resyncArmed).running = true
    ∧ (client_loop advancedConfig 0 (fun _ => noBeaconInput) 100 resyncArmed).resync_retry_cnt
        = 100
    ∧ (client_loop advancedConfig 0 (fun _ => noBeaconInput) 101 resyncArmed).running = false
    ∧ (client_loop advancedConfig 0 (fun _ => noBeaconInput) 101 resyncArmed).exited = true :=
  have h := resync_bound advancedConfig 0 (fun _ => noBeaconInput) resyncArmed
    rfl rfl rfl rfl rfl (Or.inl rfl)
    (fun _ => ⟨by simp [noBeaconInput], fun _ => by simp [noBeaconInput]⟩)
    (fun _ => by simp [noBeaconInput]) (by decide)
  ⟨(h.1 100 (le_refl _)).1, (h.1 100 (le_refl _)).2.2.2.1, h.2.1, h.2.2.1⟩


/-- C10. For every correlation index returned by the beacon search, in the initial search
loop and in the resync branch alike: a non-negative index sets
`rx_offset = sync_index - beacon_size - prefix`, and a negative index leaves `rx_offset`
as it was before the correlation (in the steady-state loop that is the value 0 to which
line 824 has just reset it). -/
theorem alignment_offset (cfg : Config) (s : ClientState) (rx_time found : Int) :
    (0 ≤ found →
        (beacon_search_iter cfg rx_time found s).rx_offset
            = found - cfg.beacon_size - cfg.prefix_len
        ∧ (resync_correlate cfg found s).rx_offset
            = found - cfg.beacon_size - cfg.prefix_len
        ∧ (s.resync = true → cfg.frame_mode_continuous_resync = true →
            (resync_block cfg found s).rx_offset
              = found - cfg.beacon_size - cfg.prefix_len))
    ∧ (found < 0 →
        (beacon_search_iter cfg rx_time found s).rx_offset = s.rx_offset
        ∧ (resync_correlate cfg found s).rx_offset = s.rx_offset
        ∧ (resync_block cfg found s).rx_offset = 0) := by
  constructor
  · intro h
    have hge : found ≥ 0 := h
    refine ⟨?_, ?_, ?_⟩
    · simp only [beacon_search_iter, if_pos hge]
    · simp only [resync_correlate, if_pos hge]
    · intro hres hen
      unfold resync_block
      dsimp only
      split
      · simp only [hen, if_true, resync_correlate, if_pos hge]
      · simp only [hres, if_true, resync_correlate, if_pos hge]
  · intro h
    have hlt : ¬ found ≥ 0 := not_le.mpr h
    refine ⟨?_, ?_, ?_⟩
    · simp only [beacon_search_iter, if_neg hlt]
    · simp only [resync_correlate, if_neg hlt]
    · unfold resync_block
      dsimp only
      split <;> split <;> simp only [resync_correlate, if_neg hlt]

/-- C10 at correlation index 200 with beacon length 60 and prefix length 20: the offset
is 120, in the initial search and in the resync branch. -/
theorem alignment_offset_witness :
    advancedConfig.beacon_size = 60 ∧ advancedConfig.prefix_len = 20
    ∧ (beacon_search_iter advancedConfig 0 200 (clientInit 0 (-1) (fun _ => 0))).rx_offset = 120
    ∧ (resync_correlate advancedConfig 200 resyncArmed).rx_offset = 120 :=
  ⟨rfl, rfl,
    ((alignment_offset advancedConfig (clientInit 0 (-1) (fun _ => 0)) 0 200).1
      (by decide)).1.trans (by decide),
    ((alignment_offset advancedConfig resyncArmed 0 200).1 (by decide)).2.1.trans (by decide)⟩

/-! ### Schedule-ahead delta -/

theorem frame_duration_pos (cfg : Config) (hL : 0 < frameTimeLen cfg) (hr : 0 < cfg.rate) :
    (0 : ℚ) < 1000 * (frameTimeLen cfg : ℚ) / cfg.rate := by
  have hLq : (0 : ℚ) < (frameTimeLen cfg : ℚ) := by exact_mod_cast hL
  positivity

/-- C17. Over exact rational arithmetic, for every frame length
`L = samps_per_slot * cl_frames[0].size > 0`, `rate > 0` and `TIME_DELTA > 0` (ms):
`txFrameDelta` is the smallest whole number `k` of frames whose duration
`k * L * 1000 / rate` is at least `TIME_DELTA`, and `txTimeDelta = txFrameDelta * L` is a
whole multiple of the frame length whose duration is at least `TIME_DELTA` ms and less
than `TIME_DELTA` ms plus one frame. -/
theorem schedule_ahead_delta (cfg : Config) (hL : 0 < frameTimeLen cfg) (hr : 0 < cfg.rate)
    (hTD : 0 < cfg.TIME_DELTA) :
    txFrameDelta cfg = ⌈(cfg.TIME_DELTA : ℚ) / (1000 * (frameTimeLen cfg : ℚ) / cfg.rate)⌉₊
    ∧ (∀ k : Nat,
        (cfg.TIME_DELTA : ℚ) ≤ (k : ℚ) * (1000 * (frameTimeLen cfg : ℚ) / cfg.rate)
          ↔ txFrameDelta cfg ≤ k)
    ∧ 0 < txFrameDelta cfg
    ∧ txTimeDelta cfg = txFrameDelta cfg * frameTimeLen cfg
    ∧ (cfg.TIME_DELTA : ℚ) ≤ (txTimeDelta cfg : ℚ) * 1000 / cfg.rate
    ∧ (txTimeDelta cfg : ℚ) * 1000 / cfg.rate
        < (cfg.TIME_DELTA : ℚ) + 1000 * (frameTimeLen cfg : ℚ) / cfg.rate := by
  have hd := frame_duration_pos cfg hL hr
  have hTq : (0 : ℚ) < (cfg.TIME_DELTA : ℚ) := by exact_mod_cast hTD
  have hx : (0 : ℚ) < (cfg.TIME_DELTA : ℚ) / (1000 * (frameTimeLen cfg : ℚ) / cfg.rate) :=
    div_pos hTq hd
  have hmin : ∀ k : Nat,
      (cfg.TIME_DELTA : ℚ) ≤ (k : ℚ) * (1000 * (frameTimeLen cfg : ℚ) / cfg.rate)
        ↔ txFrameDelta cfg ≤ k := by
    intro k
    unfold txFrameDelta
    rw [Nat.ceil_le, div_le_iff₀ hd]
  have hdur : (txTimeDelta cfg : ℚ) * 1000 / cfg.rate
      = (txFrameDelta cfg : ℚ) * (1000 * (frameTimeLen cfg : ℚ) / cfg.rate) := by
    unfold txTimeDelta
    push_cast
    ring
  refine ⟨rfl, hmin, ?_, rfl, ?_, ?_⟩
  · unfold txFrameDelta
    exact Nat.ceil_pos.mpr hx
  · rw [hdur]
    exact (hmin _).mpr (le_refl _)
  · rw [hdur]
    have hlt := Nat.ceil_lt_add_one (le_of_lt hx)
    have h2 := mul_lt_mul_of_pos_right hlt hd
    have h3 : ((cfg.TIME_DELTA : ℚ) / (1000 * (frameTimeLen cfg : ℚ) / cfg.rate) + 1)
        * (1000 * (frameTimeLen cfg : ℚ) / cfg.rate)
        = (cfg.TIME_DELTA : ℚ) + 1000 * (frameTimeLen cfg : ℚ) / cfg.rate := by
      field_simp
    rw [h3] at h2
    exact h2

/-- C17 at 1 MS/s, 1 ms frames and `TIME_DELTA = 4` ms: 4 frames, 4000 samples. -/
theorem schedule_ahead_delta_witness :
    txFrameDelta plainConfig = 4 ∧ txTimeDelta plainConfig = 4000
    ∧ (∀ k : Nat, (4 : ℚ) ≤ (k : ℚ) * (1000 * (1000 : ℚ) / 1000000) ↔ 4 ≤ k) := by
  have h := schedule_ahead_delta plainConfig (by decide)
    (by unfold plainConfig advancedConfig; norm_num) (by decide)
  have h4 : txFrameDelta plainConfig = 4 := by
    unfold txFrameDelta frameTimeLen plainConfig advancedConfig
    norm_num
  refine ⟨h4, plain_txTimeDelta, ?_⟩
  intro k
  have hk := h.2.1 k
  rw [h4] at hk
  have e : (1000 * (frameTimeLen plainConfig : ℚ) / plainConfig.rate)
      = 1000 * (1000 : ℚ) / 1000000 := by
    unfold frameTimeLen plainConfig advancedConfig; norm_num
  have e2 : (plainConfig.TIME_DELTA : ℚ) = 4 := by
    unfold plainConfig advancedConfig; norm_num
  rw [e, e2] at hk
  exact hk

/-! ### Cell lookup -/

theorem find_cell_first (agg : List Nat) (it : Nat) (n s : Nat) (cell : Int)
    (h : ∃ i, s ≤ i ∧ i < s + n ∧ it < agg.getD i 0) :
    ∃ i, s ≤ i ∧ i < s + n ∧ it < agg.getD i 0
      ∧ (∀ j, s ≤ j → j < i → ¬ it < agg.getD j 0)
      ∧ find_cell agg it (List.range' s n) cell = (i : Int) - 1 := by
  induction n generalizing s with
  | zero =>
    obtain ⟨i, h1, h2, _⟩ := h
    omega
  | succ n ih =>
    rw [List.range'_succ, find_cell]
    by_cases hs : it < agg.getD s 0
    · rw [if_pos hs]
      exact ⟨s, le_refl _, by omega, hs, fun j hj hlt => by omega, rfl⟩
    · rw [if_neg hs]
      obtain ⟨i, h1, h2, h3⟩ := h
      have hne : i ≠ s := by
        rintro rfl; exact hs h3
      obtain ⟨k, k1, k2, k3, k4, k5⟩ := ih (s + 1) ⟨i, by omega, by omega, h3⟩
      refine ⟨k, by omega, by omega, k3, ?_, k5⟩
      intro j hj hlt
      rcases Nat.eq_or_lt_of_le hj with rfl | hgt
      · exact hs
      · exact k4 j hgt hlt

/-- C13. Given the cumulative table `agg` of length `num_cells + 1` with `agg[0] = 0`,
`agg` non-decreasing and `agg[num_cells] = R` (`num_cells` and `R` being `size_t` values), for every global radio
id `it < R` the lookup loop sets `cell` to the unique `c < num_cells` with
`agg[c] ≤ it < agg[c+1]`, and `radio_id = it - agg[c]` is smaller than the number
`agg[c+1] - agg[c]` of radios of that cell, with `agg[cell] + radio_id = it`. -/
theorem cell_lookup (agg : List Nat) (num_cells R it : Nat) (cell₀ : Int)
    (hlen : agg.length = num_cells + 1) (h0 : agg.getD 0 0 = 0)
    (hmono : ∀ i j, i ≤ j → j ≤ num_cells → agg.getD i 0 ≤ agg.getD j 0)
    (hnc : num_cells < 2 ^ 64) (hR : agg.getD num_cells 0 = R) (hR64 : R < 2 ^ 64)
    (hit : it < R) :
    ∃ c : Nat, lookup_cell agg num_cells it cell₀ = (c : Int)
      ∧ c < num_cells ∧ c + 1 < agg.length
      ∧ agg.getD c 0 ≤ it ∧ it < agg.getD (c + 1) 0
      ∧ (∀ c', c' < num_cells → agg.getD c' 0 ≤ it → it < agg.getD (c' + 1) 0 → c' = c)
      ∧ local_radio_id agg it (lookup_cell agg num_cells it cell₀) = it - agg.getD c 0
      ∧ local_radio_id agg it (lookup_cell agg num_cells it cell₀)
          < agg.getD (c + 1) 0 - agg.getD c 0
      ∧ agg.getD c 0 + local_radio_id agg it (lookup_cell agg num_cells it cell₀) = it := by
  have hex : ∃ i, 0 ≤ i ∧ i < 0 + (num_cells + 1) ∧ it < agg.getD i 0 :=
    ⟨num_cells, Nat.zero_le _, by omega, by rw [hR]; exact hit⟩
  obtain ⟨i, _, hi2, hi3, hi4, hi5⟩ := find_cell_first agg it (num_cells + 1) 0 cell₀ hex
  have hi0 : i ≠ 0 := by
    rintro rfl
    rw [h0] at hi3
    omega
  obtain ⟨c, rfl⟩ : ∃ c, i = c + 1 := ⟨i - 1, by omega⟩
  have hcell : lookup_cell agg num_cells it cell₀ = (c : Int) := by
    rw [lookup_cell, List.range_eq_range', hi5]
    push_cast
    omega
  have hlo : agg.getD c 0 ≤ it := Nat.le_of_not_lt (hi4 c (Nat.zero_le _) (by omega))
  have hc64 : c < 2 ^ 64 := by omega
  have hrid : local_radio_id agg it (lookup_cell agg num_cells it cell₀)
      = it - agg.getD c 0 := by
    rw [hcell]
    unfold local_radio_id toSizeT
    have e1 : (((c : Int) % 2 ^ 64).toNat) = c := by omega
    rw [e1]
    omega
  refine ⟨c, hcell, by omega, by omega, hlo, hi3, ?_, hrid, ?_, ?_⟩
  · intro c' hc' hlo' hhi'
    by_contra hne
    rcases Nat.lt_or_gt_of_ne hne with hlt | hgt
    · have := hmono (c' + 1) c (by omega) (by omega)
      omega
    · have := hmono (c + 1) c' (by omega) (by omega)
      omega
  · rw [hrid]; omega
  · rw [hrid]; omega

/-- C13 on two cells of 3 and 2 radios (`agg = [0, 3, 5]`): radio 4 is radio 1 of
cell 1. -/
theorem cell_lookup_witness :
    lookup_cell [0, 3, 5] 2 4 0 = 1 ∧ local_radio_id [0, 3, 5] 4 (lookup_cell [0, 3, 5] 2 4 0) = 1
    ∧ (∃ c : Nat, lookup_cell [0, 3, 5] 2 4 0 = (c : Int) ∧ c < 2
        ∧ List.getD [0, 3, 5] c 0 + local_radio_id [0, 3, 5] 4 (lookup_cell [0, 3, 5] 2 4 0)
            = 4) := by
  refine ⟨by decide, by decide, ?_⟩
  obtain ⟨c, h1, h2, _, _, _, _, _, _, h8⟩ := cell_lookup [0, 3, 5] 2 5 4 0 rfl rfl
    (by
      intro i j hij hj
      have hj' : j = 0 ∨ j = 1 ∨ j = 2 := by omega
      have hi' : i = 0 ∨ i = 1 ∨ i = 2 := by omega
      rcases hj' with rfl | rfl | rfl <;> rcases hi' with rfl | rfl | rfl <;>
        first | decide | omega)
    (by decide) rfl (by decide) (by decide)
  exact ⟨c, h1, h2, h8⟩

/-! ### Antenna and slot remapping in hardware-framer mode -/

theorem mul_add_pair_inj (C b b' c c' : Nat) (hc : c < C) (hc' : c' < C)
    (h : b * C + c = b' * C + c') : b = b' ∧ c = c' := by
  have hC : 0 < C := by omega
  have h1 : (b * C + c) / C = b := by
    rw [Nat.mul_comm, Nat.mul_add_div hC, Nat.div_eq_of_lt hc, Nat.add_zero]
  have h2 : (b' * C + c') / C = b' := by
    rw [Nat.mul_comm, Nat.mul_add_div hC, Nat.div_eq_of_lt hc', Nat.add_zero]
  have hb : b = b' := by rw [← h1, ← h2, h]
  subst hb
  exact ⟨rfl, by omega⟩

theorem hw_stamp_nonref (cfg : BsConfig) (R r s : Nat)
    (him : cfg.internal_measurement = true) (hre : cfg.ref_node_enable = true)
    (hov : R * cfg.num_channels < 2 ^ 64) (hr : r < R) (hne : r ≠ cfg.cal_ref_sdr_id) :
    bs_remap cfg r s ((r * cfg.num_channels) % SIZE_MOD)
      = (1, if r < cfg.cal_ref_sdr_id then r * cfg.num_channels
            else (r - 1) * cfg.num_channels) := by
  have hle : r * cfg.num_channels ≤ R * cfg.num_channels :=
    Nat.mul_le_mul_right _ (le_of_lt hr)
  have hmod : (r * cfg.num_channels) % SIZE_MOD = r * cfg.num_channels :=
    Nat.mod_eq_of_lt (by unfold SIZE_MOD; omega)
  simp only [bs_remap, him, hre, Bool.and_self, if_true, if_neg hne, hmod]
  by_cases hlt : r < cfg.cal_ref_sdr_id
  · have hge : ¬ r ≥ cfg.cal_ref_sdr_id := by omega
    rw [if_neg hge, if_pos hlt]
  · have hge : r ≥ cfg.cal_ref_sdr_id := by omega
    rw [if_pos hge, if_neg hlt]
    have e : (r - 1) * cfg.num_channels + cfg.num_channels = r * cfg.num_channels := by
      have h1 : r - 1 + 1 = r := by omega
      calc (r - 1) * cfg.num_channels + cfg.num_channels
          = (r - 1 + 1) * cfg.num_channels := by rw [Nat.add_mul, Nat.one_mul]
        _ = r * cfg.num_channels := by rw [h1]
    congr 1
    unfold toSizeT
    omega

theorem hw_stamp_ref (cfg : BsConfig) (R s : Nat)
    (him : cfg.internal_measurement = true) (hre : cfg.ref_node_enable = true)
    (hov : R * cfg.num_channels < 2 ^ 64) (href : cfg.cal_ref_sdr_id < R) :
    bs_remap cfg cfg.cal_ref_sdr_id s ((cfg.cal_ref_sdr_id * cfg.num_channels) % SIZE_MOD)
      = (0, if s < cfg.cal_ref_sdr_id * cfg.num_channels then s
            else toSizeT ((s : Int) - (cfg.num_channels : Int))) := by
  have hle : cfg.cal_ref_sdr_id * cfg.num_channels ≤ R * cfg.num_channels :=
    Nat.mul_le_mul_right _ (le_of_lt href)
  have hmod : (cfg.cal_ref_sdr_id * cfg.num_channels) % SIZE_MOD
      = cfg.cal_ref_sdr_id * cfg.num_channels :=
    Nat.mod_eq_of_lt (by unfold SIZE_MOD; omega)
  simp only [bs_remap, him, hre, Bool.and_self, if_true, hmod]

theorem pair_lt_mul (C b c n : Nat) (hb : b < n) (hc : c < C) : b * C + c < n * C := by
  have h1 : (b + 1) * C ≤ n * C := Nat.mul_le_mul_right C hb
  rw [Nat.add_mul, Nat.one_mul] at h1
  omega

theorem hw_stamp_ant_nonref (cfg : BsConfig) (R r s c : Nat)
    (him : cfg.internal_measurement = true) (hre : cfg.ref_node_enable = true)
    (hov : R * cfg.num_channels < 2 ^ 64) (hr : r < R) (hne : r ≠ cfg.cal_ref_sdr_id) :
    hw_stamp_ant cfg r s c
      = (if r < cfg.cal_ref_sdr_id then r else r - 1) * cfg.num_channels + c := by
  rw [hw_stamp_ant, hw_stamp_nonref cfg R r s him hre hov hr hne]
  by_cases h : r < cfg.cal_ref_sdr_id
  · simp only [if_pos h]
  · simp only [if_neg h]

theorem hw_stamp_ant_ref (cfg : BsConfig) (R s : Nat)
    (him : cfg.internal_measurement = true) (hre : cfg.ref_node_enable = true)
    (hov : R * cfg.num_channels < 2 ^ 64) (href : cfg.cal_ref_sdr_id < R)
    (hs : s < cfg.cal_ref_sdr_id * cfg.num_channels ∨ cfg.num_channels ≤ s)
    (hs64 : s < 2 ^ 64) :
    hw_stamp_ant cfg cfg.cal_ref_sdr_id s 0
      = if s < cfg.cal_ref_sdr_id * cfg.num_channels then s else s - cfg.num_channels := by
  rw [hw_stamp_ant, hw_stamp_ref cfg R s him hre hov href]
  by_cases h : s < cfg.cal_ref_sdr_id * cfg.num_channels
  · simp only [if_pos h, Nat.add_zero]
  · simp only [if_neg h, Nat.add_zero]
    have hC : cfg.num_channels ≤ s := by
      rcases hs with h1 | h1
      · exact absurd h1 h
      · exact h1
    unfold toSizeT
    omega

/-- C19. Single cell, hardware-framer mode, reference-node measurement with reference id
`ref < R`, `C = num_channels`, `R * C` a `size_t` value. A non-reference radio `r` stamps
slot 1 and, on its `C` packets, the antenna ids `base + c` with `base = r*C` if `r < ref`
and `(r-1)*C` if `r > ref`; the reference radio stamps one packet with slot 0 and antenna
id `s` if its decoded slot `s < ref*C`, and `s - C` otherwise. The reference radio's
capture in slot `r*C + c` gets the antenna id of channel `c` of radio `r`; the
non-reference radio/channel pairs, and the slots `s < R*C` outside
`[ref*C, ref*C + C)`, are each mapped one-to-one onto `{0, ..., (R-1)*C - 1}`. -/
theorem ref_node_antenna_remap (cfg : BsConfig) (R : Nat)
    (him : cfg.internal_measurement = true) (hre : cfg.ref_node_enable = true)
    (hov : R * cfg.num_channels < 2 ^ 64) (href : cfg.cal_ref_sdr_id < R) :
    (∀ r s c, r < R → r ≠ cfg.cal_ref_sdr_id → c < cfg.num_channels →
        capture_num_packets cfg r = cfg.num_channels
        ∧ hw_stamp_slot cfg r s = 1
        ∧ hw_stamp_ant cfg r s c
            = (if r < cfg.cal_ref_sdr_id then r * cfg.num_channels
               else (r - 1) * cfg.num_channels) + c
        ∧ hw_stamp_ant cfg r s c < (R - 1) * cfg.num_channels)
    ∧ (∀ s, s < 2 ^ 64 →
        capture_num_packets cfg cfg.cal_ref_sdr_id = 1
        ∧ hw_stamp_slot cfg cfg.cal_ref_sdr_id s = 0
        ∧ (s < cfg.cal_ref_sdr_id * cfg.num_channels →
            hw_stamp_ant cfg cfg.cal_ref_sdr_id s 0 = s)
        ∧ (cfg.cal_ref_sdr_id * cfg.num_channels ≤ s → cfg.num_channels ≤ s →
            hw_stamp_ant cfg cfg.cal_ref_sdr_id s 0 = s - cfg.num_channels))
    ∧ (∀ r s c, r < R → r ≠ cfg.cal_ref_sdr_id → c < cfg.num_channels →
        hw_stamp_ant cfg cfg.cal_ref_sdr_id (r * cfg.num_channels + c) 0
          = hw_stamp_ant cfg r s c)
    ∧ (∀ r r' s s' c c', r < R → r' < R → r ≠ cfg.cal_ref_sdr_id → r' ≠ cfg.cal_ref_sdr_id →
        c < cfg.num_channels → c' < cfg.num_channels →
        hw_stamp_ant cfg r s c = hw_stamp_ant cfg r' s' c' → r = r' ∧ c = c')
    ∧ (∀ a, a < (R - 1) * cfg.num_channels →
        ∃ r c, r < R ∧ r ≠ cfg.cal_ref_sdr_id ∧ c < cfg.num_channels
          ∧ ∀ s, hw_stamp_ant cfg r s c = a)
    ∧ (∀ s, s < R * cfg.num_channels →
        ¬ (cfg.cal_ref_sdr_id * cfg.num_channels ≤ s
            ∧ s < cfg.cal_ref_sdr_id * cfg.num_channels + cfg.num_channels) →
        hw_stamp_ant cfg cfg.cal_ref_sdr_id s 0 < (R - 1) * cfg.num_channels)
    ∧ (∀ s s', s < R * cfg.num_channels → s' < R * cfg.num_channels →
        ¬ (cfg.cal_ref_sdr_id * cfg.num_channels ≤ s
            ∧ s < cfg.cal_ref_sdr_id * cfg.num_channels + cfg.num_channels) →
        ¬ (cfg.cal_ref_sdr_id * cfg.num_channels ≤ s'
            ∧ s' < cfg.cal_ref_sdr_id * cfg.num_channels + cfg.num_channels) →
        hw_stamp_ant cfg cfg.cal_ref_sdr_id s 0 = hw_stamp_ant cfg cfg.cal_ref_sdr_id s' 0 →
        s = s')
    ∧ (∀ a, a < (R - 1) * cfg.num_channels →
        ∃ s, s < R * cfg.num_channels
          ∧ ¬ (cfg.cal_ref_sdr_id * cfg.num_channels ≤ s
              ∧ s < cfg.cal_ref_sdr_id * cfg.num_channels + cfg.num_channels)
          ∧ hw_stamp_ant cfg cfg.cal_ref_sdr_id s 0 = a) := by
  have hmode : (cfg.internal_measurement && cfg.ref_node_enable) = true := by
    rw [him, hre]; rfl
  have hRC : (R - 1) * cfg.num_channels + cfg.num_channels = R * cfg.num_channels := by
    have h1 : R - 1 + 1 = R := by omega
    calc (R - 1) * cfg.num_channels + cfg.num_channels
        = (R - 1 + 1) * cfg.num_channels := by rw [Nat.add_mul, Nat.one_mul]
      _ = R * cfg.num_channels := by rw [h1]
  have hrefC : cfg.cal_ref_sdr_id * cfg.num_channels ≤ (R - 1) * cfg.num_channels :=
    Nat.mul_le_mul_right _ (by omega)
  have hant := fun r s c (hr : r < R) (hne : r ≠ cfg.cal_ref_sdr_id) =>
    hw_stamp_ant_nonref cfg R r s c him hre hov hr hne
  have hrefant := fun s hs hs64 => hw_stamp_ant_ref cfg R s him hre hov href hs hs64
  have hout : ∀ s, s < R * cfg.num_channels →
      ¬ (cfg.cal_ref_sdr_id * cfg.num_channels ≤ s
          ∧ s < cfg.cal_ref_sdr_id * cfg.num_channels + cfg.num_channels) →
      hw_stamp_ant cfg cfg.cal_ref_sdr_id s 0
        = if s < cfg.cal_ref_sdr_id * cfg.num_channels then s else s - cfg.num_channels := by
    intro s hs ho
    exact hrefant s (by omega) (by omega)
  refine ⟨?_, ?_, ?_, ?_, ?_, ?_, ?_, ?_⟩
  · intro r s c hr hne hc
    refine ⟨?_, ?_, ?_, ?_⟩
    · have hd : decide (r = cfg.cal_ref_sdr_id) = false := decide_eq_false hne
      simp [capture_num_packets, hd]
    · rw [hw_stamp_slot, hw_stamp_nonref cfg R r s him hre hov hr hne]
    · rw [hant r s c hr hne]
      by_cases h : r < cfg.cal_ref_sdr_id
      · simp only [if_pos h]
      · simp only [if_neg h]
    · rw [hant r s c hr hne]
      apply pair_lt_mul _ _ _ _ _ hc
      by_cases h : r < cfg.cal_ref_sdr_id
      · rw [if_pos h]; omega
      · rw [if_neg h]; omega
  · intro s hs64
    refine ⟨?_, ?_, ?_, ?_⟩
    · simp [capture_num_packets, him, hre]
    · rw [hw_stamp_slot, hw_stamp_ref cfg R s him hre hov href]
    · intro h
      rw [hrefant s (Or.inl h) hs64, if_pos h]
    · intro h hC
      rw [hrefant s (Or.inr hC) hs64, if_neg (by omega)]
  · intro r s c hr hne hc
    rw [hant r s c hr hne]
    have h64 : r * cfg.num_channels + c < 2 ^ 64 := by
      have := pair_lt_mul cfg.num_channels r c R hr hc
      omega
    by_cases h : r < cfg.cal_ref_sdr_id
    · have hlt : r * cfg.num_channels + c < cfg.cal_ref_sdr_id * cfg.num_channels :=
        pair_lt_mul _ _ _ _ h hc
      rw [hrefant _ (Or.inl hlt) h64, if_pos hlt, if_pos h]
    · have hgt : cfg.cal_ref_sdr_id + 1 ≤ r := by omega
      have h1 : (cfg.cal_ref_sdr_id + 1) * cfg.num_channels ≤ r * cfg.num_channels :=
        Nat.mul_le_mul_right _ hgt
      rw [Nat.add_mul, Nat.one_mul] at h1
      have h2 : (r - 1) * cfg.num_channels + cfg.num_channels = r * cfg.num_channels := by
        have h3 : r - 1 + 1 = r := by omega
        calc (r - 1) * cfg.num_channels + cfg.num_channels
            = (r - 1 + 1) * cfg.num_channels := by rw [Nat.add_mul, Nat.one_mul]
          _ = r * cfg.num_channels := by rw [h3]
      rw [hrefant _ (Or.inr (by omega)) h64, if_neg (by omega), if_neg h]
      omega
  · intro r r' s s' c c' hr hr' hne hne' hc hc' heq
    rw [hant r s c hr hne, hant r' s' c' hr' hne'] at heq
    obtain ⟨hb, hcc⟩ := mul_add_pair_inj _ _ _ _ _ hc hc' heq
    refine ⟨?_, hcc⟩
    by_cases h : r < cfg.cal_ref_sdr_id <;> by_cases h' : r' < cfg.cal_ref_sdr_id
    · rw [if_pos h, if_pos h'] at hb; exact hb
    · rw [if_pos h, if_neg h'] at hb; omega
    · rw [if_neg h, if_pos h'] at hb; omega
    · rw [if_neg h, if_neg h'] at hb; omega
  · intro a ha
    have hC : 0 < cfg.num_channels := by
      rcases Nat.eq_zero_or_pos cfg.num_channels with h0 | hp
      · rw [h0] at ha; omega
      · exact hp
    have hb : a / cfg.num_channels < R - 1 := (Nat.div_lt_iff_lt_mul hC).mpr ha
    have hc : a % cfg.num_channels < cfg.num_channels := Nat.mod_lt _ hC
    have hdm : a / cfg.num_channels * cfg.num_channels + a % cfg.num_channels = a := by
      rw [Nat.mul_comm]; exact Nat.div_add_mod a cfg.num_channels
    by_cases h : a / cfg.num_channels < cfg.cal_ref_sdr_id
    · refine ⟨a / cfg.num_channels, a % cfg.num_channels, by omega, by omega, hc, ?_⟩
      intro s
      rw [hant _ s _ (by omega) (by omega), if_pos h, hdm]
    · refine ⟨a / cfg.num_channels + 1, a % cfg.num_channels, by omega, by omega, hc, ?_⟩
      intro s
      rw [hant _ s _ (by omega) (by omega), if_neg (by omega), Nat.add_sub_cancel, hdm]
  · intro s hs ho
    rw [hout s hs ho]
    by_cases h : s < cfg.cal_ref_sdr_id * cfg.num_channels
    · rw [if_pos h]; omega
    · rw [if_neg h]; omega
  · intro s s' hs hs' ho ho' heq
    rw [hout s hs ho, hout s' hs' ho'] at heq
    by_cases h : s < cfg.cal_ref_sdr_id * cfg.num_channels <;>
      by_cases h' : s' < cfg.cal_ref_sdr_id * cfg.num_channels
    · rw [if_pos h, if_pos h'] at heq; exact heq
    · rw [if_pos h, if_neg h'] at heq; omega
    · rw [if_neg h, if_pos h'] at heq; omega
    · rw [if_neg h, if_neg h'] at heq; omega
  · intro a ha
    by_cases h : a < cfg.cal_ref_sdr_id * cfg.num_channels
    · have ho : ¬ (cfg.cal_ref_sdr_id * cfg.num_channels ≤ a
          ∧ a < cfg.cal_ref_sdr_id * cfg.num_channels + cfg.num_channels) := by omega
      refine ⟨a, by omega, ho, ?_⟩
      rw [hout a (by omega) ho, if_pos h]
    · have ho : ¬ (cfg.cal_ref_sdr_id * cfg.num_channels ≤ a + cfg.num_channels
          ∧ a + cfg.num_channels
              < cfg.cal_ref_sdr_id * cfg.num_channels + cfg.num_channels) := by omega
      refine ⟨a + cfg.num_channels, by omega, ho, ?_⟩
      rw [hout _ (by omega) ho, if_neg (by omega), Nat.add_sub_cancel]

/-- C19 with 3 radios of 2 channels and reference radio 1: radio 2 stamps antennas 2 and 3
in slot 1, and the reference radio's captures in slots 4 and 5 get the same antenna
ids. -/
theorem ref_node_antenna_remap_witness :
    hw_stamp_slot refNodeConfig 2 7 = 1
    ∧ hw_stamp_ant refNodeConfig 2 7 0 = 2 ∧ hw_stamp_ant refNodeConfig 2 7 1 = 3
    ∧ hw_stamp_slot refNodeConfig 1 5 = 0
    ∧ hw_stamp_ant refNodeConfig 1 (2 * 2 + 1) 0 = hw_stamp_ant refNodeConfig 2 7 1 :=
  ⟨by decide, by decide, by decide, by decide,
    (ref_node_antenna_remap refNodeConfig 3 rfl rfl (by decide) (by decide)).2.2.1
      2 7 1 (by decide) (by decide) (by decide)⟩

theorem hw_stamp_slot_guard (cfg : BsConfig) (r k j : Nat)
    (him : cfg.internal_measurement = true) (hre : cfg.ref_node_enable = false)
    (hG : 1 ≤ cfg.guard_mult) (hC : 1 ≤ cfg.num_channels) (hj : j < cfg.num_channels)
    (hGC : cfg.guard_mult * cfg.num_channels < 2 ^ 64) :
    hw_stamp_slot cfg r (cfg.guard_mult * cfg.num_channels * k + j)
      = toSizeT (((cfg.guard_mult * cfg.num_channels * k + j : Nat) : Int)
          - ((cfg.guard_mult : Int) - 1) * 2 * (k : Int)) := by
  have hpos : 0 < cfg.guard_mult * cfg.num_channels := Nat.mul_pos hG hC
  have hjlt : j < cfg.guard_mult * cfg.num_channels :=
    lt_of_lt_of_le hj (Nat.le_mul_of_pos_left _ hG)
  have hadv : (cfg.guard_mult * cfg.num_channels * k + j) / (cfg.guard_mult * cfg.num_channels)
      = k := by
    rw [Nat.mul_add_div hpos, Nat.div_eq_of_lt hjlt, Nat.add_zero]
  simp only [hw_stamp_slot, bs_remap, him, hre, Bool.and_false, Bool.false_eq_true, if_false,
    Bool.not_false, Bool.and_self, if_true, SIZE_MOD, Nat.mod_eq_of_lt hGC, hadv]

/-- Guard compression as the code has it, for two channels per radio: the decoded slot
`G*2*k + j` (`j < 2`) is mapped to `2*k + j`. -/
theorem guard_compression_two_channels (cfg : BsConfig) (r k j : Nat)
    (him : cfg.internal_measurement = true) (hre : cfg.ref_node_enable = false)
    (hG : 1 ≤ cfg.guard_mult) (hC : cfg.num_channels = 2) (hj : j < 2)
    (hG2 : cfg.guard_mult * 2 < 2 ^ 64) (h64 : cfg.guard_mult * 2 * k + j < 2 ^ 64) :
    hw_stamp_slot cfg r (cfg.guard_mult * 2 * k + j) = 2 * k + j := by
  have hGk : cfg.guard_mult * 2 * k = 2 * k + (cfg.guard_mult - 1) * 2 * k := by
    have h1 : cfg.guard_mult = 1 + (cfg.guard_mult - 1) := by omega
    calc cfg.guard_mult * 2 * k = (1 + (cfg.guard_mult - 1)) * 2 * k := by rw [← h1]
      _ = 2 * k + (cfg.guard_mult - 1) * 2 * k := by ring
  have h := hw_stamp_slot_guard cfg r k j him hre hG (by omega) (by omega)
    (by rw [hC]; exact hG2)
  rw [hC] at h
  rw [h]
  unfold toSizeT
  have hcast : (((cfg.guard_mult * 2 * k + j : Nat) : Int)
      - ((cfg.guard_mult : Int) - 1) * 2 * (k : Int)) = ((2 * k + j : Nat) : Int) := by
    have h2 : ((cfg.guard_mult - 1 : Nat) : Int) = (cfg.guard_mult : Int) - 1 := by omega
    rw [hGk]
    push_cast
    rw [h2]
    ring
  rw [hcast]
  have : 2 * k + j < 2 ^ 64 := by omega
  omega

/-- C20 (the code at the failing input): with guard multiple `G = 2` and one channel per
radio (`C = 1`), the decoded slot `G*C*1 + 0 = 2` is mapped to 0, not to `C*1 + 0 = 1`,
and so collides with the decoded slot 0. -/
theorem guard_compression_failing_input :
    guardConfig.guard_mult = 2 ∧ guardConfig.num_channels = 1
    ∧ hw_stamp_slot guardConfig 0 (2 * 1 * 1 + 0) = 0
    ∧ hw_stamp_slot guardConfig 0 (2 * 1 * 1 + 0) ≠ 1 * 1 + 0
    ∧ hw_stamp_slot guardConfig 0 (2 * 1 * 1 + 0) = hw_stamp_slot guardConfig 0 (2 * 1 * 0 + 0) := by
  decide

/-! ### Burst flags -/

theorem ul_flags_eq (cfg : Config) (n s : Nat) (hn : 1 ≤ n) (h64 : n < 2 ^ 64) :
    ul_flags cfg n s
      = if cfg.kUseUHD = true ∧ s + 1 < n then StreamFlag.kStreamContinuous
        else StreamFlag.kStreamEndBurst := by
  have hm : (n + SIZE_MOD - 1) % SIZE_MOD = n - 1 := by
    unfold SIZE_MOD; omega
  unfold ul_flags
  rw [hm]
  by_cases hu : cfg.kUseUHD = true <;> by_cases hs : s + 1 < n
  · have h1 : s < n - 1 := by omega
    simp [hu, hs, h1]
  · have h1 : ¬ s < n - 1 := by omega
    simp [hu, hs, h1]
  · simp [hu]
  · simp [hu]

theorem burst_flag_list (cfg : Config) (n : Nat) (hn : 1 ≤ n) (h64 : n < 2 ^ 64) :
    (List.range n).map (ul_flags cfg n)
      = if cfg.kUseUHD = true then
          List.replicate (n - 1) StreamFlag.kStreamContinuous ++ [StreamFlag.kStreamEndBurst]
        else List.replicate n StreamFlag.kStreamEndBurst := by
  by_cases hu : cfg.kUseUHD = true
  · rw [if_pos hu]
    obtain ⟨m, rfl⟩ : ∃ m, n = m + 1 := ⟨n - 1, by omega⟩
    rw [List.range_succ, List.map_append, Nat.add_sub_cancel]
    congr 1
    · rw [List.eq_replicate_iff]
      refine ⟨by simp, ?_⟩
      intro f hf
      obtain ⟨s, hs, rfl⟩ := List.mem_map.mp hf
      rw [ul_flags_eq cfg (m + 1) s hn h64, if_pos ⟨hu, by have := List.mem_range.mp hs; omega⟩]
    · simp only [List.map_cons, List.map_nil]
      rw [ul_flags_eq cfg (m + 1) m hn h64, if_neg (by omega)]
  · rw [if_neg hu, List.eq_replicate_iff]
    refine ⟨by simp, ?_⟩
    intro f hf
    obtain ⟨s, _, rfl⟩ := List.mem_map.mp hf
    rw [ul_flags_eq cfg n s hn h64, if_neg (fun h => hu h.1)]

theorem filterMap_some_eq_map {α β : Type} (f : α → β) (l : List α) :
    l.filterMap (fun x => some (f x)) = l.map f := by
  induction l with
  | nil => rfl
  | cons a l ih => simp [List.filterMap_cons, ih]

theorem ul_tx_flags_client (cfg : Config) (rxTime : Int)
    (hul : cfg.ul_data_slot_present = true) :
    ul_tx_flags (client_tx_events cfg rxTime)
      = (List.range cfg.cl_ul_slots.length).map (ul_flags cfg cfg.cl_ul_slots.length) := by
  unfold ul_tx_flags client_tx_events
  rw [hul]
  by_cases h2 : cfg.cl_sdr_ch = 2
  · simp [h2, List.filterMap_append, List.filterMap_map, Function.comp_def]
    exact filterMap_some_eq_map _ _
  · simp [h2, List.filterMap_append, List.filterMap_map, Function.comp_def]
    exact filterMap_some_eq_map _ _

theorem dl_tx_flags_bs (cfg : BsConfig) (tid radio_id : Nat) (cell : Int) (rxTimeBs : Int)
    (hdl : cfg.dl_data_slot_present = true) :
    dl_tx_flags (bs_tx_events cfg tid radio_id cell rxTimeBs)
      = (List.range cfg.dl_slot_per_frame).map (ul_flags cfg.toConfig cfg.dl_slot_per_frame) := by
  unfold dl_tx_flags bs_tx_events
  rw [hdl]
  simp [List.filterMap_append, List.filterMap_map, Function.comp_def]
  exact filterMap_some_eq_map _ _

/-- C16. For every number `n ≥ 1` (a `size_t` value) of data slots transmitted in a frame,
uplink slots in `clientSyncTxRx` and downlink slots in `loopRecv`, the flags passed to the
`n` transmit calls are, when `kUseUHD` is true, `kStreamContinuous` for slots `0..n-2` and
`kStreamEndBurst` for slot `n-1`, and when `kUseUHD` is false, `kStreamEndBurst` for every
slot. -/
theorem burst_flags (cfg : BsConfig) (tid radio_id n : Nat) (cell : Int)
    (rxTime rxTimeBs : Int) (hn : 1 ≤ n) (h64 : n < 2 ^ 64) :
    (cfg.ul_data_slot_present = true → cfg.cl_ul_slots.length = n →
        ul_tx_flags (client_tx_events cfg.toConfig rxTime)
          = if cfg.kUseUHD = true then
              List.replicate (n - 1) StreamFlag.kStreamContinuous
                ++ [StreamFlag.kStreamEndBurst]
            else List.replicate n StreamFlag.kStreamEndBurst)
    ∧ (cfg.dl_data_slot_present = true → cfg.dl_slot_per_frame = n →
        dl_tx_flags (bs_tx_events cfg tid radio_id cell rxTimeBs)
          = if cfg.kUseUHD = true then
              List.replicate (n - 1) StreamFlag.kStreamContinuous
                ++ [StreamFlag.kStreamEndBurst]
            else List.replicate n StreamFlag.kStreamEndBurst) := by
  constructor
  · intro hul hlen
    rw [ul_tx_flags_client cfg.toConfig rxTime hul, hlen]
    exact burst_flag_list cfg.toConfig n hn h64
  · intro hdl hlen
    rw [dl_tx_flags_bs cfg tid radio_id cell rxTimeBs hdl, hlen]
    exact burst_flag_list cfg.toConfig n hn h64

/-- C16 with three data slots per frame under `kUseUHD`: continuous, continuous,
end-of-burst, for the uplink and for the downlink. -/
theorem burst_flags_witness :
    ul_tx_flags (client_tx_events dataConfig.toConfig 0)
        = [StreamFlag.kStreamContinuous, StreamFlag.kStreamContinuous,
           StreamFlag.kStreamEndBurst]
    ∧ dl_tx_flags (bs_tx_events dataConfig 0 0 0 0)
        = [StreamFlag.kStreamContinuous, StreamFlag.kStreamContinuous,
           StreamFlag.kStreamEndBurst] :=
  ⟨((burst_flags dataConfig 0 0 3 0 0 0 (by decide) (by decide)).1 rfl rfl).trans rfl,
    ((burst_flags dataConfig 0 0 3 0 0 0 (by decide) (by decide)).2 rfl rfl).trans rfl⟩

/-! ### Base-station loop: the events of a capture -/

theorem bs_claims_spec (base : Nat) (chs : List Nat) (s : BsState) :
    ∃ k, k ≤ chs.length
      ∧ (bs_claims base chs s).trace = s.trace ++ bs_claim_events base (chs.take k)
      ∧ (bs_claims base chs s).locals = s.locals
      ∧ (bs_claims base chs s).cursor = s.cursor
      ∧ (((bs_claims base chs s).thrown = s.thrown ∧ k = chs.length)
          ∨ ((bs_claims base chs s).thrown = some BUFFER_FULL ∧ 1 ≤ k)) := by
  induction chs generalizing s with
  | nil =>
    exact ⟨0, le_refl _, by simp [bs_claims, bs_claim_events], rfl, rfl, Or.inl ⟨rfl, rfl⟩⟩
  | cons ch rest ih =>
    simp only [bs_claims]
    have hthr := claim_thrown s.inuse (base + ch)
    split
    · rename_i e he
      refine ⟨1, by simp, by simp [bs_claim_events], rfl, rfl, Or.inr ⟨?_, le_refl _⟩⟩
      rw [he] at hthr
      by_cases hu : slot_in_use s.inuse (base + ch) = true
      · rw [if_pos hu] at hthr
        simp only [hthr]
      · rw [if_neg hu] at hthr
        exact absurd hthr (by simp)
    · obtain ⟨k, hk, htr, hloc, hcur, hcase⟩ := ih
        { s with inuse := (claim s.inuse (base + ch)).inuse,
                 trace := s.trace ++ [BsEvent.claim (base + ch)] }
      refine ⟨k + 1, by simp; omega, ?_, ?_, ?_, ?_⟩
      · rw [htr]
        simp [bs_claim_events]
      · rw [hloc]; rfl
      · rw [hcur]
      · rcases hcase with ⟨h1, h2⟩ | ⟨h1, h2⟩
        · exact Or.inl ⟨h1, by simp [h2]⟩
        · exact Or.inr ⟨h1, by omega⟩

theorem bs_stamps_spec (cfg : BsConfig) (tid : Nat) (inp : BsInput) (it base : Nat)
    (chs : List Nat) (s : BsState) :
    ∃ m, m ≤ chs.length
      ∧ (bs_stamps cfg tid inp it base chs s).trace
          = s.trace ++ bs_stamp_events cfg tid base s.frame_id s.slot_id s.cell s.ant_id
              (chs.take m) s.cursor
      ∧ (bs_stamps cfg tid inp it base chs s).locals = s.locals
      ∧ (((bs_stamps cfg tid inp it base chs s).thrown = s.thrown ∧ m = chs.length)
          ∨ ((bs_stamps cfg tid inp it base chs s).thrown = some ENQUEUE_FAILED ∧ 1 ≤ m)) := by
  induction chs generalizing s with
  | nil =>
    exact ⟨0, le_refl _, by simp [bs_stamps, bs_stamp_events], rfl, Or.inl ⟨rfl, rfl⟩⟩
  | cons ch rest ih =>
    simp only [bs_stamps]
    split
    · obtain ⟨m, hm, htr, hloc, hcase⟩ := ih
        { s with
          trace := s.trace ++
            [BsEvent.stamp (base + ch) s.frame_id s.slot_id s.cell (s.ant_id + ch),
             BsEvent.enqueue (s.ant_id + ch) (s.cursor + tid * cfg.buffer_chunk_size)],
          cursor := advance_cursor cfg.buffer_chunk_size s.cursor }
      refine ⟨m + 1, by simp; omega, ?_, ?_, ?_⟩
      · rw [htr]
        simp [bs_stamp_events]
      · rw [hloc]; rfl
      · rcases hcase with ⟨h1, h2⟩ | ⟨h1, h2⟩
        · exact Or.inl ⟨h1, by simp [h2]⟩
        · exact Or.inr ⟨h1, by omega⟩
    · exact ⟨1, by simp, by simp [bs_stamp_events], rfl, Or.inr ⟨rfl, le_refl _⟩⟩

theorem bs_capture_spec (cfg : BsConfig) (tid : Nat) (inp : BsInput) (it : Nat) (s : BsState)
    (hs : s.thrown = none) :
    ((bs_capture cfg tid inp it s).2 = true
      ∧ (bs_capture cfg tid inp it s).1.thrown = some BUFFER_FULL
      ∧ (bs_capture cfg tid inp it s).1.running = s.running
      ∧ ∃ k, 1 ≤ k ∧ k ≤ (bs_capture_chs cfg it s).length
          ∧ (bs_capture cfg tid inp it s).1.trace
              = s.trace ++ bs_claim_events s.cursor ((bs_capture_chs cfg it s).take k))
    ∨ (inp.rx_ret it < 0
      ∧ (bs_capture cfg tid inp it s).2 = true
      ∧ (bs_capture cfg tid inp it s).1.thrown = none
      ∧ (bs_capture cfg tid inp it s).1.running = false
      ∧ (bs_capture cfg tid inp it s).1.trace
          = s.trace ++ bs_claim_events s.cursor (bs_capture_chs cfg it s)
              ++ [BsEvent.rx (bs_capture_radio cfg it s) (bs_capture_cell cfg it s)])
    ∨ (0 ≤ inp.rx_ret it
      ∧ (bs_capture cfg tid inp it s).1.running = s.running
      ∧ (bs_capture cfg tid inp it s).1.exited = s.exited
      ∧ (bs_capture cfg tid inp it s).1.frame_id
          = (bs_capture_coords cfg inp it s (bs_capture_radio cfg it s)).1
      ∧ (bs_capture cfg tid inp it s).1.slot_id
          = (bs_capture_coords cfg inp it s (bs_capture_radio cfg it s)).2.1
      ∧ ∃ m, m ≤ (bs_capture_chs cfg it s).length
          ∧ (bs_capture cfg tid inp it s).1.trace
              = s.trace ++ bs_claim_events s.cursor (bs_capture_chs cfg it s)
                  ++ [BsEvent.rx (bs_capture_radio cfg it s) (bs_capture_cell cfg it s)]
                  ++ bs_capture_tx cfg tid (bs_capture_radio cfg it s)
                      (bs_capture_cell cfg it s) s.slot_id (inp.rx_time it)
                  ++ bs_stamp_events cfg tid s.cursor
                      (bs_capture_coords cfg inp it s (bs_capture_radio cfg it s)).1
                      (bs_capture_coords cfg inp it s (bs_capture_radio cfg it s)).2.1
                      (bs_capture_cell cfg it s)
                      (bs_capture_coords cfg inp it s (bs_capture_radio cfg it s)).2.2
                      ((bs_capture_chs cfg it s).take m) s.cursor
          ∧ (((bs_capture cfg tid inp it s).1.thrown = none
                ∧ m = (bs_capture_chs cfg it s).length
                ∧ (bs_capture cfg tid inp it s).2 = false)
              ∨ ((bs_capture cfg tid inp it s).1.thrown = some ENQUEUE_FAILED
                ∧ (bs_capture cfg tid inp it s).2 = true ∧ 1 ≤ m))) := by
  have hspec := bs_claims_spec s.cursor (bs_capture_chs cfg it s)
    { s with cell := bs_capture_cell cfg it s,
             inuse := (inp.released it).foldl release s.inuse }
  unfold bs_capture
  simp only [bs_capture_coords, bs_capture_tx, bs_capture_chs, bs_capture_radio,
    bs_capture_cell] at hspec ⊢
  generalize lookup_cell cfg.n_bs_sdrs_agg cfg.num_cells it s.cell = cell at hspec ⊢
  generalize local_radio_id cfg.n_bs_sdrs_agg it cell = rid at hspec ⊢
  generalize capture_num_packets cfg rid = n at hspec ⊢
  generalize bs_claims s.cursor (List.range n)
    { s with cell := cell, inuse := (inp.released it).foldl release s.inuse } = s1 at hspec ⊢
  obtain ⟨k, hk, hctr, hcloc, hccur, hccase⟩ := hspec
  simp only [BsState.locals, Prod.mk.injEq] at hcloc
  obtain ⟨c1, c2, c3, c4, c5, c6, c7⟩ := hcloc
  rcases hccase with ⟨hthr, hkn⟩ | ⟨hthr, hk1⟩
  · have hnone : s1.thrown = none := hthr.trans hs
    have hsome : s1.thrown.isSome = false := by rw [hnone]; rfl
    have htake : (List.range n).take k = List.range n := by
      rw [hkn]; exact List.take_length _
    rw [htake] at hctr
    right
    simp only [hsome, Bool.false_eq_true, if_false]
    by_cases hrx : inp.rx_ret it < 0
    · left
      by_cases hmode : (!cfg.kUseUHD && cfg.bs_hw_framer) = true
      · simp only [hmode, if_true, if_pos hrx]
        exact ⟨hrx, trivial, hnone, trivial, by rw [hctr]⟩
      · simp only [hmode, Bool.false_eq_true, if_false, if_pos hrx]
        exact ⟨hrx, trivial, hnone, trivial, by rw [hctr]⟩
    · right
      have hge : 0 ≤ inp.rx_ret it := not_lt.mp hrx
      by_cases hmode : (!cfg.kUseUHD && cfg.bs_hw_framer) = true
      · simp only [hmode, if_true, if_neg hrx]
        obtain ⟨m, hm, htr, hloc, hcase⟩ := bs_stamps_spec cfg tid inp it s.cursor
          (List.range n)
          { s1 with
            ant_id := (bs_remap cfg rid (decode_slot_id (inp.rx_time it))
              ((rid * cfg.num_channels) % SIZE_MOD)).2
            trace := s1.trace ++ [BsEvent.rx rid cell]
            frame_id := decode_frame_id (inp.rx_time it)
            slot_id := (bs_remap cfg rid (decode_slot_id (inp.rx_time it))
              ((rid * cfg.num_channels) % SIZE_MOD)).1 }
        simp only [BsState.locals, Prod.mk.injEq] at hloc
        obtain ⟨l1, l2, l3, l4, _, _, _⟩ := hloc
        refine ⟨hge, l1.trans c1, l2.trans c2, l3, l4, m, hm, ?_, ?_⟩
        · rw [htr, hctr, hccur, c6]
          simp
        · rcases hcase with ⟨h1, h2⟩ | ⟨h1, h2⟩
          · exact Or.inl ⟨h1.trans hnone, h2, by rw [h1, hnone]; rfl⟩
          · exact Or.inr ⟨h1, by rw [h1]; rfl, h2⟩
      · simp only [hmode, Bool.false_eq_true, if_false, if_neg hrx]
        by_cases hz : s.slot_id = 0
        · have hz1 : s1.slot_id = 0 := c4.trans hz
          simp only [eq_true hz1, eq_true hz, if_true]
          obtain ⟨m, hm, htr, hloc, hcase⟩ := bs_stamps_spec cfg tid inp it s.cursor
            (List.range n)
            { s1 with
              ant_id := (rid * cfg.num_channels) % SIZE_MOD
              trace := s1.trace ++ [BsEvent.rx rid cell]
                ++ bs_tx_events cfg tid rid cell (inp.rx_time it)
              rxTimeBs := inp.rx_time it }
          simp only [BsState.locals, Prod.mk.injEq] at hloc
          obtain ⟨l1, l2, l3, l4, _, _, _⟩ := hloc
          refine ⟨hge, l1.trans c1, l2.trans c2, l3.trans c3, l4.trans c4, m, hm, ?_, ?_⟩
          · rw [htr, hctr, hccur, c6, c3, c4]
          · rcases hcase with ⟨h1, h2⟩ | ⟨h1, h2⟩
            · exact Or.inl ⟨h1.trans hnone, h2, by rw [h1, hnone]; rfl⟩
            · exact Or.inr ⟨h1, by rw [h1]; rfl, h2⟩
        · have hz1 : ¬ s1.slot_id = 0 := by rw [c4]; exact hz
          simp only [eq_false hz1, eq_false hz, if_false]
          obtain ⟨m, hm, htr, hloc, hcase⟩ := bs_stamps_spec cfg tid inp it s.cursor
            (List.range n)
            { s1 with
              ant_id := (rid * cfg.num_channels) % SIZE_MOD
              trace := s1.trace ++ [BsEvent.rx rid cell]
              rxTimeBs := inp.rx_time it }
          simp only [BsState.locals, Prod.mk.injEq] at hloc
          obtain ⟨l1, l2, l3, l4, _, _, _⟩ := hloc
          refine ⟨hge, l1.trans c1, l2.trans c2, l3.trans c3, l4.trans c4, m, hm, ?_, ?_⟩
          · rw [htr, hctr, hccur, c6, c3, c4]
            simp
          · rcases hcase with ⟨h1, h2⟩ | ⟨h1, h2⟩
            · exact Or.inl ⟨h1.trans hnone, h2, by rw [h1, hnone]; rfl⟩
            · exact Or.inr ⟨h1, by rw [h1]; rfl, h2⟩
  · left
    have hsome : s1.thrown.isSome = true := by rw [hthr]; rfl
    simp only [hsome, if_true]
    exact ⟨trivial, hthr, c1, k, hk1, hk, hctr⟩

/-! ### Client loop: the events of a capture -/

theorem client_claims_spec (base : Nat) (chs : List Nat) (s : ClientState) :
    ∃ k, k ≤ chs.length
      ∧ (client_claims base chs s).trace = s.trace ++ client_claim_events base (chs.take k)
      ∧ (client_claims base chs s).locals = s.locals
      ∧ (client_claims base chs s).buffer_offset = s.buffer_offset
      ∧ (((client_claims base chs s).thrown = s.thrown ∧ k = chs.length)
          ∨ ((client_claims base chs s).thrown = some BUFFER_FULL ∧ 1 ≤ k)) := by
  induction chs generalizing s with
  | nil =>
    exact ⟨0, le_refl _, by simp [client_claims, client_claim_events], rfl, rfl,
      Or.inl ⟨rfl, rfl⟩⟩
  | cons ch rest ih =>
    simp only [client_claims]
    have hthr := claim_thrown s.inuse (base + ch)
    split
    · rename_i e he
      refine ⟨1, by simp, by simp [client_claim_events], rfl, rfl, Or.inr ⟨?_, le_refl _⟩⟩
      rw [he] at hthr
      by_cases hu : slot_in_use s.inuse (base + ch) = true
      · rw [if_pos hu] at hthr
        simp only [hthr]
      · rw [if_neg hu] at hthr
        exact absurd hthr (by simp)
    · obtain ⟨k, hk, htr, hloc, hcur, hcase⟩ := ih
        { s with inuse := (claim s.inuse (base + ch)).inuse,
                 trace := s.trace ++ [Event.claim (base + ch)] }
      refine ⟨k + 1, by simp; omega, ?_, ?_, ?_, ?_⟩
      · rw [htr]
        simp [client_claim_events]
      · rw [hloc]; rfl
      · rw [hcur]
      · rcases hcase with ⟨h1, h2⟩ | ⟨h1, h2⟩
        · exact Or.inl ⟨h1, by simp [h2]⟩
        · exact Or.inr ⟨h1, by omega⟩

theorem client_stamps_spec (cfg : Config) (tid : Nat) (inp : FrameInput) (base : Nat)
    (chs : List Nat) (s : ClientState) :
    ∃ m, m ≤ chs.length
      ∧ (client_stamps cfg tid inp base chs s).trace
          = s.trace ++ client_stamp_events cfg tid base s.frame_id s.slot_id
              (chs.take m) s.buffer_offset
      ∧ (client_stamps cfg tid inp base chs s).locals = s.locals
      ∧ (((client_stamps cfg tid inp base chs s).thrown = s.thrown ∧ m = chs.length)
          ∨ ((client_stamps cfg tid inp base chs s).thrown = some ENQUEUE_FAILED ∧ 1 ≤ m)) := by
  induction chs generalizing s with
  | nil =>
    exact ⟨0, le_refl _, by simp [client_stamps, client_stamp_events], rfl, Or.inl ⟨rfl, rfl⟩⟩
  | cons ch rest ih =>
    simp only [client_stamps]
    split
    · obtain ⟨m, hm, htr, hloc, hcase⟩ := ih
        { s with
          trace := s.trace ++
            [Event.stamp (base + ch) s.frame_id s.slot_id 0 (tid * cfg.cl_sdr_ch + ch),
             Event.enqueue (tid * cfg.cl_sdr_ch + ch)
               (s.buffer_offset + tid * cfg.buffer_chunk_size)],
          buffer_offset := advance_cursor cfg.buffer_chunk_size s.buffer_offset }
      refine ⟨m + 1, by simp; omega, ?_, ?_, ?_⟩
      · rw [htr]
        simp [client_stamp_events]
      · rw [hloc]; rfl
      · rcases hcase with ⟨h1, h2⟩ | ⟨h1, h2⟩
        · exact Or.inl ⟨h1, by simp [h2]⟩
        · exact Or.inr ⟨h1, by omega⟩
    · exact ⟨1, by simp, by simp [client_stamp_events], rfl, Or.inr ⟨rfl, le_refl _⟩⟩

theorem client_slot_dl_spec (cfg : Config) (tid : Nat) (inp : FrameInput) (s : ClientState)
    (hdl : cfg.isDlData s.frame_id s.slot_id = true) (hs : s.thrown = none) :
    ((client_slot cfg tid inp s).2 = true
      ∧ (client_slot cfg tid inp s).1.thrown = some BUFFER_FULL
      ∧ (client_slot cfg tid inp s).1.running = s.running
      ∧ ∃ k, 1 ≤ k ∧ k ≤ cfg.cl_sdr_ch
          ∧ (client_slot cfg tid inp s).1.trace
              = s.trace ++ client_claim_events s.buffer_offset ((List.range cfg.cl_sdr_ch).take k))
    ∨ (inp.slot_rx_ret s.slot_id < 0
      ∧ (client_slot cfg tid inp s).2 = true
      ∧ (client_slot cfg tid inp s).1.thrown = none
      ∧ (client_slot cfg tid inp s).1.running = false
      ∧ (client_slot cfg tid inp s).1.trace
          = s.trace ++ client_claim_events s.buffer_offset (List.range cfg.cl_sdr_ch)
              ++ [Event.rx cfg.samps_per_slot])
    ∨ (0 ≤ inp.slot_rx_ret s.slot_id
      ∧ (client_slot cfg tid inp s).1.running = s.running
      ∧ ∃ m, m ≤ cfg.cl_sdr_ch
          ∧ (client_slot cfg tid inp s).1.trace
              = s.trace ++ client_claim_events s.buffer_offset (List.range cfg.cl_sdr_ch)
                  ++ [Event.rx cfg.samps_per_slot]
                  ++ client_stamp_events cfg tid s.buffer_offset s.frame_id s.slot_id
                      ((List.range cfg.cl_sdr_ch).take m) s.buffer_offset
          ∧ (((client_slot cfg tid inp s).1.thrown = none ∧ m = cfg.cl_sdr_ch
                ∧ (client_slot cfg tid inp s).2 = false)
              ∨ ((client_slot cfg tid inp s).1.thrown = some ENQUEUE_FAILED
                ∧ (client_slot cfg tid inp s).2 = true ∧ 1 ≤ m))) := by
  have hspec := client_claims_spec s.buffer_offset (List.range cfg.cl_sdr_ch)
    { s with inuse := (inp.released s.slot_id).foldl release s.inuse }
  unfold client_slot
  simp only [hdl, if_true]
  generalize client_claims s.buffer_offset (List.range cfg.cl_sdr_ch)
    { s with inuse := (inp.released s.slot_id).foldl release s.inuse } = s1 at hspec ⊢
  obtain ⟨k, hk, hctr, hcloc, hccur, hccase⟩ := hspec
  simp only [ClientState.locals, Prod.mk.injEq] at hcloc
  obtain ⟨c1, c2, c3, c4, c5, c6, c7, c8, c9, c10⟩ := hcloc
  simp only [List.length_range] at hk
  rcases hccase with ⟨hthr, hkn⟩ | ⟨hthr, hk1⟩
  · have hnone : s1.thrown = none := hthr.trans hs
    have hsome : s1.thrown.isSome = false := by rw [hnone]; rfl
    have htake : (List.range cfg.cl_sdr_ch).take k = List.range cfg.cl_sdr_ch := by
      rw [hkn]; exact List.take_length _
    rw [htake] at hctr
    right
    simp only [hsome, Bool.false_eq_true, if_false]
    by_cases hrx : inp.slot_rx_ret s.slot_id < 0
    · left
      simp only [if_pos hrx]
      exact ⟨hrx, trivial, hnone, trivial, by rw [hctr]⟩
    · right
      have hge : 0 ≤ inp.slot_rx_ret s.slot_id := not_lt.mp hrx
      simp only [if_neg hrx]
      obtain ⟨m, hm, htr, hloc, hcase⟩ := client_stamps_spec cfg tid inp s.buffer_offset
        (List.range cfg.cl_sdr_ch)
        { s1 with
          trace := s1.trace ++ [Event.rx cfg.samps_per_slot]
          rxTime := inp.slot_rx_time s.slot_id }
      simp only [ClientState.locals, Prod.mk.injEq] at hloc
      obtain ⟨l1, _⟩ := hloc
      simp only [List.length_range] at hm
      refine ⟨hge, l1.trans c1, m, hm, ?_, ?_⟩
      · rw [htr, hctr, hccur, c3, c4]
      · rcases hcase with ⟨h1, h2⟩ | ⟨h1, h2⟩
        · exact Or.inl ⟨h1.trans hnone, by simpa using h2, by rw [h1, hnone]; rfl⟩
        · exact Or.inr ⟨h1, by rw [h1]; rfl, h2⟩
  · left
    have hsome : s1.thrown.isSome = true := by rw [hthr]; rfl
    simp only [hsome, if_true]
    exact ⟨trivial, hthr, c1, k, hk1, hk, hctr⟩

theorem client_slot_dummy_spec (cfg : Config) (tid : Nat) (inp : FrameInput) (s : ClientState)
    (hdl : cfg.isDlData s.frame_id s.slot_id = false) :
    (client_slot cfg tid inp s).1.trace = s.trace ++ [Event.rx cfg.samps_per_slot]
    ∧ (client_slot cfg tid inp s).1.thrown = s.thrown
    ∧ (inp.slot_rx_ret s.slot_id < 0 →
        (client_slot cfg tid inp s).2 = true ∧ (client_slot cfg tid inp s).1.running = false)
    ∧ (0 ≤ inp.slot_rx_ret s.slot_id →
        (client_slot cfg tid inp s).2 = false
        ∧ (client_slot cfg tid inp s).1.running = s.running) := by
  unfold client_slot
  simp only [hdl, Bool.false_eq_true, if_false]
  by_cases hrx : inp.slot_rx_ret s.slot_id < 0
  · simp only [if_pos hrx]
    exact ⟨trivial, trivial, fun _ => ⟨trivial, trivial⟩, fun h => absurd hrx (not_lt.mpr h)⟩
  · simp only [if_neg hrx]
    exact ⟨trivial, trivial, fun h => absurd h hrx, fun _ => ⟨trivial, trivial⟩⟩

/-! ### Order of the effects of a capture -/

theorem take_range_of_le {k n : Nat} (hk : k ≤ n) : (List.range n).take k = List.range k := by
  rw [List.take_range, Nat.min_eq_left hk]

theorem effect_bs_claim_events (base : Nat) (chs : List Nat) :
    (bs_claim_events base chs).map BsEvent.effect
      = chs.map (fun ch => Effect.claim (base + ch)) := by
  simp [bs_claim_events, BsEvent.effect, Function.comp_def]

theorem effect_bs_stamp_events (cfg : BsConfig) (tid base frame_id slot_id : Nat) (cell : Int)
    (ant_id : Nat) (chs : List Nat) (cursor : Nat) :
    (bs_stamp_events cfg tid base frame_id slot_id cell ant_id chs cursor).map BsEvent.effect
      = chs.flatMap (fun ch => [Effect.stamp (base + ch), Effect.enqueue]) := by
  induction chs generalizing cursor with
  | nil => rfl
  | cons ch rest ih =>
    simp only [bs_stamp_events, List.map_cons, BsEvent.effect, ih, List.flatMap_cons,
      List.cons_append, List.nil_append]

theorem effect_bs_tx_events (cfg : BsConfig) (tid radio_id : Nat) (cell : Int)
    (rxTimeBs : Int) :
    (bs_tx_events cfg tid radio_id cell rxTimeBs).map BsEvent.effect
      = List.replicate (bs_tx_events cfg tid radio_id cell rxTimeBs).length Effect.transmit := by
  rw [List.eq_replicate_iff]
  refine ⟨by simp, ?_⟩
  intro e he
  obtain ⟨ev, hev, rfl⟩ := List.mem_map.mp he
  unfold bs_tx_events at hev
  rcases List.mem_append.mp hev with h | h
  · rw [List.mem_singleton] at h
    rw [h]; rfl
  · split at h
    · obtain ⟨sl, _, rfl⟩ := List.mem_map.mp h
      rfl
    · exact absurd h (List.not_mem_nil _)

theorem effect_client_claim_events (base : Nat) (chs : List Nat) :
    (client_claim_events base chs).map Event.effect
      = chs.map (fun ch => Effect.claim (base + ch)) := by
  simp [client_claim_events, Event.effect, Function.comp_def]

theorem effect_client_stamp_events (cfg : Config) (tid base frame_id slot_id : Nat)
    (chs : List Nat) (cursor : Nat) :
    (client_stamp_events cfg tid base frame_id slot_id chs cursor).map Event.effect
      = chs.flatMap (fun ch => [Effect.stamp (base + ch), Effect.enqueue]) := by
  induction chs generalizing cursor with
  | nil => rfl
  | cons ch rest ih =>
    simp only [client_stamp_events, List.map_cons, Event.effect, ih, List.flatMap_cons,
      List.cons_append, List.nil_append]

theorem bs_capture_order (cfg : BsConfig) (tid : Nat) (inp : BsInput) (it : Nat) (s : BsState)
    (hs : s.thrown = none) :
    ((bs_capture cfg tid inp it s).1.thrown = some BUFFER_FULL →
        ∃ k, 1 ≤ k ∧ k ≤ (bs_capture_chs cfg it s).length
          ∧ (bs_capture cfg tid inp it s).1.trace.map BsEvent.effect
              = s.trace.map BsEvent.effect ++ claim_effects s.cursor k)
    ∧ ((bs_capture cfg tid inp it s).1.thrown ≠ some BUFFER_FULL →
        ∃ t m, m ≤ (bs_capture_chs cfg it s).length
          ∧ (bs_capture cfg tid inp it s).1.trace.map BsEvent.effect
              = s.trace.map BsEvent.effect
                  ++ claim_effects s.cursor (bs_capture_chs cfg it s).length
                  ++ [Effect.receive] ++ List.replicate t Effect.transmit
                  ++ stamp_effects s.cursor m
          ∧ (t ≠ 0 → (!cfg.kUseUHD && cfg.bs_hw_framer) = false ∧ s.slot_id = 0
                      ∧ 0 ≤ inp.rx_ret it)
          ∧ (inp.rx_ret it < 0 → m = 0)
          ∧ (0 ≤ inp.rx_ret it → (bs_capture cfg tid inp it s).1.thrown = none →
              m = (bs_capture_chs cfg it s).length)) := by
  have hne : some ENQUEUE_FAILED ≠ some BUFFER_FULL := by decide
  have hlen : (bs_capture_chs cfg it s).length
      = capture_num_packets cfg (bs_capture_radio cfg it s) := by
    simp [bs_capture_chs]
  rcases bs_capture_spec cfg tid inp it s hs with
    ⟨_, hthr, _, k, hk1, hk, htr⟩ | ⟨hrx, _, hthr, _, htr⟩ |
    ⟨hrx, _, _, _, _, m, hm, htr, hcase⟩
  · constructor
    · intro _
      refine ⟨k, hk1, hk, ?_⟩
      rw [htr, List.map_append, effect_bs_claim_events, bs_capture_chs,
        take_range_of_le (by rw [← hlen]; exact hk)]
      rfl
    · intro h; exact absurd hthr h
  · constructor
    · intro h; rw [hthr] at h; exact absurd h (by simp)
    · intro _
      refine ⟨0, 0, Nat.zero_le _, ?_, fun h => absurd rfl h, fun _ => rfl,
        fun h => absurd hrx (not_lt.mpr h)⟩
      rw [htr, List.map_append, List.map_append, effect_bs_claim_events, bs_capture_chs,
        List.length_range]
      simp [claim_effects, stamp_effects, BsEvent.effect]
  · constructor
    · intro h
      rcases hcase with ⟨h1, _⟩ | ⟨h1, _⟩
      · rw [h1] at h; exact absurd h (by simp)
      · rw [h1] at h; exact absurd h hne
    · intro _
      refine ⟨(bs_capture_tx cfg tid (bs_capture_radio cfg it s) (bs_capture_cell cfg it s)
          s.slot_id (inp.rx_time it)).length, m, hm, ?_, ?_, fun h => absurd h (not_lt.mpr hrx),
        ?_⟩
      · rw [htr]
        simp only [List.map_append, effect_bs_claim_events, effect_bs_stamp_events]
        rw [bs_capture_chs, take_range_of_le (by rw [← List.length_range
          (capture_num_packets cfg (bs_capture_radio cfg it s)), ← bs_capture_chs]; exact hm),
          List.length_range]
        have htx : (bs_capture_tx cfg tid (bs_capture_radio cfg it s)
            (bs_capture_cell cfg it s) s.slot_id (inp.rx_time it)).map BsEvent.effect
            = List.replicate (bs_capture_tx cfg tid (bs_capture_radio cfg it s)
                (bs_capture_cell cfg it s) s.slot_id (inp.rx_time it)).length
                Effect.transmit := by
          unfold bs_capture_tx
          split
          · rfl
          · split
            · exact effect_bs_tx_events _ _ _ _ _
            · rfl
        rw [htx]
        simp [claim_effects, stamp_effects, BsEvent.effect]
      · intro ht
        unfold bs_capture_tx at ht
        by_cases hmode : (!cfg.kUseUHD && cfg.bs_hw_framer) = true
        · rw [if_pos hmode] at ht; exact absurd rfl ht
        · by_cases hz : s.slot_id = 0
          · exact ⟨by simpa using hmode, hz, hrx⟩
          · rw [if_neg hmode, if_neg hz] at ht; exact absurd rfl ht
      · intro _ hnone
        rcases hcase with ⟨_, h2, _⟩ | ⟨h1, _⟩
        · exact h2
        · rw [h1] at hnone; exact absurd hnone (by simp)

theorem client_capture_order (cfg : Config) (tid : Nat) (inp : FrameInput) (s : ClientState)
    (hdl : cfg.isDlData s.frame_id s.slot_id = true) (hs : s.thrown = none) :
    ((client_slot cfg tid inp s).1.thrown = some BUFFER_FULL →
        ∃ k, 1 ≤ k ∧ k ≤ cfg.cl_sdr_ch
          ∧ (client_slot cfg tid inp s).1.trace.map Event.effect
              = s.trace.map Event.effect ++ claim_effects s.buffer_offset k)
    ∧ ((client_slot cfg tid inp s).1.thrown ≠ some BUFFER_FULL →
        ∃ m, m ≤ cfg.cl_sdr_ch
          ∧ (client_slot cfg tid inp s).1.trace.map Event.effect
              = s.trace.map Event.effect ++ claim_effects s.buffer_offset cfg.cl_sdr_ch
                  ++ [Effect.receive] ++ stamp_effects s.buffer_offset m
          ∧ (inp.slot_rx_ret s.slot_id < 0 → m = 0)
          ∧ (0 ≤ inp.slot_rx_ret s.slot_id → (client_slot cfg tid inp s).1.thrown = none →
              m = cfg.cl_sdr_ch)) := by
  have hne : some ENQUEUE_FAILED ≠ some BUFFER_FULL := by decide
  rcases client_slot_dl_spec cfg tid inp s hdl hs with
    ⟨_, hthr, _, k, hk1, hk, htr⟩ | ⟨hrx, _, hthr, _, htr⟩ | ⟨hrx, _, m, hm, htr, hcase⟩
  · constructor
    · intro _
      refine ⟨k, hk1, hk, ?_⟩
      rw [htr, List.map_append, effect_client_claim_events, take_range_of_le hk]
      rfl
    · intro h; exact absurd hthr h
  · constructor
    · intro h; rw [hthr] at h; exact absurd h (by simp)
    · intro _
      refine ⟨0, Nat.zero_le _, ?_, fun _ => rfl, fun h => absurd hrx (not_lt.mpr h)⟩
      rw [htr, List.map_append, List.map_append, effect_client_claim_events]
      simp [claim_effects, stamp_effects, Event.effect]
  · constructor
    · intro h
      rcases hcase with ⟨h1, _⟩ | ⟨h1, _⟩
      · rw [h1] at h; exact absurd h (by simp)
      · rw [h1] at h; exact absurd h hne
    · intro _
      refine ⟨m, hm, ?_, fun h => absurd h (not_lt.mpr hrx), ?_⟩
      · rw [htr]
        simp only [List.map_append, effect_client_claim_events, effect_client_stamp_events]
        rw [take_range_of_le hm]
        simp [claim_effects, stamp_effects, Event.effect]
      · intro _ hnone
        rcases hcase with ⟨_, h2, _⟩ | ⟨h1, _⟩
        · exact h2
        · rw [h1] at hnone; exact absurd hnone (by simp)

/-- C14. In every capture of the base-station loop and every downlink-data capture of the
client loop, entered by a thread that has not thrown, the effects appended to the trace
are: the claims of the channel slots `base + 0, base + 1, ...` in turn; if one of them
fails the overrun is thrown and nothing else follows (no receive is issued); otherwise,
after the claims of all `num_packets` slots, the hardware receive, then (base station,
host-timed mode, slot counter 0 only) the transmissions scheduled by the capture, then for
the channels `0 .. m-1` the header stamp of slot `base + ch` followed by the notification
enqueue, with `m = 0` after a failed receive and `m = num_packets` when nothing is thrown.
So every stamped or announced slot is one whose claim has succeeded before. -/
theorem claim_before_io (cfg : BsConfig) (tid : Nat) (inp : BsInput) (it : Nat) (s : BsState)
    (ccfg : Config) (ctid : Nat) (cinp : FrameInput) (c : ClientState)
    (hs : s.thrown = none) (hc : c.thrown = none)
    (hdl : ccfg.isDlData c.frame_id c.slot_id = true) :
    (((bs_capture cfg tid inp it s).1.thrown = some BUFFER_FULL →
        ∃ k, 1 ≤ k ∧ k ≤ (bs_capture_chs cfg it s).length
          ∧ (bs_capture cfg tid inp it s).1.trace.map BsEvent.effect
              = s.trace.map BsEvent.effect ++ claim_effects s.cursor k)
      ∧ ((bs_capture cfg tid inp it s).1.thrown ≠ some BUFFER_FULL →
        ∃ t m, m ≤ (bs_capture_chs cfg it s).length
          ∧ (bs_capture cfg tid inp it s).1.trace.map BsEvent.effect
              = s.trace.map BsEvent.effect
                  ++ claim_effects s.cursor (bs_capture_chs cfg it s).length
                  ++ [Effect.receive] ++ List.replicate t Effect.transmit
                  ++ stamp_effects s.cursor m
          ∧ (t ≠ 0 → (!cfg.kUseUHD && cfg.bs_hw_framer) = false ∧ s.slot_id = 0
                      ∧ 0 ≤ inp.rx_ret it)
          ∧ (inp.rx_ret it < 0 → m = 0)
          ∧ (0 ≤ inp.rx_ret it → (bs_capture cfg tid inp it s).1.thrown = none →
              m = (bs_capture_chs cfg it s).length)))
    ∧ (((client_slot ccfg ctid cinp c).1.thrown = some BUFFER_FULL →
        ∃ k, 1 ≤ k ∧ k ≤ ccfg.cl_sdr_ch
          ∧ (client_slot ccfg ctid cinp c).1.trace.map Event.effect
              = c.trace.map Event.effect ++ claim_effects c.buffer_offset k)
      ∧ ((client_slot ccfg ctid cinp c).1.thrown ≠ some BUFFER_FULL →
        ∃ m, m ≤ ccfg.cl_sdr_ch
          ∧ (client_slot ccfg ctid cinp c).1.trace.map Event.effect
              = c.trace.map Event.effect ++ claim_effects c.buffer_offset ccfg.cl_sdr_ch
                  ++ [Effect.receive] ++ stamp_effects c.buffer_offset m
          ∧ (cinp.slot_rx_ret c.slot_id < 0 → m = 0)
          ∧ (0 ≤ cinp.slot_rx_ret c.slot_id → (client_slot ccfg ctid cinp c).1.thrown = none →
              m = ccfg.cl_sdr_ch))) :=
  ⟨bs_capture_order cfg tid inp it s hs, client_capture_order ccfg ctid cinp c hdl hc⟩

/-- C14 on the first capture of a host-timed base station (two channels, slot counter 0)
and on a downlink capture of a two-channel client: claims of slots 0 and 1, the receive,
(the beacon transmission,) then stamp and enqueue of slot 0 and of slot 1. -/
theorem claim_before_io_witness :
    (bs_capture uhdConfig 0 fullSlotInput 0 (bsInit 0 (fun _ => 0))).1.trace.map BsEvent.effect
        = [Effect.claim 0, Effect.claim 1, Effect.receive, Effect.transmit,
           Effect.stamp 0, Effect.enqueue, Effect.stamp 1, Effect.enqueue]
    ∧ (client_slot downlinkConfig 0 noBeaconInput (clientInit 0 0 (fun _ => 0))).1.trace.map
          Event.effect
        = [Effect.claim 0, Effect.claim 1, Effect.receive,
           Effect.stamp 0, Effect.enqueue, Effect.stamp 1, Effect.enqueue]
    ∧ (∃ m, m ≤ downlinkConfig.cl_sdr_ch
        ∧ (client_slot downlinkConfig 0 noBeaconInput (clientInit 0 0 (fun _ => 0))).1.trace.map
              Event.effect
            = (clientInit 0 0 (fun _ => 0)).trace.map Event.effect
                ++ claim_effects (clientInit 0 0 (fun _ => 0)).buffer_offset
                    downlinkConfig.cl_sdr_ch
                ++ [Effect.receive]
                ++ stamp_effects (clientInit 0 0 (fun _ => 0)).buffer_offset m) := by
  have h := (claim_before_io uhdConfig 0 fullSlotInput 0 (bsInit 0 (fun _ => 0))
    downlinkConfig 0 noBeaconInput (clientInit 0 0 (fun _ => 0)) rfl rfl rfl).2.2 (by decide)
  obtain ⟨m, hm, htr, _⟩ := h
  exact ⟨by decide, by decide, m, hm, htr⟩

/-! ### Hard receive failure -/

theorem bs_radios_stop (cfg : BsConfig) (tid : Nat) (inp : BsInput) (radios : List Nat)
    (s : BsState) (hrun : s.running = true) (hs : s.thrown = none)
    (hstop : (bs_radios cfg tid inp radios s).running = false) :
    (bs_radios cfg tid inp radios s).receive_last := by
  induction radios generalizing s with
  | nil =>
    rw [bs_radios, hrun] at hstop
    exact absurd hstop (by simp)
  | cons it rest ih =>
    rw [bs_radios] at hstop ⊢
    rcases bs_capture_spec cfg tid inp it s hs with
      ⟨hb, _, hr, _⟩ | ⟨_, hb, hthr, _, htr⟩ | ⟨_, hr, _, _, _, m, _, _, hcase⟩
    · simp only [hb, if_true] at hstop ⊢
      rw [hr, hrun] at hstop
      exact absurd hstop (by simp)
    · simp only [hb, if_true] at hstop ⊢
      exact ⟨hthr, _, _, _, htr⟩
    · rcases hcase with ⟨hthr, _, hb⟩ | ⟨_, hb, _⟩
      · simp only [hb, Bool.false_eq_true, if_false] at hstop ⊢
        exact ih _ (hr.trans hrun) hthr hstop
      · simp only [hb, if_true] at hstop ⊢
        rw [hr, hrun] at hstop
        exact absurd hstop (by simp)

theorem bs_iter_stop (cfg : BsConfig) (tid : Nat) (radios : List Nat) (inp : BsInput)
    (s : BsState) (hrun : s.running = true) (hs : s.thrown = none)
    (hstop : (bs_iter cfg tid radios inp s).running = false) :
    (bs_iter cfg tid radios inp s).receive_last := by
  have key : ∀ s1 : BsState, s1.running = true → s1.thrown = none →
      (if (bs_radios cfg tid inp radios s1).thrown.isSome = true then
          bs_radios cfg tid inp radios s1
        else if cfg.kUseUHD = true then
          { bs_radios cfg tid inp radios s1 with
            slot_id := (bs_radios cfg tid inp radios s1).slot_id + 1 }
        else bs_radios cfg tid inp radios s1).running = false →
      (if (bs_radios cfg tid inp radios s1).thrown.isSome = true then
          bs_radios cfg tid inp radios s1
        else if cfg.kUseUHD = true then
          { bs_radios cfg tid inp radios s1 with
            slot_id := (bs_radios cfg tid inp radios s1).slot_id + 1 }
        else bs_radios cfg tid inp radios s1).receive_last := by
    intro s1 h1 h2 h3
    have hr := bs_radios_stop cfg tid inp radios s1 h1 h2
    by_cases ht : (bs_radios cfg tid inp radios s1).thrown.isSome = true
    · rw [if_pos ht] at h3 ⊢
      exact hr h3
    · rw [if_neg ht] at h3 ⊢
      by_cases hu : cfg.kUseUHD = true
      · rw [if_pos hu] at h3 ⊢
        exact hr h3
      · rw [if_neg hu] at h3 ⊢
        exact hr h3
  unfold bs_iter at hstop ⊢
  dsimp only at hstop ⊢
  by_cases hroll : ((cfg.kUseUHD || !cfg.bs_hw_framer)
      && decide (s.slot_id = cfg.slot_per_frame)) = true
  · rw [if_pos hroll] at hstop ⊢
    exact key _ hrun hs hstop
  · rw [if_neg hroll] at hstop ⊢
    exact key _ hrun hs hstop

theorem bs_step_stop (cfg : BsConfig) (tid : Nat) (radios : List Nat) (inp : BsInput)
    (s : BsState) (h : s.running = false → s.receive_last) :
    (bs_step cfg tid radios inp s).running = false →
      (bs_step cfg tid radios inp s).receive_last := by
  unfold bs_step
  split
  · exact h
  · rename_i hn
    split
    · rename_i hrun
      have hs : s.thrown = none := by
        cases hth : s.thrown with
        | none => rfl
        | some e => rw [hth] at hn; simp at hn
      exact bs_iter_stop cfg tid radios inp s hrun hs
    · rename_i hrun
      intro _
      exact h (by simpa using hrun)

theorem bs_step_inert (cfg : BsConfig) (tid : Nat) (radios : List Nat) (inp : BsInput)
    (s : BsState) (hrun : s.running = false) (hs : s.thrown = none) :
    (bs_step cfg tid radios inp s).trace = s.trace
    ∧ (bs_step cfg tid radios inp s).thrown = none
    ∧ (bs_step cfg tid radios inp s).running = false
    ∧ (bs_step cfg tid radios inp s).exited = true := by
  unfold bs_step
  by_cases hex : s.exited = true
  · simp [hs, hex, hrun]
  · simp [hs, hex, hrun]

theorem bs_loop_inert (cfg : BsConfig) (tid : Nat) (radios : List Nat) (inp : Nat → BsInput)
    (s : BsState) (n : Nat) (hrun : (bs_loop cfg tid radios inp n s).running = false)
    (hs : (bs_loop cfg tid radios inp n s).thrown = none) (m : Nat) :
    (bs_loop cfg tid radios inp (n + m) s).trace = (bs_loop cfg tid radios inp n s).trace
    ∧ (bs_loop cfg tid radios inp (n + m) s).thrown = none
    ∧ (bs_loop cfg tid radios inp (n + m) s).running = false
    ∧ (bs_loop cfg tid radios inp (n + m + 1) s).exited = true := by
  induction m with
  | zero =>
    refine ⟨rfl, hs, hrun, ?_⟩
    exact (bs_step_inert cfg tid radios (inp n) _ hrun hs).2.2.2
  | succ m ih =>
    obtain ⟨i1, i2, i3, _⟩ := ih
    have h := bs_step_inert cfg tid radios (inp (n + m)) _ i3 i2
    have h' := bs_step_inert cfg tid radios (inp (n + (m + 1)))
      (bs_loop cfg tid radios inp (n + (m + 1)) s) h.2.2.1 h.2.1
    exact ⟨h.1.trans i1, h.2.1, h.2.2.1, h'.2.2.2⟩

theorem bs_loop_stop (cfg : BsConfig) (tid : Nat) (radios : List Nat) (inp : Nat → BsInput)
    (s : BsState) (hrun : s.running = true) (n : Nat) :
    (bs_loop cfg tid radios inp n s).running = false →
      (bs_loop cfg tid radios inp n s).receive_last := by
  induction n with
  | zero =>
    intro h
    rw [bs_loop, hrun] at h
    exact absurd h (by simp)
  | succ n ih => exact bs_step_stop cfg tid radios (inp n) _ ih

theorem client_slots_stop (cfg : Config) (tid : Nat) (inp : FrameInput) (n : Nat)
    (s : ClientState) (hrun : s.running = true) (hs : s.thrown = none)
    (hstop : (client_slots cfg tid inp n s).running = false) :
    (client_slots cfg tid inp n s).receive_last := by
  induction n generalizing s with
  | zero =>
    rw [client_slots, hrun] at hstop
    exact absurd hstop (by simp)
  | succ n ih =>
    rw [client_slots] at hstop ⊢
    by_cases hdl : cfg.isDlData s.frame_id s.slot_id = true
    · rcases client_slot_dl_spec cfg tid inp s hdl hs with
        ⟨hb, _, hr, _⟩ | ⟨_, hb, hthr, _, htr⟩ | ⟨_, hr, m, _, _, hcase⟩
      · simp only [hb, if_true] at hstop ⊢
        rw [hr, hrun] at hstop
        exact absurd hstop (by simp)
      · simp only [hb, if_true] at hstop ⊢
        exact ⟨hthr, _, _, htr⟩
      · rcases hcase with ⟨hthr, _, hb⟩ | ⟨_, hb, _⟩
        · simp only [hb, Bool.false_eq_true, if_false] at hstop ⊢
          exact ih _ (hr.trans hrun) hthr hstop
        · simp only [hb, if_true] at hstop ⊢
          rw [hr, hrun] at hstop
          exact absurd hstop (by simp)
    · have hdl' : cfg.isDlData s.frame_id s.slot_id = false := by simpa using hdl
      obtain ⟨htr, hthr, hneg, hpos⟩ := client_slot_dummy_spec cfg tid inp s hdl'
      by_cases hrx : inp.slot_rx_ret s.slot_id < 0
      · obtain ⟨hb, _⟩ := hneg hrx
        simp only [hb, if_true] at hstop ⊢
        exact ⟨hthr.trans hs, _, _, htr⟩
      · obtain ⟨hb, hr⟩ := hpos (not_lt.mp hrx)
        simp only [hb, Bool.false_eq_true, if_false] at hstop ⊢
        exact ih _ (hr.trans hrun) (hthr.trans hs) hstop

theorem client_frame_tail_stop (cfg : Config) (tid : Nat) (inp : FrameInput)
    (s : ClientState) (hrun : s.running = true) (hs : s.thrown = none)
    (hstop : (client_frame_tail cfg tid inp s).running = false) :
    (client_frame_tail cfg tid inp s).receive_last := by
  have hr := client_slots_stop cfg tid inp (cfg.slot_per_frame - (s.slot_id + 1))
    { s with trace := s.trace ++ client_tx_events cfg s.rxTime, slot_id := s.slot_id + 1 }
    hrun hs
  unfold client_frame_tail at hstop ⊢
  dsimp only at hstop ⊢
  by_cases ht : (client_slots cfg tid inp (cfg.slot_per_frame - (s.slot_id + 1))
      { s with trace := s.trace ++ client_tx_events cfg s.rxTime,
               slot_id := s.slot_id + 1 }).thrown.isSome = true
  · rw [if_pos ht] at hstop ⊢
    exact hr hstop
  · rw [if_neg ht] at hstop ⊢
    exact hr hstop

theorem client_iter_rx_failed (cfg : Config) (tid : Nat) (inp : FrameInput) (s : ClientState)
    (hmax : cfg.max_frame = 0 ∨ s.frame_id < cfg.max_frame) (hrx : inp.rx_ret < 0) :
    (client_iter cfg tid inp s).running = false
    ∧ (client_iter cfg tid inp s).exited = true
    ∧ (client_iter cfg tid inp s).thrown = s.thrown
    ∧ (client_iter cfg tid inp s).trace
        = s.trace ++ [Event.rx (cfg.samps_per_slot + s.rx_offset)] := by
  have h1 : (decide (cfg.max_frame > 0) && decide (s.frame_id ≥ cfg.max_frame)) = false := by
    rcases hmax with h | h
    · simp [h]
    · have : ¬ s.frame_id ≥ cfg.max_frame := by omega
      simp [this]
  unfold client_iter
  rw [h1]
  simp only [Bool.false_eq_true, if_false, if_pos hrx]
  exact ⟨trivial, trivial, trivial, trivial⟩

theorem client_step_inert (cfg : Config) (tid : Nat) (inp : Nat → FrameInput)
    (s : ClientState) (hrun : s.running = false) (hs : s.thrown = none) :
    (client_step cfg tid inp s).trace = s.trace
    ∧ (client_step cfg tid inp s).thrown = none
    ∧ (client_step cfg tid inp s).running = false
    ∧ (client_step cfg tid inp s).exited = true := by
  unfold client_step
  by_cases hex : s.exited = true
  · simp [hs, hex, hrun]
  · simp [hs, hex, hrun]

theorem client_loop_inert (cfg : Config) (tid : Nat) (inp : Nat → FrameInput)
    (s : ClientState) (n : Nat) (hrun : (client_loop cfg tid inp n s).running = false)
    (hs : (client_loop cfg tid inp n s).thrown = none) (m : Nat) :
    (client_loop cfg tid inp (n + m) s).trace = (client_loop cfg tid inp n s).trace
    ∧ (client_loop cfg tid inp (n + m) s).thrown = none
    ∧ (client_loop cfg tid inp (n + m) s).running = false
    ∧ (client_loop cfg tid inp (n + m + 1) s).exited = true := by
  induction m with
  | zero =>
    refine ⟨rfl, hs, hrun, ?_⟩
    exact (client_step_inert cfg tid inp _ hrun hs).2.2.2
  | succ m ih =>
    obtain ⟨i1, i2, i3, _⟩ := ih
    have h := client_step_inert cfg tid inp _ i3 i2
    have h' := client_step_inert cfg tid inp
      (client_loop cfg tid inp (n + (m + 1)) s) h.2.2.1 h.2.1
    exact ⟨h.1.trans i1, h.2.1, h.2.2.1, h'.2.2.2⟩

theorem bs_iter_eq_roll (cfg : BsConfig) (tid : Nat) (radios : List Nat) (inp : BsInput)
    (s : BsState) :
    bs_iter cfg tid radios inp s
      = if (bs_radios cfg tid inp radios (bs_roll cfg s)).thrown.isSome then
          bs_radios cfg tid inp radios (bs_roll cfg s)
        else if cfg.kUseUHD then
          { bs_radios cfg tid inp radios (bs_roll cfg s) with
            slot_id := (bs_radios cfg tid inp radios (bs_roll cfg s)).slot_id + 1 }
        else bs_radios cfg tid inp radios (bs_roll cfg s) := rfl

theorem bs_roll_thrown (cfg : BsConfig) (s : BsState) :
    (bs_roll cfg s).thrown = s.thrown ∧ (bs_roll cfg s).running = s.running
    ∧ (bs_roll cfg s).trace = s.trace := by
  unfold bs_roll
  split <;> exact ⟨rfl, rfl, rfl⟩

theorem bs_radios_append (cfg : BsConfig) (tid : Nat) (inp : BsInput) (pre l : List Nat)
    (s : BsState) (hs : s.thrown = none)
    (hrun : (bs_radios cfg tid inp pre s).running = true)
    (hthr : (bs_radios cfg tid inp pre s).thrown = none) :
    bs_radios cfg tid inp (pre ++ l) s
      = bs_radios cfg tid inp l (bs_radios cfg tid inp pre s) := by
  induction pre generalizing s with
  | nil => rfl
  | cons it rest ih =>
    rw [List.cons_append, bs_radios]
    rw [bs_radios] at hrun hthr ⊢
    rcases bs_capture_spec cfg tid inp it s hs with
      ⟨hb, ht, _⟩ | ⟨_, hb, _, hr, _⟩ | ⟨_, _, _, _, _, m, _, _, hcase⟩
    · simp only [hb, if_true] at hthr
      rw [ht] at hthr
      cases hthr
    · simp only [hb, if_true] at hrun
      rw [hr] at hrun
      cases hrun
    · rcases hcase with ⟨ht, _, hb⟩ | ⟨ht, hb, _⟩
      · simp only [hb, Bool.false_eq_true, if_false] at hrun hthr ⊢
        exact ih _ ht hrun hthr
      · simp only [hb, if_true] at hthr
        rw [ht] at hthr
        cases hthr

theorem bs_iter_rx_failed (cfg : BsConfig) (tid : Nat) (pre post : List Nat) (it : Nat)
    (inp : BsInput) (s : BsState) (hs : s.thrown = none)
    (hrun : (bs_radios cfg tid inp pre (bs_roll cfg s)).running = true)
    (hthr : (bs_radios cfg tid inp pre (bs_roll cfg s)).thrown = none)
    (hclaim : (bs_capture cfg tid inp it
        (bs_radios cfg tid inp pre (bs_roll cfg s))).1.thrown = none)
    (hrx : inp.rx_ret it < 0) :
    (bs_iter cfg tid (pre ++ it :: post) inp s).running = false
    ∧ (bs_iter cfg tid (pre ++ it :: post) inp s).thrown = none
    ∧ (bs_iter cfg tid (pre ++ it :: post) inp s).trace
        = (bs_radios cfg tid inp pre (bs_roll cfg s)).trace
          ++ bs_claim_events (bs_radios cfg tid inp pre (bs_roll cfg s)).cursor
              (bs_capture_chs cfg it (bs_radios cfg tid inp pre (bs_roll cfg s)))
          ++ [BsEvent.rx (bs_capture_radio cfg it (bs_radios cfg tid inp pre (bs_roll cfg s)))
                (bs_capture_cell cfg it (bs_radios cfg tid inp pre (bs_roll cfg s)))] := by
  have h0 : (bs_roll cfg s).thrown = none := (bs_roll_thrown cfg s).1.trans hs
  have happ := bs_radios_append cfg tid inp pre (it :: post) (bs_roll cfg s) h0 hrun hthr
  rw [bs_iter_eq_roll, happ]
  generalize bs_radios cfg tid inp pre (bs_roll cfg s) = t at hrun hthr hclaim ⊢
  rw [bs_radios]
  rcases bs_capture_spec cfg tid inp it t hthr with
    ⟨_, ht, _⟩ | ⟨_, hb, ht, hr, htr⟩ | ⟨hge, _⟩
  · rw [ht] at hclaim
    cases hclaim
  · have hsome : (bs_capture cfg tid inp it t).1.thrown.isSome = false := by rw [ht]; rfl
    simp only [hb, if_true, hsome, Bool.false_eq_true, if_false]
    by_cases hu : cfg.kUseUHD = true
    · rw [if_pos hu]
      exact ⟨hr, ht, htr⟩
    · rw [if_neg hu]
      exact ⟨hr, ht, htr⟩
  · exact absurd hrx (not_lt.mpr hge)

theorem bs_step_live (cfg : BsConfig) (tid : Nat) (radios : List Nat) (inp : BsInput)
    (s : BsState) (hrun : s.running = true) (hex : s.exited = false) (hs : s.thrown = none) :
    bs_step cfg tid radios inp s = bs_iter cfg tid radios inp s := by
  unfold bs_step
  simp [hrun, hex, hs]

theorem bs_loop_rx_failed (cfg : BsConfig) (tid : Nat) (pre post : List Nat) (it : Nat)
    (inp : Nat → BsInput) (s : BsState)
    (hlive : s.running = true) (hex : s.exited = false) (hs : s.thrown = none)
    (hrun : (bs_radios cfg tid (inp 0) pre (bs_roll cfg s)).running = true)
    (hthr : (bs_radios cfg tid (inp 0) pre (bs_roll cfg s)).thrown = none)
    (hclaim : (bs_capture cfg tid (inp 0) it
        (bs_radios cfg tid (inp 0) pre (bs_roll cfg s))).1.thrown = none)
    (hrx : (inp 0).rx_ret it < 0) (m : Nat) :
    (bs_loop cfg tid (pre ++ it :: post) inp (1 + m) s).running = false
    ∧ (bs_loop cfg tid (pre ++ it :: post) inp (1 + m) s).thrown = none
    ∧ (bs_loop cfg tid (pre ++ it :: post) inp (1 + m + 1) s).exited = true
    ∧ (bs_loop cfg tid (pre ++ it :: post) inp (1 + m) s).trace
        = (bs_radios cfg tid (inp 0) pre (bs_roll cfg s)).trace
          ++ bs_claim_events (bs_radios cfg tid (inp 0) pre (bs_roll cfg s)).cursor
              (bs_capture_chs cfg it (bs_radios cfg tid (inp 0) pre (bs_roll cfg s)))
          ++ [BsEvent.rx
                (bs_capture_radio cfg it (bs_radios cfg tid (inp 0) pre (bs_roll cfg s)))
                (bs_capture_cell cfg it (bs_radios cfg tid (inp 0) pre (bs_roll cfg s)))] := by
  have h1 : bs_loop cfg tid (pre ++ it :: post) inp 1 s
      = bs_iter cfg tid (pre ++ it :: post) (inp 0) s := by
    show bs_step cfg tid (pre ++ it :: post) (inp 0) s = _
    exact bs_step_live cfg tid _ (inp 0) s hlive hex hs
  obtain ⟨p1, p2, p3⟩ := bs_iter_rx_failed cfg tid pre post it (inp 0) s hs hrun hthr hclaim hrx
  rw [← h1] at p1 p2 p3
  obtain ⟨i1, i2, i3, i4⟩ := bs_loop_inert cfg tid (pre ++ it :: post) inp s 1 p1 p2 m
  exact ⟨i3, i2, i4, i1.trans p3⟩

theorem resync_block_thrown (cfg : Config) (found : Int) (s : ClientState) :
    (resync_block cfg found s).thrown = s.thrown
    ∧ (resync_block cfg found s).running = s.running
    ∧ (resync_block cfg found s).exited = s.exited := by
  unfold resync_block resync_correlate
  dsimp only
  split <;> split <;> (try split) <;> exact ⟨rfl, rfl, rfl⟩

theorem client_frame_head_thrown (cfg : Config) (inp : FrameInput) (s : ClientState) :
    (client_frame_head cfg inp s).thrown = s.thrown := by
  unfold client_frame_head
  exact (resync_block_thrown cfg inp.beacon _).1

theorem client_iter_eq_head (cfg : Config) (tid : Nat) (inp : FrameInput) (s : ClientState)
    (hmax : cfg.max_frame = 0 ∨ s.frame_id < cfg.max_frame) (hrx : 0 ≤ inp.rx_ret)
    (hres : ((client_frame_head cfg inp s).resync
        && decide ((client_frame_head cfg inp s).resync_retry_cnt > resync_retry_max)) = false) :
    client_iter cfg tid inp s
      = if (client_slots cfg tid inp
              (cfg.slot_per_frame - (client_frame_head cfg inp s).slot_id)
              (client_frame_head cfg inp s)).thrown.isSome then
          client_slots cfg tid inp
            (cfg.slot_per_frame - (client_frame_head cfg inp s).slot_id)
            (client_frame_head cfg inp s)
        else
          { client_slots cfg tid inp
              (cfg.slot_per_frame - (client_frame_head cfg inp s).slot_id)
              (client_frame_head cfg inp s) with
            frame_id := (client_slots cfg tid inp
              (cfg.slot_per_frame - (client_frame_head cfg inp s).slot_id)
              (client_frame_head cfg inp s)).frame_id + 1
            slot_id := 0 } := by
  have h1 : (decide (cfg.max_frame > 0) && decide (s.frame_id ≥ cfg.max_frame)) = false := by
    rcases hmax with h | h
    · simp [h]
    · have : ¬ s.frame_id ≥ cfg.max_frame := by omega
      simp [this]
  have h2 : ¬ inp.rx_ret < 0 := not_lt.mpr hrx
  unfold client_iter
  rw [h1]
  simp only [Bool.false_eq_true, if_false, if_neg h2]
  unfold client_frame_head at hres
  dsimp only at hres
  rw [hres]
  simp only [Bool.false_eq_true, if_false]
  rfl

theorem client_slots_add (cfg : Config) (tid : Nat) (inp : FrameInput) (j k : Nat)
    (s : ClientState) (hs : s.thrown = none)
    (hrun : (client_slots cfg tid inp j s).running = true)
    (hthr : (client_slots cfg tid inp j s).thrown = none) :
    client_slots cfg tid inp (j + k) s
      = client_slots cfg tid inp k (client_slots cfg tid inp j s) := by
  induction j generalizing s with
  | zero => rw [Nat.zero_add]; rfl
  | succ j ih =>
    have hjk : j + 1 + k = (j + k) + 1 := by omega
    rw [hjk, client_slots]
    rw [client_slots] at hrun hthr ⊢
    by_cases hdl : cfg.isDlData s.frame_id s.slot_id = true
    · rcases client_slot_dl_spec cfg tid inp s hdl hs with
        ⟨hb, ht, _⟩ | ⟨_, hb, _, hr, _⟩ | ⟨_, _, m, _, _, hcase⟩
      · simp only [hb, if_true] at hthr
        rw [ht] at hthr
        cases hthr
      · simp only [hb, if_true] at hrun
        rw [hr] at hrun
        cases hrun
      · rcases hcase with ⟨ht, _, hb⟩ | ⟨ht, hb, _⟩
        · simp only [hb, Bool.false_eq_true, if_false] at hrun hthr ⊢
          refine ih _ ?_ hrun hthr
          exact ht
        · simp only [hb, if_true] at hthr
          rw [ht] at hthr
          cases hthr
    · have hdl' : cfg.isDlData s.frame_id s.slot_id = false := by simpa using hdl
      obtain ⟨_, ht, hneg, hpos⟩ := client_slot_dummy_spec cfg tid inp s hdl'
      by_cases hrx : inp.slot_rx_ret s.slot_id < 0
      · obtain ⟨hb, hr⟩ := hneg hrx
        simp only [hb, if_true] at hrun
        rw [hr] at hrun
        cases hrun
      · obtain ⟨hb, _⟩ := hpos (not_lt.mp hrx)
        simp only [hb, Bool.false_eq_true, if_false] at hrun hthr ⊢
        refine ih _ ?_ hrun hthr
        exact ht.trans hs

theorem client_slot_rx_failed (cfg : Config) (tid : Nat) (inp : FrameInput) (t : ClientState)
    (ht : t.thrown = none) (hrx : inp.slot_rx_ret t.slot_id < 0)
    (hclaim : (client_slot cfg tid inp t).1.thrown = none) :
    (client_slot cfg tid inp t).2 = true
    ∧ (client_slot cfg tid inp t).1.running = false
    ∧ (client_slot cfg tid inp t).1.trace = t.trace ++ client_capture_head cfg t := by
  unfold client_capture_head
  by_cases hdl : cfg.isDlData t.frame_id t.slot_id = true
  · rw [if_pos hdl]
    rcases client_slot_dl_spec cfg tid inp t hdl ht with
      ⟨_, h, _⟩ | ⟨_, hb, _, hr, htr⟩ | ⟨hge, _⟩
    · rw [h] at hclaim
      cases hclaim
    · exact ⟨hb, hr, by rw [htr, List.append_assoc]⟩
    · exact absurd hrx (not_lt.mpr hge)
  · rw [if_neg hdl]
    have hdl' : cfg.isDlData t.frame_id t.slot_id = false := by simpa using hdl
    obtain ⟨htr, _, hneg, _⟩ := client_slot_dummy_spec cfg tid inp t hdl'
    obtain ⟨hb, hr⟩ := hneg hrx
    exact ⟨hb, hr, by rw [htr, List.nil_append]⟩

theorem client_iter_slot_rx_failed (cfg : Config) (tid : Nat) (inp : FrameInput)
    (s : ClientState) (j : Nat) (hs : s.thrown = none)
    (hmax : cfg.max_frame = 0 ∨ s.frame_id < cfg.max_frame) (hrx0 : 0 ≤ inp.rx_ret)
    (hres : ((client_frame_head cfg inp s).resync
        && decide ((client_frame_head cfg inp s).resync_retry_cnt > resync_retry_max)) = false)
    (hj : j < cfg.slot_per_frame - (client_frame_head cfg inp s).slot_id)
    (hrun : (client_slots cfg tid inp j (client_frame_head cfg inp s)).running = true)
    (hthr : (client_slots cfg tid inp j (client_frame_head cfg inp s)).thrown = none)
    (hrx : inp.slot_rx_ret
        (client_slots cfg tid inp j (client_frame_head cfg inp s)).slot_id < 0)
    (hclaim : (client_slot cfg tid inp
        (client_slots cfg tid inp j (client_frame_head cfg inp s))).1.thrown = none) :
    (client_iter cfg tid inp s).running = false
    ∧ (client_iter cfg tid inp s).thrown = none
    ∧ (client_iter cfg tid inp s).trace
        = (client_slots cfg tid inp j (client_frame_head cfg inp s)).trace
          ++ client_capture_head cfg
              (client_slots cfg tid inp j (client_frame_head cfg inp s)) := by
  have h0 : (client_frame_head cfg inp s).thrown = none :=
    (client_frame_head_thrown cfg inp s).trans hs
  obtain ⟨k, hk⟩ : ∃ k, cfg.slot_per_frame - (client_frame_head cfg inp s).slot_id
      = j + (k + 1) := ⟨cfg.slot_per_frame - (client_frame_head cfg inp s).slot_id - j - 1,
        by omega⟩
  rw [client_iter_eq_head cfg tid inp s hmax hrx0 hres, hk,
    client_slots_add cfg tid inp j (k + 1) _ h0 hrun hthr]
  generalize client_slots cfg tid inp j (client_frame_head cfg inp s) = t
    at hrun hthr hrx hclaim ⊢
  obtain ⟨hb, hr, htr⟩ := client_slot_rx_failed cfg tid inp t hthr hrx hclaim
  rw [client_slots]
  simp only [hb, if_true]
  have hsome : (client_slot cfg tid inp t).1.thrown.isSome = false := by rw [hclaim]; rfl
  simp only [hsome, Bool.false_eq_true, if_false]
  exact ⟨hr, hclaim, htr⟩

theorem client_loop_rx_failed (cfg : Config) (tid : Nat) (inp : Nat → FrameInput)
    (s : ClientState) (hrun : s.running = true) (hex : s.exited = false)
    (hs : s.thrown = none) (hmax : cfg.max_frame = 0 ∨ s.frame_id < cfg.max_frame)
    (hrx : (inp s.frame_id).rx_ret < 0) (m : Nat) :
    (client_loop cfg tid inp (1 + m) s).running = false
    ∧ (client_loop cfg tid inp (1 + m) s).thrown = none
    ∧ (client_loop cfg tid inp (1 + m + 1) s).exited = true
    ∧ (client_loop cfg tid inp (1 + m) s).trace
        = s.trace ++ [Event.rx (cfg.samps_per_slot + s.rx_offset)] := by
  have h1 : client_loop cfg tid inp 1 s = client_iter cfg tid (inp s.frame_id) s := by
    show client_step cfg tid inp s = _
    exact client_step_of_running cfg tid inp s hs hex hrun
  obtain ⟨p1, _, p3, p4⟩ := client_iter_rx_failed cfg tid (inp s.frame_id) s hmax hrx
  rw [← h1] at p1 p3 p4
  obtain ⟨i1, i2, i3, i4⟩ := client_loop_inert cfg tid inp s 1 p1 (p3.trans hs) m
  exact ⟨i3, i2, i4, i1.trans p4⟩

theorem client_loop_slot_rx_failed (cfg : Config) (tid : Nat) (inp : Nat → FrameInput)
    (s : ClientState) (j : Nat) (hrun0 : s.running = true) (hex : s.exited = false)
    (hs : s.thrown = none) (hmax : cfg.max_frame = 0 ∨ s.frame_id < cfg.max_frame)
    (hrx0 : 0 ≤ (inp s.frame_id).rx_ret)
    (hres : ((client_frame_head cfg (inp s.frame_id) s).resync
        && decide ((client_frame_head cfg (inp s.frame_id) s).resync_retry_cnt
            > resync_retry_max)) = false)
    (hj : j < cfg.slot_per_frame - (client_frame_head cfg (inp s.frame_id) s).slot_id)
    (hrun : (client_slots cfg tid (inp s.frame_id) j
        (client_frame_head cfg (inp s.frame_id) s)).running = true)
    (hthr : (client_slots cfg tid (inp s.frame_id) j
        (client_frame_head cfg (inp s.frame_id) s)).thrown = none)
    (hrx : (inp s.frame_id).slot_rx_ret
        (client_slots cfg tid (inp s.frame_id) j
          (client_frame_head cfg (inp s.frame_id) s)).slot_id < 0)
    (hclaim : (client_slot cfg tid (inp s.frame_id)
        (client_slots cfg tid (inp s.frame_id) j
          (client_frame_head cfg (inp s.frame_id) s))).1.thrown = none) (m : Nat) :
    (client_loop cfg tid inp (1 + m) s).running = false
    ∧ (client_loop cfg tid inp (1 + m) s).thrown = none
    ∧ (client_loop cfg tid inp (1 + m + 1) s).exited = true
    ∧ (client_loop cfg tid inp (1 + m) s).trace
        = (client_slots cfg tid (inp s.frame_id) j
            (client_frame_head cfg (inp s.frame_id) s)).trace
          ++ client_capture_head cfg
              (client_slots cfg tid (inp s.frame_id) j
                (client_frame_head cfg (inp s.frame_id) s)) := by
  have h1 : client_loop cfg tid inp 1 s = client_iter cfg tid (inp s.frame_id) s := by
    show client_step cfg tid inp s = _
    exact client_step_of_running cfg tid inp s hs hex hrun0
  obtain ⟨p1, p2, p3⟩ := client_iter_slot_rx_failed cfg tid (inp s.frame_id) s j hs hmax hrx0
    hres hj hrun hthr hrx hclaim
  rw [← h1] at p1 p2 p3
  obtain ⟨i1, i2, i3, i4⟩ := client_loop_inert cfg tid inp s 1 p1 p2 m
  exact ⟨i3, i2, i4, i1.trans p3⟩

/-- C12. A negative return of a receive call stops the thread in an orderly way, in the
main loop of `loopRecv` (any configuration, so both timing modes) and in the one of
`clientSyncTxRx`. Take a live thread (running, loop not left, nothing thrown) at the head
of a pass.
Base station: if the captures of the radios `pre` of this pass have completed, the claims
of the capture of radio `it` succeed and its `radioRx` returns a negative value, then after
this pass and after any number `m` of further tests of the loop condition the liveness
flag is false, nothing is thrown, the loop is left at the next test, and the trace is the
one at the entry of that capture followed by its claims and the failed receive only: no
stamp, no enqueue, no transmission and no further receive.
Client, frame-start read: if the frame limit is not reached and the read returns a
negative value, the same holds with the trace extended by that receive only, and the loop
is left at once.
Client, reads of the slot loop (downlink-data and dummy): if the frame-start read
succeeded, resync is not exhausted, the first `j` slots of the slot loop have completed,
the claims of the next capture succeed (none for a dummy read) and its read returns a
negative value, the same holds with the trace at the entry of that capture followed by
its claims and the failed receive only. -/
theorem hard_receive_failure (cfg : BsConfig) (tid : Nat) (pre post : List Nat) (it : Nat)
    (inp : Nat → BsInput) (s : BsState)
    (ccfg : Config) (ctid : Nat) (cinp : Nat → FrameInput) (c : ClientState) (j : Nat)
    (hs : s.running = true ∧ s.exited = false ∧ s.thrown = none)
    (hc : c.running = true ∧ c.exited = false ∧ c.thrown = none)
    (hmax : ccfg.max_frame = 0 ∨ c.frame_id < ccfg.max_frame) :
    ((bs_radios cfg tid (inp 0) pre (bs_roll cfg s)).running = true →
      (bs_radios cfg tid (inp 0) pre (bs_roll cfg s)).thrown = none →
      (bs_capture cfg tid (inp 0) it
        (bs_radios cfg tid (inp 0) pre (bs_roll cfg s))).1.thrown = none →
      (inp 0).rx_ret it < 0 →
      ∀ m : Nat,
        (bs_loop cfg tid (pre ++ it :: post) inp (1 + m) s).running = false
        ∧ (bs_loop cfg tid (pre ++ it :: post) inp (1 + m) s).thrown = none
        ∧ (bs_loop cfg tid (pre ++ it :: post) inp (1 + m + 1) s).exited = true
        ∧ (bs_loop cfg tid (pre ++ it :: post) inp (1 + m) s).trace
            = (bs_radios cfg tid (inp 0) pre (bs_roll cfg s)).trace
              ++ bs_claim_events (bs_radios cfg tid (inp 0) pre (bs_roll cfg s)).cursor
                  (bs_capture_chs cfg it (bs_radios cfg tid (inp 0) pre (bs_roll cfg s)))
              ++ [BsEvent.rx
                    (bs_capture_radio cfg it (bs_radios cfg tid (inp 0) pre (bs_roll cfg s)))
                    (bs_capture_cell cfg it
                      (bs_radios cfg tid (inp 0) pre (bs_roll cfg s)))])
    ∧ ((cinp c.frame_id).rx_ret < 0 →
      ∀ m : Nat,
        (client_loop ccfg ctid cinp (1 + m) c).running = false
        ∧ (client_loop ccfg ctid cinp (1 + m) c).thrown = none
        ∧ (client_loop ccfg ctid cinp (1 + m) c).exited = true
        ∧ (client_loop ccfg ctid cinp (1 + m) c).trace
            = c.trace ++ [Event.rx (ccfg.samps_per_slot + c.rx_offset)])
    ∧ (0 ≤ (cinp c.frame_id).rx_ret →
      ((client_frame_head ccfg (cinp c.frame_id) c).resync
        && decide ((client_frame_head ccfg (cinp c.frame_id) c).resync_retry_cnt
            > resync_retry_max)) = false →
      j < ccfg.slot_per_frame - (client_frame_head ccfg (cinp c.frame_id) c).slot_id →
      (client_slots ccfg ctid (cinp c.frame_id) j
        (client_frame_head ccfg (cinp c.frame_id) c)).running = true →
      (client_slots ccfg ctid (cinp c.frame_id) j
        (client_frame_head ccfg (cinp c.frame_id) c)).thrown = none →
      (client_slot ccfg ctid (cinp c.frame_id)
        (client_slots ccfg ctid (cinp c.frame_id) j
          (client_frame_head ccfg (cinp c.frame_id) c))).1.thrown = none →
      (cinp c.frame_id).slot_rx_ret
        (client_slots ccfg ctid (cinp c.frame_id) j
          (client_frame_head ccfg (cinp c.frame_id) c)).slot_id < 0 →
      ∀ m : Nat,
        (client_loop ccfg ctid cinp (1 + m) c).running = false
        ∧ (client_loop ccfg ctid cinp (1 + m) c).thrown = none
        ∧ (client_loop ccfg ctid cinp (1 + m + 1) c).exited = true
        ∧ (client_loop ccfg ctid cinp (1 + m) c).trace
            = (client_slots ccfg ctid (cinp c.frame_id) j
                (client_frame_head ccfg (cinp c.frame_id) c)).trace
              ++ client_capture_head ccfg
                  (client_slots ccfg ctid (cinp c.frame_id) j
                    (client_frame_head ccfg (cinp c.frame_id) c))) := by
  obtain ⟨s1, s2, s3⟩ := hs
  obtain ⟨c1, c2, c3⟩ := hc
  refine ⟨?_, ?_, ?_⟩
  · intro hrun hthr hclaim hrx m
    exact bs_loop_rx_failed cfg tid pre post it inp s s1 s2 s3 hrun hthr hclaim hrx m
  · intro hrx m
    obtain ⟨p1, p2, _, p4⟩ := client_loop_rx_failed ccfg ctid cinp c c1 c2 c3 hmax hrx m
    refine ⟨p1, p2, ?_, p4⟩
    cases m with
    | zero =>
      have h1 : client_loop ccfg ctid cinp 1 c = client_iter ccfg ctid (cinp c.frame_id) c := by
        show client_step ccfg ctid cinp c = _
        exact client_step_of_running ccfg ctid cinp c c3 c2 c1
      rw [show 1 + 0 = 1 from rfl, h1]
      exact (client_iter_rx_failed ccfg ctid (cinp c.frame_id) c hmax hrx).2.1
    | succ m =>
      have := (client_loop_rx_failed ccfg ctid cinp c c1 c2 c3 hmax hrx m).2.2.1
      rw [show 1 + (m + 1) = 1 + m + 1 by omega]
      exact this
  · intro hrx0 hres hj hrun hthr hclaim hrx m
    exact client_loop_slot_rx_failed ccfg ctid cinp c j c1 c2 c3 hmax hrx0 hres hj hrun hthr
      hrx hclaim m

/-- C12 on a host-timed and on a hardware-framer base station with radios 0 and 1 whose
receive on radio 1 fails in the first pass, on a client whose first frame-start read
fails, and on a client whose read of slot 2 of frame 0 fails: after four tests of the loop
condition the flag is false, nothing is thrown, and the last effect is the failed
receive. -/
theorem hard_receive_failure_witness :
    (rxFailInput.rx_ret 1 < 0
      ∧ (bs_loop uhdConfig 0 [0, 1] (fun _ => rxFailInput) 4 (bsInit 0 (fun _ => 0))).running
          = false
      ∧ (bs_loop uhdConfig 0 [0, 1] (fun _ => rxFailInput) 4 (bsInit 0 (fun _ => 0))).thrown
          = none
      ∧ (bs_loop uhdConfig 0 [0, 1] (fun _ => rxFailInput) 5 (bsInit 0 (fun _ => 0))).exited
          = true
      ∧ (bs_loop uhdConfig 0 [0, 1] (fun _ => rxFailInput) 4
            (bsInit 0 (fun _ => 0))).trace.map BsEvent.effect
          = [Effect.claim 0, Effect.claim 1, Effect.receive, Effect.transmit,
             Effect.stamp 0, Effect.enqueue, Effect.stamp 1, Effect.enqueue,
             Effect.claim 2, Effect.claim 3, Effect.receive])
    ∧ ((bs_loop framerConfig 0 [0, 1] (fun _ => rxFailInput) 4 (bsInit 0 (fun _ => 0))).running
          = false
      ∧ (bs_loop framerConfig 0 [0, 1] (fun _ => rxFailInput) 4
            (bsInit 0 (fun _ => 0))).trace.map BsEvent.effect
          = [Effect.claim 0, Effect.claim 1, Effect.receive,
             Effect.stamp 0, Effect.enqueue, Effect.stamp 1, Effect.enqueue,
             Effect.claim 2, Effect.claim 3, Effect.receive])
    ∧ (frameRxFailInput.rx_ret < 0
      ∧ (client_loop downlinkConfig 0 (fun _ => frameRxFailInput) 4
            (clientInit 0 0 (fun _ => 0))).running = false
      ∧ (client_loop downlinkConfig 0 (fun _ => frameRxFailInput) 4
            (clientInit 0 0 (fun _ => 0))).thrown = none
      ∧ (client_loop downlinkConfig 0 (fun _ => frameRxFailInput) 4
            (clientInit 0 0 (fun _ => 0))).exited = true
      ∧ (client_loop downlinkConfig 0 (fun _ => frameRxFailInput) 4
            (clientInit 0 0 (fun _ => 0))).trace = [Event.rx 100])
    ∧ (slotRxFailInput.slot_rx_ret 2 < 0
      ∧ (client_loop downlinkConfig 0 (fun _ => slotRxFailInput) 4
            (clientInit 0 0 (fun _ => 0))).running = false
      ∧ (client_loop downlinkConfig 0 (fun _ => slotRxFailInput) 4
            (clientInit 0 0 (fun _ => 0))).thrown = none
      ∧ (client_loop downlinkConfig 0 (fun _ => slotRxFailInput) 5
            (clientInit 0 0 (fun _ => 0))).exited = true
      ∧ (client_loop downlinkConfig 0 (fun _ => slotRxFailInput) 4
            (clientInit 0 0 (fun _ => 0))).trace.map Event.effect
          = [Effect.receive, Effect.transmit, Effect.transmit,
             Effect.claim 0, Effect.claim 1, Effect.receive,
             Effect.stamp 0, Effect.enqueue, Effect.stamp 1, Effect.enqueue,
             Effect.claim 2, Effect.claim 3, Effect.receive]) := by
  have hu := (hard_receive_failure uhdConfig 0 [0] [] 1 (fun _ => rxFailInput)
    (bsInit 0 (fun _ => 0)) downlinkConfig 0 (fun _ => frameRxFailInput)
    (clientInit 0 0 (fun _ => 0)) 1 ⟨rfl, rfl, rfl⟩ ⟨rfl, rfl, rfl⟩ (Or.inl rfl))
  have hf := (hard_receive_failure framerConfig 0 [0] [] 1 (fun _ => rxFailInput)
    (bsInit 0 (fun _ => 0)) downlinkConfig 0 (fun _ => slotRxFailInput)
    (clientInit 0 0 (fun _ => 0)) 1 ⟨rfl, rfl, rfl⟩ ⟨rfl, rfl, rfl⟩ (Or.inl rfl))
  obtain ⟨u1, u2, u3, _⟩ := hu.1 (by decide) (by decide) (by decide) (by decide) 3
  obtain ⟨f1, _⟩ := hf.1 (by decide) (by decide) (by decide) (by decide) 3
  obtain ⟨a1, a2, a3, a4⟩ := hu.2.1 (by decide) 3
  obtain ⟨b1, b2, b3, _⟩ := hf.2.2 (by decide) (by decide) (by decide) (by decide)
    (by decide) (by decide) (by decide) 3
  exact ⟨⟨by decide, u1, u2, u3, by decide⟩, ⟨f1, by decide⟩,
    ⟨by decide, a1, a2, a3, a4⟩, ⟨by decide, b1, b2, b3, by decide⟩⟩

/-! ### Resync period -/

theorem beacon_calls_append (a b : List Event) :
    beacon_calls (a ++ b) = beacon_calls a + beacon_calls b := by
  unfold beacon_calls
  exact List.countP_append _ a b

theorem beacon_calls_tx (cfg : Config) (rxTime : Int) :
    beacon_calls (client_tx_events cfg rxTime) = 0 := by
  unfold beacon_calls
  rw [List.countP_eq_zero]
  intro e he
  unfold client_tx_events at he
  simp only [List.mem_append, List.mem_singleton] at he
  rcases he with (he | he) | he
  · rw [he]; simp [Event.is_correlation]
  · split at he
    · simp only [List.mem_singleton] at he
      rw [he]; simp [Event.is_correlation]
    · cases he
  · split at he
    · simp only [List.mem_map] at he
      obtain ⟨k, _, hk⟩ := he
      rw [← hk]; simp [Event.is_correlation]
    · cases he

theorem client_claims_view (base : Nat) (chs : List Nat) (s : ClientState) :
    (client_claims base chs s).resync_view = s.resync_view := by
  induction chs generalizing s with
  | nil => rfl
  | cons ch rest ih =>
    simp only [client_claims]
    split
    · simp [ClientState.resync_view, beacon_calls_append, beacon_calls, Event.is_correlation]
    · rw [ih]
      simp [ClientState.resync_view, beacon_calls_append, beacon_calls, Event.is_correlation]

theorem client_stamps_view (cfg : Config) (tid : Nat) (inp : FrameInput) (base : Nat)
    (chs : List Nat) (s : ClientState) :
    (client_stamps cfg tid inp base chs s).resync_view = s.resync_view := by
  induction chs generalizing s with
  | nil => rfl
  | cons ch rest ih =>
    simp only [client_stamps]
    split
    · rw [ih]
      simp [ClientState.resync_view, beacon_calls_append, beacon_calls, Event.is_correlation]
    · simp [ClientState.resync_view, beacon_calls_append, beacon_calls, Event.is_correlation]

theorem client_slot_view (cfg : Config) (tid : Nat) (inp : FrameInput) (s : ClientState) :
    (client_slot cfg tid inp s).1.resync_view = s.resync_view := by
  have hc := client_claims_view s.buffer_offset (List.range cfg.cl_sdr_ch)
    { s with inuse := (inp.released s.slot_id).foldl release s.inuse }
  unfold client_slot
  dsimp only
  generalize client_claims s.buffer_offset (List.range cfg.cl_sdr_ch)
    { s with inuse := (inp.released s.slot_id).foldl release s.inuse } = s1 at hc ⊢
  have hc' : s1.resync_view = s.resync_view := hc
  have h2 : ({ s1 with trace := s1.trace ++ [Event.rx cfg.samps_per_slot],
                       rxTime := inp.slot_rx_time s.slot_id } : ClientState).resync_view
      = s.resync_view := by
    rw [← hc']
    simp [ClientState.resync_view, beacon_calls_append, beacon_calls, Event.is_correlation]
  split
  · split
    · exact hc'
    · split
      · exact h2
      · rw [client_stamps_view]
        exact h2
  · split <;>
      simp [ClientState.resync_view, beacon_calls_append, beacon_calls, Event.is_correlation]

theorem client_slots_view (cfg : Config) (tid : Nat) (inp : FrameInput) (n : Nat)
    (s : ClientState) :
    (client_slots cfg tid inp n s).resync_view = s.resync_view := by
  induction n generalizing s with
  | zero => rfl
  | succ n ih =>
    simp only [client_slots]
    split
    · exact client_slot_view cfg tid inp s
    · rw [ih]
      exact client_slot_view cfg tid inp s

theorem client_frame_tail_view (cfg : Config) (tid : Nat) (inp : FrameInput)
    (s : ClientState) :
    (client_frame_tail cfg tid inp s).resync_view = s.resync_view := by
  have h := client_slots_view cfg tid inp (cfg.slot_per_frame - (s.slot_id + 1))
    { s with trace := s.trace ++ client_tx_events cfg s.rxTime, slot_id := s.slot_id + 1 }
  have h' : ({ s with trace := s.trace ++ client_tx_events cfg s.rxTime,
                      slot_id := s.slot_id + 1 } : ClientState).resync_view
      = s.resync_view := by
    simp [ClientState.resync_view, beacon_calls_append, beacon_calls_tx]
  unfold client_frame_tail
  dsimp only
  split
  · exact h.trans h'
  · exact h.trans h'

theorem resync_arm_eq (cfg : Config) (s : ClientState) :
    resync_arm cfg s
      = if 1000 ≤ s.frame_id ∧ s.frame_id % 1000 = 0 then
          { s with resync := cfg.frame_mode_continuous_resync }
        else s := by
  unfold resync_arm
  by_cases h : 1000 ≤ s.frame_id ∧ s.frame_id % 1000 = 0
  · have h1 : s.frame_id / 1000 > 0 := Nat.div_pos h.1 (by decide)
    rw [if_pos h]
    simp [h1, h.2]
  · rw [if_neg h]
    have h1 : ¬ (s.frame_id / 1000 > 0 ∧ s.frame_id % 1000 = 0) := by
      intro ⟨a, b⟩
      apply h
      refine ⟨?_, b⟩
      by_contra hlt
      have : s.frame_id / 1000 = 0 := Nat.div_eq_of_lt (by omega)
      omega
    have h2 : (decide (s.frame_id / 1000 > 0) && decide (s.frame_id % 1000 = 0)) = false := by
      by_cases ha : s.frame_id / 1000 > 0
      · have hb : ¬ s.frame_id % 1000 = 0 := fun hb => h1 ⟨ha, hb⟩
        simp [hb]
      · simp [ha]
    rw [h2]
    rfl

theorem resync_block_eq_arm (cfg : Config) (found : Int) (s : ClientState) :
    resync_block cfg found s
      = if (resync_arm cfg s).resync then
          resync_correlate cfg found { resync_arm cfg s with rx_offset := 0 }
        else { resync_arm cfg s with rx_offset := 0 } := rfl

theorem resync_block_off (cfg : Config) (found : Int) (s : ClientState)
    (hen : cfg.frame_mode_continuous_resync = false) (hres : s.resync = false) :
    (resync_block cfg found s).resync = false
    ∧ (resync_block cfg found s).trace = s.trace := by
  have harm : (resync_arm cfg s).resync = false ∧ (resync_arm cfg s).trace = s.trace := by
    unfold resync_arm
    split
    · exact ⟨hen, rfl⟩
    · exact ⟨hres, rfl⟩
  rw [resync_block_eq_arm, harm.1]
  simp only [Bool.false_eq_true, if_false]
  exact harm

theorem resync_block_view_off (cfg : Config) (found : Int) (s : ClientState)
    (hen : cfg.frame_mode_continuous_resync = false) (hres : s.resync = false) :
    (resync_block cfg found s).resync_view = s.resync_view := by
  obtain ⟨h1, h2⟩ := resync_block_off cfg found s hen hres
  unfold ClientState.resync_view
  rw [h1, h2, hres]

theorem frame_rx_view (cfg : Config) (inp : FrameInput) (s : ClientState) :
    ({ s with trace := s.trace ++ [Event.rx (cfg.samps_per_slot + s.rx_offset)],
              rxTime := inp.rx_time } : ClientState).resync_view = s.resync_view := by
  simp [ClientState.resync_view, beacon_calls_append, beacon_calls, Event.is_correlation]

theorem client_frame_head_off (cfg : Config) (inp : FrameInput) (s : ClientState)
    (hen : cfg.frame_mode_continuous_resync = false) (hres : s.resync = false) :
    (client_frame_head cfg inp s).resync_view = s.resync_view := by
  have h3 := (resync_block_view_off cfg inp.beacon
    { s with trace := s.trace ++ [Event.rx (cfg.samps_per_slot + s.rx_offset)],
             rxTime := inp.rx_time } hen hres).trans (frame_rx_view cfg inp s)
  unfold client_frame_head
  dsimp only
  generalize resync_block cfg inp.beacon
    { s with trace := s.trace ++ [Event.rx (cfg.samps_per_slot + s.rx_offset)],
             rxTime := inp.rx_time } = b at h3 ⊢
  rw [← h3]
  simp [ClientState.resync_view, beacon_calls_append, beacon_calls_tx]

theorem client_iter_off (cfg : Config) (tid : Nat) (inp : FrameInput) (s : ClientState)
    (hen : cfg.frame_mode_continuous_resync = false) (hres : s.resync = false) :
    (client_iter cfg tid inp s).resync_view = s.resync_view := by
  have h3 := (resync_block_view_off cfg inp.beacon
    { s with trace := s.trace ++ [Event.rx (cfg.samps_per_slot + s.rx_offset)],
             rxTime := inp.rx_time } hen hres).trans (frame_rx_view cfg inp s)
  have h1 := (resync_block_off cfg inp.beacon
    { s with trace := s.trace ++ [Event.rx (cfg.samps_per_slot + s.rx_offset)],
             rxTime := inp.rx_time } hen hres).1
  unfold client_iter
  dsimp only
  generalize resync_block cfg inp.beacon
    { s with trace := s.trace ++ [Event.rx (cfg.samps_per_slot + s.rx_offset)],
             rxTime := inp.rx_time } = b at h1 h3 ⊢
  split
  · rfl
  · split
    · simp [ClientState.resync_view, beacon_calls_append, beacon_calls, Event.is_correlation]
    · rw [h1]
      simp only [Bool.false_and, Bool.false_eq_true, if_false]
      rw [client_frame_tail_view]
      exact h3

theorem client_step_off (cfg : Config) (tid : Nat) (inp : Nat → FrameInput) (s : ClientState)
    (hen : cfg.frame_mode_continuous_resync = false) (hres : s.resync = false) :
    (client_step cfg tid inp s).resync_view = s.resync_view := by
  unfold client_step
  split
  · rfl
  · split
    · exact client_iter_off cfg tid (inp s.frame_id) s hen hres
    · rfl

theorem client_loop_off (cfg : Config) (tid : Nat) (inp : Nat → FrameInput) (c : ClientState)
    (hen : cfg.frame_mode_continuous_resync = false) (hres : c.resync = false) (n : Nat) :
    (client_loop cfg tid inp n c).resync_view = c.resync_view := by
  induction n with
  | zero => rfl
  | succ n ih =>
    have hr : (client_loop cfg tid inp n c).resync = false := by
      have := congrArg Prod.fst ih
      exact this.trans hres
    rw [client_loop_succ, client_step_off cfg tid inp _ hen hr]
    exact ih

theorem client_iter_stop_off (cfg : Config) (tid : Nat) (inp : FrameInput) (s : ClientState)
    (hen : cfg.frame_mode_continuous_resync = false) (hres : s.resync = false)
    (hrun : s.running = true) (hs : s.thrown = none)
    (hstop : (client_iter cfg tid inp s).running = false) :
    (client_iter cfg tid inp s).receive_last
    ∨ (0 < cfg.max_frame ∧ cfg.max_frame ≤ (client_iter cfg tid inp s).frame_id) := by
  obtain ⟨h1, _⟩ := resync_block_off cfg inp.beacon
    { s with trace := s.trace ++ [Event.rx (cfg.samps_per_slot + s.rx_offset)],
             rxTime := inp.rx_time } hen hres
  obtain ⟨t1, t2, _⟩ := resync_block_thrown cfg inp.beacon
    { s with trace := s.trace ++ [Event.rx (cfg.samps_per_slot + s.rx_offset)],
             rxTime := inp.rx_time }
  unfold client_iter at hstop ⊢
  dsimp only at hstop ⊢
  by_cases hm : (decide (cfg.max_frame > 0) && decide (s.frame_id ≥ cfg.max_frame)) = true
  · rw [if_pos hm]
    right
    simpa using hm
  · rw [if_neg hm] at hstop ⊢
    by_cases hrx : inp.rx_ret < 0
    · rw [if_pos hrx]
      left
      exact ⟨hs, _, _, rfl⟩
    · rw [if_neg hrx] at hstop ⊢
      rw [h1] at hstop ⊢
      simp only [Bool.false_and, Bool.false_eq_true, if_false] at hstop ⊢
      left
      exact client_frame_tail_stop cfg tid inp _ (t2.trans hrun) (t1.trans hs) hstop

theorem client_loop_stop_off (cfg : Config) (tid : Nat) (inp : Nat → FrameInput)
    (c : ClientState) (hen : cfg.frame_mode_continuous_resync = false)
    (hres : c.resync = false) (hrun : c.running = true) (n : Nat) :
    (client_loop cfg tid inp n c).running = false →
      (client_loop cfg tid inp n c).receive_last
      ∨ (0 < cfg.max_frame ∧ cfg.max_frame ≤ (client_loop cfg tid inp n c).frame_id) := by
  induction n with
  | zero =>
    intro h
    rw [client_loop, hrun] at h
    exact absurd h (by simp)
  | succ n ih =>
    have hr : (client_loop cfg tid inp n c).resync = false :=
      (congrArg Prod.fst (client_loop_off cfg tid inp c hen hres n)).trans hres
    rw [client_loop_succ]
    generalize client_loop cfg tid inp n c = u at ih hr ⊢
    unfold client_step
    by_cases hx : (u.thrown.isSome || u.exited) = true
    · rw [if_pos hx]
      exact ih
    · rw [if_neg hx]
      have hs : u.thrown = none := by
        cases hth : u.thrown with
        | none => rfl
        | some e => rw [hth] at hx; simp at hx
      by_cases hu : u.running = true
      · rw [if_pos hu]
        exact client_iter_stop_off cfg tid (inp u.frame_id) u hen hr hu hs
      · rw [if_neg hu]
        intro _
        exact ih (by simpa using hu)

/-- C18. The resync section of a pass of the steady-state loop is the arming test followed,
while the flag is set, by the correlation; the arming test assigns `resync_enable` (the
configuration's `frame_mode == "continuous_resync"`) to the flag exactly when the frame
counter `f` satisfies `f >= 1000` and `f mod 1000 = 0`, and leaves the flag alone
otherwise, so a flag that was false is true after the test only at such a frame of a
configuration with continuous resynchronisation. Consequently, when continuous
resynchronisation is not enabled and the loop is entered with the flag false (line 790),
after any number `n` of tests of the loop condition: the flag is false, the number of
beacon correlations in the trace is the one at loop entry, the flag tested by the
exhaustion stop of the next pass is false, and a thread that entered the loop live and has
its liveness flag cleared has been stopped by a failed receive or by the frame limit. -/
theorem resync_period (cfg : Config) (tid : Nat) (inp : Nat → FrameInput) (c s : ClientState)
    (found : Int) :
    resync_block cfg found s
        = (if (resync_arm cfg s).resync then
            resync_correlate cfg found { resync_arm cfg s with rx_offset := 0 }
          else { resync_arm cfg s with rx_offset := 0 })
    ∧ resync_arm cfg s
        = (if 1000 ≤ s.frame_id ∧ s.frame_id % 1000 = 0 then
            { s with resync := cfg.frame_mode_continuous_resync }
          else s)
    ∧ (s.resync = false → (resync_arm cfg s).resync = true →
        cfg.frame_mode_continuous_resync = true ∧ 1000 ≤ s.frame_id ∧ s.frame_id % 1000 = 0)
    ∧ (cfg.frame_mode_continuous_resync = false → c.resync = false →
        ∀ n : Nat,
          (client_loop cfg tid inp n c).resync = false
          ∧ beacon_calls (client_loop cfg tid inp n c).trace = beacon_calls c.trace
          ∧ (client_frame_head cfg (inp (client_loop cfg tid inp n c).frame_id)
              (client_loop cfg tid inp n c)).resync = false
          ∧ (c.running = true → (client_loop cfg tid inp n c).running = false →
              (client_loop cfg tid inp n c).receive_last
              ∨ (0 < cfg.max_frame
                  ∧ cfg.max_frame ≤ (client_loop cfg tid inp n c).frame_id))) := by
  refine ⟨resync_block_eq_arm cfg found s, resync_arm_eq cfg s, ?_, ?_⟩
  · intro hs harm
    rw [resync_arm_eq] at harm
    by_cases h : 1000 ≤ s.frame_id ∧ s.frame_id % 1000 = 0
    · rw [if_pos h] at harm
      exact ⟨harm, h⟩
    · rw [if_neg h, hs] at harm
      cases harm
  · intro hen hres n
    have hv := client_loop_off cfg tid inp c hen hres n
    have hr : (client_loop cfg tid inp n c).resync = false :=
      (congrArg Prod.fst hv).trans hres
    have hh := client_frame_head_off cfg (inp (client_loop cfg tid inp n c).frame_id)
      (client_loop cfg tid inp n c) hen hr
    exact ⟨hr, congrArg Prod.snd hv, (congrArg Prod.fst hh).trans hr,
      fun hrun => client_loop_stop_off cfg tid inp c hen hres hrun n⟩

/-- C18 at frame 1000: the arming test sets the flag for a configuration with continuous
resynchronisation and leaves it false without; at frame 0 it leaves it false; and a client
without continuous resynchronisation that runs the passes of frames 1000 and 1001 keeps
the flag false, runs no correlation and stays live. -/
theorem resync_period_witness :
    (resync_arm advancedConfig atFrame1000).resync = true
    ∧ (resync_arm noResyncConfig atFrame1000).resync = false
    ∧ (resync_arm advancedConfig (clientInit 0 200 (fun _ => 0))).resync = false
    ∧ (client_loop noResyncConfig 0 (fun _ => noBeaconInput) 2 atFrame1000).resync = false
    ∧ beacon_calls (client_loop noResyncConfig 0 (fun _ => noBeaconInput) 2 atFrame1000).trace
        = 0
    ∧ (client_loop noResyncConfig 0 (fun _ => noBeaconInput) 2 atFrame1000).frame_id = 1002
    ∧ (client_loop noResyncConfig 0 (fun _ => noBeaconInput) 2 atFrame1000).running = true := by
  have h := (resync_period noResyncConfig 0 (fun _ => noBeaconInput) atFrame1000 atFrame1000
    0).2.2.2 rfl rfl 2
  exact ⟨by decide, by decide, by decide, h.1, h.2.1, by decide, by decide⟩

/-! ### Host counters and beacon cadence -/

theorem stamp_coords_append (a b : List BsEvent) :
    stamp_coords (a ++ b) = stamp_coords a ++ stamp_coords b := by
  unfold stamp_coords
  exact List.filterMap_append _ _ _

theorem beacon_txs_append (a b : List BsEvent) :
    beacon_txs (a ++ b) = beacon_txs a ++ beacon_txs b := by
  unfold beacon_txs
  exact List.filterMap_append _ _ _

theorem stamp_coords_claims (base : Nat) (chs : List Nat) :
    stamp_coords (bs_claim_events base chs) = []
    ∧ beacon_txs (bs_claim_events base chs) = [] := by
  induction chs with
  | nil => exact ⟨rfl, rfl⟩
  | cons ch rest ih =>
    obtain ⟨h1, h2⟩ := ih
    unfold bs_claim_events at h1 h2 ⊢
    unfold stamp_coords at h1 ⊢
    unfold beacon_txs at h2 ⊢
    simp only [List.map_cons, List.filterMap_cons]
    exact ⟨h1, h2⟩

theorem stamp_coords_stamps (cfg : BsConfig) (tid base frame_id slot_id : Nat) (cell : Int)
    (ant_id : Nat) (chs : List Nat) (cursor : Nat) :
    stamp_coords (bs_stamp_events cfg tid base frame_id slot_id cell ant_id chs cursor)
      = List.replicate chs.length (frame_id, slot_id)
    ∧ beacon_txs (bs_stamp_events cfg tid base frame_id slot_id cell ant_id chs cursor) = [] := by
  induction chs generalizing cursor with
  | nil => exact ⟨rfl, rfl⟩
  | cons ch rest ih =>
    obtain ⟨h1, h2⟩ := ih (advance_cursor cfg.buffer_chunk_size cursor)
    unfold stamp_coords at h1 ⊢
    unfold beacon_txs at h2 ⊢
    simp only [bs_stamp_events, List.filterMap_cons, List.length_cons, List.replicate_succ]
    exact ⟨by rw [h1], h2⟩

theorem stamp_coords_tx_events (cfg : BsConfig) (tid radio_id : Nat) (cell : Int)
    (rxTimeBs : Int) :
    stamp_coords (bs_tx_events cfg tid radio_id cell rxTimeBs) = []
    ∧ beacon_txs (bs_tx_events cfg tid radio_id cell rxTimeBs)
        = [(beaconbuff, StreamFlag.kStreamEndBurst, bs_beacon_txTime cfg.toConfig rxTimeBs)] := by
  have hmap : ∀ (l : List Nat) (f : Nat → StreamFlag) (g : Nat → Int),
      stamp_coords (l.map (fun s => BsEvent.tx_dl tid (f s) (g s))) = []
      ∧ beacon_txs (l.map (fun s => BsEvent.tx_dl tid (f s) (g s))) = [] := by
    intro l f g
    induction l with
    | nil => exact ⟨rfl, rfl⟩
    | cons a rest ih =>
      obtain ⟨h1, h2⟩ := ih
      unfold stamp_coords at h1 ⊢
      unfold beacon_txs at h2 ⊢
      simp only [List.map_cons, List.filterMap_cons]
      exact ⟨h1, h2⟩
  unfold bs_tx_events
  rw [stamp_coords_append, beacon_txs_append]
  split
  · rw [(hmap _ _ _).1, (hmap _ _ _).2]
    exact ⟨rfl, rfl⟩
  · exact ⟨rfl, rfl⟩

theorem stamp_coords_capture_tx (cfg : BsConfig) (inp : BsInput) (it : Nat) (tid radio_id : Nat)
    (cell : Int) (slot_id : Nat) :
    stamp_coords (bs_capture_tx cfg tid radio_id cell slot_id (inp.rx_time it)) = []
    ∧ beacon_txs (bs_capture_tx cfg tid radio_id cell slot_id (inp.rx_time it))
        = capture_beacons cfg inp it slot_id := by
  unfold bs_capture_tx capture_beacons
  by_cases hm : (!cfg.kUseUHD && cfg.bs_hw_framer) = true
  · rw [if_pos hm, if_neg (by rw [hm]; simp)]
    exact ⟨rfl, rfl⟩
  · rw [if_neg hm]
    have hm' : (!cfg.kUseUHD && cfg.bs_hw_framer) = false := by simpa using hm
    by_cases hz : slot_id = 0
    · rw [if_pos hz, if_pos ⟨hm', hz⟩]
      exact stamp_coords_tx_events cfg tid radio_id cell (inp.rx_time it)
    · rw [if_neg hz, if_neg (fun h => hz h.2)]
      exact ⟨rfl, rfl⟩

theorem stamp_coords_rx (radio_id : Nat) (cell : Int) :
    stamp_coords [BsEvent.rx radio_id cell] = []
    ∧ beacon_txs [BsEvent.rx radio_id cell] = [] := ⟨rfl, rfl⟩

theorem bs_capture_beacons (cfg : BsConfig) (tid : Nat) (inp : BsInput) (it : Nat)
    (s : BsState) (hs : s.thrown = none) :
    beacon_txs (bs_capture cfg tid inp it s).1.trace
      = beacon_txs s.trace
        ++ (if 0 ≤ inp.rx_ret it ∧ (bs_capture cfg tid inp it s).1.thrown ≠ some BUFFER_FULL
            then capture_beacons cfg inp it s.slot_id else []) := by
  rcases bs_capture_spec cfg tid inp it s hs with
    ⟨_, ht, _, k, _, _, htr⟩ | ⟨hrx, _, _, _, htr⟩ | ⟨hge, _, _, _, _, m, _, htr, hcase⟩
  · rw [if_neg (fun h => h.2 ht), htr, beacon_txs_append, (stamp_coords_claims _ _).2]
  · rw [if_neg (fun h => absurd hrx (not_lt.mpr h.1)), htr, beacon_txs_append,
      beacon_txs_append, (stamp_coords_claims _ _).2, (stamp_coords_rx _ _).2]
    simp only [List.append_nil]
  · have hne : (bs_capture cfg tid inp it s).1.thrown ≠ some BUFFER_FULL := by
      rcases hcase with ⟨h, _⟩ | ⟨h, _⟩
      · rw [h]; simp
      · rw [h]; decide
    rw [if_pos ⟨hge, hne⟩, htr]
    simp only [beacon_txs_append, (stamp_coords_claims _ _).2, (stamp_coords_rx _ _).2,
      (stamp_coords_stamps _ _ _ _ _ _ _ _ _).2, (stamp_coords_capture_tx _ _ _ _ _ _ _).2,
      List.append_nil]

theorem bs_capture_host (cfg : BsConfig) (tid : Nat) (inp : BsInput) (it : Nat)
    (s : BsState) (hm : (!cfg.kUseUHD && cfg.bs_hw_framer) = false) (hs : s.thrown = none)
    (hrx : 0 ≤ inp.rx_ret it) (hthr : (bs_capture cfg tid inp it s).1.thrown = none) :
    (bs_capture cfg tid inp it s).2 = false
    ∧ (bs_capture cfg tid inp it s).1.frame_id = s.frame_id
    ∧ (bs_capture cfg tid inp it s).1.slot_id = s.slot_id
    ∧ (bs_capture cfg tid inp it s).1.running = s.running
    ∧ (bs_capture cfg tid inp it s).1.exited = s.exited
    ∧ stamp_coords (bs_capture cfg tid inp it s).1.trace
        = stamp_coords s.trace
          ++ List.replicate (bs_capture_chs cfg it s).length (s.frame_id, s.slot_id)
    ∧ beacon_txs (bs_capture cfg tid inp it s).1.trace
        = beacon_txs s.trace ++ capture_beacons cfg inp it s.slot_id := by
  have hb := bs_capture_beacons cfg tid inp it s hs
  rw [if_pos ⟨hrx, by rw [hthr]; simp⟩] at hb
  have hco : bs_capture_coords cfg inp it s (bs_capture_radio cfg it s)
      = (s.frame_id, s.slot_id, (bs_capture_radio cfg it s * cfg.num_channels) % SIZE_MOD) := by
    unfold bs_capture_coords
    rw [hm]
    rfl
  rcases bs_capture_spec cfg tid inp it s hs with
    ⟨_, ht, _⟩ | ⟨hneg, _⟩ | ⟨_, hr, hex, hf, hsl, m, _, htr, hcase⟩
  · rw [ht] at hthr
    cases hthr
  · exact absurd hneg (not_lt.mpr hrx)
  · rcases hcase with ⟨_, hm', hflag⟩ | ⟨ht, _⟩
    · rw [hco] at hf hsl htr
      refine ⟨hflag, hf, hsl, hr, hex, ?_, hb⟩
      rw [htr, hm', List.take_length]
      simp only [stamp_coords_append, (stamp_coords_claims _ _).1, (stamp_coords_rx _ _).1,
        (stamp_coords_stamps _ _ _ _ _ _ _ _ _).1, (stamp_coords_capture_tx _ _ _ _ _ _ _).1,
        List.append_nil]
    · rw [ht] at hthr
      cases hthr

theorem bs_radios_host (cfg : BsConfig) (tid : Nat) (inp : BsInput) (radios : List Nat)
    (s : BsState) (hm : (!cfg.kUseUHD && cfg.bs_hw_framer) = false) (hs : s.thrown = none)
    (hrx : ∀ it, 0 ≤ inp.rx_ret it)
    (hthr : (bs_radios cfg tid inp radios s).thrown = none) :
    (bs_radios cfg tid inp radios s).frame_id = s.frame_id
    ∧ (bs_radios cfg tid inp radios s).slot_id = s.slot_id
    ∧ (bs_radios cfg tid inp radios s).running = s.running
    ∧ (bs_radios cfg tid inp radios s).exited = s.exited
    ∧ (∃ k, stamp_coords (bs_radios cfg tid inp radios s).trace
        = stamp_coords s.trace ++ List.replicate k (s.frame_id, s.slot_id))
    ∧ beacon_txs (bs_radios cfg tid inp radios s).trace
        = beacon_txs s.trace
          ++ radios.flatMap (fun it => capture_beacons cfg inp it s.slot_id) := by
  induction radios generalizing s with
  | nil =>
    refine ⟨rfl, rfl, rfl, rfl, ⟨0, ?_⟩, ?_⟩
    · simp [bs_radios]
    · simp [bs_radios]
  | cons it rest ih =>
    rw [bs_radios] at hthr ⊢
    by_cases hflag : (bs_capture cfg tid inp it s).2 = true
    · simp only [hflag, if_true] at hthr
      have := (bs_capture_host cfg tid inp it s hm hs (hrx it) hthr).1
      rw [this] at hflag
      cases hflag
    · have hflag' : (bs_capture cfg tid inp it s).2 = false := by simpa using hflag
      simp only [hflag', Bool.false_eq_true, if_false] at hthr ⊢
      have hcthr : (bs_capture cfg tid inp it s).1.thrown = none := by
        rcases bs_capture_spec cfg tid inp it s hs with
          ⟨hb, _⟩ | ⟨_, hb, _⟩ | ⟨_, _, _, _, _, m, _, _, hcase⟩
        · rw [hb] at hflag'; cases hflag'
        · rw [hb] at hflag'; cases hflag'
        · rcases hcase with ⟨h, _⟩ | ⟨_, hb, _⟩
          · exact h
          · rw [hb] at hflag'; cases hflag'
      obtain ⟨_, c1, c2, c3, c4, c5, c6⟩ := bs_capture_host cfg tid inp it s hm hs (hrx it) hcthr
      obtain ⟨i1, i2, i3, i4, ⟨k, i5⟩, i6⟩ := ih _ hcthr hthr
      refine ⟨i1.trans c1, i2.trans c2, i3.trans c3, i4.trans c4,
        ⟨(bs_capture_chs cfg it s).length + k, ?_⟩, ?_⟩
      · rw [i5, c5, c1, c2, List.append_assoc, ← List.replicate_add]
      · rw [i6, c6, c2, List.append_assoc]
        rfl

theorem bs_roll_host (cfg : BsConfig) (s : BsState)
    (hm : (!cfg.kUseUHD && cfg.bs_hw_framer) = false) :
    bs_roll cfg s
      = if s.slot_id = cfg.slot_per_frame then
          { s with slot_id := 0, frame_id := s.frame_id + 1 }
        else s := by
  have hm' : (cfg.kUseUHD || !cfg.bs_hw_framer) = true := by
    cases hu : cfg.kUseUHD <;> cases hf : cfg.bs_hw_framer <;> simp [hu, hf] at hm ⊢
  unfold bs_roll
  rw [hm', Bool.true_and]
  by_cases h : s.slot_id = cfg.slot_per_frame
  · rw [if_pos h, if_pos (decide_eq_true h)]
  · rw [if_neg h, if_neg (by simpa using h)]

theorem bs_roll_live (cfg : BsConfig) (s : BsState) :
    (bs_roll cfg s).exited = s.exited := by
  unfold bs_roll
  split <;> rfl

theorem bs_iter_host (cfg : BsConfig) (tid : Nat) (radios : List Nat) (inp : BsInput)
    (s : BsState) (hm : (!cfg.kUseUHD && cfg.bs_hw_framer) = false) (hs : s.thrown = none)
    (hrx : ∀ it, 0 ≤ inp.rx_ret it)
    (hthr : (bs_iter cfg tid radios inp s).thrown = none) :
    (bs_iter cfg tid radios inp s).frame_id = (bs_roll cfg s).frame_id
    ∧ (bs_iter cfg tid radios inp s).slot_id
        = (bs_roll cfg s).slot_id + (if cfg.kUseUHD then 1 else 0)
    ∧ (bs_iter cfg tid radios inp s).running = s.running
    ∧ (bs_iter cfg tid radios inp s).exited = s.exited
    ∧ (∃ k, stamp_coords (bs_iter cfg tid radios inp s).trace
        = stamp_coords s.trace
          ++ List.replicate k ((bs_roll cfg s).frame_id, (bs_roll cfg s).slot_id))
    ∧ beacon_txs (bs_iter cfg tid radios inp s).trace
        = beacon_txs s.trace
          ++ radios.flatMap (fun it => capture_beacons cfg inp it (bs_roll cfg s).slot_id) := by
  obtain ⟨r1, r2, r3⟩ := bs_roll_thrown cfg s
  have r4 := bs_roll_live cfg s
  have h0 : (bs_roll cfg s).thrown = none := r1.trans hs
  rw [bs_iter_eq_roll] at hthr ⊢
  have hthr2 : (bs_radios cfg tid inp radios (bs_roll cfg s)).thrown = none := by
    by_cases ht : (bs_radios cfg tid inp radios (bs_roll cfg s)).thrown.isSome = true
    · rw [if_pos ht] at hthr
      exact hthr
    · cases hth : (bs_radios cfg tid inp radios (bs_roll cfg s)).thrown with
      | none => rfl
      | some e => rw [hth] at ht; simp at ht
  obtain ⟨p1, p2, p3, p4, p5, p6⟩ := bs_radios_host cfg tid inp radios (bs_roll cfg s) hm h0
    hrx hthr2
  rw [r3] at p5 p6
  have hsome : (bs_radios cfg tid inp radios (bs_roll cfg s)).thrown.isSome = false := by
    rw [hthr2]; rfl
  simp only [hsome, Bool.false_eq_true, if_false]
  by_cases hu : cfg.kUseUHD = true
  · simp only [hu, if_true]
    exact ⟨p1, by rw [p2], p3.trans r2, p4.trans r4, p5, p6⟩
  · have hu' : cfg.kUseUHD = false := by simpa using hu
    simp only [hu', Bool.false_eq_true, if_false]
    exact ⟨p1, by rw [p2]; rfl, p3.trans r2, p4.trans r4, p5, p6⟩

theorem bs_step_of_thrown (cfg : BsConfig) (tid : Nat) (radios : List Nat) (inp : BsInput)
    (s : BsState) (h : s.thrown ≠ none) : bs_step cfg tid radios inp s = s := by
  unfold bs_step
  have hs : s.thrown.isSome = true := Option.isSome_iff_ne_none.mpr h
  simp [hs]

theorem bs_loop_thrown_prev (cfg : BsConfig) (tid : Nat) (radios : List Nat)
    (inp : Nat → BsInput) (s : BsState) (n : Nat)
    (h : (bs_loop cfg tid radios inp (n + 1) s).thrown = none) :
    (bs_loop cfg tid radios inp n s).thrown = none := by
  by_contra hne
  have : bs_loop cfg tid radios inp (n + 1) s = bs_loop cfg tid radios inp n s :=
    bs_step_of_thrown cfg tid radios (inp n) _ hne
  rw [this] at h
  exact hne h

theorem div_mod_of_counters (S f sl n : Nat) (h : f * S + sl = n) (hsl : sl < S) :
    n / S = f ∧ n % S = sl := by
  have hS : 0 < S := by omega
  subst h
  constructor
  · rw [Nat.add_comm, Nat.mul_comm, Nat.add_mul_div_left _ _ hS, Nat.div_eq_of_lt hsl,
      Nat.zero_add]
  · rw [Nat.add_comm, Nat.mul_comm, Nat.add_mul_mod_self_left, Nat.mod_eq_of_lt hsl]

theorem bs_loop_uhd_counters (cfg : BsConfig) (tid : Nat) (radios : List Nat)
    (inp : Nat → BsInput) (s : BsState) (hu : cfg.kUseUHD = true)
    (hS : 1 ≤ cfg.slot_per_frame) (hrx : ∀ k it, 0 ≤ (inp k).rx_ret it)
    (hrun : s.running = true) (hex : s.exited = false)
    (hf : s.frame_id = 0) (hsl : s.slot_id = 0) (n : Nat)
    (hthr : (bs_loop cfg tid radios inp n s).thrown = none) :
    (bs_loop cfg tid radios inp n s).running = true
    ∧ (bs_loop cfg tid radios inp n s).exited = false
    ∧ (bs_loop cfg tid radios inp n s).frame_id * cfg.slot_per_frame
        + (bs_loop cfg tid radios inp n s).slot_id = n
    ∧ (bs_loop cfg tid radios inp n s).slot_id ≤ cfg.slot_per_frame
    ∧ (bs_roll cfg (bs_loop cfg tid radios inp n s)).frame_id = n / cfg.slot_per_frame
    ∧ (bs_roll cfg (bs_loop cfg tid radios inp n s)).slot_id = n % cfg.slot_per_frame := by
  have hm : (!cfg.kUseUHD && cfg.bs_hw_framer) = false := by rw [hu]; rfl
  have roll : ∀ (m : Nat) (u : BsState), u.frame_id * cfg.slot_per_frame + u.slot_id = m →
      u.slot_id ≤ cfg.slot_per_frame →
      (bs_roll cfg u).frame_id * cfg.slot_per_frame + (bs_roll cfg u).slot_id = m
      ∧ (bs_roll cfg u).slot_id < cfg.slot_per_frame := by
    intro m u h1 h2
    rw [bs_roll_host cfg u hm]
    by_cases h : u.slot_id = cfg.slot_per_frame
    · rw [if_pos h]
      refine ⟨?_, by show 0 < cfg.slot_per_frame; omega⟩
      show (u.frame_id + 1) * cfg.slot_per_frame + 0 = m
      rw [Nat.add_mul, Nat.one_mul, Nat.add_zero, ← h1, h]
    · rw [if_neg h]
      exact ⟨h1, by omega⟩
  induction n with
  | zero =>
    have h1 : s.frame_id * cfg.slot_per_frame + s.slot_id = 0 := by rw [hf, hsl]; simp
    have h2 : s.slot_id ≤ cfg.slot_per_frame := by rw [hsl]; omega
    obtain ⟨q1, q2⟩ := roll 0 s h1 h2
    obtain ⟨d1, d2⟩ := div_mod_of_counters _ _ _ _ q1 q2
    exact ⟨hrun, hex, h1, h2, d1.symm, d2.symm⟩
  | succ n ih =>
    have hprev := bs_loop_thrown_prev cfg tid radios inp s n hthr
    obtain ⟨i1, i2, i3, i4, _, _⟩ := ih hprev
    have hstep : bs_loop cfg tid radios inp (n + 1) s
        = bs_iter cfg tid radios (inp n) (bs_loop cfg tid radios inp n s) :=
      bs_step_live cfg tid radios (inp n) _ i1 i2 hprev
    rw [hstep] at hthr ⊢
    obtain ⟨q1, q2⟩ := roll n _ i3 i4
    obtain ⟨p1, p2, p3, p4, _, _⟩ := bs_iter_host cfg tid radios (inp n) _ hm hprev (hrx n) hthr
    rw [hu] at p2
    simp only [if_true] at p2
    have h1 : (bs_iter cfg tid radios (inp n) (bs_loop cfg tid radios inp n s)).frame_id
          * cfg.slot_per_frame
        + (bs_iter cfg tid radios (inp n) (bs_loop cfg tid radios inp n s)).slot_id = n + 1 := by
      rw [p1, p2, ← Nat.add_assoc, q1]
    have h2 : (bs_iter cfg tid radios (inp n) (bs_loop cfg tid radios inp n s)).slot_id
        ≤ cfg.slot_per_frame := by rw [p2]; omega
    obtain ⟨q1', q2'⟩ := roll (n + 1) _ h1 h2
    obtain ⟨d1, d2⟩ := div_mod_of_counters _ _ _ _ q1' q2'
    exact ⟨p3.trans i1, p4.trans i2, h1, h2, d1.symm, d2.symm⟩

theorem flatMap_capture_beacons (cfg : BsConfig) (inp : BsInput) (radios : List Nat)
    (slot_id : Nat) (hm : (!cfg.kUseUHD && cfg.bs_hw_framer) = false) :
    radios.flatMap (fun it => capture_beacons cfg inp it slot_id)
      = if slot_id = 0 then
          radios.map (fun it => (beaconbuff, StreamFlag.kStreamEndBurst,
            bs_beacon_txTime cfg.toConfig (inp.rx_time it)))
        else [] := by
  induction radios with
  | nil => split <;> rfl
  | cons it rest ih =>
    rw [List.flatMap_cons, ih]
    unfold capture_beacons
    by_cases hz : slot_id = 0
    · rw [if_pos ⟨hm, hz⟩, if_pos hz, if_pos hz]
      rfl
    · rw [if_neg (fun h => hz h.2), if_neg hz, if_neg hz]
      rfl

theorem bs_loop_uhd_pass (cfg : BsConfig) (tid : Nat) (radios : List Nat)
    (inp : Nat → BsInput) (s : BsState) (hu : cfg.kUseUHD = true)
    (hS : 1 ≤ cfg.slot_per_frame) (hrx : ∀ k it, 0 ≤ (inp k).rx_ret it)
    (hrun : s.running = true) (hex : s.exited = false)
    (hf : s.frame_id = 0) (hsl : s.slot_id = 0) (n : Nat)
    (hthr : (bs_loop cfg tid radios inp (n + 1) s).thrown = none) :
    (∃ k, stamp_coords (bs_loop cfg tid radios inp (n + 1) s).trace
        = stamp_coords (bs_loop cfg tid radios inp n s).trace
          ++ List.replicate k (n / cfg.slot_per_frame, n % cfg.slot_per_frame))
    ∧ beacon_txs (bs_loop cfg tid radios inp (n + 1) s).trace
        = beacon_txs (bs_loop cfg tid radios inp n s).trace
          ++ (if n % cfg.slot_per_frame = 0 then
                radios.map (fun it => (beaconbuff, StreamFlag.kStreamEndBurst,
                  bs_beacon_txTime cfg.toConfig ((inp n).rx_time it)))
              else []) := by
  have hm : (!cfg.kUseUHD && cfg.bs_hw_framer) = false := by rw [hu]; rfl
  have hprev := bs_loop_thrown_prev cfg tid radios inp s n hthr
  obtain ⟨i1, i2, _, _, i5, i6⟩ := bs_loop_uhd_counters cfg tid radios inp s hu hS hrx hrun hex
    hf hsl n hprev
  have hstep : bs_loop cfg tid radios inp (n + 1) s
      = bs_iter cfg tid radios (inp n) (bs_loop cfg tid radios inp n s) :=
    bs_step_live cfg tid radios (inp n) _ i1 i2 hprev
  rw [hstep] at hthr ⊢
  obtain ⟨_, _, _, _, p5, p6⟩ := bs_iter_host cfg tid radios (inp n) _ hm hprev (hrx n) hthr
  rw [i5, i6] at p5
  rw [i6, flatMap_capture_beacons cfg (inp n) radios _ hm] at p6
  exact ⟨p5, p6⟩

theorem bs_loop_host_stuck (cfg : BsConfig) (tid : Nat) (radios : List Nat)
    (inp : Nat → BsInput) (s : BsState) (hu : cfg.kUseUHD = false)
    (hfr : cfg.bs_hw_framer = false)
    (hS : 1 ≤ cfg.slot_per_frame) (hrx : ∀ k it, 0 ≤ (inp k).rx_ret it)
    (hrun : s.running = true) (hex : s.exited = false)
    (hf : s.frame_id = 0) (hsl : s.slot_id = 0) (n : Nat)
    (hthr : (bs_loop cfg tid radios inp n s).thrown = none) :
    (bs_loop cfg tid radios inp n s).running = true
    ∧ (bs_loop cfg tid radios inp n s).exited = false
    ∧ (bs_loop cfg tid radios inp n s).frame_id = 0
    ∧ (bs_loop cfg tid radios inp n s).slot_id = 0
    ∧ ∃ k, stamp_coords (bs_loop cfg tid radios inp n s).trace
        = stamp_coords s.trace ++ List.replicate k (0, 0) := by
  have hm : (!cfg.kUseUHD && cfg.bs_hw_framer) = false := by rw [hu, hfr]; rfl
  have roll : ∀ u : BsState, u.frame_id = 0 → u.slot_id = 0 →
      (bs_roll cfg u).frame_id = 0 ∧ (bs_roll cfg u).slot_id = 0 := by
    intro u h1 h2
    rw [bs_roll_host cfg u hm]
    have h : ¬ u.slot_id = cfg.slot_per_frame := by omega
    rw [if_neg h]
    exact ⟨h1, h2⟩
  induction n with
  | zero => exact ⟨hrun, hex, hf, hsl, 0, by simp [bs_loop]⟩
  | succ n ih =>
    have hprev := bs_loop_thrown_prev cfg tid radios inp s n hthr
    obtain ⟨i1, i2, i3, i4, k, i5⟩ := ih hprev
    have hstep : bs_loop cfg tid radios inp (n + 1) s
        = bs_iter cfg tid radios (inp n) (bs_loop cfg tid radios inp n s) :=
      bs_step_live cfg tid radios (inp n) _ i1 i2 hprev
    rw [hstep] at hthr ⊢
    obtain ⟨q1, q2⟩ := roll _ i3 i4
    obtain ⟨p1, p2, p3, p4, ⟨j, p5⟩, _⟩ := bs_iter_host cfg tid radios (inp n) _ hm hprev
      (hrx n) hthr
    rw [hu, q2] at p2
    rw [q1, q2, i5] at p5
    refine ⟨p3.trans i1, p4.trans i2, p1.trans q1, p2, k + j, ?_⟩
    rw [p5, List.append_assoc, ← List.replicate_add]

/-- C11, failing input. A base station built without `kUseUHD` and configured without
hardware framer (`hostConfig`, 2 slots per frame) takes the host-counter branch, but its
slot counter is never incremented: the three passes of thread 0 over radio 0 all stamp
frame 0, slot 0, where the host-counter timing asks for (0,0), (0,1), (1,0) as the
`kUseUHD` build (`uhdConfig`) stamps on the same input. -/
theorem host_counter_failing_input :
    hostConfig.kUseUHD = false ∧ hostConfig.bs_hw_framer = false
    ∧ hostConfig.slot_per_frame = 2
    ∧ stamp_coords (bs_loop hostConfig 0 [0] (fun _ => fullSlotInput) 3
          (bsInit 0 (fun _ => 0))).trace
        = [(0, 0), (0, 0), (0, 0), (0, 0), (0, 0), (0, 0)]
    ∧ (bs_loop hostConfig 0 [0] (fun _ => fullSlotInput) 3 (bsInit 0 (fun _ => 0))).slot_id = 0
    ∧ (bs_loop hostConfig 0 [0] (fun _ => fullSlotInput) 3 (bsInit 0 (fun _ => 0))).thrown
        = none
    ∧ stamp_coords (bs_loop uhdConfig 0 [0] (fun _ => fullSlotInput) 3
          (bsInit 0 (fun _ => 0))).trace
        = [(0, 0), (0, 0), (0, 1), (0, 1), (1, 0), (1, 0)] := by
  decide

/-- C15, counterexample. On the host-timed base station `uhdConfig` (frames of 2 slots,
`BEACON_INTERVAL = 2`) thread 0 serving radio 0 runs the four passes of frames 0 and 1,
which are `BEACON_INTERVAL` consecutive frames, and issues two beacon transmissions for
radio 0, one in each frame, not one. -/
theorem beacon_cadence_counterexample :
    uhdConfig.BEACON_INTERVAL = 2
    ∧ stamp_coords (bs_loop uhdConfig 0 [0] (fun _ => fullSlotInput) 4
          (bsInit 0 (fun _ => 0))).trace
        = [(0, 0), (0, 0), (0, 1), (0, 1), (1, 0), (1, 0), (1, 1), (1, 1)]
    ∧ (beacon_txs (bs_loop uhdConfig 0 [0] (fun _ => fullSlotInput) 4
          (bsInit 0 (fun _ => 0))).trace).length = 2
    ∧ ¬ (beacon_txs (bs_loop uhdConfig 0 [0] (fun _ => fullSlotInput) 4
          (bsInit 0 (fun _ => 0))).trace).length = 1 := by
  decide

/-- C15, amended. Beacon transmissions are issued only by captures of the host-timed
branch entered with slot counter 0: a capture of a thread that has not thrown appends
exactly one beacon transmission when the mode is host-timed, the slot counter is 0, its
claims succeed and its receive returns a non-negative value, and none otherwise. Under
`kUseUHD`, from the initial counters, with `slot_per_frame >= 1`, all receives succeeding
and nothing thrown, pass `n` issues one beacon transmission for each radio of the thread
when `n mod slot_per_frame = 0` and none otherwise: one per radio in every frame, not one
per `BEACON_INTERVAL` frames. Each carries `beaconbuff` (the beacon waveform in channel
buffer 0, the all-zero block in channel buffer 1), the end-of-burst flag and the timestamp
`rxTimeBs + samps_per_slot * slot_per_frame * BEACON_INTERVAL`, which is where
`BEACON_INTERVAL` enters. -/
theorem beacon_cadence (cfg : BsConfig) (tid : Nat) (radios : List Nat)
    (inp : Nat → BsInput) (s : BsState)
    (ccfg : BsConfig) (ctid : Nat) (cinp : BsInput) (it : Nat) (t : BsState)
    (hu : cfg.kUseUHD = true)
    (hS : 1 ≤ cfg.slot_per_frame) (hrx : ∀ k it, 0 ≤ (inp k).rx_ret it)
    (hrun : s.running = true) (hex : s.exited = false)
    (hf : s.frame_id = 0) (hsl : s.slot_id = 0) (n : Nat)
    (hthr : (bs_loop cfg tid radios inp (n + 1) s).thrown = none)
    (ht : t.thrown = none) :
    beacon_txs (bs_capture ccfg ctid cinp it t).1.trace
        = beacon_txs t.trace
          ++ (if (!ccfg.kUseUHD && ccfg.bs_hw_framer) = false ∧ t.slot_id = 0
                ∧ 0 ≤ cinp.rx_ret it
                ∧ (bs_capture ccfg ctid cinp it t).1.thrown ≠ some BUFFER_FULL then
              [(beaconbuff, StreamFlag.kStreamEndBurst,
                wrapS64 (cinp.rx_time it
                  + ccfg.samps_per_slot * ccfg.slot_per_frame * ccfg.BEACON_INTERVAL))]
              else [])
    ∧ beacon_txs (bs_loop cfg tid radios inp (n + 1) s).trace
        = beacon_txs (bs_loop cfg tid radios inp n s).trace
          ++ (if n % cfg.slot_per_frame = 0 then
                radios.map (fun it => (beaconbuff, StreamFlag.kStreamEndBurst,
                  wrapS64 ((inp n).rx_time it
                    + cfg.samps_per_slot * cfg.slot_per_frame * cfg.BEACON_INTERVAL)))
              else [])
    ∧ beaconbuff = [BeaconBuf.beacon_ci16, BeaconBuf.zeroes_memory] := by
  refine ⟨?_, ?_, rfl⟩
  · rw [bs_capture_beacons ccfg ctid cinp it t ht]
    unfold capture_beacons
    by_cases h1 : 0 ≤ cinp.rx_ret it ∧ (bs_capture ccfg ctid cinp it t).1.thrown ≠ some BUFFER_FULL
    · rw [if_pos h1]
      by_cases h2 : (!ccfg.kUseUHD && ccfg.bs_hw_framer) = false ∧ t.slot_id = 0
      · rw [if_pos h2, if_pos ⟨h2.1, h2.2, h1.1, h1.2⟩]
        rfl
      · rw [if_neg h2, if_neg (fun h => h2 ⟨h.1, h.2.1⟩)]
    · rw [if_neg h1, if_neg (fun h => h1 ⟨h.2.2.1, h.2.2.2⟩)]
  · exact (bs_loop_uhd_pass cfg tid radios inp s hu hS hrx hrun hex hf hsl n hthr).2

/-- C15 (amended) on `uhdConfig` with radios 0 and 1: pass 2 (frame 1, slot 0) issues one
beacon transmission per radio, scheduled `100 * 2 * 2 = 400` samples after the receive
time 0, and pass 1 (frame 0, slot 1) issues none. -/
theorem beacon_cadence_witness :
    beacon_txs (bs_loop uhdConfig 0 [0, 1] (fun _ => fullSlotInput) 3
        (bsInit 0 (fun _ => 0))).trace
      = beacon_txs (bs_loop uhdConfig 0 [0, 1] (fun _ => fullSlotInput) 2
          (bsInit 0 (fun _ => 0))).trace
        ++ [(beaconbuff, StreamFlag.kStreamEndBurst, 400),
            (beaconbuff, StreamFlag.kStreamEndBurst, 400)]
    ∧ beacon_txs (bs_loop uhdConfig 0 [0, 1] (fun _ => fullSlotInput) 2
        (bsInit 0 (fun _ => 0))).trace
      = beacon_txs (bs_loop uhdConfig 0 [0, 1] (fun _ => fullSlotInput) 1
          (bsInit 0 (fun _ => 0))).trace ++ [] := by
  have h2 := (beacon_cadence uhdConfig 0 [0, 1] (fun _ => fullSlotInput)
    (bsInit 0 (fun _ => 0)) uhdConfig 0 fullSlotInput 0 (bsInit 0 (fun _ => 0)) rfl
    (by decide) (fun _ _ => show (0 : Int) ≤ 100 by decide) rfl rfl rfl rfl 2 (by decide) rfl).2.1
  have h1 := (beacon_cadence uhdConfig 0 [0, 1] (fun _ => fullSlotInput)
    (bsInit 0 (fun _ => 0)) uhdConfig 0 fullSlotInput 0 (bsInit 0 (fun _ => 0)) rfl
    (by decide) (fun _ _ => show (0 : Int) ≤ 100 by decide) rfl rfl rfl rfl 1 (by decide) rfl).2.1
  exact ⟨h2, h1⟩

/-! ### One bit per slot -/

theorem slot_position_inj (i j : Nat)
    (h : (slot_offs i, slot_bit i) = (slot_offs j, slot_bit j)) : i = j := by
  simp only [Prod.mk.injEq, slot_offs, slot_bit, SIZEOF_ATOMIC_INT, Nat.one_shiftLeft] at h
  obtain ⟨h1, h2⟩ := h
  have h3 : i % 4 = j % 4 := Nat.pow_right_injective (le_refl 2) h2
  omega

theorem or_two_pow_of_testBit (w k : Nat) (h : w.testBit k = true) : w ||| 2 ^ k = w := by
  apply Nat.eq_of_testBit_eq
  intro m
  rw [Nat.testBit_or, Nat.testBit_two_pow]
  by_cases hkm : k = m
  · subst hkm
    simp [h]
  · simp [hkm]

theorem claim_other_slot (inuse : Nat → Nat) (i j : Nat) (hij : i ≠ j) :
    slot_in_use (claim inuse i).inuse j = slot_in_use inuse j := by
  rw [slot_in_use_eq, slot_in_use_eq, claim_inuse]
  simp only [slot_offs, slot_bit, SIZEOF_ATOMIC_INT, Nat.one_shiftLeft]
  by_cases hw : j / 4 = i / 4
  · have hb : i % 4 ≠ j % 4 := by omega
    rw [if_pos hw, hw, Nat.testBit_or, Nat.testBit_two_pow]
    simp [hb]
  · rw [if_neg hw]

theorem claim_failed_inuse (inuse : Nat → Nat) (i : Nat)
    (h : (claim inuse i).thrown ≠ none) : (claim inuse i).inuse = inuse := by
  have hu : slot_in_use inuse i = true := by
    rw [claim_thrown] at h
    cases hs : slot_in_use inuse i with
    | true => rfl
    | false => rw [hs] at h; exact absurd rfl h
  rw [slot_in_use_eq] at hu
  rw [claim_inuse]
  funext k
  simp only [slot_offs, slot_bit, SIZEOF_ATOMIC_INT, Nat.one_shiftLeft]
  by_cases hk : k = i / 4
  · rw [if_pos hk, hk]
    exact or_two_pow_of_testBit _ _ hu
  · rw [if_neg hk]

/-- C22. The map from a slot index `i` to its occupancy position, the pair of the word
offset `i / sizeof(atomic_int)` and the bit `1 << (i % sizeof(atomic_int))`, is injective;
for all slot indices `i ≠ j` and every state of the bitmask, a claim on slot `i`, successful
or failed, leaves the occupancy bit of slot `j` as it was; and a failed claim leaves every
word of the bitmask as it was. -/
theorem one_bit_per_slot (inuse : Nat → Nat) (i j : Nat) :
    ((slot_offs i, slot_bit i) = (slot_offs j, slot_bit j) → i = j)
    ∧ (i ≠ j → slot_in_use (claim inuse i).inuse j = slot_in_use inuse j
        ∧ ((claim inuse i).inuse (slot_offs j)).testBit (j % SIZEOF_ATOMIC_INT)
            = (inuse (slot_offs j)).testBit (j % SIZEOF_ATOMIC_INT))
    ∧ ((claim inuse i).thrown ≠ none → (claim inuse i).inuse = inuse) := by
  refine ⟨slot_position_inj i j, fun hij => ⟨claim_other_slot inuse i j hij, ?_⟩,
    claim_failed_inuse inuse i⟩
  have h := claim_other_slot inuse i j hij
  rw [slot_in_use_eq, slot_in_use_eq] at h
  exact h

/-- C22 on a pool in which slot 1 is occupied: slots 1 and 5 have different positions, the
successful claim of slot 0 and the failed claim of slot 1 leave the bit of slot 5 clear,
and the failed claim of slot 1 leaves the bitmask as it was. -/
theorem one_bit_per_slot_witness :
    (slot_offs 1, slot_bit 1) = (0, 2) ∧ (slot_offs 5, slot_bit 5) = (1, 2)
    ∧ (claim (fun k => if k = 0 then 2 else 0) 0).thrown = none
    ∧ slot_in_use (claim (fun k => if k = 0 then 2 else 0) 0).inuse 5 = false
    ∧ (claim (fun k => if k = 0 then 2 else 0) 1).thrown = some "Thread %d buffer full\n"
    ∧ slot_in_use (claim (fun k => if k = 0 then 2 else 0) 1).inuse 5 = false
    ∧ (claim (fun k => if k = 0 then 2 else 0) 1).inuse = (fun k => if k = 0 then 2 else 0) := by
  have h0 := (one_bit_per_slot (fun k => if k = 0 then 2 else 0) 0 5).2.1 (by decide)
  have h1 := (one_bit_per_slot (fun k => if k = 0 then 2 else 0) 1 5).2.1 (by decide)
  have h2 := (one_bit_per_slot (fun k => if k = 0 then 2 else 0) 1 5).2.2 (by decide)
  exact ⟨by decide, by decide, by decide, h0.1.trans (by decide), by decide,
    h1.1.trans (by decide), h2⟩

/-! ### Notification position and pool bounds -/

theorem bs_claimed_slots_append (a b : List BsEvent) :
    bs_claimed_slots (a ++ b) = bs_claimed_slots a ++ bs_claimed_slots b := by
  unfold bs_claimed_slots
  exact List.filterMap_append _ _ _

theorem bs_stamped_slots_append (a b : List BsEvent) :
    bs_stamped_slots (a ++ b) = bs_stamped_slots a ++ bs_stamped_slots b := by
  unfold bs_stamped_slots
  exact List.filterMap_append _ _ _

theorem bs_enqueue_data_append (a b : List BsEvent) :
    bs_enqueue_data (a ++ b) = bs_enqueue_data a ++ bs_enqueue_data b := by
  unfold bs_enqueue_data
  exact List.filterMap_append _ _ _

theorem bs_slots_claim_events (base : Nat) (chs : List Nat) :
    bs_claimed_slots (bs_claim_events base chs) = chs.map (fun ch => base + ch)
    ∧ bs_stamped_slots (bs_claim_events base chs) = []
    ∧ bs_enqueue_data (bs_claim_events base chs) = [] := by
  induction chs with
  | nil => exact ⟨rfl, rfl, rfl⟩
  | cons ch rest ih =>
    obtain ⟨h1, h2, h3⟩ := ih
    unfold bs_claim_events at h1 h2 h3 ⊢
    unfold bs_claimed_slots at h1 ⊢
    unfold bs_stamped_slots at h2 ⊢
    unfold bs_enqueue_data at h3 ⊢
    simp only [List.map_cons, List.filterMap_cons]
    exact ⟨by rw [h1], h2, h3⟩

theorem bs_slots_rx (radio_id : Nat) (cell : Int) :
    bs_claimed_slots [BsEvent.rx radio_id cell] = []
    ∧ bs_stamped_slots [BsEvent.rx radio_id cell] = []
    ∧ bs_enqueue_data [BsEvent.rx radio_id cell] = [] := ⟨rfl, rfl, rfl⟩

theorem bs_slots_tx_events (cfg : BsConfig) (tid radio_id : Nat) (cell : Int)
    (rxTimeBs : Int) :
    bs_claimed_slots (bs_tx_events cfg tid radio_id cell rxTimeBs) = []
    ∧ bs_stamped_slots (bs_tx_events cfg tid radio_id cell rxTimeBs) = []
    ∧ bs_enqueue_data (bs_tx_events cfg tid radio_id cell rxTimeBs) = [] := by
  have hmap : ∀ (l : List Nat) (f : Nat → StreamFlag) (g : Nat → Int),
      bs_claimed_slots (l.map (fun s => BsEvent.tx_dl tid (f s) (g s))) = []
      ∧ bs_stamped_slots (l.map (fun s => BsEvent.tx_dl tid (f s) (g s))) = []
      ∧ bs_enqueue_data (l.map (fun s => BsEvent.tx_dl tid (f s) (g s))) = [] := by
    intro l f g
    induction l with
    | nil => exact ⟨rfl, rfl, rfl⟩
    | cons a rest ih =>
      obtain ⟨h1, h2, h3⟩ := ih
      unfold bs_claimed_slots at h1 ⊢
      unfold bs_stamped_slots at h2 ⊢
      unfold bs_enqueue_data at h3 ⊢
      simp only [List.map_cons, List.filterMap_cons]
      exact ⟨h1, h2, h3⟩
  unfold bs_tx_events
  rw [bs_claimed_slots_append, bs_stamped_slots_append, bs_enqueue_data_append]
  split
  · rw [(hmap _ _ _).1, (hmap _ _ _).2.1, (hmap _ _ _).2.2]
    exact ⟨rfl, rfl, rfl⟩
  · exact ⟨rfl, rfl, rfl⟩

theorem bs_slots_capture_tx (cfg : BsConfig) (tid radio_id : Nat) (cell : Int)
    (slot_id : Nat) (rxTimeBs : Int) :
    bs_claimed_slots (bs_capture_tx cfg tid radio_id cell slot_id rxTimeBs) = []
    ∧ bs_stamped_slots (bs_capture_tx cfg tid radio_id cell slot_id rxTimeBs) = []
    ∧ bs_enqueue_data (bs_capture_tx cfg tid radio_id cell slot_id rxTimeBs) = [] := by
  unfold bs_capture_tx
  split
  · exact ⟨rfl, rfl, rfl⟩
  · split
    · exact bs_slots_tx_events cfg tid radio_id cell rxTimeBs
    · exact ⟨rfl, rfl, rfl⟩

theorem bs_slots_stamp_events (cfg : BsConfig) (tid base frame_id slot_id : Nat) (cell : Int)
    (ant_id : Nat) (chs : List Nat) (cursor : Nat) :
    bs_claimed_slots (bs_stamp_events cfg tid base frame_id slot_id cell ant_id chs cursor) = []
    ∧ bs_stamped_slots (bs_stamp_events cfg tid base frame_id slot_id cell ant_id chs cursor)
        = chs.map (fun ch => base + ch) := by
  induction chs generalizing cursor with
  | nil => exact ⟨rfl, rfl⟩
  | cons ch rest ih =>
    obtain ⟨h1, h2⟩ := ih (advance_cursor cfg.buffer_chunk_size cursor)
    unfold bs_claimed_slots at h1 ⊢
    unfold bs_stamped_slots at h2 ⊢
    simp only [bs_stamp_events, List.filterMap_cons, List.map_cons]
    exact ⟨h1, by rw [h2]⟩

theorem bs_data_stamp_events (cfg : BsConfig) (tid base frame_id slot_id : Nat) (cell : Int)
    (ant_id : Nat) (chs : List Nat) (cursor : Nat)
    (hin : cursor + chs.length ≤ cfg.buffer_chunk_size) :
    bs_enqueue_data (bs_stamp_events cfg tid base frame_id slot_id cell ant_id chs cursor)
      = (List.range' cursor chs.length).map (fun i => i + tid * cfg.buffer_chunk_size) := by
  induction chs generalizing cursor with
  | nil => rfl
  | cons ch rest ih =>
    rw [List.length_cons] at hin
    rw [List.length_cons, List.range'_succ, List.map_cons]
    rcases Nat.eq_zero_or_pos rest.length with h0 | hpos
    · have hr : rest = [] := List.length_eq_zero.mp h0
      subst hr
      rfl
    · have hadv : advance_cursor cfg.buffer_chunk_size cursor = cursor + 1 := by
        unfold advance_cursor
        exact Nat.mod_eq_of_lt (by omega)
      have h := ih (cursor + 1) (by omega)
      unfold bs_enqueue_data at h ⊢
      simp only [bs_stamp_events, List.filterMap_cons, hadv]
      rw [h]

theorem client_claimed_slots_append (a b : List Event) :
    client_claimed_slots (a ++ b) = client_claimed_slots a ++ client_claimed_slots b := by
  unfold client_claimed_slots
  exact List.filterMap_append _ _ _

theorem client_stamped_slots_append (a b : List Event) :
    client_stamped_slots (a ++ b) = client_stamped_slots a ++ client_stamped_slots b := by
  unfold client_stamped_slots
  exact List.filterMap_append _ _ _

theorem client_enqueue_data_append (a b : List Event) :
    client_enqueue_data (a ++ b) = client_enqueue_data a ++ client_enqueue_data b := by
  unfold client_enqueue_data
  exact List.filterMap_append _ _ _

theorem client_slots_claim_events (base : Nat) (chs : List Nat) :
    client_claimed_slots (client_claim_events base chs) = chs.map (fun ch => base + ch)
    ∧ client_stamped_slots (client_claim_events base chs) = []
    ∧ client_enqueue_data (client_claim_events base chs) = [] := by
  induction chs with
  | nil => exact ⟨rfl, rfl, rfl⟩
  | cons ch rest ih =>
    obtain ⟨h1, h2, h3⟩ := ih
    unfold client_claim_events at h1 h2 h3 ⊢
    unfold client_claimed_slots at h1 ⊢
    unfold client_stamped_slots at h2 ⊢
    unfold client_enqueue_data at h3 ⊢
    simp only [List.map_cons, List.filterMap_cons]
    exact ⟨by rw [h1], h2, h3⟩

theorem client_slots_rx (nsamps : Int) :
    client_claimed_slots [Event.rx nsamps] = []
    ∧ client_stamped_slots [Event.rx nsamps] = []
    ∧ client_enqueue_data [Event.rx nsamps] = [] := ⟨rfl, rfl, rfl⟩

theorem client_slots_find_beacon :
    client_claimed_slots [Event.find_beacon] = []
    ∧ client_stamped_slots [Event.find_beacon] = []
    ∧ client_enqueue_data [Event.find_beacon] = [] := ⟨rfl, rfl, rfl⟩

theorem client_slots_tx_events (cfg : Config) (rxTime : Int) :
    client_claimed_slots (client_tx_events cfg rxTime) = []
    ∧ client_stamped_slots (client_tx_events cfg rxTime) = []
    ∧ client_enqueue_data (client_tx_events cfg rxTime) = [] := by
  have hmap : ∀ (l : List Nat) (f : Nat → StreamFlag) (g : Nat → Int),
      client_claimed_slots (l.map (fun s => Event.tx TxBuffer.txbuff (f s) (g s))) = []
      ∧ client_stamped_slots (l.map (fun s => Event.tx TxBuffer.txbuff (f s) (g s))) = []
      ∧ client_enqueue_data (l.map (fun s => Event.tx TxBuffer.txbuff (f s) (g s))) = [] := by
    intro l f g
    induction l with
    | nil => exact ⟨rfl, rfl, rfl⟩
    | cons a rest ih =>
      obtain ⟨h1, h2, h3⟩ := ih
      unfold client_claimed_slots at h1 ⊢
      unfold client_stamped_slots at h2 ⊢
      unfold client_enqueue_data at h3 ⊢
      simp only [List.map_cons, List.filterMap_cons]
      exact ⟨h1, h2, h3⟩
  unfold client_tx_events
  simp only [client_claimed_slots_append, client_stamped_slots_append,
    client_enqueue_data_append]
  have hA : ∀ (fl : StreamFlag) (t : Int) (b : TxBuffer),
      client_claimed_slots [Event.tx b fl t] = []
      ∧ client_stamped_slots [Event.tx b fl t] = []
      ∧ client_enqueue_data [Event.tx b fl t] = [] := fun _ _ _ => ⟨rfl, rfl, rfl⟩
  rw [(hA _ _ _).1, (hA _ _ _).2.1, (hA _ _ _).2.2]
  split <;> split <;>
    (first
      | exact ⟨rfl, rfl, rfl⟩
      | (rw [(hmap _ _ _).1, (hmap _ _ _).2.1, (hmap _ _ _).2.2]; exact ⟨rfl, rfl, rfl⟩))

theorem client_slots_stamp_events (cfg : Config) (tid base frame_id slot_id : Nat)
    (chs : List Nat) (cursor : Nat) :
    client_claimed_slots (client_stamp_events cfg tid base frame_id slot_id chs cursor) = []
    ∧ client_stamped_slots (client_stamp_events cfg tid base frame_id slot_id chs cursor)
        = chs.map (fun ch => base + ch) := by
  induction chs generalizing cursor with
  | nil => exact ⟨rfl, rfl⟩
  | cons ch rest ih =>
    obtain ⟨h1, h2⟩ := ih (advance_cursor cfg.buffer_chunk_size cursor)
    unfold client_claimed_slots at h1 ⊢
    unfold client_stamped_slots at h2 ⊢
    simp only [client_stamp_events, List.filterMap_cons, List.map_cons]
    exact ⟨h1, by rw [h2]⟩

theorem client_data_stamp_events (cfg : Config) (tid base frame_id slot_id : Nat)
    (chs : List Nat) (cursor : Nat)
    (hin : cursor + chs.length ≤ cfg.buffer_chunk_size) :
    client_enqueue_data (client_stamp_events cfg tid base frame_id slot_id chs cursor)
      = (List.range' cursor chs.length).map (fun i => i + tid * cfg.buffer_chunk_size) := by
  induction chs generalizing cursor with
  | nil => rfl
  | cons ch rest ih =>
    rw [List.length_cons] at hin
    rw [List.length_cons, List.range'_succ, List.map_cons]
    rcases Nat.eq_zero_or_pos rest.length with h0 | hpos
    · have hr : rest = [] := List.length_eq_zero.mp h0
      subst hr
      rfl
    · have hadv : advance_cursor cfg.buffer_chunk_size cursor = cursor + 1 := by
        unfold advance_cursor
        exact Nat.mod_eq_of_lt (by omega)
      have h := ih (cursor + 1) (by omega)
      unfold client_enqueue_data at h ⊢
      simp only [client_stamp_events, List.filterMap_cons, hadv]
      rw [h]

theorem range_take_map_add (c n m : Nat) (hm : m ≤ n) :
    ((List.range n).take m).map (fun ch => c + ch) = List.range' c m := by
  rw [take_range_of_le hm, List.range'_eq_map_range]

theorem decode_position (C tid i : Nat) (hi : i < C) :
    (i + tid * C) / C = tid ∧ (i + tid * C) % C = i := by
  have hC : 0 < C := by omega
  constructor
  · rw [Nat.add_mul_div_right _ _ hC, Nat.div_eq_of_lt hi, Nat.zero_add]
  · rw [Nat.add_mul_mod_self_right, Nat.mod_eq_of_lt hi]

theorem bs_capture_notifications (cfg : BsConfig) (tid : Nat) (inp : BsInput) (it : Nat)
    (s : BsState) (hs : s.thrown = none)
    (hin : s.cursor + (bs_capture_chs cfg it s).length ≤ cfg.buffer_chunk_size) :
    ∃ new : List Nat,
      bs_stamped_slots (bs_capture cfg tid inp it s).1.trace = bs_stamped_slots s.trace ++ new
      ∧ bs_enqueue_data (bs_capture cfg tid inp it s).1.trace
          = bs_enqueue_data s.trace ++ new.map (fun i => i + tid * cfg.buffer_chunk_size)
      ∧ (∀ i ∈ new, i < cfg.buffer_chunk_size
          ∧ (i + tid * cfg.buffer_chunk_size) / cfg.buffer_chunk_size = bs_pool_index tid
          ∧ (i + tid * cfg.buffer_chunk_size) % cfg.buffer_chunk_size = i) := by
  rcases bs_capture_spec cfg tid inp it s hs with
    ⟨_, _, _, k, _, _, htr⟩ | ⟨_, _, _, _, htr⟩ | ⟨_, _, _, _, _, m, hm, htr, _⟩
  · refine ⟨[], ?_, ?_, fun i hi => absurd hi (List.not_mem_nil _)⟩
    · rw [htr, bs_stamped_slots_append, (bs_slots_claim_events _ _).2.1]
    · rw [htr, bs_enqueue_data_append, (bs_slots_claim_events _ _).2.2]
      rfl
  · refine ⟨[], ?_, ?_, fun i hi => absurd hi (List.not_mem_nil _)⟩
    · rw [htr, bs_stamped_slots_append, bs_stamped_slots_append,
        (bs_slots_claim_events _ _).2.1, (bs_slots_rx _ _).2.1]
      simp only [List.append_nil]
    · rw [htr, bs_enqueue_data_append, bs_enqueue_data_append,
        (bs_slots_claim_events _ _).2.2, (bs_slots_rx _ _).2.2]
      simp only [List.append_nil, List.map_nil]
  · have hlen : ((bs_capture_chs cfg it s).take m).length = m := by
      rw [List.length_take]; omega
    have hchs : ((bs_capture_chs cfg it s).take m).map (fun ch => s.cursor + ch)
        = List.range' s.cursor m := by
      unfold bs_capture_chs at hm ⊢
      rw [List.length_range] at hm
      exact range_take_map_add _ _ _ hm
    refine ⟨List.range' s.cursor m, ?_, ?_, ?_⟩
    · rw [htr]
      simp only [bs_stamped_slots_append, (bs_slots_claim_events _ _).2.1,
        (bs_slots_rx _ _).2.1, (bs_slots_capture_tx _ _ _ _ _ _).2.1,
        (bs_slots_stamp_events _ _ _ _ _ _ _ _ _).2, List.append_nil, hchs]
    · rw [htr]
      simp only [bs_enqueue_data_append, (bs_slots_claim_events _ _).2.2,
        (bs_slots_rx _ _).2.2, (bs_slots_capture_tx _ _ _ _ _ _).2.2, List.append_nil]
      rw [bs_data_stamp_events _ _ _ _ _ _ _ _ _ (by rw [hlen]; omega), hlen]
    · intro i hi
      rw [List.mem_range'_1] at hi
      have hlt : i < cfg.buffer_chunk_size := by omega
      exact ⟨hlt, decode_position _ tid i hlt⟩

theorem client_slot_notifications (cfg : Config) (tid : Nat) (inp : FrameInput)
    (s : ClientState) (hs : s.thrown = none)
    (hin : s.buffer_offset + cfg.cl_sdr_ch ≤ cfg.buffer_chunk_size) :
    ∃ new : List Nat,
      client_stamped_slots (client_slot cfg tid inp s).1.trace
          = client_stamped_slots s.trace ++ new
      ∧ client_enqueue_data (client_slot cfg tid inp s).1.trace
          = client_enqueue_data s.trace ++ new.map (fun i => i + tid * cfg.buffer_chunk_size)
      ∧ (∀ i ∈ new, i < cfg.buffer_chunk_size
          ∧ (i + tid * cfg.buffer_chunk_size) / cfg.buffer_chunk_size = tid
          ∧ (i + tid * cfg.buffer_chunk_size) % cfg.buffer_chunk_size = i) := by
  by_cases hdl : cfg.isDlData s.frame_id s.slot_id = true
  · rcases client_slot_dl_spec cfg tid inp s hdl hs with
      ⟨_, _, _, k, _, _, htr⟩ | ⟨_, _, _, _, htr⟩ | ⟨_, _, m, hm, htr, _⟩
    · refine ⟨[], ?_, ?_, fun i hi => absurd hi (List.not_mem_nil _)⟩
      · rw [htr, client_stamped_slots_append, (client_slots_claim_events _ _).2.1]
      · rw [htr, client_enqueue_data_append, (client_slots_claim_events _ _).2.2]
        rfl
    · refine ⟨[], ?_, ?_, fun i hi => absurd hi (List.not_mem_nil _)⟩
      · rw [htr, client_stamped_slots_append, client_stamped_slots_append,
          (client_slots_claim_events _ _).2.1, (client_slots_rx _).2.1]
        simp only [List.append_nil]
      · rw [htr, client_enqueue_data_append, client_enqueue_data_append,
          (client_slots_claim_events _ _).2.2, (client_slots_rx _).2.2]
        simp only [List.append_nil, List.map_nil]
    · have hlen : ((List.range cfg.cl_sdr_ch).take m).length = m := by
        rw [List.length_take, List.length_range]; omega
      refine ⟨List.range' s.buffer_offset m, ?_, ?_, ?_⟩
      · rw [htr]
        simp only [client_stamped_slots_append, (client_slots_claim_events _ _).2.1,
          (client_slots_rx _).2.1, (client_slots_stamp_events _ _ _ _ _ _ _).2,
          List.append_nil, range_take_map_add _ _ _ hm]
      · rw [htr]
        simp only [client_enqueue_data_append, (client_slots_claim_events _ _).2.2,
          (client_slots_rx _).2.2, List.append_nil]
        rw [client_data_stamp_events _ _ _ _ _ _ _ (by rw [hlen]; omega), hlen]
      · intro i hi
        rw [List.mem_range'_1] at hi
        have hlt : i < cfg.buffer_chunk_size := by omega
        exact ⟨hlt, decode_position _ tid i hlt⟩
  · have hdl' : cfg.isDlData s.frame_id s.slot_id = false := by simpa using hdl
    obtain ⟨htr, _⟩ := client_slot_dummy_spec cfg tid inp s hdl'
    refine ⟨[], ?_, ?_, fun i hi => absurd hi (List.not_mem_nil _)⟩
    · rw [htr, client_stamped_slots_append, (client_slots_rx _).2.1]
    · rw [htr, client_enqueue_data_append, (client_slots_rx _).2.2]
      rfl

/-- C21, failing input. Client thread 0 of a process that also runs one base-station
receive thread (`bs_rx_thread_num = 1`) claims and stamps in the pool `rx_buffer[1]`; its
downlink capture stamps slots 0 and 1 of that pool and enqueues the notifications with
`data = 0` and `data = 1`, which decode (`data div C`, `C = 8`) to pool 0, the pool of
base-station thread 0, not to pool 1. The slot part `data mod C` is the stamped slot. -/
theorem notification_pool_failing_input :
    client_pool_index 1 0 = 1 ∧ bs_pool_index 0 = 0
    ∧ downlinkConfig.buffer_chunk_size = 8
    ∧ client_stamped_slots
        (client_slot downlinkConfig 0 noBeaconInput (clientInit 0 0 (fun _ => 0))).1.trace
        = [0, 1]
    ∧ client_enqueue_data
        (client_slot downlinkConfig 0 noBeaconInput (clientInit 0 0 (fun _ => 0))).1.trace
        = [0, 1]
    ∧ (client_enqueue_data
        (client_slot downlinkConfig 0 noBeaconInput (clientInit 0 0 (fun _ => 0))).1.trace).map
          (fun d => d / downlinkConfig.buffer_chunk_size) = [0, 0]
    ∧ (client_enqueue_data
        (client_slot downlinkConfig 0 noBeaconInput (clientInit 0 0 (fun _ => 0))).1.trace).map
          (fun d => d % downlinkConfig.buffer_chunk_size) = [0, 1]
    ∧ (0 : Nat) ≠ client_pool_index 1 0 := by
  decide

theorem foldl_advance_lt (C : Nat) (hC : 0 < C) (chs : List Nat) (c : Nat) (hc : c < C) :
    chs.foldl (fun c _ => advance_cursor C c) c < C := by
  induction chs generalizing c with
  | nil => exact hc
  | cons ch rest ih =>
    rw [List.foldl_cons]
    exact ih _ (Nat.mod_lt _ hC)

theorem capture_advance_in_pool (C n c : Nat) (h : c + n ≤ C) (hc : c < C) :
    capture_advance C n c = (c + n) % C := by
  unfold capture_advance
  induction n with
  | zero =>
    rw [List.range_zero, List.foldl_nil, Nat.add_zero]
    exact (Nat.mod_eq_of_lt hc).symm
  | succ n ih =>
    rw [List.range_succ, List.foldl_append, List.foldl_cons, List.foldl_nil, ih (by omega)]
    unfold advance_cursor
    rw [Nat.mod_eq_of_lt (show c + n < C by omega)]
    rfl

theorem capture_advance_multiple (C n c : Nat) (hC : 0 < C) (hdiv : n ∣ C) (hc : c < C)
    (hcn : n ∣ c) :
    c + n ≤ C ∧ capture_advance C n c < C ∧ n ∣ capture_advance C n c := by
  obtain ⟨b, hb⟩ := hdiv
  obtain ⟨a, ha⟩ := hcn
  have hn : 0 < n := by
    rcases Nat.eq_zero_or_pos n with h0 | h
    · subst h0; simp at hb; omega
    · exact h
  have hab : a < b := by
    by_contra hge
    have : n * b ≤ n * a := Nat.mul_le_mul_left n (not_lt.mp hge)
    omega
  have hle : c + n ≤ C := by
    have : n * (a + 1) ≤ n * b := Nat.mul_le_mul_left n hab
    rw [Nat.mul_add, Nat.mul_one] at this
    omega
  rw [capture_advance_in_pool C n c hle hc]
  refine ⟨hle, Nat.mod_lt _ hC, ?_⟩
  have h1 : n ∣ c + n := ⟨a + 1, by rw [Nat.mul_add, Nat.mul_one, ha]⟩
  exact (Nat.dvd_mod_iff ⟨b, hb⟩).mpr h1

theorem bs_stamps_cursor (cfg : BsConfig) (tid : Nat) (inp : BsInput) (it base : Nat)
    (chs : List Nat) (s : BsState) :
    (0 < cfg.buffer_chunk_size → s.cursor < cfg.buffer_chunk_size →
        (bs_stamps cfg tid inp it base chs s).cursor < cfg.buffer_chunk_size)
    ∧ ((bs_stamps cfg tid inp it base chs s).thrown = none →
        (bs_stamps cfg tid inp it base chs s).cursor
          = chs.foldl (fun c _ => advance_cursor cfg.buffer_chunk_size c) s.cursor) := by
  induction chs generalizing s with
  | nil => exact ⟨fun _ h => h, fun _ => rfl⟩
  | cons ch rest ih =>
    simp only [bs_stamps]
    split
    · obtain ⟨h1, h2⟩ := ih
        { s with
          trace := s.trace ++
            [BsEvent.stamp (base + ch) s.frame_id s.slot_id s.cell (s.ant_id + ch),
             BsEvent.enqueue (s.ant_id + ch) (s.cursor + tid * cfg.buffer_chunk_size)]
          cursor := advance_cursor cfg.buffer_chunk_size s.cursor }
      exact ⟨fun hC _ => h1 hC (Nat.mod_lt _ hC), fun ht => h2 ht⟩
    · exact ⟨fun _ h => h, fun ht => by cases ht⟩

theorem bs_capture_cursor (cfg : BsConfig) (tid : Nat) (inp : BsInput) (it : Nat)
    (s : BsState) :
    (0 < cfg.buffer_chunk_size → s.cursor < cfg.buffer_chunk_size →
        (bs_capture cfg tid inp it s).1.cursor < cfg.buffer_chunk_size)
    ∧ ((bs_capture cfg tid inp it s).1.thrown = none →
        (bs_capture cfg tid inp it s).1.cursor = s.cursor
        ∨ (bs_capture cfg tid inp it s).1.cursor
            = capture_advance cfg.buffer_chunk_size (bs_capture_chs cfg it s).length
                s.cursor) := by
  have hspec := bs_claims_spec s.cursor (bs_capture_chs cfg it s)
    { s with cell := bs_capture_cell cfg it s,
             inuse := (inp.released it).foldl release s.inuse }
  unfold bs_capture
  simp only [bs_capture_chs, bs_capture_radio, bs_capture_cell, List.length_range,
    capture_advance] at hspec ⊢
  generalize lookup_cell cfg.n_bs_sdrs_agg cfg.num_cells it s.cell = cell at hspec ⊢
  generalize local_radio_id cfg.n_bs_sdrs_agg it cell = rid at hspec ⊢
  generalize capture_num_packets cfg rid = n at hspec ⊢
  generalize bs_claims s.cursor (List.range n)
    { s with cell := cell, inuse := (inp.released it).foldl release s.inuse } = s1 at hspec ⊢
  obtain ⟨_, _, _, _, hccur, _⟩ := hspec
  have hcur : s1.cursor = s.cursor := hccur
  split
  · exact ⟨fun _ h => by rw [hcur]; exact h, fun _ => Or.inl hcur⟩
  · split
    · split
      · exact ⟨fun _ h => by show s1.cursor < _; rw [hcur]; exact h, fun _ => Or.inl hcur⟩
      · refine ⟨fun hC h => (bs_stamps_cursor cfg tid inp it s.cursor (List.range n) _).1 hC
          (by show s1.cursor < _; rw [hcur]; exact h), fun ht => Or.inr ?_⟩
        rw [(bs_stamps_cursor cfg tid inp it s.cursor (List.range n) _).2 ht]
        show List.foldl _ s1.cursor _ = _
        rw [hcur]
    · split
      · exact ⟨fun _ h => by show s1.cursor < _; rw [hcur]; exact h, fun _ => Or.inl hcur⟩
      · have hc4 : ∀ (x : BsState), x.cursor = s1.cursor →
            (0 < cfg.buffer_chunk_size → s.cursor < cfg.buffer_chunk_size →
              (bs_stamps cfg tid inp it s.cursor (List.range n) x).cursor
                < cfg.buffer_chunk_size)
            ∧ ((bs_stamps cfg tid inp it s.cursor (List.range n) x).thrown = none →
              (bs_stamps cfg tid inp it s.cursor (List.range n) x).cursor = s.cursor
              ∨ (bs_stamps cfg tid inp it s.cursor (List.range n) x).cursor
                  = List.foldl (fun c _ => advance_cursor cfg.buffer_chunk_size c) s.cursor
                      (List.range n)) := by
          intro x hx
          refine ⟨fun hC h => (bs_stamps_cursor cfg tid inp it s.cursor (List.range n) x).1 hC
            (by rw [hx, hcur]; exact h), fun ht => Or.inr ?_⟩
          rw [(bs_stamps_cursor cfg tid inp it s.cursor (List.range n) x).2 ht, hx, hcur]
        split
        · exact hc4 _ rfl
        · exact hc4 _ rfl

theorem mem_map_take_range (n k c i : Nat)
    (h : i ∈ ((List.range n).take k).map (fun ch => c + ch)) : i < c + n := by
  rw [List.mem_map] at h
  obtain ⟨ch, hch, rfl⟩ := h
  have := List.mem_range.mp (List.mem_of_mem_take hch)
  omega

theorem bs_capture_in_pool (cfg : BsConfig) (tid : Nat) (inp : BsInput) (it : Nat)
    (s : BsState) (hnp : ∀ r, capture_num_packets cfg r = cfg.num_channels)
    (hC : 0 < cfg.buffer_chunk_size) (hdiv : cfg.num_channels ∣ cfg.buffer_chunk_size)
    (hs : s.thrown = none) (hI : s.in_pool cfg) :
    (bs_capture cfg tid inp it s).1.in_pool cfg := by
  obtain ⟨h1, h2, h3, h4⟩ := hI
  have hlen : (bs_capture_chs cfg it s).length = cfg.num_channels := by
    unfold bs_capture_chs
    rw [List.length_range, hnp]
  obtain ⟨hle, hlt, hdv⟩ := capture_advance_multiple cfg.buffer_chunk_size cfg.num_channels
    s.cursor hC hdiv h1 (h2 hs)
  obtain ⟨c1, c2⟩ := bs_capture_cursor cfg tid inp it s
  have hchs : bs_capture_chs cfg it s = List.range cfg.num_channels := by
    unfold bs_capture_chs
    rw [hnp]
  have hmem : ∀ k i, i ∈ ((bs_capture_chs cfg it s).take k).map (fun ch => s.cursor + ch) →
      i < cfg.buffer_chunk_size := by
    intro k i hi
    rw [hchs] at hi
    have := mem_map_take_range _ _ _ _ hi
    omega
  have hmem' : ∀ i, i ∈ (bs_capture_chs cfg it s).map (fun ch => s.cursor + ch) →
      i < cfg.buffer_chunk_size := by
    intro i hi
    have := hmem (bs_capture_chs cfg it s).length i (by rw [List.take_length]; exact hi)
    exact this
  refine ⟨c1 hC h1, ?_, ?_, ?_⟩
  · intro ht
    rcases c2 ht with h | h
    · rw [h]; exact h2 hs
    · rw [h, hlen]; exact hdv
  · intro i hi
    rcases bs_capture_spec cfg tid inp it s hs with
      ⟨_, _, _, k, _, _, htr⟩ | ⟨_, _, _, _, htr⟩ | ⟨_, _, _, _, _, m, hm, htr, _⟩
    · rw [htr, bs_claimed_slots_append, (bs_slots_claim_events _ _).1, List.mem_append] at hi
      rcases hi with hi | hi
      · exact h3 i hi
      · exact hmem k i hi
    · rw [htr, bs_claimed_slots_append, bs_claimed_slots_append,
        (bs_slots_claim_events _ _).1, (bs_slots_rx _ _).1, List.append_nil,
        List.mem_append] at hi
      rcases hi with hi | hi
      · exact h3 i hi
      · exact hmem' i hi
    · rw [htr] at hi
      simp only [bs_claimed_slots_append, (bs_slots_claim_events _ _).1,
        (bs_slots_rx _ _).1, (bs_slots_capture_tx _ _ _ _ _ _).1,
        (bs_slots_stamp_events _ _ _ _ _ _ _ _ _).1, List.append_nil, List.mem_append] at hi
      rcases hi with hi | hi
      · exact h3 i hi
      · exact hmem' i hi
  · intro i hi
    rcases bs_capture_spec cfg tid inp it s hs with
      ⟨_, _, _, k, _, _, htr⟩ | ⟨_, _, _, _, htr⟩ | ⟨_, _, _, _, _, m, hm, htr, _⟩
    · rw [htr, bs_stamped_slots_append, (bs_slots_claim_events _ _).2.1,
        List.append_nil] at hi
      exact h4 i hi
    · rw [htr, bs_stamped_slots_append, bs_stamped_slots_append,
        (bs_slots_claim_events _ _).2.1, (bs_slots_rx _ _).2.1, List.append_nil,
        List.append_nil] at hi
      exact h4 i hi
    · rw [htr] at hi
      simp only [bs_stamped_slots_append, (bs_slots_claim_events _ _).2.1,
        (bs_slots_rx _ _).2.1, (bs_slots_capture_tx _ _ _ _ _ _).2.1,
        (bs_slots_stamp_events _ _ _ _ _ _ _ _ _).2, List.append_nil, List.mem_append] at hi
      rcases hi with hi | hi
      · exact h4 i hi
      · exact hmem m i hi

theorem bs_radios_in_pool (cfg : BsConfig) (tid : Nat) (inp : BsInput) (radios : List Nat)
    (s : BsState) (hnp : ∀ r, capture_num_packets cfg r = cfg.num_channels)
    (hC : 0 < cfg.buffer_chunk_size) (hdiv : cfg.num_channels ∣ cfg.buffer_chunk_size)
    (hs : s.thrown = none) (hI : s.in_pool cfg) :
    (bs_radios cfg tid inp radios s).in_pool cfg := by
  induction radios generalizing s with
  | nil => exact hI
  | cons it rest ih =>
    rw [bs_radios]
    have hcap := bs_capture_in_pool cfg tid inp it s hnp hC hdiv hs hI
    by_cases hflag : (bs_capture cfg tid inp it s).2 = true
    · simp only [hflag, if_true]
      exact hcap
    · have hflag' : (bs_capture cfg tid inp it s).2 = false := by simpa using hflag
      simp only [hflag', Bool.false_eq_true, if_false]
      have hcthr : (bs_capture cfg tid inp it s).1.thrown = none := by
        rcases bs_capture_spec cfg tid inp it s hs with
          ⟨hb, _⟩ | ⟨_, hb, _⟩ | ⟨_, _, _, _, _, m, _, _, hcase⟩
        · rw [hb] at hflag'; cases hflag'
        · rw [hb] at hflag'; cases hflag'
        · rcases hcase with ⟨h, _⟩ | ⟨_, hb, _⟩
          · exact h
          · rw [hb] at hflag'; cases hflag'
      exact ih _ hcthr hcap

theorem bs_roll_in_pool (cfg : BsConfig) (s : BsState) (hI : s.in_pool cfg) :
    (bs_roll cfg s).in_pool cfg := by
  unfold bs_roll
  split
  · exact hI
  · exact hI

theorem bs_iter_in_pool (cfg : BsConfig) (tid : Nat) (radios : List Nat) (inp : BsInput)
    (s : BsState) (hnp : ∀ r, capture_num_packets cfg r = cfg.num_channels)
    (hC : 0 < cfg.buffer_chunk_size) (hdiv : cfg.num_channels ∣ cfg.buffer_chunk_size)
    (hs : s.thrown = none) (hI : s.in_pool cfg) :
    (bs_iter cfg tid radios inp s).in_pool cfg := by
  have h := bs_radios_in_pool cfg tid inp radios (bs_roll cfg s) hnp hC hdiv
    ((bs_roll_thrown cfg s).1.trans hs) (bs_roll_in_pool cfg s hI)
  rw [bs_iter_eq_roll]
  split
  · exact h
  · split
    · exact h
    · exact h

theorem bs_loop_in_pool (cfg : BsConfig) (tid : Nat) (radios : List Nat)
    (inp : Nat → BsInput) (s : BsState)
    (hnp : ∀ r, capture_num_packets cfg r = cfg.num_channels)
    (hC : 0 < cfg.buffer_chunk_size) (hdiv : cfg.num_channels ∣ cfg.buffer_chunk_size)
    (hI : s.in_pool cfg) (n : Nat) :
    (bs_loop cfg tid radios inp n s).in_pool cfg := by
  induction n with
  | zero => exact hI
  | succ n ih =>
    show (bs_step cfg tid radios (inp n) (bs_loop cfg tid radios inp n s)).in_pool cfg
    generalize bs_loop cfg tid radios inp n s = u at ih
    unfold bs_step
    split
    · exact ih
    · rename_i hx
      have hs : u.thrown = none := by
        cases hth : u.thrown with
        | none => rfl
        | some e => rw [hth] at hx; simp at hx
      split
      · exact bs_iter_in_pool cfg tid radios (inp n) u hnp hC hdiv hs ih
      · exact ih

theorem client_stamps_cursor (cfg : Config) (tid : Nat) (inp : FrameInput) (base : Nat)
    (chs : List Nat) (s : ClientState) :
    (0 < cfg.buffer_chunk_size → s.buffer_offset < cfg.buffer_chunk_size →
        (client_stamps cfg tid inp base chs s).buffer_offset < cfg.buffer_chunk_size)
    ∧ ((client_stamps cfg tid inp base chs s).thrown = none →
        (client_stamps cfg tid inp base chs s).buffer_offset
          = chs.foldl (fun c _ => advance_cursor cfg.buffer_chunk_size c) s.buffer_offset) := by
  induction chs generalizing s with
  | nil => exact ⟨fun _ h => h, fun _ => rfl⟩
  | cons ch rest ih =>
    simp only [client_stamps]
    split
    · obtain ⟨h1, h2⟩ := ih
        { s with
          trace := s.trace ++
            [Event.stamp (base + ch) s.frame_id s.slot_id 0 (tid * cfg.cl_sdr_ch + ch),
             Event.enqueue (tid * cfg.cl_sdr_ch + ch)
               (s.buffer_offset + tid * cfg.buffer_chunk_size)]
          buffer_offset := advance_cursor cfg.buffer_chunk_size s.buffer_offset }
      exact ⟨fun hC _ => h1 hC (Nat.mod_lt _ hC), fun ht => h2 ht⟩
    · exact ⟨fun _ h => h, fun ht => by cases ht⟩

theorem client_slot_cursor (cfg : Config) (tid : Nat) (inp : FrameInput) (s : ClientState) :
    (0 < cfg.buffer_chunk_size → s.buffer_offset < cfg.buffer_chunk_size →
        (client_slot cfg tid inp s).1.buffer_offset < cfg.buffer_chunk_size)
    ∧ ((client_slot cfg tid inp s).1.thrown = none →
        (client_slot cfg tid inp s).1.buffer_offset = s.buffer_offset
        ∨ (client_slot cfg tid inp s).1.buffer_offset
            = capture_advance cfg.buffer_chunk_size cfg.cl_sdr_ch s.buffer_offset) := by
  have hspec := client_claims_spec s.buffer_offset (List.range cfg.cl_sdr_ch)
    { s with inuse := (inp.released s.slot_id).foldl release s.inuse }
  unfold client_slot
  simp only [capture_advance]
  generalize client_claims s.buffer_offset (List.range cfg.cl_sdr_ch)
    { s with inuse := (inp.released s.slot_id).foldl release s.inuse } = s1 at hspec ⊢
  obtain ⟨_, _, _, _, hccur, _⟩ := hspec
  have hcur : s1.buffer_offset = s.buffer_offset := hccur
  split
  · split
    · exact ⟨fun _ h => by rw [hcur]; exact h, fun _ => Or.inl hcur⟩
    · split
      · exact ⟨fun _ h => by show s1.buffer_offset < _; rw [hcur]; exact h,
          fun _ => Or.inl hcur⟩
      · refine ⟨fun hC h => (client_stamps_cursor cfg tid inp s.buffer_offset
            (List.range cfg.cl_sdr_ch) _).1 hC
            (by show s1.buffer_offset < _; rw [hcur]; exact h), fun ht => Or.inr ?_⟩
        rw [(client_stamps_cursor cfg tid inp s.buffer_offset
          (List.range cfg.cl_sdr_ch) _).2 ht]
        show List.foldl _ s1.buffer_offset _ = _
        rw [hcur]
  · split
    · exact ⟨fun _ h => h, fun _ => Or.inl rfl⟩
    · exact ⟨fun _ h => h, fun _ => Or.inl rfl⟩

theorem client_slot_in_pool (cfg : Config) (tid : Nat) (inp : FrameInput) (s : ClientState)
    (hC : 0 < cfg.buffer_chunk_size) (hdiv : cfg.cl_sdr_ch ∣ cfg.buffer_chunk_size)
    (hs : s.thrown = none) (hI : s.in_pool cfg) :
    (client_slot cfg tid inp s).1.in_pool cfg := by
  obtain ⟨h1, h2, h3, h4⟩ := hI
  obtain ⟨hle, hlt, hdv⟩ := capture_advance_multiple cfg.buffer_chunk_size cfg.cl_sdr_ch
    s.buffer_offset hC hdiv h1 (h2 hs)
  obtain ⟨c1, c2⟩ := client_slot_cursor cfg tid inp s
  have hmem : ∀ k i, i ∈ ((List.range cfg.cl_sdr_ch).take k).map
      (fun ch => s.buffer_offset + ch) → i < cfg.buffer_chunk_size := by
    intro k i hi
    have := mem_map_take_range _ _ _ _ hi
    omega
  have hmem' : ∀ i, i ∈ (List.range cfg.cl_sdr_ch).map (fun ch => s.buffer_offset + ch) →
      i < cfg.buffer_chunk_size := by
    intro i hi
    exact hmem (List.range cfg.cl_sdr_ch).length i (by rw [List.take_length]; exact hi)
  refine ⟨c1 hC h1, ?_, ?_, ?_⟩
  · intro ht
    rcases c2 ht with h | h
    · rw [h]; exact h2 hs
    · rw [h]; exact hdv
  · intro i hi
    by_cases hdl : cfg.isDlData s.frame_id s.slot_id = true
    · rcases client_slot_dl_spec cfg tid inp s hdl hs with
        ⟨_, _, _, k, _, _, htr⟩ | ⟨_, _, _, _, htr⟩ | ⟨_, _, m, hm, htr, _⟩
      · rw [htr, client_claimed_slots_append, (client_slots_claim_events _ _).1,
          List.mem_append] at hi
        rcases hi with hi | hi
        · exact h3 i hi
        · exact hmem k i hi
      · rw [htr, client_claimed_slots_append, client_claimed_slots_append,
          (client_slots_claim_events _ _).1, (client_slots_rx _).1, List.append_nil,
          List.mem_append] at hi
        rcases hi with hi | hi
        · exact h3 i hi
        · exact hmem' i hi
      · rw [htr] at hi
        simp only [client_claimed_slots_append, (client_slots_claim_events _ _).1,
          (client_slots_rx _).1, (client_slots_stamp_events _ _ _ _ _ _ _).1,
          List.append_nil, List.mem_append] at hi
        rcases hi with hi | hi
        · exact h3 i hi
        · exact hmem' i hi
    · have hdl' : cfg.isDlData s.frame_id s.slot_id = false := by simpa using hdl
      obtain ⟨htr, _⟩ := client_slot_dummy_spec cfg tid inp s hdl'
      rw [htr, client_claimed_slots_append, (client_slots_rx _).1, List.append_nil] at hi
      exact h3 i hi
  · intro i hi
    by_cases hdl : cfg.isDlData s.frame_id s.slot_id = true
    · rcases client_slot_dl_spec cfg tid inp s hdl hs with
        ⟨_, _, _, k, _, _, htr⟩ | ⟨_, _, _, _, htr⟩ | ⟨_, _, m, hm, htr, _⟩
      · rw [htr, client_stamped_slots_append, (client_slots_claim_events _ _).2.1,
          List.append_nil] at hi
        exact h4 i hi
      · rw [htr, client_stamped_slots_append, client_stamped_slots_append,
          (client_slots_claim_events _ _).2.1, (client_slots_rx _).2.1, List.append_nil,
          List.append_nil] at hi
        exact h4 i hi
      · rw [htr] at hi
        simp only [client_stamped_slots_append, (client_slots_claim_events _ _).2.1,
          (client_slots_rx _).2.1, (client_slots_stamp_events _ _ _ _ _ _ _).2,
          List.append_nil, List.mem_append] at hi
        rcases hi with hi | hi
        · exact h4 i hi
        · exact hmem m i hi
    · have hdl' : cfg.isDlData s.frame_id s.slot_id = false := by simpa using hdl
      obtain ⟨htr, _⟩ := client_slot_dummy_spec cfg tid inp s hdl'
      rw [htr, client_stamped_slots_append, (client_slots_rx _).2.1, List.append_nil] at hi
      exact h4 i hi

theorem client_slot_flag_thrown (cfg : Config) (tid : Nat) (inp : FrameInput)
    (s : ClientState) (hs : s.thrown = none)
    (hflag : (client_slot cfg tid inp s).2 = false) :
    (client_slot cfg tid inp s).1.thrown = none := by
  by_cases hdl : cfg.isDlData s.frame_id s.slot_id = true
  · rcases client_slot_dl_spec cfg tid inp s hdl hs with
      ⟨hb, _⟩ | ⟨_, hb, _⟩ | ⟨_, _, m, _, _, hcase⟩
    · rw [hb] at hflag; cases hflag
    · rw [hb] at hflag; cases hflag
    · rcases hcase with ⟨h, _⟩ | ⟨_, hb, _⟩
      · exact h
      · rw [hb] at hflag; cases hflag
  · have hdl' : cfg.isDlData s.frame_id s.slot_id = false := by simpa using hdl
    exact (client_slot_dummy_spec cfg tid inp s hdl').2.1.trans hs

theorem client_slots_in_pool (cfg : Config) (tid : Nat) (inp : FrameInput) (n : Nat)
    (s : ClientState)
    (hC : 0 < cfg.buffer_chunk_size) (hdiv : cfg.cl_sdr_ch ∣ cfg.buffer_chunk_size)
    (hs : s.thrown = none) (hI : s.in_pool cfg) :
    (client_slots cfg tid inp n s).in_pool cfg := by
  induction n generalizing s with
  | zero => exact hI
  | succ n ih =>
    rw [client_slots]
    have hcap := client_slot_in_pool cfg tid inp s hC hdiv hs hI
    by_cases hflag : (client_slot cfg tid inp s).2 = true
    · simp only [hflag, if_true]
      exact hcap
    · have hflag' : (client_slot cfg tid inp s).2 = false := by simpa using hflag
      simp only [hflag', Bool.false_eq_true, if_false]
      refine ih _ ?_ ?_
      · exact client_slot_flag_thrown cfg tid inp s hs hflag'
      · exact hcap

theorem resync_block_pool (cfg : Config) (found : Int) (s : ClientState) :
    (resync_block cfg found s).buffer_offset = s.buffer_offset
    ∧ client_claimed_slots (resync_block cfg found s).trace = client_claimed_slots s.trace
    ∧ client_stamped_slots (resync_block cfg found s).trace = client_stamped_slots s.trace := by
  have hfb : ∀ t : List Event,
      client_claimed_slots (t ++ [Event.find_beacon]) = client_claimed_slots t
      ∧ client_stamped_slots (t ++ [Event.find_beacon]) = client_stamped_slots t := by
    intro t
    rw [client_claimed_slots_append, client_stamped_slots_append,
      client_slots_find_beacon.1, client_slots_find_beacon.2.1, List.append_nil,
      List.append_nil]
    exact ⟨rfl, rfl⟩
  unfold resync_block resync_correlate
  dsimp only
  split <;> split <;> (try split) <;>
    first
      | exact ⟨rfl, rfl, rfl⟩
      | exact ⟨rfl, (hfb _).1, (hfb _).2⟩

theorem resync_block_in_pool (cfg : Config) (found : Int) (s : ClientState)
    (hI : s.in_pool cfg) : (resync_block cfg found s).in_pool cfg := by
  obtain ⟨h1, h2, h3, h4⟩ := hI
  obtain ⟨p1, p2, p3⟩ := resync_block_pool cfg found s
  obtain ⟨t1, _, _⟩ := resync_block_thrown cfg found s
  unfold ClientState.in_pool
  rw [p1, p2, p3, t1]
  exact ⟨h1, h2, h3, h4⟩

theorem client_frame_tail_in_pool (cfg : Config) (tid : Nat) (inp : FrameInput)
    (s : ClientState)
    (hC : 0 < cfg.buffer_chunk_size) (hdiv : cfg.cl_sdr_ch ∣ cfg.buffer_chunk_size)
    (hs : s.thrown = none) (hI : s.in_pool cfg) :
    (client_frame_tail cfg tid inp s).in_pool cfg := by
  obtain ⟨h1, h2, h3, h4⟩ := hI
  have h5 : ({ s with trace := s.trace ++ client_tx_events cfg s.rxTime,
                      slot_id := s.slot_id + 1 } : ClientState).in_pool cfg := by
    unfold ClientState.in_pool
    dsimp only
    rw [client_claimed_slots_append, client_stamped_slots_append,
      (client_slots_tx_events _ _).1, (client_slots_tx_events _ _).2.1, List.append_nil,
      List.append_nil]
    exact ⟨h1, h2, h3, h4⟩
  have h6 := client_slots_in_pool cfg tid inp (cfg.slot_per_frame - (s.slot_id + 1))
    { s with trace := s.trace ++ client_tx_events cfg s.rxTime, slot_id := s.slot_id + 1 }
    hC hdiv hs h5
  unfold client_frame_tail
  dsimp only
  split
  · exact h6
  · exact h6

theorem client_iter_in_pool (cfg : Config) (tid : Nat) (inp : FrameInput) (s : ClientState)
    (hC : 0 < cfg.buffer_chunk_size) (hdiv : cfg.cl_sdr_ch ∣ cfg.buffer_chunk_size)
    (hs : s.thrown = none) (hI : s.in_pool cfg) :
    (client_iter cfg tid inp s).in_pool cfg := by
  obtain ⟨h1, h2, h3, h4⟩ := hI
  have hrx : ({ s with trace := s.trace ++ [Event.rx (cfg.samps_per_slot + s.rx_offset)],
                       rxTime := inp.rx_time } : ClientState).in_pool cfg := by
    unfold ClientState.in_pool
    dsimp only
    rw [client_claimed_slots_append, client_stamped_slots_append,
      (client_slots_rx _).1, (client_slots_rx _).2.1, List.append_nil, List.append_nil]
    exact ⟨h1, h2, h3, h4⟩
  have hb := resync_block_in_pool cfg inp.beacon _ hrx
  have hbt := (resync_block_thrown cfg inp.beacon
    { s with trace := s.trace ++ [Event.rx (cfg.samps_per_slot + s.rx_offset)],
             rxTime := inp.rx_time }).1
  unfold client_iter
  dsimp only
  split
  · exact ⟨h1, h2, h3, h4⟩
  · split
    · exact hrx
    · split
      · exact hb
      · exact client_frame_tail_in_pool cfg tid inp _ hC hdiv (hbt.trans hs) hb

theorem client_loop_in_pool (cfg : Config) (tid : Nat) (inp : Nat → FrameInput)
    (c : ClientState)
    (hC : 0 < cfg.buffer_chunk_size) (hdiv : cfg.cl_sdr_ch ∣ cfg.buffer_chunk_size)
    (hI : c.in_pool cfg) (n : Nat) :
    (client_loop cfg tid inp n c).in_pool cfg := by
  induction n with
  | zero => exact hI
  | succ n ih =>
    rw [client_loop_succ]
    generalize client_loop cfg tid inp n c = u at ih
    unfold client_step
    split
    · exact ih
    · rename_i hx
      have hs : u.thrown = none := by
        cases hth : u.thrown with
        | none => rfl
        | some e => rw [hth] at hx; simp at hx
      split
      · exact client_iter_in_pool cfg tid (inp u.frame_id) u hC hdiv hs ih
      · exact ih

theorem cursor_after_linear (C n : Nat) (k c : Nat) (h : c + k * n < C) :
    cursor_after C n k c = c + k * n := by
  induction k generalizing c with
  | zero => rw [cursor_after, Nat.zero_mul, Nat.add_zero]
  | succ k ih =>
    have hexp : (k + 1) * n = k * n + n := Nat.succ_mul k n
    have hcn : c + n < C := by omega
    have hadv : capture_advance C n c = c + n := by
      rw [capture_advance_in_pool C n c (by omega) (by omega), Nat.mod_eq_of_lt hcn]
    rw [cursor_after, hadv, ih (c + n) (by omega)]
    omega

theorem pool_overrun (C n : Nat) (hn : 1 ≤ n) (hnd : ¬ n ∣ C) :
    cursor_after C n (C / n) 0 = (C / n) * n
    ∧ cursor_after C n (C / n) 0 < C
    ∧ C ∈ capture_claims (cursor_after C n (C / n) 0) n
    ∧ (∀ k, k < C / n → ∀ i ∈ capture_claims (cursor_after C n k 0) n, i < C) := by
  have hq : (C / n) * n ≤ C := Nat.div_mul_le_self C n
  have hne : (C / n) * n ≠ C := fun h => hnd ⟨C / n, by rw [Nat.mul_comm]; exact h.symm⟩
  have hlt : (C / n) * n < C := lt_of_le_of_ne hq hne
  have hcur : cursor_after C n (C / n) 0 = (C / n) * n := by
    rw [cursor_after_linear C n (C / n) 0 (by omega), Nat.zero_add]
  have hmod : C % n < n := Nat.mod_lt _ (by omega)
  have hdm : (C / n) * n + C % n = C := by
    rw [Nat.mul_comm]; exact Nat.div_add_mod C n
  refine ⟨hcur, by rw [hcur]; exact hlt, ?_, ?_⟩
  · rw [hcur]
    unfold capture_claims
    rw [List.mem_map]
    exact ⟨C % n, List.mem_range.mpr hmod, hdm⟩
  · intro k hk i hi
    have hk1 : (k + 1) * n ≤ (C / n) * n := Nat.mul_le_mul_right n hk
    have hexp : (k + 1) * n = k * n + n := Nat.succ_mul k n
    rw [cursor_after_linear C n k 0 (by omega), Nat.zero_add] at hi
    unfold capture_claims at hi
    rw [List.mem_map] at hi
    obtain ⟨ch, hch, rfl⟩ := hi
    have := List.mem_range.mp hch
    omega

theorem bs_capture_claimed (cfg : BsConfig) (tid : Nat) (inp : BsInput) (it : Nat)
    (s : BsState) (hs : s.thrown = none)
    (hthr : (bs_capture cfg tid inp it s).1.thrown ≠ some BUFFER_FULL) :
    bs_claimed_slots (bs_capture cfg tid inp it s).1.trace
      = bs_claimed_slots s.trace
        ++ capture_claims s.cursor (capture_num_packets cfg (bs_capture_radio cfg it s)) := by
  have hcc : (bs_capture_chs cfg it s).map (fun ch => s.cursor + ch)
      = capture_claims s.cursor (capture_num_packets cfg (bs_capture_radio cfg it s)) := rfl
  rcases bs_capture_spec cfg tid inp it s hs with
    ⟨_, ht, _⟩ | ⟨_, _, _, _, htr⟩ | ⟨_, _, _, _, _, m, hm, htr, _⟩
  · exact absurd ht hthr
  · rw [htr, bs_claimed_slots_append, bs_claimed_slots_append,
      (bs_slots_claim_events _ _).1, (bs_slots_rx _ _).1, List.append_nil, hcc]
  · rw [htr]
    simp only [bs_claimed_slots_append, (bs_slots_claim_events _ _).1,
      (bs_slots_rx _ _).1, (bs_slots_capture_tx _ _ _ _ _ _).1,
      (bs_slots_stamp_events _ _ _ _ _ _ _ _ _).1, List.append_nil, hcc]

theorem client_slot_claimed (cfg : Config) (tid : Nat) (inp : FrameInput) (s : ClientState)
    (hs : s.thrown = none) (hdl : cfg.isDlData s.frame_id s.slot_id = true)
    (hthr : (client_slot cfg tid inp s).1.thrown ≠ some BUFFER_FULL) :
    client_claimed_slots (client_slot cfg tid inp s).1.trace
      = client_claimed_slots s.trace ++ capture_claims s.buffer_offset cfg.cl_sdr_ch := by
  have hcc : (List.range cfg.cl_sdr_ch).map (fun ch => s.buffer_offset + ch)
      = capture_claims s.buffer_offset cfg.cl_sdr_ch := rfl
  rcases client_slot_dl_spec cfg tid inp s hdl hs with
    ⟨_, ht, _⟩ | ⟨_, _, _, _, htr⟩ | ⟨_, _, m, hm, htr, _⟩
  · exact absurd ht hthr
  · rw [htr, client_claimed_slots_append, client_claimed_slots_append,
      (client_slots_claim_events _ _).1, (client_slots_rx _).1, List.append_nil, hcc]
  · rw [htr]
    simp only [client_claimed_slots_append, (client_slots_claim_events _ _).1,
      (client_slots_rx _).1, (client_slots_stamp_events _ _ _ _ _ _ _).1,
      List.append_nil, hcc]

theorem bs_capture_cursor_done (cfg : BsConfig) (tid : Nat) (inp : BsInput) (it : Nat)
    (s : BsState) (hrx : 0 ≤ inp.rx_ret it)
    (ht : (bs_capture cfg tid inp it s).1.thrown = none) :
    (bs_capture cfg tid inp it s).1.cursor
      = capture_advance cfg.buffer_chunk_size
          (capture_num_packets cfg (bs_capture_radio cfg it s)) s.cursor := by
  have hnn : ¬ inp.rx_ret it < 0 := not_lt.mpr hrx
  have hspec := bs_claims_spec s.cursor (bs_capture_chs cfg it s)
    { s with cell := bs_capture_cell cfg it s,
             inuse := (inp.released it).foldl release s.inuse }
  unfold bs_capture at ht ⊢
  simp only [bs_capture_chs, bs_capture_radio, bs_capture_cell, capture_advance]
    at hspec ht ⊢
  generalize lookup_cell cfg.n_bs_sdrs_agg cfg.num_cells it s.cell = cell at hspec ht ⊢
  generalize local_radio_id cfg.n_bs_sdrs_agg it cell = rid at hspec ht ⊢
  generalize capture_num_packets cfg rid = n at hspec ht ⊢
  generalize bs_claims s.cursor (List.range n)
    { s with cell := cell, inuse := (inp.released it).foldl release s.inuse } = s1
    at hspec ht ⊢
  obtain ⟨_, _, _, _, hccur, _⟩ := hspec
  have hcur : s1.cursor = s.cursor := hccur
  have key : ∀ (x : BsState), x.cursor = s1.cursor →
      (bs_stamps cfg tid inp it s.cursor (List.range n) x).thrown = none →
      (bs_stamps cfg tid inp it s.cursor (List.range n) x).cursor
        = List.foldl (fun c _ => advance_cursor cfg.buffer_chunk_size c) s.cursor
            (List.range n) := by
    intro x hx hxt
    rw [(bs_stamps_cursor cfg tid inp it s.cursor (List.range n) x).2 hxt, hx, hcur]
  by_cases h1 : s1.thrown.isSome = true
  · rw [if_pos h1] at ht
    rw [ht] at h1
    cases h1
  · rw [if_neg h1] at ht ⊢
    by_cases hm : (!cfg.kUseUHD && cfg.bs_hw_framer) = true
    · rw [if_pos hm, if_neg hnn] at ht ⊢
      exact key _ rfl ht
    · rw [if_neg hm, if_neg hnn] at ht ⊢
      by_cases hz : s1.slot_id = 0
      · rw [if_pos hz] at ht ⊢
        exact key _ rfl ht
      · rw [if_neg hz] at ht ⊢
        exact key _ rfl ht

theorem client_slot_cursor_done (cfg : Config) (tid : Nat) (inp : FrameInput)
    (s : ClientState) (hdl : cfg.isDlData s.frame_id s.slot_id = true)
    (hrx : 0 ≤ inp.slot_rx_ret s.slot_id)
    (ht : (client_slot cfg tid inp s).1.thrown = none) :
    (client_slot cfg tid inp s).1.buffer_offset
      = capture_advance cfg.buffer_chunk_size cfg.cl_sdr_ch s.buffer_offset := by
  have hnn : ¬ inp.slot_rx_ret s.slot_id < 0 := not_lt.mpr hrx
  have hspec := client_claims_spec s.buffer_offset (List.range cfg.cl_sdr_ch)
    { s with inuse := (inp.released s.slot_id).foldl release s.inuse }
  unfold client_slot at ht ⊢
  simp only [capture_advance, hdl, if_true] at ht ⊢
  generalize client_claims s.buffer_offset (List.range cfg.cl_sdr_ch)
    { s with inuse := (inp.released s.slot_id).foldl release s.inuse } = s1 at hspec ht ⊢
  obtain ⟨_, _, _, _, hccur, _⟩ := hspec
  have hcur : s1.buffer_offset = s.buffer_offset := hccur
  by_cases h1 : s1.thrown.isSome = true
  · rw [if_pos h1] at ht
    rw [ht] at h1
    cases h1
  · rw [if_neg h1, if_neg hnn] at ht ⊢
    rw [(client_stamps_cursor cfg tid inp s.buffer_offset (List.range cfg.cl_sdr_ch) _).2 ht]
    show List.foldl _ s1.buffer_offset _ = _
    rw [hcur]

theorem client_frame_head_in_pool (cfg : Config) (inp : FrameInput) (s : ClientState)
    (hI : s.in_pool cfg) : (client_frame_head cfg inp s).in_pool cfg := by
  obtain ⟨h1, h2, h3, h4⟩ := hI
  have hrx : ({ s with trace := s.trace ++ [Event.rx (cfg.samps_per_slot + s.rx_offset)],
                       rxTime := inp.rx_time } : ClientState).in_pool cfg := by
    unfold ClientState.in_pool
    dsimp only
    rw [client_claimed_slots_append, client_stamped_slots_append,
      (client_slots_rx _).1, (client_slots_rx _).2.1, List.append_nil, List.append_nil]
    exact ⟨h1, h2, h3, h4⟩
  have hb := resync_block_in_pool cfg inp.beacon _ hrx
  unfold client_frame_head
  dsimp only
  generalize resync_block cfg inp.beacon
    { s with trace := s.trace ++ [Event.rx (cfg.samps_per_slot + s.rx_offset)],
             rxTime := inp.rx_time } = b at hb ⊢
  obtain ⟨b1, b2, b3, b4⟩ := hb
  unfold ClientState.in_pool
  dsimp only
  rw [client_claimed_slots_append, client_stamped_slots_append,
    (client_slots_tx_events _ _).1, (client_slots_tx_events _ _).2.1, List.append_nil,
    List.append_nil]
  exact ⟨b1, b2, b3, b4⟩

/-- C23. Base-station thread whose captures all take `num_channels` packets, and client
thread with `cl_sdr_ch` channels: if the pool capacity `C = buffer_chunk_size` is positive
and a multiple of the channel count `n`, then from a state within the pool bounds (the
initial one: cursor 0, nothing claimed) every state of the main loop, and every state in
which a capture of a pass is entered, is within the pool bounds: the cursor is `< C` and,
nothing being thrown, a multiple of `n`, and every slot index claimed or stamped so far is
`< C`. The claims of a capture that is not ended by an overrun are the indices
`cursor + ch`, `ch < n` (`capture_claims`), and a capture that completes leaves the cursor
advanced once per packet (`capture_advance`); so the cursor at the start of the captures
of a thread that completes them is `cursor_after`. When `C` is not a multiple of `n >= 1`,
the captures `0 .. C / n - 1` claim indices `< C` only, capture `C / n` starts at cursor
`(C / n) * n < C` and claims index `C`, which is outside the pool. -/
theorem claims_in_pool (cfg : BsConfig) (tid : Nat) (radios : List Nat)
    (inp : Nat → BsInput) (s : BsState)
    (ccfg : Config) (ctid : Nat) (cinp : Nat → FrameInput) (c : ClientState) :
    ((∀ r, capture_num_packets cfg r = cfg.num_channels) → 0 < cfg.buffer_chunk_size →
      cfg.num_channels ∣ cfg.buffer_chunk_size → s.in_pool cfg →
      ∀ k : Nat,
        (bs_loop cfg tid radios inp k s).in_pool cfg
        ∧ ((bs_loop cfg tid radios inp k s).thrown = none → ∀ pre : List Nat,
            (bs_radios cfg tid (inp k) pre
              (bs_roll cfg (bs_loop cfg tid radios inp k s))).in_pool cfg))
    ∧ (0 < ccfg.buffer_chunk_size → ccfg.cl_sdr_ch ∣ ccfg.buffer_chunk_size →
      c.in_pool ccfg →
      ∀ k : Nat,
        (client_loop ccfg ctid cinp k c).in_pool ccfg
        ∧ ((client_loop ccfg ctid cinp k c).thrown = none → ∀ j : Nat,
            (client_slots ccfg ctid (cinp (client_loop ccfg ctid cinp k c).frame_id) j
              (client_frame_head ccfg (cinp (client_loop ccfg ctid cinp k c).frame_id)
                (client_loop ccfg ctid cinp k c))).in_pool ccfg))
    ∧ (∀ (binp : BsInput) (it : Nat) (t : BsState), t.thrown = none →
        ((bs_capture cfg tid binp it t).1.thrown ≠ some BUFFER_FULL →
          bs_claimed_slots (bs_capture cfg tid binp it t).1.trace
            = bs_claimed_slots t.trace
              ++ capture_claims t.cursor
                  (capture_num_packets cfg (bs_capture_radio cfg it t)))
        ∧ (0 ≤ binp.rx_ret it → (bs_capture cfg tid binp it t).1.thrown = none →
          (bs_capture cfg tid binp it t).1.cursor
            = capture_advance cfg.buffer_chunk_size
                (capture_num_packets cfg (bs_capture_radio cfg it t)) t.cursor))
    ∧ (∀ (finp : FrameInput) (t : ClientState), t.thrown = none →
        ccfg.isDlData t.frame_id t.slot_id = true →
        ((client_slot ccfg ctid finp t).1.thrown ≠ some BUFFER_FULL →
          client_claimed_slots (client_slot ccfg ctid finp t).1.trace
            = client_claimed_slots t.trace
              ++ capture_claims t.buffer_offset ccfg.cl_sdr_ch)
        ∧ (0 ≤ finp.slot_rx_ret t.slot_id → (client_slot ccfg ctid finp t).1.thrown = none →
          (client_slot ccfg ctid finp t).1.buffer_offset
            = capture_advance ccfg.buffer_chunk_size ccfg.cl_sdr_ch t.buffer_offset))
    ∧ (∀ C n : Nat, 1 ≤ n → ¬ n ∣ C →
        cursor_after C n (C / n) 0 = (C / n) * n
        ∧ cursor_after C n (C / n) 0 < C
        ∧ C ∈ capture_claims (cursor_after C n (C / n) 0) n
        ∧ (∀ k, k < C / n → ∀ i ∈ capture_claims (cursor_after C n k 0) n, i < C)) := by
  refine ⟨?_, ?_, ?_, ?_, fun C n hn hnd => pool_overrun C n hn hnd⟩
  · intro hnp hC hdiv hI k
    have hk := bs_loop_in_pool cfg tid radios inp s hnp hC hdiv hI k
    refine ⟨hk, fun ht pre => ?_⟩
    exact bs_radios_in_pool cfg tid (inp k) pre _ hnp hC hdiv
      ((bs_roll_thrown cfg _).1.trans ht) (bs_roll_in_pool cfg _ hk)
  · intro hC hdiv hI k
    have hk := client_loop_in_pool ccfg ctid cinp c hC hdiv hI k
    refine ⟨hk, fun ht j => ?_⟩
    exact client_slots_in_pool ccfg ctid _ j _ hC hdiv
      ((client_frame_head_thrown ccfg _ _).trans ht) (client_frame_head_in_pool ccfg _ _ hk)
  · intro binp it t ht
    exact ⟨bs_capture_claimed cfg tid binp it t ht,
      fun hrx hthr => bs_capture_cursor_done cfg tid binp it t hrx hthr⟩
  · intro finp t ht hdl
    exact ⟨client_slot_claimed ccfg ctid finp t ht hdl,
      fun hrx hthr => client_slot_cursor_done ccfg ctid finp t hdl hrx hthr⟩

/-- C23 on the two-channel base station `uhdConfig` and the two-channel client
`downlinkConfig`, both with a pool of 8 packets: after three passes every claimed and
stamped index is below 8 and the cursor is a multiple of 2 below 8. With a pool of 3
packets (`oddPoolConfig`) capture 1 starts at cursor 2 and claims index 3. -/
theorem claims_in_pool_witness :
    (bs_loop uhdConfig 0 [0, 1] (fun _ => fullSlotInput) 3 (bsInit 0 (fun _ => 0))).in_pool
        uhdConfig
    ∧ bs_claimed_slots
        (bs_loop uhdConfig 0 [0, 1] (fun _ => fullSlotInput) 3 (bsInit 0 (fun _ => 0))).trace
        = [0, 1, 2, 3, 4, 5, 6, 7, 0, 1, 2, 3]
    ∧ (bs_loop uhdConfig 0 [0, 1] (fun _ => fullSlotInput) 3 (bsInit 0 (fun _ => 0))).cursor
        = 4
    ∧ (client_loop downlinkConfig 0 (fun _ => noBeaconInput) 1
        (clientInit 0 0 (fun _ => 0))).in_pool downlinkConfig
    ∧ client_claimed_slots
        (client_loop downlinkConfig 0 (fun _ => noBeaconInput) 1
          (clientInit 0 0 (fun _ => 0))).trace = [0, 1, 2, 3]
    ∧ 3 ∈ capture_claims (cursor_after 3 2 (3 / 2) 0) 2
    ∧ bs_claimed_slots
        (bs_loop oddPoolConfig 0 [0] (fun _ => fullSlotInput) 2 (bsInit 0 (fun _ => 0))).trace
        = [0, 1, 2, 3] := by
  have h := claims_in_pool uhdConfig 0 [0, 1] (fun _ => fullSlotInput) (bsInit 0 (fun _ => 0))
    downlinkConfig 0 (fun _ => noBeaconInput) (clientInit 0 0 (fun _ => 0))
  have hb : (bsInit 0 (fun _ => 0)).in_pool uhdConfig :=
    ⟨by decide, fun _ => by decide, fun i hi => absurd hi (List.not_mem_nil i),
      fun i hi => absurd hi (List.not_mem_nil i)⟩
  have hc : (clientInit 0 0 (fun _ => 0)).in_pool downlinkConfig :=
    ⟨by decide, fun _ => by decide, fun i hi => absurd hi (List.not_mem_nil i),
      fun i hi => absurd hi (List.not_mem_nil i)⟩
  exact ⟨(h.1 (fun _ => rfl) (by decide) (by decide) hb 3).1, by decide, by decide,
    (h.2.1 (by decide) (by decide) hc 1).1, by decide,
    (h.2.2.2.2 3 2 (by decide) (by decide)).2.2.1, by decide⟩

/-! ### Alignment assertion -/

theorem beacon_search_step_inv (cfg : Config) (inp : SearchInput) (s : ClientState)
    (hI : (s.sync_index < 0 ∧ s.rx_offset = 0)
      ∨ (0 ≤ s.sync_index ∧ s.rx_offset = s.sync_index - cfg.beacon_size - cfg.prefix_len)) :
    (((beacon_search_step cfg inp s).1.sync_index < 0
        ∧ (beacon_search_step cfg inp s).1.rx_offset = 0)
      ∨ (0 ≤ (beacon_search_step cfg inp s).1.sync_index
        ∧ (beacon_search_step cfg inp s).1.rx_offset
            = (beacon_search_step cfg inp s).1.sync_index - cfg.beacon_size
              - cfg.prefix_len))
    ∧ ((beacon_search_step cfg inp s).2 = true →
        (beacon_search_step cfg inp s).1.sync_index < 0 →
        (beacon_search_step cfg inp s).1.running = false)
    ∧ ((beacon_search_step cfg inp s).2 = false →
        inp.running = true ∧ (beacon_search_step cfg inp s).1.sync_index = inp.found) := by
  unfold beacon_search_step
  by_cases hc : (inp.running && decide (s.sync_index < 0)) = true
  · rw [if_pos hc]
    simp only [Bool.and_eq_true, decide_eq_true_eq] at hc
    obtain ⟨hrun, hneg⟩ := hc
    have h0 : s.rx_offset = 0 := by
      rcases hI with h | h
      · exact h.2
      · exact absurd h.1 (not_le.mpr hneg)
    unfold beacon_search_iter
    dsimp only
    by_cases hf : inp.found ≥ 0
    · rw [if_pos hf]
      exact ⟨Or.inr ⟨hf, rfl⟩, (fun h => by cases h), fun _ => ⟨hrun, rfl⟩⟩
    · rw [if_neg hf]
      exact ⟨Or.inl ⟨not_le.mp hf, h0⟩, (fun h => by cases h), fun _ => ⟨hrun, rfl⟩⟩
  · rw [if_neg hc]
    refine ⟨hI, fun _ hneg => ?_, (fun h => by cases h)⟩
    show inp.running = false
    cases hr : inp.running with
    | false => rfl
    | true =>
      rw [hr] at hc
      have hneg' : s.sync_index < 0 := hneg
      simp [hneg'] at hc

theorem beacon_search_inv (cfg : Config) (inp : Nat → SearchInput) (fuel k : Nat)
    (s r : ClientState)
    (hI : (s.sync_index < 0 ∧ s.rx_offset = 0)
      ∨ (0 ≤ s.sync_index ∧ s.rx_offset = s.sync_index - cfg.beacon_size - cfg.prefix_len))
    (hr : beacon_search cfg inp fuel k s = some r) :
    ((r.sync_index < 0 ∧ r.rx_offset = 0)
      ∨ (0 ≤ r.sync_index ∧ r.rx_offset = r.sync_index - cfg.beacon_size - cfg.prefix_len))
    ∧ (r.sync_index < 0 → r.running = false) := by
  induction fuel generalizing k s with
  | zero => cases hr
  | succ fuel ih =>
    rw [beacon_search] at hr
    obtain ⟨h1, h2, _⟩ := beacon_search_step_inv cfg (inp k) s hI
    by_cases hx : (beacon_search_step cfg (inp k) s).2 = true
    · rw [if_pos hx] at hr
      cases hr
      exact ⟨h1, h2 hx⟩
    · rw [if_neg hx] at hr
      exact ih _ _ h1 hr

theorem beacon_search_total (cfg : Config) (inp : Nat → SearchInput) (k : Nat)
    (hk : (inp k).running = false ∨ 0 ≤ (inp k).found) (d j : Nat) (hj : j + d = k)
    (s : ClientState) :
    ∃ r, beacon_search cfg inp (d + 2) j s = some r := by
  induction d generalizing j s with
  | zero =>
    have hjk : j = k := by omega
    subst hjk
    rw [beacon_search]
    by_cases hx : (beacon_search_step cfg (inp j) s).2 = true
    · rw [if_pos hx]
      exact ⟨_, rfl⟩
    · rw [if_neg hx, beacon_search]
      have hx' : (beacon_search_step cfg (inp j) s).2 = false := by simpa using hx
      have hran : (inp j).running = true
          ∧ (beacon_search_step cfg (inp j) s).1.sync_index = (inp j).found := by
        unfold beacon_search_step at hx' ⊢
        by_cases hc : ((inp j).running && decide (s.sync_index < 0)) = true
        · rw [if_pos hc]
          simp only [Bool.and_eq_true, decide_eq_true_eq] at hc
          unfold beacon_search_iter
          dsimp only
          split <;> exact ⟨hc.1, rfl⟩
        · rw [if_neg hc] at hx'
          cases hx'
      have hfound : 0 ≤ (inp j).found := by
        rcases hk with h | h
        · rw [hran.1] at h; cases h
        · exact h
      have hexit : (beacon_search_step cfg (inp (j + 1))
          (beacon_search_step cfg (inp j) s).1).2 = true := by
        have hnn : ¬ (beacon_search_step cfg (inp j) s).1.sync_index < 0 := by
          rw [hran.2]; exact not_lt.mpr hfound
        generalize (beacon_search_step cfg (inp j) s).1 = t at hnn
        unfold beacon_search_step
        have hc : ((inp (j + 1)).running && decide (t.sync_index < 0)) = false := by
          simp [hnn]
        rw [hc]
        rfl
      rw [if_pos hexit]
      exact ⟨_, rfl⟩
  | succ d ih =>
    rw [beacon_search]
    by_cases hx : (beacon_search_step cfg (inp j) s).2 = true
    · rw [if_pos hx]
      exact ⟨_, rfl⟩
    · rw [if_neg hx]
      exact ih (j + 1) (by omega) _

/-- C24. Let the initial beacon search of `clientSyncTxRx`, entered with `sync_index < 0`
and `rx_offset = 0` (lines 724-725), be left in state `r`. Then either no beacon was
detected (`sync_index < 0`), the liveness flag was found cleared and `rx_offset` is still
0, or a beacon was detected and `rx_offset = sync_index - beacon_size - prefix`; the
assertion `(rx_offset >= 0) && (rx_offset <= SYNC_NUM_SAMPS)` holds if and only if the
search ended without a detection or
`beacon_size + prefix <= sync_index <= beacon_size + prefix + SYNC_NUM_SAMPS`. When it
holds and the flag read at line 772 is set, the thread issues one `radioRx` of exactly
`rx_offset` samples if `rx_offset > 0` and none if `rx_offset = 0`; with the flag cleared
it issues none. The search is left within `k + 2` tests of its condition whenever the flag
is found cleared at test `k` or the correlation of pass `k` detects the beacon. -/
theorem alignment_assertion (cfg : Config) (inp : Nat → SearchInput) (fuel : Nat)
    (s₀ r : ClientState) (hs : s₀.sync_index < 0 ∧ s₀.rx_offset = 0)
    (hr : beacon_search cfg inp fuel 0 s₀ = some r) :
    (align_assert cfg r = true ↔
        (r.sync_index < 0 ∧ r.running = false ∧ r.rx_offset = 0)
        ∨ ((cfg.beacon_size : Int) + cfg.prefix_len ≤ r.sync_index
            ∧ r.sync_index ≤ (cfg.beacon_size : Int) + cfg.prefix_len + SYNC_NUM_SAMPS cfg))
    ∧ (r.sync_index < 0 → r.running = false ∧ r.rx_offset = 0)
    ∧ (0 ≤ r.sync_index → r.rx_offset = r.sync_index - cfg.beacon_size - cfg.prefix_len)
    ∧ (align_assert cfg r = true → ∀ rx_time : Int,
        (align_read true rx_time r).trace
            = r.trace ++ (if r.rx_offset > 0 then [Event.rx r.rx_offset] else [])
        ∧ (r.rx_offset = 0 → (align_read true rx_time r).trace = r.trace)
        ∧ align_read false rx_time r = r)
    ∧ (∀ k, ((inp k).running = false ∨ 0 ≤ (inp k).found) →
        ∃ r', beacon_search cfg inp (k + 2) 0 s₀ = some r') := by
  obtain ⟨hI, hrun⟩ := beacon_search_inv cfg inp fuel 0 s₀ r (Or.inl hs) hr
  have hnd : r.sync_index < 0 → r.running = false ∧ r.rx_offset = 0 := by
    intro hneg
    rcases hI with h | h
    · exact ⟨hrun hneg, h.2⟩
    · exact absurd h.1 (not_le.mpr hneg)
  have hdet : 0 ≤ r.sync_index →
      r.rx_offset = r.sync_index - cfg.beacon_size - cfg.prefix_len := by
    intro hge
    rcases hI with h | h
    · exact absurd hge (not_le.mpr h.1)
    · exact h.2
  refine ⟨?_, hnd, hdet, ?_, ?_⟩
  · unfold align_assert
    simp only [Bool.and_eq_true, decide_eq_true_eq, ge_iff_le]
    constructor
    · intro ⟨h1, h2⟩
      by_cases hneg : r.sync_index < 0
      · exact Or.inl ⟨hneg, hnd hneg⟩
      · have hoff := hdet (not_lt.mp hneg)
        right
        rw [hoff] at h1 h2
        constructor <;> omega
    · rintro (⟨hneg, _, h0⟩ | ⟨h1, h2⟩)
      · rw [h0]
        exact ⟨le_refl _, Int.natCast_nonneg _⟩
      · have hge : 0 ≤ r.sync_index := by
          have : (0 : Int) ≤ (cfg.beacon_size : Int) + cfg.prefix_len := by positivity
          omega
        rw [hdet hge]
        constructor <;> omega
  · intro _ rx_time
    unfold align_read
    refine ⟨?_, ?_, rfl⟩
    · simp only [if_true]
      split
      · rfl
      · exact (List.append_nil _).symm
    · intro h0
      have hn : ¬ r.rx_offset > 0 := by rw [h0]; decide
      simp only [if_true, if_neg hn]
  · intro k hk
    exact beacon_search_total cfg inp k hk k 0 (Nat.zero_add k) s₀

/-- C24 on frames of 1000 samples with beacon length 60 and prefix length 20: a detection
at index 200 in the second pass ends the search at the third test with offset 120, the
assertion holds and one receive of 120 samples is issued; a detection at index 50 (offset
-30) or at index 1081 (offset 1001) fails the assertion; a search stopped by the flag
leaves offset 0 and the assertion holds. -/
theorem alignment_assertion_witness :
    beacon_search advancedConfig (searchFound 200) 3 0 (clientInit 0 (-1) (fun _ => 0))
        = some (beacon_search_end advancedConfig (searchFound 200) 3
            (clientInit 0 (-1) (fun _ => 0)))
    ∧ (beacon_search_end advancedConfig (searchFound 200) 3
        (clientInit 0 (-1) (fun _ => 0))).rx_offset = 120
    ∧ align_assert advancedConfig (beacon_search_end advancedConfig (searchFound 200) 3
        (clientInit 0 (-1) (fun _ => 0))) = true
    ∧ (align_read true 7 (beacon_search_end advancedConfig (searchFound 200) 3
        (clientInit 0 (-1) (fun _ => 0)))).trace
        = (beacon_search_end advancedConfig (searchFound 200) 3
            (clientInit 0 (-1) (fun _ => 0))).trace ++ [Event.rx 120]
    ∧ (beacon_search_end advancedConfig (searchFound 50) 3
        (clientInit 0 (-1) (fun _ => 0))).rx_offset = -30
    ∧ align_assert advancedConfig (beacon_search_end advancedConfig (searchFound 50) 3
        (clientInit 0 (-1) (fun _ => 0))) = false
    ∧ (beacon_search_end advancedConfig (searchFound 1081) 3
        (clientInit 0 (-1) (fun _ => 0))).rx_offset = 1001
    ∧ align_assert advancedConfig (beacon_search_end advancedConfig (searchFound 1081) 3
        (clientInit 0 (-1) (fun _ => 0))) = false
    ∧ (beacon_search_end advancedConfig searchStopped 3
        (clientInit 0 (-1) (fun _ => 0))).running = false
    ∧ (beacon_search_end advancedConfig searchStopped 3
        (clientInit 0 (-1) (fun _ => 0))).rx_offset = 0
    ∧ align_assert advancedConfig (beacon_search_end advancedConfig searchStopped 3
        (clientInit 0 (-1) (fun _ => 0))) = true := by
  have h := alignment_assertion advancedConfig (searchFound 200) 3
    (clientInit 0 (-1) (fun _ => 0))
    (beacon_search_end advancedConfig (searchFound 200) 3 (clientInit 0 (-1) (fun _ => 0)))
    ⟨by decide, rfl⟩ (by rfl)
  have hs := alignment_assertion advancedConfig searchStopped 3
    (clientInit 0 (-1) (fun _ => 0))
    (beacon_search_end advancedConfig searchStopped 3 (clientInit 0 (-1) (fun _ => 0)))
    ⟨by decide, rfl⟩ (by rfl)
  have ha : align_assert advancedConfig (beacon_search_end advancedConfig (searchFound 200) 3
      (clientInit 0 (-1) (fun _ => 0))) = true := h.1.mpr (Or.inr ⟨by decide, by decide⟩)
  have hn := hs.2.1 (by decide)
  exact ⟨by rfl, (h.2.2.1 (by decide)).trans (by decide), ha,
    ((h.2.2.2.1 ha 7).1).trans (by decide), by decide, by decide, by decide, by decide,
    hn.1, hn.2, hs.1.mpr (Or.inl ⟨by decide, hn.1, hn.2⟩)⟩

/-! ### Hardware-framer client transmit timestamps -/

theorem and_high_mask (x : Nat) (hx : x < 2 ^ 64) :
    x &&& 0xFFFFFFFF00000000 = (x / 2 ^ 32) * 2 ^ 32 := by
  have hm : (0xFFFFFFFF00000000 : Nat) = (2 ^ 32 - 1) <<< 32 := by decide
  rw [hm, ← Nat.shiftRight_eq_div_pow, ← Nat.shiftLeft_eq]
  apply Nat.eq_of_testBit_eq
  intro i
  rw [Nat.testBit_and, Nat.testBit_shiftLeft, Nat.testBit_shiftLeft,
    Nat.testBit_two_pow_sub_one, Nat.testBit_shiftRight]
  by_cases h32 : i ≥ 32
  · have e : 32 + (i - 32) = i := by omega
    rw [e]
    by_cases h64 : i - 32 < 32
    · simp [h32, h64]
    · have hi : 64 ≤ i := by omega
      have hlt : x < 2 ^ i := lt_of_lt_of_le hx (Nat.pow_le_pow_right (by norm_num) hi)
      rw [Nat.testBit_lt_two_pow hlt]
      simp
  · simp [h32]

theorem decode_packed (F S : Nat) (hF : F < 2 ^ 31) (hS : S < 2 ^ 16) :
    decode_frame_id ((F * 2 ^ 32 + S * 2 ^ 16 : Nat) : Int) = F
    ∧ decode_slot_id ((F * 2 ^ 32 + S * 2 ^ 16 : Nat) : Int) = S
    ∧ land64 ((F * 2 ^ 32 + S * 2 ^ 16 : Nat) : Int) 0xFFFF = 0 := by
  have hm : toSizeT 0xFFFF = 2 ^ 16 - 1 := by decide
  refine ⟨?_, ?_, ?_⟩
  · simp only [decode_frame_id, toSizeT, Int.shiftRight_eq_div_pow]
    push_cast
    omega
  · simp only [decode_slot_id, toSizeT_and_mask]
    simp only [toSizeT, Int.shiftRight_eq_div_pow]
    push_cast
    omega
  · have hz : toSizeT ((F * 2 ^ 32 + S * 2 ^ 16 : Nat) : Int) % 2 ^ 16 = 0 := by
      simp only [toSizeT]
      push_cast
      omega
    rw [land64, hm, Nat.and_pow_two_sub_one_eq_mod, hz]
    rfl

theorem decode_frame_nonneg (t : Int) (h1 : -2 ^ 63 ≤ t) (h2 : t < 2 ^ 63)
    (hF : decode_frame_id t < 2 ^ 31) :
    0 ≤ t ∧ decode_frame_id t = t.toNat / 2 ^ 32 := by
  simp only [decode_frame_id, toSizeT, Int.shiftRight_eq_div_pow] at hF ⊢
  constructor <;> omega

theorem txrx_start_time_eq (cfg : Config) (t : Int) (h1 : -2 ^ 63 ≤ t) (h2 : t < 2 ^ 63)
    (hS : txStartSym cfg < 2 ^ 16)
    (hF : decode_frame_id t + txFrameDelta cfg < 2 ^ 31) :
    txFrameDelta32 cfg = txFrameDelta cfg
    ∧ txrx_start_time cfg t
      = (((decode_frame_id t + txFrameDelta cfg) * 2 ^ 32 + txStartSym cfg * 2 ^ 16 : Nat)
          : Int) := by
  obtain ⟨h0, hd⟩ := decode_frame_nonneg t h1 h2 (by omega)
  obtain ⟨x, rfl⟩ := Int.eq_ofNat_of_zero_le h0
  have hx : x < 2 ^ 63 := by exact_mod_cast h2
  have hsz : toSizeT (x : Int) = x := by
    simp only [toSizeT]
    omega
  have hd' : decode_frame_id (x : Int) = x / 2 ^ 32 := by
    rw [hd]; rfl
  have hdelta : txFrameDelta32 cfg = txFrameDelta cfg := by
    unfold txFrameDelta32
    exact Nat.mod_eq_of_lt (by omega)
  refine ⟨hdelta, ?_⟩
  unfold txrx_start_time
  rw [hsz, and_high_mask x (by omega), hdelta, ← hd']
  generalize decode_frame_id (x : Int) = F at hF ⊢
  generalize txFrameDelta cfg = D at hF ⊢
  generalize txStartSym cfg = S at hS ⊢
  have hFl : F * 2 ^ 32 < 2 ^ 63 := by omega
  rw [toS64_of_lt hFl]
  rw [wrapS64_of_range ((D : Int) * 2 ^ 32) (by omega) (by omega)]
  rw [wrapS64_of_range ((S : Int) * 2 ^ 16) (by omega) (by omega)]
  have e1 : wrapS64 (((F * 2 ^ 32 : Nat) : Int) + (D : Int) * 2 ^ 32)
      = ((F * 2 ^ 32 : Nat) : Int) + (D : Int) * 2 ^ 32 :=
    wrapS64_of_range _ (by push_cast; omega) (by push_cast; omega)
  rw [e1]
  rw [wrapS64_of_range _ (by push_cast; omega) (by push_cast; omega)]
  push_cast
  ring

theorem txrx_receive_tail (cfg : Config) (inp : TxRxInput) (n j : Nat) (first : Int)
    (hj : 0 < j) (hrx : ∀ k, j ≤ k → k < j + n → inp.rx_ret k = cfg.samps_per_slot) :
    txrx_receive cfg inp (List.range' j n) first = (first, false) := by
  induction n generalizing j with
  | zero => rfl
  | succ n ih =>
    rw [List.range'_succ, txrx_receive, if_pos (hrx j (le_refl _) (by omega)),
      if_neg (by omega)]
    exact ih (j + 1) (by omega) (fun k h1 h2 => hrx k (by omega) (by omega))

theorem txrx_receive_ok (cfg : Config) (inp : TxRxInput) (rxSyms : Nat)
    (hrx : ∀ k, k < rxSyms → inp.rx_ret k = cfg.samps_per_slot) :
    txrx_receive cfg inp (List.range rxSyms) 0 = (first_rx_time rxSyms inp, false) := by
  unfold first_rx_time
  rcases Nat.eq_zero_or_pos rxSyms with h0 | hpos
  · subst h0
    rfl
  · obtain ⟨n, rfl⟩ : ∃ n, rxSyms = n + 1 := ⟨rxSyms - 1, by omega⟩
    rw [if_neg (by omega), List.range_eq_range', List.range'_succ, txrx_receive,
      if_pos (hrx 0 (by omega)), if_pos rfl]
    exact txrx_receive_tail cfg inp n 1 _ (by omega)
      (fun k _ h2 => hrx k (by omega))

theorem txrx_transmit_get (cfg : Config) (inp : TxRxInput) (i n j : Nat) (t : Int)
    (hi : i < n) (htx : ∀ k, k < i → inp.tx_ret (j + k) = cfg.samps_per_slot)
    (hr : ∀ k, k ≤ i → -2 ^ 63 ≤ t + (k : Int) * 2 ^ 16 ∧ t + (k : Int) * 2 ^ 16 < 2 ^ 63) :
    (txrx_transmit cfg inp (List.range' j n) t)[i]? = some (t + (i : Int) * 2 ^ 16) := by
  induction i generalizing n j t with
  | zero =>
    obtain ⟨m, rfl⟩ : ∃ m, n = m + 1 := ⟨n - 1, by omega⟩
    rw [List.range'_succ, txrx_transmit]
    simp
  | succ i ih =>
    obtain ⟨m, rfl⟩ : ∃ m, n = m + 1 := ⟨n - 1, by omega⟩
    have h0 := htx 0 (by omega)
    rw [Nat.add_zero] at h0
    have hr1 := hr 1 (by omega)
    have hw : wrapS64 (t + 0x10000) = t + 2 ^ 16 :=
      wrapS64_of_range _ (by have := hr1.1; omega) (by have := hr1.2; omega)
    rw [List.range'_succ, txrx_transmit, if_pos h0, hw, List.getElem?_cons_succ,
      ih m (j + 1) (t + 2 ^ 16) (by omega)
        (fun k hk => by
          have := htx (k + 1) (by omega)
          rw [show j + 1 + k = j + (k + 1) by omega]
          exact this)
        (fun k hk => by
          have := hr (k + 1) (by omega)
          push_cast at this
          constructor <;> omega)]
    congr 1
    push_cast
    ring

theorem txrx_transmit_short (cfg : Config) (inp : TxRxInput) (i n j : Nat) (t : Int)
    (hi : i + 1 < n) (htx : inp.tx_ret (j + i) ≠ cfg.samps_per_slot) :
    ∃ x, (txrx_transmit cfg inp (List.range' j n) t)[i]? = some x
      ∧ (txrx_transmit cfg inp (List.range' j n) t)[i + 1]? = some x := by
  induction i generalizing n j t with
  | zero =>
    obtain ⟨m, rfl⟩ : ∃ m, n = m + 2 := ⟨n - 2, by omega⟩
    rw [Nat.add_zero] at htx
    refine ⟨t, ?_, ?_⟩
    · rw [List.range'_succ, txrx_transmit]
      simp
    · rw [List.range'_succ, txrx_transmit, if_neg htx, List.range'_succ, txrx_transmit]
      simp
  | succ i ih =>
    obtain ⟨m, rfl⟩ : ∃ m, n = m + 1 := ⟨n - 1, by omega⟩
    rw [List.range'_succ, txrx_transmit]
    obtain ⟨x, h1, h2⟩ := ih m (j + 1)
      (if inp.tx_ret j = cfg.samps_per_slot then wrapS64 (t + 0x10000) else t) (by omega)
      (by rw [show j + 1 + i = j + (i + 1) by omega]; exact htx)
    exact ⟨x, by rw [List.getElem?_cons_succ]; exact h1,
      by rw [List.getElem?_cons_succ]; exact h2⟩

/-- C25. In a pass of the main loop of `clientTxRx` in which all `rxSyms` receives return
`NUM_SAMPS` (the receive timestamps being `long long` values), the `i`-th uplink transmit
(`i < tx_slots`), all earlier transmits of the pass having returned `NUM_SAMPS`, carries a
timestamp whose low 16 bits are 0 and which decodes to
`frame = frame(firstRxTime) + txFrameDelta` and `slot = txStartSym + i`, provided
`txStartSym + i < 2^16` and the frame sum is `< 2^31`. Whatever the other transmits
return, a transmit `k` that does not return `NUM_SAMPS` is followed by a transmit with the
same timestamp. -/
theorem framer_tx_timestamps (cfg : Config) (rxSyms : Nat) (inp : TxRxInput) (i : Nat)
    (hrx : ∀ k, k < rxSyms → inp.rx_ret k = cfg.samps_per_slot)
    (hll : -2 ^ 63 ≤ first_rx_time rxSyms inp ∧ first_rx_time rxSyms inp < 2 ^ 63)
    (hi : i < cfg.cl_ul_slots.length)
    (htx : ∀ k, k < i → inp.tx_ret k = cfg.samps_per_slot)
    (hslot : txStartSym cfg + i < 2 ^ 16)
    (hframe : decode_frame_id (first_rx_time rxSyms inp) + txFrameDelta cfg < 2 ^ 31) :
    (∃ t, (clientTxRx_iter cfg rxSyms inp)[i]? = some t
      ∧ land64 t 0xFFFF = 0
      ∧ decode_frame_id t = decode_frame_id (first_rx_time rxSyms inp) + txFrameDelta cfg
      ∧ decode_slot_id t = txStartSym cfg + i)
    ∧ txFrameDelta32 cfg = txFrameDelta cfg
    ∧ (∀ k, k + 1 < cfg.cl_ul_slots.length → inp.tx_ret k ≠ cfg.samps_per_slot →
        ∃ x, (clientTxRx_iter cfg rxSyms inp)[k]? = some x
          ∧ (clientTxRx_iter cfg rxSyms inp)[k + 1]? = some x) := by
  have hiter : clientTxRx_iter cfg rxSyms inp
      = txrx_transmit cfg inp (List.range' 0 cfg.cl_ul_slots.length)
          (txrx_start_time cfg (first_rx_time rxSyms inp)) := by
    unfold clientTxRx_iter
    rw [txrx_receive_ok cfg inp rxSyms hrx, List.range_eq_range']
    rfl
  obtain ⟨hd, hstart⟩ := txrx_start_time_eq cfg (first_rx_time rxSyms inp) hll.1 hll.2
    (by omega) hframe
  refine ⟨?_, hd, ?_⟩
  · rw [hiter, hstart]
    generalize decode_frame_id (first_rx_time rxSyms inp) + txFrameDelta cfg = F at hframe ⊢
    generalize txStartSym cfg = S at hslot ⊢
    have hget := txrx_transmit_get cfg inp i cfg.cl_ul_slots.length 0
      (((F * 2 ^ 32 + S * 2 ^ 16 : Nat) : Int)) hi
      (fun k hk => by rw [Nat.zero_add]; exact htx k hk)
      (fun k hk => by push_cast; constructor <;> omega)
    have hval : ((F * 2 ^ 32 + S * 2 ^ 16 : Nat) : Int) + (i : Int) * 2 ^ 16
        = ((F * 2 ^ 32 + (S + i) * 2 ^ 16 : Nat) : Int) := by
      push_cast
      ring
    rw [hval] at hget
    obtain ⟨d1, d2, d3⟩ := decode_packed F (S + i) hframe hslot
    exact ⟨_, hget, d3, d1, d2⟩
  · intro k hk hshort
    rw [hiter]
    exact txrx_transmit_short cfg inp k _ 0 _ hk (by rw [Nat.zero_add]; exact hshort)

theorem framer_txFrameDelta : txFrameDelta framerClientConfig = 4 := by
  unfold txFrameDelta frameTimeLen framerClientConfig advancedConfig
  norm_num

/-- C25 on a client with uplink slots 2, 3, 4 and `txFrameDelta = 4` whose first receive
carries frame 7, slot 1: the third transmit carries frame 11 and slot 4 with the low 16
bits clear; when the second transmit returns fewer samples, the third one carries the
timestamp of the second. -/
theorem framer_tx_timestamps_witness :
    txStartSym framerClientConfig = 2
    ∧ decode_frame_id (first_rx_time 2 txrxInput) = 7
    ∧ (∃ t, (clientTxRx_iter framerClientConfig 2 txrxInput)[2]? = some t
        ∧ land64 t 0xFFFF = 0 ∧ decode_frame_id t = 11 ∧ decode_slot_id t = 4)
    ∧ txrxShortInput.tx_ret 1 ≠ framerClientConfig.samps_per_slot
    ∧ (∃ x, (clientTxRx_iter framerClientConfig 2 txrxShortInput)[1]? = some x
        ∧ (clientTxRx_iter framerClientConfig 2 txrxShortInput)[1 + 1]? = some x) := by
  have hD := framer_txFrameDelta
  obtain ⟨⟨t, h1, h2, h3, h4⟩, _, _⟩ := framer_tx_timestamps framerClientConfig 2 txrxInput 2
    (fun _ _ => rfl) ⟨by decide, by decide⟩ (by decide) (fun _ _ => rfl) (by decide)
    (by rw [hD]; decide)
  have hs := (framer_tx_timestamps framerClientConfig 2 txrxShortInput 0
    (fun _ _ => rfl) ⟨by decide, by decide⟩ (by decide)
    (fun k hk => absurd hk (Nat.not_lt_zero k)) (by decide)
    (by rw [hD]; decide)).2.2 1 (by decide) (by decide)
  exact ⟨by decide, by decide, ⟨t, h1, h2, h3.trans (by rw [hD]; decide), h4⟩,
    by decide, hs⟩

end Sounder
